import Mathlib

/-!
# kdbus message path: a shallow embedding of `message.c`

The definitions below follow `src/message.c` function by function.  Pointers
become values, the connection and the kernel message are passed and returned
explicitly, and everything the kernel or the sender decides (allocation
failures, user-memory faults, the sender's descriptor table) is read from an
environment record of oracles.  The last section of definitions follows
`handle_ep_ioctl_connected` of `src/handle.c`, with the calls it makes as a
list.

Conventions
* `int` results are `Int`: `0` for success, `-E...` for errors.
* `u64` / `size_t` arithmetic that can wrap is reduced with `u64`.
* Offsets inside a message are exact naturals: pointer arithmetic inside one
  buffer is not wrapped.
* A function whose C code need not return (a loop that does not advance or
  does not end, an access through a NULL array) returns an `Option`; `none`
  stands for "no result".
-/

namespace Kdbus

/-! ## errno values (Linux, asm-generic) -/

def ENOENT : Int := 2
def ESRCH : Int := 3
def ENXIO : Int := 6
def E2BIG : Int := 7
def EBADF : Int := 9
def EAGAIN : Int := 11
def ENOMEM : Int := 12
def EFAULT : Int := 14
def EEXIST : Int := 17
def EINVAL : Int := 22
def EMFILE : Int := 24
def EDOM : Int := 33
def ENOSYS : Int := 38
def EXFULL : Int := 54
def ECOMM : Int := 70
def EBADMSG : Int := 74
def ENOTUNIQ : Int := 76
def EDESTADDRREQ : Int := 89
def EMSGSIZE : Int := 90
def ENOBUFS : Int := 105
def EADDRNOTAVAIL : Int := 99
def ENOTCONN : Int := 107
def ENOTSUPP : Int := 524

/-! ## machine arithmetic -/

/-- Reduction of a natural number to an unsigned 64-bit value. -/
def u64 (x : Nat) : Nat := x % 2 ^ 64

/-- Reduction of a natural number to an `unsigned int` (32 bit). -/
def u32 (x : Nat) : Nat := x % 2 ^ 32

/-- Modelled from the spec: `KDBUS_ALIGN8` of the absent internal header, the
kernel's `ALIGN(x, 8)` on a 64-bit value: `(x + 7) & ~7`, computed modulo
`2^64` ("8-byte alignment"). -/
def KDBUS_ALIGN8 (x : Nat) : Nat := u64 (x + 7) / 8 * 8

/-- Modelled from the spec: `KDBUS_IS_ALIGNED8` of the absent internal header
("8-byte alignment"). -/
def KDBUS_IS_ALIGNED8 (x : Nat) : Bool := x % 8 == 0

/-! ## constants of the headers that are not part of the sources -/

/-- Constants, flag bits and layout sizes that `message.c` takes from
`kdbus.h`, `internal.h`, `connection.h` and the kernel.  They are parameters
of every definition below. -/
structure kdbus_consts where
  /-- The value of `offsetof(struct kdbus_msg, items)`. -/
  KDBUS_MSG_HEADER_SIZE : Nat
  /-- The value of `offsetof(struct kdbus_kmsg, msg)`. -/
  KDBUS_KMSG_HEADER_SIZE : Nat
  /-- The value of `offsetof(struct kdbus_item, data)`. -/
  KDBUS_ITEM_HEADER_SIZE : Nat
  /-- The value of `sizeof(struct kdbus_msg)`. -/
  sizeof_kdbus_msg : Nat
  /-- The value of `sizeof(struct kdbus_vec)`. -/
  sizeof_kdbus_vec : Nat
  /-- The value of `sizeof(struct kdbus_msg_list_entry)`. -/
  sizeof_msg_list_entry : Nat
  PAGE_SIZE : Nat
  KDBUS_MSG_MAX_SIZE : Nat
  KDBUS_MSG_MAX_ITEMS : Nat
  KDBUS_MSG_MAX_FDS : Nat
  KDBUS_MSG_MAX_PAYLOAD_VECS : Nat
  KDBUS_MSG_MAX_PAYLOAD_SIZE : Nat
  KDBUS_MSG_MAX_INLINE_SIZE : Nat
  KDBUS_CONN_MAX_MSGS : Nat
  KDBUS_CONN_MAX_ALLOCATED_BYTES : Nat
  KDBUS_DST_ID_WELL_KNOWN_NAME : Nat
  KDBUS_DST_ID_BROADCAST : Nat
  KDBUS_VEC_ALIGNED : Nat
  KDBUS_HELLO_ACCEPT_FD : Nat
  KDBUS_HELLO_STARTER : Nat
  KDBUS_HELLO_ATTACH_COMM : Nat
  KDBUS_HELLO_ATTACH_EXE : Nat
  KDBUS_HELLO_ATTACH_CMDLINE : Nat
  KDBUS_HELLO_ATTACH_CAPS : Nat
  KDBUS_HELLO_ATTACH_CGROUP : Nat
  KDBUS_HELLO_ATTACH_AUDIT : Nat
  KDBUS_HELLO_ATTACH_SECLABEL : Nat
  KDBUS_MSG_FLAGS_NO_AUTO_START : Nat
  /-- The value of `sizeof(struct kdbus_timestamp)`. -/
  sizeof_kdbus_timestamp : Nat
  /-- The value of `sizeof(struct kdbus_creds)`. -/
  sizeof_kdbus_creds : Nat
  /-- The value of `sizeof(cap)` in `kdbus_msg_append_for_dst`. -/
  sizeof_caps : Nat
  /-- The value of `sizeof(conn_src->audit_ids)`. -/
  sizeof_audit_ids : Nat
  CONFIG_CGROUPS : Bool
  CONFIG_AUDITSYSCALL : Bool
  CONFIG_SECURITY : Bool
  deriving DecidableEq

/-- The value of `sizeof(int)`. -/
def sizeof_int : Nat := 4

/-- The value of `sizeof(struct file *)` on a 64-bit kernel. -/
def sizeof_file_ptr : Nat := 8

/-- Modelled from the spec: `KDBUS_IS_ALIGNED_PAGE` of the absent internal
header ("address and size must be page-aligned"). -/
def KDBUS_IS_ALIGNED_PAGE (c : kdbus_consts) (x : Nat) : Bool := x % c.PAGE_SIZE == 0

/-! ## wire data -/

/-- The `type` field of an item: the kinds `message.c` names, and any other
64-bit value. -/
inductive kdbus_item_type where
  | KDBUS_MSG_PAYLOAD
  | KDBUS_MSG_PAYLOAD_VEC
  | KDBUS_MSG_UNIX_FDS
  | KDBUS_MSG_BLOOM
  | KDBUS_MSG_DST_NAME
  | KDBUS_MSG_TIMESTAMP
  | KDBUS_MSG_SRC_NAMES
  | KDBUS_MSG_SRC_CREDS
  | KDBUS_MSG_SRC_TID_COMM
  | KDBUS_MSG_SRC_PID_COMM
  | KDBUS_MSG_SRC_EXE
  | KDBUS_MSG_SRC_CMDLINE
  | KDBUS_MSG_SRC_CAPS
  | KDBUS_MSG_SRC_CGROUP
  | KDBUS_MSG_SRC_AUDIT
  | KDBUS_MSG_SRC_SECLABEL
  | other (code : Nat)
  deriving DecidableEq

export kdbus_item_type (KDBUS_MSG_PAYLOAD KDBUS_MSG_PAYLOAD_VEC KDBUS_MSG_UNIX_FDS
  KDBUS_MSG_BLOOM KDBUS_MSG_DST_NAME KDBUS_MSG_TIMESTAMP KDBUS_MSG_SRC_NAMES
  KDBUS_MSG_SRC_CREDS KDBUS_MSG_SRC_TID_COMM KDBUS_MSG_SRC_PID_COMM KDBUS_MSG_SRC_EXE
  KDBUS_MSG_SRC_CMDLINE KDBUS_MSG_SRC_CAPS KDBUS_MSG_SRC_CGROUP KDBUS_MSG_SRC_AUDIT
  KDBUS_MSG_SRC_SECLABEL)

/-- The `struct kdbus_vec`: an external payload descriptor. -/
structure kdbus_vec where
  address : Nat
  size : Nat
  flags : Nat
  deriving DecidableEq

/-- The `struct kdbus_item` as `message.c` reads it: the two header words and the
views of the union that follows them (`data`/`str` bytes, `vec`, `fds`). -/
structure kdbus_item where
  size : Nat
  type : kdbus_item_type
  data : List Nat := []
  vec : kdbus_vec := ⟨0, 0, 0⟩
  fds : List Int := []
  deriving DecidableEq

/-- What a zero-filled stretch of memory reads as when taken for an item. -/
def kdbus_item.zero : kdbus_item := { size := 0, type := kdbus_item_type.other 0 }

/-- The `struct kdbus_msg`: the header words and the item area.  `items` lists
the item records of the buffer in address order, each one starting at the
8-byte aligned end of its predecessor, the first one at
`KDBUS_MSG_HEADER_SIZE`; memory after the last listed record reads as
zero. -/
structure kdbus_msg where
  size : Nat
  flags : Nat := 0
  dst_id : Nat
  src_id : Nat := 0
  payload_type : Nat := 0
  cookie : Nat := 0
  cookie_reply : Nat := 0
  timeout_ns : Nat := 0
  items : List kdbus_item
  deriving DecidableEq

/-- The `struct kdbus_kmsg`: the kernel-side message.  Pointers that may be NULL
are options; `struct file *` values are object numbers.  `meta` holds the
metadata records written so far with their byte offsets, `vecs` the items
written into the inline buffer. -/
structure kdbus_kmsg where
  msg : kdbus_msg
  conn_src : Option Nat := none
  deadline_ns : Nat := 0
  fds_fp : Option (List (Option Nat)) := none
  fds_count : Nat := 0
  fds : Option (List Int) := none
  meta : Option (List (Nat × kdbus_item)) := none
  meta_size : Nat := 0
  meta_allocated_size : Nat := 0
  vecs : Option (List kdbus_item) := none
  vecs_size : Nat := 0
  deriving DecidableEq

/-- The `enum kdbus_conn_type`, of which `message.c` names `KDBUS_CONN_EP`. -/
inductive kdbus_conn_type where
  | KDBUS_CONN_EP
  | other (code : Nat)
  deriving DecidableEq

/-- The `struct kdbus_conn`, the fields `message.c` touches.  `ep` numbers the
endpoint `conn->ep` (the connection is on that endpoint's `connection_list`),
`bloom_size` and `cgroup_id` stand for `conn->ep->bus->bloom_size` and
`conn->ep->bus->cgroup_id`, `match_db` for the rule database handed to
`kdbus_match_db_match_kmsg`; names, credentials and labels are byte
strings. -/
structure kdbus_conn where
  id : Nat
  ep : Nat := 0
  type : kdbus_conn_type := kdbus_conn_type.KDBUS_CONN_EP
  active : Bool := true
  monitor : Bool := false
  flags : Nat := 0
  msg_list : List kdbus_kmsg := []
  msg_count : Nat := 0
  allocated_size : Nat := 0
  bloom_size : Nat := 0
  cgroup_id : Nat := 0
  match_db : Nat := 0
  names_list : List (List Nat) := []
  creds : List Nat := []
  audit_ids : List Nat := []
  sec_label : List Nat := []
  sec_label_len : Nat := 0
  deriving DecidableEq

/-- Call sites of `kmalloc`/`kzalloc`/`__get_free_page` in `message.c`. -/
inductive alloc_site where
  | kmsg
  | fds_fp
  | fds
  | vecs
  | meta
  | meta_grow
  | msg_list_entry
  | page_exe
  | page_cmdline
  | page_cgroup
  deriving DecidableEq

/-- Everything outside `message.c` that its functions consult.
* `kmalloc site size`: whether the allocation succeeds;
* `copy_from_user addr len`: the bytes read, `none` for a fault;
* `copy_to_user off len`: whether writing `len` bytes at offset `off` of the
  receiver's buffer succeeds;
* `size_set_user v`: whether `kdbus_size_set_user` succeeds;
* `fget fd`: the file object behind the sender's descriptor, `none` if there
  is none;
* `get_unused_fd i`: the result of the `i`-th call within one receive;
* `kdbus_validate_nul`, `kdbus_name_is_valid`, `kdbus_match_db_match_kmsg`,
  `kdbus_policy_db_check_send_access`, `kdbus_name_lookup` (the id of the
  connection owning the name): helpers of files that are not part of the
  sources;
* `monotonic_ns`, `realtime_ns`: the two clocks; `group_leader_comm`, `comm`,
  `exe_path` (outer `none`: no executable file, inner `none`: `d_path`
  failed), `cmdline` (length and bytes, the bytes `none` when the copy from
  user space is short; `none` when there is no argument area), `caps`,
  `cg_links` (hierarchy id and the result of `cgroup_path` for each cgroup
  link): what the kernel knows of the calling task. -/
structure kdbus_env where
  kmalloc : alloc_site → Nat → Bool
  copy_from_user : Nat → Nat → Option (List Nat)
  copy_to_user : Nat → Nat → Bool
  size_set_user : Nat → Bool
  fget : Int → Option Nat
  get_unused_fd : Nat → Int
  kdbus_validate_nul : List Nat → Nat → Bool
  kdbus_name_is_valid : List Nat → Bool
  kdbus_match_db_match_kmsg : Nat → Option kdbus_conn → kdbus_conn → kdbus_kmsg → Bool
  kdbus_policy_db_check_send_access : kdbus_conn → kdbus_conn → Nat → Int
  kdbus_name_lookup : List Nat → Option Nat
  monotonic_ns : Nat
  realtime_ns : Nat
  group_leader_comm : List Nat
  comm : List Nat
  exe_path : Option (Option (List Nat))
  cmdline : Option (Nat × Option (List Nat))
  caps : List Nat
  cg_links : List (Nat × Int × List Nat)

/-! ## `kdbus_conn_enqueue_kmsg` -/

/-- Function `kdbus_conn_enqueue_kmsg`: returns the connection after the call and the
result code. -/
def kdbus_conn_enqueue_kmsg (c : kdbus_consts) (env : kdbus_env)
    (conn : kdbus_conn) (kmsg : kdbus_kmsg) : kdbus_conn × Int :=
  if !conn.active then (conn, -ENOTCONN)
  else if kmsg.fds.isSome && (conn.flags &&& c.KDBUS_HELLO_ACCEPT_FD) == 0 then
    (conn, -ECOMM)
  else if !env.kmalloc alloc_site.msg_list_entry c.sizeof_msg_list_entry then
    (conn, -ENOMEM)
  else if conn.msg_count > c.KDBUS_CONN_MAX_MSGS then (conn, -EXFULL)
  else
    ({ conn with msg_list := conn.msg_list ++ [kmsg], msg_count := conn.msg_count + 1 }, 0)

/-! ## item iteration -/

/-- Modelled from the spec: the loop condition of `KDBUS_ITEM_FOREACH` of the
absent internal header for an item at offset `ipos` of a message of
`msg_size` bytes: the item starts before the end of the message.  The loop
goes on to the item at the 8-byte aligned end of the current one ("a
sequence of typed, 8-byte-aligned items"). -/
def foreach_in_msg (msg_size ipos : Nat) : Bool := decide (ipos < msg_size)

/-! ## `kdbus_kmsg_recv` -/

/-- One store into the receiver's buffer, in the order the code performs
them: the message header, a payload item at an offset, the handle-array item
(its `fds` are the installed descriptors), the metadata block, and the `size`
member written by `kdbus_size_set_user`. -/
inductive user_write where
  | header (msg : kdbus_msg) (len : Nat)
  | item (pos : Nat) (it : kdbus_item) (len : Nat)
  | fds (pos : Nat) (it : kdbus_item) (len : Nat)
  | meta (pos : Nat) (records : List (Nat × kdbus_item)) (len : Nat)
  | size (v : Nat)
  deriving DecidableEq

/-- The item at the start of the metadata buffer (`kmsg->meta->size` reads
its size); a buffer nothing was written into is zero-filled. -/
def meta_first (m : List (Nat × kdbus_item)) : kdbus_item :=
  (m.lookup 0).getD kdbus_item.zero

/-- Body of the payload loop of `kdbus_kmsg_recv` for one item: the new
`vecs_next`, `pos` and stores, or the error the body leaves with. -/
def recv_payload_body (env : kdbus_env) (has_vecs : Bool) (item : kdbus_item)
    (vecs_next : List kdbus_item) (pos : Nat) (w : List user_write) :
    Except Int (List kdbus_item × Nat × List user_write) :=
  match item.type with
  | KDBUS_MSG_PAYLOAD =>
    if !env.copy_to_user pos item.size then .error (-EFAULT)
    else .ok (vecs_next, u64 (pos + KDBUS_ALIGN8 item.size),
              w ++ [user_write.item pos item item.size])
  | KDBUS_MSG_PAYLOAD_VEC =>
    if !has_vecs then .error (-ENOSYS)
    else
      let next := vecs_next.headD kdbus_item.zero
      if !env.copy_to_user pos next.size then .error (-EFAULT)
      else .ok (vecs_next.tail, u64 (pos + KDBUS_ALIGN8 next.size),
                w ++ [user_write.item pos next next.size])
  | _ => .ok (vecs_next, pos, w)

/-- The `KDBUS_ITEM_FOREACH` loop of `kdbus_kmsg_recv`.  `ipos` is the offset
of the current item in the message.  The result is `none` when the walk
reaches an item whose aligned size is 0 (memory after the listed items
included) and the body does not leave: the loop then never moves on. -/
def recv_payload_loop (env : kdbus_env) (msg_size : Nat) (has_vecs : Bool) :
    List kdbus_item → Nat → List kdbus_item → Nat → List user_write →
    Option (Int × Nat × List user_write)
  | [], ipos, _, pos, w => if foreach_in_msg msg_size ipos then none else some (0, pos, w)
  | item :: rest, ipos, vecs_next, pos, w =>
    if foreach_in_msg msg_size ipos then
      match recv_payload_body env has_vecs item vecs_next pos w with
      | .error e => some (e, pos, w)
      | .ok (vecs_next', pos', w') =>
        if KDBUS_ALIGN8 item.size = 0 then none
        else recv_payload_loop env msg_size has_vecs rest
               (ipos + KDBUS_ALIGN8 item.size) vecs_next' pos' w'
    else some (0, pos, w)

/-- The descriptor-installing loop of `kdbus_kmsg_recv`, from index `i` for
`n` more rounds: the result code, the `kmsg->fds->fds` array and the
`fd_install` calls made. -/
def recv_install_fds (env : kdbus_env) (fds_fp : List (Option Nat)) :
    Nat → Nat → List Int → List (Int × Option Nat) → Int × List Int × List (Int × Option Nat)
  | 0, _, fds, inst => (0, fds, inst)
  | n + 1, i, fds, inst =>
    let fd := env.get_unused_fd i
    if fd < 0 then (fd, fds, inst)
    else recv_install_fds env fds_fp n (i + 1) (fds.set i fd)
           (inst ++ [(fd, (fds_fp.getD i none))])

/-- The cleanup loop under `exit_unlock_fds`, from index `i` for `n` more
rounds: the `kmsg->fds->fds` array and the descriptors and files released
(`put_unused_fd`, `fput`). -/
def recv_cleanup_fds (fds_fp : List (Option Nat)) :
    Nat → Nat → List Int → List (Int × Option Nat) → List Int × List (Int × Option Nat)
  | 0, _, fds, rel => (fds, rel)
  | n + 1, i, fds, rel =>
    if fds.getD i 0 < 0 then recv_cleanup_fds fds_fp n (i + 1) fds rel
    else recv_cleanup_fds fds_fp n (i + 1) (fds.set i (-1))
           (rel ++ [(fds.getD i 0, fds_fp.getD i none)])

/-- Outcome of `kdbus_kmsg_recv`: result code, the connection afterwards, the
stores into the receiver's buffer, the descriptors installed and released
again, and the queue entry that was removed (on success). -/
structure recv_result where
  ret : Int
  conn : kdbus_conn
  writes : List user_write := []
  installed : List (Int × Option Nat) := []
  released : List (Int × Option Nat) := []
  delivered : Option kdbus_kmsg := none
  deriving DecidableEq

/-- The label `exit_unlock_fds` of `kdbus_kmsg_recv`: what was installed is
released again and the entry stays at the head of the queue.  `fds` is the
`kmsg->fds->fds` array at this point (`none` if `kmsg->fds` is NULL). -/
def recv_exit_unlock_fds (conn : kdbus_conn) (kmsg : kdbus_kmsg) (rest : List kdbus_kmsg)
    (ret : Int) (fds : Option (List Int)) (w : List user_write)
    (inst : List (Int × Option Nat)) : recv_result :=
  match fds with
  | some a =>
    let r := recv_cleanup_fds (kmsg.fds_fp.getD []) kmsg.fds_count 0 a []
    { ret := ret, conn := { conn with msg_list := { kmsg with fds := some r.1 } :: rest },
      writes := w, installed := inst, released := r.2 }
  | none => { ret := ret, conn := conn, writes := w, installed := inst }

/-- The end of `kdbus_kmsg_recv`: the size written is stored in the header
and the entry leaves the queue. -/
def recv_set_size (env : kdbus_env) (conn : kdbus_conn) (kmsg : kdbus_kmsg)
    (rest : List kdbus_kmsg) (fds : Option (List Int)) (pos : Nat) (w : List user_write)
    (inst : List (Int × Option Nat)) : recv_result :=
  if !env.size_set_user pos then recv_exit_unlock_fds conn kmsg rest (-EFAULT) fds w inst
  else
    { ret := 0,
      conn := { conn with msg_count := conn.msg_count - 1, msg_list := rest },
      writes := w ++ [user_write.size pos], installed := inst,
      delivered := some kmsg }

/-- The step "append metadata records" of `kdbus_kmsg_recv` and what follows
it. -/
def recv_append_meta (env : kdbus_env) (conn : kdbus_conn) (kmsg : kdbus_kmsg)
    (rest : List kdbus_kmsg) (fds : Option (List Int)) (pos : Nat) (w : List user_write)
    (inst : List (Int × Option Nat)) : recv_result :=
  match kmsg.meta with
  | some m =>
    if !env.copy_to_user pos kmsg.meta_size then
      recv_exit_unlock_fds conn kmsg rest (-EFAULT) fds w inst
    else
      recv_set_size env conn kmsg rest fds (u64 (pos + KDBUS_ALIGN8 kmsg.meta_size))
        (w ++ [user_write.meta pos m kmsg.meta_size]) inst
  | none => recv_set_size env conn kmsg rest fds pos w inst

/-- The part of `kdbus_kmsg_recv` from "install file descriptors" to the
end, for the queue head `kmsg` and the rest `rest` of the queue. -/
def recv_finish (c : kdbus_consts) (env : kdbus_env) (conn : kdbus_conn)
    (kmsg : kdbus_kmsg) (rest : List kdbus_kmsg) (pos : Nat) (w : List user_write) :
    recv_result :=
  match kmsg.fds with
  | some a =>
    let r := recv_install_fds env (kmsg.fds_fp.getD []) kmsg.fds_count 0 a []
    if r.1 < 0 then recv_exit_unlock_fds conn kmsg rest r.1 (some r.2.1) w r.2.2
    else
      let size := c.KDBUS_ITEM_HEADER_SIZE + sizeof_int * kmsg.fds_count
      if !env.copy_to_user pos size then
        recv_exit_unlock_fds conn kmsg rest (-EFAULT) (some r.2.1) w r.2.2
      else
        recv_append_meta env conn kmsg rest (some r.2.1) (u64 (pos + KDBUS_ALIGN8 size))
          (w ++ [user_write.fds pos
            { size := size, type := KDBUS_MSG_UNIX_FDS, fds := r.2.1 } size]) r.2.2
  | none => recv_append_meta env conn kmsg rest none pos w []

/-- The buffer size `kdbus_kmsg_recv` asks for (`max_size`): `msg->size`,
plus `kmsg->meta->size` if there is metadata, plus `kmsg->vecs_size` if
there is an inline buffer. -/
def recv_max_size (kmsg : kdbus_kmsg) : Nat :=
  let max_size := kmsg.msg.size
  let max_size := match kmsg.meta with
    | some m => u64 (max_size + (meta_first m).size)
    | none => max_size
  if kmsg.vecs.isSome then u64 (max_size + kmsg.vecs_size) else max_size

/-- The part of `kdbus_kmsg_recv` that works on the first queue entry
`kmsg` (`rest` is the queue behind it); `size` is the size of the receiver's
buffer. -/
def recv_entry (c : kdbus_consts) (env : kdbus_env) (conn : kdbus_conn)
    (kmsg : kdbus_kmsg) (rest : List kdbus_kmsg) (size : Nat) : Option recv_result :=
  -- return needed buffer size to the receiver
  if size < recv_max_size kmsg then
    some { ret := -ENOBUFS, conn := conn,
           writes := if env.size_set_user (recv_max_size kmsg)
                     then [user_write.size (recv_max_size kmsg)] else [] }
  -- copy the message header
  else if !env.copy_to_user 0 c.KDBUS_MSG_HEADER_SIZE then
    some { ret := -EFAULT, conn := conn }
  else
    match recv_payload_loop env kmsg.msg.size kmsg.vecs.isSome kmsg.msg.items
            c.KDBUS_MSG_HEADER_SIZE (kmsg.vecs.getD []) c.KDBUS_MSG_HEADER_SIZE
            [user_write.header kmsg.msg c.KDBUS_MSG_HEADER_SIZE] with
    | none => none
    | some (e, pos, w) =>
      if e < 0 then some { ret := e, conn := conn, writes := w }
      else some (recv_finish c env conn kmsg rest pos w)

/-- Function `kdbus_kmsg_recv(conn, buf)`.  `buf` is the address of the
receiver's buffer, `buf_size` what `kdbus_size_get_user` reads from it
(`none` for a fault).  The result is `none` where the code has no defined
outcome: the counter says the queue is not empty but the list is, or the
payload loop never moves on. -/
def kdbus_kmsg_recv (c : kdbus_consts) (env : kdbus_env) (conn : kdbus_conn)
    (buf : Nat) (buf_size : Option Nat) : Option recv_result :=
  if !KDBUS_IS_ALIGNED8 buf then some { ret := -EFAULT, conn := conn }
  else
    match buf_size with
    | none => some { ret := -EFAULT, conn := conn }
    | some size =>
      if conn.msg_count == 0 then some { ret := -EAGAIN, conn := conn }
      else
        match conn.msg_list with
        | [] => none
        | kmsg :: rest => recv_entry c env conn kmsg rest size

/-! ## quota accounting -/

/-- Modelled from the spec: `kdbus_conn_add_size_allocation` of the absent
connection.c for a connection that is not NULL ("before each allocation the
source Connection's outstanding byte counter is incremented", failing with
`quota-exceeded` at the cap): the connection afterwards and the result
code. -/
def kdbus_conn_add_size_allocation (c : kdbus_consts) (conn : kdbus_conn) (size : Nat) :
    kdbus_conn × Int :=
  if conn.allocated_size + size > c.KDBUS_CONN_MAX_ALLOCATED_BYTES then (conn, -EXFULL)
  else ({ conn with allocated_size := conn.allocated_size + size }, 0)

/-- Modelled from the spec: `kdbus_conn_sub_size_allocation` of the absent
connection.c, the unwinding of the increments: the outstanding byte counter
(a `u64`) of the connection is decremented by `size`.  A NULL connection
(`none`) is not accounted: messages the kernel builds itself have none. -/
def kdbus_conn_sub_size_allocation (conn : Option kdbus_conn) (size : Nat) :
    Option kdbus_conn :=
  match conn with
  | none => none
  | some conn =>
    some { conn with allocated_size := u64 (conn.allocated_size + 2 ^ 64 - u64 size) }

/-! ## `kdbus_kmsg_free` -/

/-- The byte count `kdbus_kmsg_free` hands to
`kdbus_conn_sub_size_allocation` (a `size_t`). -/
def kdbus_kmsg_free_size (c : kdbus_consts) (kmsg : kdbus_kmsg) : Nat :=
  let size := 0
  let size := if kmsg.fds_fp.isSome then size + kmsg.fds_count * sizeof_file_ptr else size
  let size := if kmsg.fds.isSome then
      size + (c.KDBUS_ITEM_HEADER_SIZE + kmsg.fds_count * sizeof_int) else size
  let size := if kmsg.meta.isSome then size + kmsg.meta_allocated_size else size
  let size := if kmsg.vecs.isSome then size + kmsg.vecs_size else size
  u64 (size + (kmsg.msg.size + c.KDBUS_KMSG_HEADER_SIZE))

/-- The `fput` calls of `kdbus_kmsg_free`: the entries `fds_fp[i]`,
`i < fds_count`, in order. -/
def kdbus_kmsg_free_puts (kmsg : kdbus_kmsg) : List (Option Nat) :=
  match kmsg.fds_fp with
  | some fp => (List.range kmsg.fds_count).map fun i => fp.getD i none
  | none => []

/-- Function `kdbus_kmsg_free(kmsg)`.  `src` is the connection `kmsg->conn_src`
points to (`none` for NULL); the result is that connection afterwards and the
files released with `fput`. -/
def kdbus_kmsg_free (c : kdbus_consts) (src : Option kdbus_conn) (kmsg : kdbus_kmsg) :
    Option kdbus_conn × List (Option Nat) :=
  (kdbus_conn_sub_size_allocation src (kdbus_kmsg_free_size c kmsg),
   kdbus_kmsg_free_puts kmsg)

/-! ## `kdbus_msg_scan_items` -/

/-- The local variables of `kdbus_msg_scan_items`. -/
structure scan_state where
  num_items : Nat := 0
  num_vecs : Nat := 0
  num_fds : Nat := 0
  vecs_size : Nat := 0
  needs_vec : Bool := false
  has_fds : Bool := false
  has_name : Bool := false
  has_bloom : Bool := false
  deriving DecidableEq

/-- The case `KDBUS_MSG_PAYLOAD_VEC` of the validation loop. -/
def scan_item_vec (c : kdbus_consts) (item : kdbus_item) (st : scan_state) :
    Except Int scan_state :=
  if item.size ≠ c.KDBUS_ITEM_HEADER_SIZE + c.sizeof_kdbus_vec then .error (-EINVAL)
  else if st.num_vecs + 1 > c.KDBUS_MSG_MAX_PAYLOAD_VECS then .error (-E2BIG)
  else if (item.vec.flags &&& c.KDBUS_VEC_ALIGNED) ≠ 0 ∧
      -- enforce page alignment and page granularity
      (!KDBUS_IS_ALIGNED_PAGE c item.vec.address ||
       !KDBUS_IS_ALIGNED_PAGE c item.vec.size) then .error (-EFAULT)
  else if u64 (st.vecs_size + KDBUS_ALIGN8 item.vec.size) > c.KDBUS_MSG_MAX_PAYLOAD_SIZE then
    .error (-EMSGSIZE)
  else
    .ok { st with
      num_vecs := st.num_vecs + 1,
      -- we always deliver aligned data as PAYLOAD_VEC
      needs_vec := st.needs_vec || decide ((item.vec.flags &&& c.KDBUS_VEC_ALIGNED) ≠ 0),
      vecs_size := u64 (st.vecs_size + KDBUS_ALIGN8 item.vec.size) }

/-- The case `KDBUS_MSG_UNIX_FDS` of the validation loop. -/
def scan_item_fds (c : kdbus_consts) (msg : kdbus_msg) (item : kdbus_item) (st : scan_state) :
    Except Int scan_state :=
  -- do not allow multiple fd arrays
  if st.has_fds then .error (-EEXIST)
  -- do not allow to broadcast file descriptors
  else if msg.dst_id = c.KDBUS_DST_ID_BROADCAST then .error (-ENOTUNIQ)
  else if u32 ((item.size - c.KDBUS_ITEM_HEADER_SIZE) / sizeof_int) > c.KDBUS_MSG_MAX_FDS then
    .error (-EMFILE)
  else
    .ok { st with has_fds := true,
                  num_fds := u32 ((item.size - c.KDBUS_ITEM_HEADER_SIZE) / sizeof_int) }

/-- The case `KDBUS_MSG_BLOOM` of the validation loop. -/
def scan_item_bloom (c : kdbus_consts) (conn : kdbus_conn) (msg : kdbus_msg)
    (item : kdbus_item) (st : scan_state) : Except Int scan_state :=
  -- do not allow multiple bloom filters
  if st.has_bloom then .error (-EEXIST)
  -- bloom filters are only for broadcast messages
  else if msg.dst_id ≠ c.KDBUS_DST_ID_BROADCAST then .error (-EBADMSG)
  -- allow only bloom sizes of a multiple of 64bit
  else if !KDBUS_IS_ALIGNED8 (item.size - c.KDBUS_ITEM_HEADER_SIZE) then .error (-EFAULT)
  -- do not allow mismatching bloom filter sizes
  else if item.size - c.KDBUS_ITEM_HEADER_SIZE ≠ conn.bloom_size then .error (-EDOM)
  else .ok { st with has_bloom := true }

/-- The case `KDBUS_MSG_DST_NAME` of the validation loop. -/
def scan_item_name (c : kdbus_consts) (env : kdbus_env) (item : kdbus_item)
    (st : scan_state) : Except Int scan_state :=
  -- do not allow multiple names
  if st.has_name then .error (-EEXIST)
  -- enforce NUL-terminated strings
  else if !env.kdbus_validate_nul item.data (item.size - c.KDBUS_ITEM_HEADER_SIZE) then
    .error (-EINVAL)
  else if !env.kdbus_name_is_valid item.data then .error (-EINVAL)
  else .ok { st with has_name := true }

/-- Body of the validation loop of `kdbus_msg_scan_items` for one item: the
local variables afterwards, or the error returned. -/
def scan_item (c : kdbus_consts) (env : kdbus_env) (conn : kdbus_conn) (msg : kdbus_msg)
    (item : kdbus_item) (st : scan_state) : Except Int scan_state :=
  -- empty data records are invalid
  if item.size ≤ c.KDBUS_ITEM_HEADER_SIZE then .error (-EINVAL)
  else if st.num_items + 1 > c.KDBUS_MSG_MAX_ITEMS then .error (-E2BIG)
  else
    let st := { st with num_items := st.num_items + 1 }
    match item.type with
    | KDBUS_MSG_PAYLOAD => .ok st
    | KDBUS_MSG_PAYLOAD_VEC => scan_item_vec c item st
    | KDBUS_MSG_UNIX_FDS => scan_item_fds c msg item st
    | KDBUS_MSG_BLOOM => scan_item_bloom c conn msg item st
    | KDBUS_MSG_DST_NAME => scan_item_name c env item st
    | _ => .error (-ENOTSUPP)

/-- Modelled from the spec: the loop condition of `KDBUS_ITEM_FOREACH_VALIDATE`
of the absent internal header for an item of declared size `size` at offset
`pos` of a message of `msg_size` bytes: the item header and the item lie
inside the message ("each item size ... ≤ enclosing size"). -/
def item_in_msg (c : kdbus_consts) (msg_size pos size : Nat) : Bool :=
  decide (pos + c.KDBUS_ITEM_HEADER_SIZE ≤ msg_size) && decide (pos + size ≤ msg_size)

/-- Modelled from the spec: the items `KDBUS_ITEM_FOREACH_VALIDATE` of the
absent internal header visits, from the item at offset `pos` on: it goes
from one item to the next one at the 8-byte aligned end of the item, as long
as the item header and the item lie inside the message. -/
def validate_walk (c : kdbus_consts) (msg_size : Nat) : List kdbus_item → Nat → List kdbus_item
  | [], _ => []
  | item :: rest, pos =>
    if item_in_msg c msg_size pos item.size then
      item :: validate_walk c msg_size rest (pos + KDBUS_ALIGN8 item.size)
    else []

/-- The validation loop of `kdbus_msg_scan_items` from the item at offset
`pos` on: the local variables and the offset at which the loop stops, or the
error returned from inside the loop.  Where the listed items end the memory
reads as a zero item, which the loop body rejects as an empty record. -/
def scan_loop (c : kdbus_consts) (env : kdbus_env) (conn : kdbus_conn) (msg : kdbus_msg) :
    List kdbus_item → Nat → scan_state → Except Int (scan_state × Nat)
  | [], pos, st =>
    if item_in_msg c msg.size pos 0 then .error (-EINVAL) else .ok (st, pos)
  | item :: rest, pos, st =>
    if item_in_msg c msg.size pos item.size then
      match scan_item c env conn msg item st with
      | .error e => .error e
      | .ok st' => scan_loop c env conn msg rest (pos + KDBUS_ALIGN8 item.size) st'
    else .ok (st, pos)

/-- The checks of `kdbus_msg_scan_items` between the loop and the
allocations: padding, then addressing consistency.  `pos` is the offset at
which the loop stopped; the padding test compares the signed difference of
the two pointers with 8. -/
def scan_checks (c : kdbus_consts) (msg : kdbus_msg) (st : scan_state) (pos : Nat) : Int :=
  -- validate correct padding and size values to match the overall size
  if (pos : Int) - (msg.size : Int) ≥ 8 then -EINVAL
  -- name is needed for broadcast
  else if msg.dst_id = c.KDBUS_DST_ID_WELL_KNOWN_NAME ∧ !st.has_name then -EDESTADDRREQ
  -- name and ID should not be given at the same time
  else if msg.dst_id > c.KDBUS_DST_ID_WELL_KNOWN_NAME ∧
      msg.dst_id < c.KDBUS_DST_ID_BROADCAST ∧ st.has_name then -EBADMSG
  -- broadcast messages require a bloom filter
  else if msg.dst_id = c.KDBUS_DST_ID_BROADCAST ∧ !st.has_bloom then -EBADMSG
  -- bloom filters are for undirected messages only
  else if st.has_name ∧ st.has_bloom then -EBADMSG
  else 0

/-- The step "allocate array for file descriptors" of `kdbus_msg_scan_items`. -/
def scan_alloc_fds (c : kdbus_consts) (env : kdbus_env) (conn : kdbus_conn)
    (kmsg : kdbus_kmsg) (st : scan_state) : kdbus_conn × kdbus_kmsg × Int :=
  if st.has_fds then
    let size := u64 (st.num_fds * sizeof_file_ptr)
    let r := kdbus_conn_add_size_allocation c conn size
    if r.2 < 0 then (r.1, kmsg, r.2)
    else if !env.kmalloc alloc_site.fds_fp size then (r.1, kmsg, -ENOMEM)
    else
      let kmsg := { kmsg with fds_fp := some (List.replicate st.num_fds none) }
      let size := u64 (c.KDBUS_ITEM_HEADER_SIZE + st.num_fds * sizeof_int)
      let r := kdbus_conn_add_size_allocation c r.1 size
      if r.2 < 0 then (r.1, kmsg, r.2)
      else if !env.kmalloc alloc_site.fds size then (r.1, kmsg, -ENOMEM)
      else (r.1, { kmsg with fds := some (List.replicate st.num_fds (-1)) }, 0)
  else (conn, kmsg, 0)

/-- The condition under which `kdbus_msg_scan_items` prepares inlining:
`num_vecs > 0 && !needs_vec && msg->size + vecs_size < KDBUS_MSG_MAX_INLINE_SIZE`. -/
def scan_inline_cond (c : kdbus_consts) (msg : kdbus_msg) (st : scan_state) : Bool :=
  decide (st.num_vecs > 0) && !st.needs_vec &&
    decide (u64 (msg.size + st.vecs_size) < c.KDBUS_MSG_MAX_INLINE_SIZE)

/-- The step "if we have only very small PAYLOAD_VECs, they get inlined" of
`kdbus_msg_scan_items`. -/
def scan_alloc_vecs (c : kdbus_consts) (env : kdbus_env) (conn : kdbus_conn)
    (kmsg : kdbus_kmsg) (st : scan_state) : kdbus_conn × kdbus_kmsg × Int :=
  if scan_inline_cond c kmsg.msg st then
    let size := u64 (st.num_vecs * c.KDBUS_ITEM_HEADER_SIZE + st.vecs_size)
    let r := kdbus_conn_add_size_allocation c conn size
    if r.2 < 0 then (r.1, kmsg, r.2)
    else if !env.kmalloc alloc_site.vecs size then (r.1, kmsg, -ENOMEM)
    else (r.1, { kmsg with vecs := some [], vecs_size := size }, 0)
  else (conn, kmsg, 0)

/-- Function `kdbus_msg_scan_items(conn, kmsg)`: the connection and the kernel
message afterwards, and the result code. -/
def kdbus_msg_scan_items (c : kdbus_consts) (env : kdbus_env) (conn : kdbus_conn)
    (kmsg : kdbus_kmsg) : kdbus_conn × kdbus_kmsg × Int :=
  match scan_loop c env conn kmsg.msg kmsg.msg.items c.KDBUS_MSG_HEADER_SIZE {} with
  | .error e => (conn, kmsg, e)
  | .ok (st, pos) =>
    if scan_checks c kmsg.msg st pos < 0 then (conn, kmsg, scan_checks c kmsg.msg st pos)
    else
      let r := scan_alloc_fds c env conn kmsg st
      if r.2.2 < 0 then r
      else scan_alloc_vecs c env r.1 r.2.1 st

/-! ## `kdbus_inline_user_vec`, `kdbus_copy_user_fds` -/

/-- Function `kdbus_inline_user_vec(kmsg, next, item)`: the item written at
`next`, or the error. -/
def kdbus_inline_user_vec (c : kdbus_consts) (env : kdbus_env) (item : kdbus_item) :
    Except Int kdbus_item :=
  match env.copy_from_user item.vec.address item.vec.size with
  | none => .error (-EFAULT)
  | some bytes =>
    .ok { size := u64 (c.KDBUS_ITEM_HEADER_SIZE + item.vec.size),
          type := KDBUS_MSG_PAYLOAD, data := bytes }

/-- The loop under the label `unwind` of `kdbus_copy_user_fds`, run for at
most `fuel` rounds from index `i` (an `unsigned int`): the array `fds_fp`
and the files released when the loop is left, `none` if it is not left
within `fuel` rounds.  Entries outside the array read as NULL and writes to
them are dropped. -/
def copy_user_fds_unwind : Nat → Nat → List (Option Nat) → List (Option Nat) →
    Option (List (Option Nat) × List (Option Nat))
  | 0, _, _, _ => none
  | fuel + 1, i, fds_fp, puts =>
    if i ≥ 0 then
      copy_user_fds_unwind fuel (u32 (i + 2 ^ 32 - 1)) (fds_fp.set i none)
        (puts ++ [fds_fp.getD i none])
    else some (fds_fp, puts)

/-- The borrowing loop of `kdbus_copy_user_fds`, for `n` more rounds from
index `i`: `.ok` with the array and `fds_count` when all handles were
borrowed, `.error` with the index, the array and `fds_count` at the jump to
`unwind`. -/
def copy_user_fds_loop (env : kdbus_env) (item : kdbus_item) :
    Nat → Nat → List (Option Nat) → Nat →
    Except (Nat × List (Option Nat) × Nat) (List (Option Nat) × Nat)
  | 0, _, fds_fp, fds_count => .ok (fds_fp, fds_count)
  | n + 1, i, fds_fp, fds_count =>
    match env.fget (item.fds.getD i 0) with
    | none => .error (i, fds_fp, fds_count)
    | some fp =>
      copy_user_fds_loop env item n (i + 1) (fds_fp.set fds_count (some fp)) (fds_count + 1)

/-- Function `kdbus_copy_user_fds(kmsg, item)`: the kernel message afterwards,
the result code and the files released with `fput`; `none` if the function
does not return within `fuel` rounds of its unwind loop, or if `fds_fp` is
NULL. -/
def kdbus_copy_user_fds (c : kdbus_consts) (env : kdbus_env) (fuel : Nat)
    (kmsg : kdbus_kmsg) (item : kdbus_item) : Option (kdbus_kmsg × Int × List (Option Nat)) :=
  match kmsg.fds_fp with
  | none => none
  | some fds_fp =>
    let count := u32 (u64 (item.size + 2 ^ 64 - c.KDBUS_ITEM_HEADER_SIZE) / sizeof_int)
    match copy_user_fds_loop env item count 0 fds_fp kmsg.fds_count with
    | .ok (fds_fp, fds_count) =>
      some ({ kmsg with fds_fp := some fds_fp, fds_count := fds_count }, 0, [])
    | .error (i, fds_fp, _) =>
      match copy_user_fds_unwind fuel i fds_fp [] with
      | none => none
      | some (fds_fp, puts) =>
        some ({ kmsg with fds_fp := some fds_fp, fds_count := 0 }, -EBADF, puts)

/-! ## `kdbus_kmsg_new_from_user` -/

/-- The sender's buffer handed to `kdbus_kmsg_new_from_user`: its address,
what `kdbus_size_get_user` reads from it and what `copy_from_user` copies
from it (`none` for a fault). -/
structure user_buf where
  addr : Nat
  size : Option Nat
  msg : Option kdbus_msg
  deriving DecidableEq

/-- Outcome of `kdbus_kmsg_new_from_user`: result code, the source connection
afterwards, the message built (on success) and the files released with
`fput`. -/
structure new_result where
  ret : Int
  conn : kdbus_conn
  kmsg : Option kdbus_kmsg := none
  puts : List (Option Nat) := []
  deriving DecidableEq

/-- The label `exit_free` of `kdbus_kmsg_new_from_user`: `kdbus_kmsg_free`
on the message built so far.  `kmsg->conn_src` points to `conn` once it has
been set and is NULL before. -/
def new_exit_free (c : kdbus_consts) (conn : kdbus_conn) (kmsg : kdbus_kmsg) (ret : Int)
    (puts : List (Option Nat)) : new_result :=
  let r := kdbus_kmsg_free c (if kmsg.conn_src.isSome then some conn else none) kmsg
  { ret := ret, conn := r.1.getD conn, puts := puts ++ r.2 }

/-- The `KDBUS_ITEM_FOREACH` loop of `kdbus_kmsg_new_from_user`, from the item
at offset `ipos` on.  The result is `none` when `kdbus_copy_user_fds` has
none, or when the walk reaches an item whose aligned size is 0 (memory after
the listed items included) and the body does not leave. -/
def new_from_user_loop (c : kdbus_consts) (env : kdbus_env) (fuel : Nat) (conn : kdbus_conn) :
    List kdbus_item → Nat → kdbus_kmsg → Option new_result
  | [], ipos, kmsg =>
    if foreach_in_msg kmsg.msg.size ipos then none
    else some { ret := 0, conn := conn, kmsg := some kmsg }
  | item :: rest, ipos, kmsg =>
    if foreach_in_msg kmsg.msg.size ipos then
      match item.type with
      | KDBUS_MSG_PAYLOAD_VEC =>
        match kmsg.vecs with
        | none => some (new_exit_free c conn kmsg (-ENOSYS) [])
        | some vecs =>
          -- convert PAYLOAD_VEC to PAYLOAD
          match kdbus_inline_user_vec c env item with
          | .error e => some (new_exit_free c conn kmsg e [])
          | .ok next =>
            if KDBUS_ALIGN8 item.size = 0 then none
            else new_from_user_loop c env fuel conn rest (ipos + KDBUS_ALIGN8 item.size)
                   { kmsg with vecs := some (vecs ++ [next]) }
      | KDBUS_MSG_UNIX_FDS =>
        match kdbus_copy_user_fds c env fuel kmsg item with
        | none => none
        | some (kmsg, ret, puts) =>
          if ret < 0 then some (new_exit_free c conn kmsg ret puts)
          else if KDBUS_ALIGN8 item.size = 0 then none
          else new_from_user_loop c env fuel conn rest (ipos + KDBUS_ALIGN8 item.size) kmsg
      | _ =>
        if KDBUS_ALIGN8 item.size = 0 then none
        else new_from_user_loop c env fuel conn rest (ipos + KDBUS_ALIGN8 item.size) kmsg
    else some { ret := 0, conn := conn, kmsg := some kmsg }

/-- Function `kdbus_kmsg_new_from_user(conn, buf, m)`.  `fuel` bounds the
rounds of the unwind loop of `kdbus_copy_user_fds`; the result is `none`
where the loop over the items has none. -/
def kdbus_kmsg_new_from_user (c : kdbus_consts) (env : kdbus_env) (fuel : Nat)
    (conn : kdbus_conn) (buf : user_buf) : Option new_result :=
  if !KDBUS_IS_ALIGNED8 buf.addr then some { ret := -EFAULT, conn := conn }
  else
    match buf.size with
    | none => some { ret := -EFAULT, conn := conn }
    | some size =>
      if size < c.sizeof_kdbus_msg ∨ size > c.KDBUS_MSG_MAX_SIZE then
        some { ret := -EMSGSIZE, conn := conn }
      else
        let alloc_size := u64 (size + c.KDBUS_KMSG_HEADER_SIZE)
        if !env.kmalloc alloc_site.kmsg alloc_size then some { ret := -ENOMEM, conn := conn }
        else
          let r := kdbus_conn_add_size_allocation c conn alloc_size
          if r.2 < 0 then some { ret := r.2, conn := r.1 }
          else
            match buf.msg with
            | none =>
              -- the message area of the allocation keeps whatever it held
              some { ret := -EFAULT, conn := r.1 }
            | some msg =>
              -- check validity and prepare handling of data records
              let s := kdbus_msg_scan_items c env r.1 { msg := msg }
              if s.2.2 < 0 then some (new_exit_free c s.1 s.2.1 s.2.2 [])
              else
                -- fill in sender ID, keep a reference to the source connection
                let kmsg := { s.2.1 with msg := { s.2.1.msg with src_id := conn.id },
                                         conn_src := some conn.id }
                new_from_user_loop c env fuel s.1 kmsg.msg.items c.KDBUS_MSG_HEADER_SIZE kmsg

/-! ## metadata: `kdbus_kmsg_append` and its callers -/

/-- Doubles `p` until it is not below `n`, at most `fuel` times. -/
def roundup_pow_of_two_from (n : Nat) : Nat → Nat → Nat
  | 0, p => p
  | fuel + 1, p => if n ≤ p then p else roundup_pow_of_two_from n fuel (2 * p)

/-- The kernel's `roundup_pow_of_two`: the least power of two that is not
below `n` (`n` doublings from 1 are enough to reach it). -/
def roundup_pow_of_two (n : Nat) : Nat := roundup_pow_of_two_from n n 1

/-- Modelled from the spec: `KDBUS_ITEM_SIZE` of the absent internal header,
the 8-byte aligned size of an item with `s` bytes of data. -/
def KDBUS_ITEM_SIZE (c : kdbus_consts) (s : Nat) : Nat :=
  KDBUS_ALIGN8 (s + c.KDBUS_ITEM_HEADER_SIZE)

/-- The quota increment on `kmsg->conn_src`, which may be NULL (`none`): a
NULL connection is not accounted. -/
def add_size_allocation_src (c : kdbus_consts) (src : Option kdbus_conn) (size : Nat) :
    Option kdbus_conn × Int :=
  match src with
  | none => (none, 0)
  | some conn => ((kdbus_conn_add_size_allocation c conn size).1 |> some,
                  (kdbus_conn_add_size_allocation c conn size).2)

/-- Outcome of `kdbus_kmsg_append`: the source connection and the message
afterwards, and the offset of the new record in the metadata buffer or the
error of `ERR_PTR`. -/
structure append_result where
  src : Option kdbus_conn
  kmsg : kdbus_kmsg
  item : Except Int Nat

/-- The second half of `kdbus_kmsg_append`: grow the buffer if needed and
insert the new record. -/
def kmsg_append_insert (c : kdbus_consts) (env : kdbus_env) (src : Option kdbus_conn)
    (kmsg : kdbus_kmsg) (extra_size : Nat) : append_result :=
  -- double the pre-allocated buffer size if needed
  let size := u64 (kmsg.meta_size + KDBUS_ALIGN8 extra_size)
  let insert (src : Option kdbus_conn) (kmsg : kdbus_kmsg) : append_result :=
    { src := src,
      kmsg := { kmsg with meta_size := u64 (kmsg.meta_size + KDBUS_ALIGN8 extra_size) },
      item := .ok kmsg.meta_size }
  if size > kmsg.meta_allocated_size then
    let size := roundup_pow_of_two size
    let size_diff := size - kmsg.meta_allocated_size
    let r := add_size_allocation_src c src size_diff
    if r.2 < 0 then { src := r.1, kmsg := kmsg, item := .error r.2 }
    else if !env.kmalloc alloc_site.meta_grow size then
      { src := r.1, kmsg := kmsg, item := .error (-ENOMEM) }
    else insert r.1 { kmsg with meta_allocated_size := size }
  else insert src kmsg

/-- Function `kdbus_kmsg_append(kmsg, extra_size)`; `src` is the connection
`kmsg->conn_src` points to. -/
def kdbus_kmsg_append (c : kdbus_consts) (env : kdbus_env) (src : Option kdbus_conn)
    (kmsg : kdbus_kmsg) (extra_size : Nat) : append_result :=
  -- get new metadata buffer, pre-allocate at least 512 bytes
  match kmsg.meta with
  | none =>
    let size := roundup_pow_of_two (256 + KDBUS_ALIGN8 extra_size)
    let r := add_size_allocation_src c src size
    if r.2 < 0 then { src := r.1, kmsg := kmsg, item := .error r.2 }
    else if !env.kmalloc alloc_site.meta size then
      { src := r.1, kmsg := kmsg, item := .error (-ENOMEM) }
    else
      kmsg_append_insert c env r.1 { kmsg with meta := some [], meta_allocated_size := size }
        extra_size
  | some _ => kmsg_append_insert c env src kmsg extra_size

/-- Appends a record and fills it in: what the callers of `kdbus_kmsg_append`
do with the item they get.  The result code is `PTR_ERR` of a failed
append. -/
def kmsg_append_item (c : kdbus_consts) (env : kdbus_env) (src : Option kdbus_conn)
    (kmsg : kdbus_kmsg) (extra_size : Nat) (item : kdbus_item) :
    Option kdbus_conn × kdbus_kmsg × Int :=
  let r := kdbus_kmsg_append c env src kmsg extra_size
  match r.item with
  | .error e => (r.src, r.kmsg, e)
  | .ok off =>
    (r.src, { r.kmsg with meta := some ((r.kmsg.meta.getD []) ++ [(off, item)]) }, 0)

/-- Function `kdbus_kmsg_append_timestamp(kmsg, now_ns)`; the data of the
record are the two clock values. -/
def kdbus_kmsg_append_timestamp (c : kdbus_consts) (env : kdbus_env)
    (src : Option kdbus_conn) (kmsg : kdbus_kmsg) : Option kdbus_conn × kdbus_kmsg × Int :=
  let size := KDBUS_ITEM_SIZE c c.sizeof_kdbus_timestamp
  kmsg_append_item c env src kmsg size
    { size := size, type := KDBUS_MSG_TIMESTAMP, data := [env.monotonic_ns, env.realtime_ns] }

/-- Function `kdbus_kmsg_append_data(kmsg, type, buf, len)`. -/
def kdbus_kmsg_append_data (c : kdbus_consts) (env : kdbus_env) (src : Option kdbus_conn)
    (kmsg : kdbus_kmsg) (type : kdbus_item_type) (buf : List Nat) (len : Nat) :
    Option kdbus_conn × kdbus_kmsg × Int :=
  if len = 0 then (src, kmsg, 0)
  else
    kmsg_append_item c env src kmsg (KDBUS_ITEM_SIZE c len)
      { size := u64 (c.KDBUS_ITEM_HEADER_SIZE + len), type := type, data := buf.take len }

/-- Function `kdbus_kmsg_append_str(kmsg, type, str)`; `str` is the string
without its terminator. -/
def kdbus_kmsg_append_str (c : kdbus_consts) (env : kdbus_env) (src : Option kdbus_conn)
    (kmsg : kdbus_kmsg) (type : kdbus_item_type) (str : List Nat) :
    Option kdbus_conn × kdbus_kmsg × Int :=
  kdbus_kmsg_append_data c env src kmsg type (str ++ [0]) (str.length + 1)

/-- Function `kdbus_kmsg_append_src_names(kmsg, conn)`. -/
def kdbus_kmsg_append_src_names (c : kdbus_consts) (env : kdbus_env)
    (src : Option kdbus_conn) (kmsg : kdbus_kmsg) (conn : kdbus_conn) :
    Option kdbus_conn × kdbus_kmsg × Int :=
  let strsize := (conn.names_list.map fun name => name.length + 1).sum
  -- no names? then don't do anything
  if strsize = 0 then (src, kmsg, 0)
  else
    kmsg_append_item c env src kmsg (KDBUS_ITEM_SIZE c strsize)
      { size := u64 (c.KDBUS_ITEM_HEADER_SIZE + strsize), type := KDBUS_MSG_SRC_NAMES,
        data := (conn.names_list.map fun name => name ++ [0]).flatten }

/-- Function `kdbus_kmsg_append_cred(kmsg, creds)`. -/
def kdbus_kmsg_append_cred (c : kdbus_consts) (env : kdbus_env) (src : Option kdbus_conn)
    (kmsg : kdbus_kmsg) (creds : List Nat) : Option kdbus_conn × kdbus_kmsg × Int :=
  let size := KDBUS_ITEM_SIZE c c.sizeof_kdbus_creds
  kmsg_append_item c env src kmsg size
    { size := size, type := KDBUS_MSG_SRC_CREDS, data := creds }

/-- Function `task_cgroup_path_from_hierarchy`: the result code and the path
written to the buffer.  `links` are the cgroup links of the task, each with
its hierarchy id and the result of `cgroup_path`. -/
def task_cgroup_path_from_hierarchy (links : List (Nat × Int × List Nat))
    (hierarchy_id : Nat) : Int × List Nat :=
  match links.find? fun l => l.1 == hierarchy_id with
  | some l => l.2
  | none => (-ENOENT, [])

/-- Runs the next step of a function that returns as soon as a step has
failed (`if (ret < 0) return ret;`). -/
def and_then (r : Option kdbus_conn × kdbus_kmsg × Int)
    (k : Option kdbus_conn → kdbus_kmsg → Option kdbus_conn × kdbus_kmsg × Int) :
    Option kdbus_conn × kdbus_kmsg × Int :=
  if r.2.2 < 0 then r else k r.1 r.2.1

/-- The `KDBUS_HELLO_ATTACH_COMM` block of `kdbus_msg_append_for_dst`. -/
def append_for_dst_comm (c : kdbus_consts) (env : kdbus_env) (conn_dst : kdbus_conn)
    (src : Option kdbus_conn) (kmsg : kdbus_kmsg) : Option kdbus_conn × kdbus_kmsg × Int :=
  if (conn_dst.flags &&& c.KDBUS_HELLO_ATTACH_COMM) ≠ 0 then
    and_then (kdbus_kmsg_append_str c env src kmsg KDBUS_MSG_SRC_TID_COMM env.group_leader_comm)
      fun src kmsg => kdbus_kmsg_append_str c env src kmsg KDBUS_MSG_SRC_PID_COMM env.comm
  else (src, kmsg, 0)

/-- The `KDBUS_HELLO_ATTACH_EXE` block of `kdbus_msg_append_for_dst`. -/
def append_for_dst_exe (c : kdbus_consts) (env : kdbus_env) (conn_dst : kdbus_conn)
    (src : Option kdbus_conn) (kmsg : kdbus_kmsg) : Option kdbus_conn × kdbus_kmsg × Int :=
  if (conn_dst.flags &&& c.KDBUS_HELLO_ATTACH_EXE) ≠ 0 then
    match env.exe_path with
    | some dpath =>
      if !env.kmalloc alloc_site.page_exe c.PAGE_SIZE then (src, kmsg, -ENOMEM)
      else
        match dpath with
        | some pathname =>
          kdbus_kmsg_append_data c env src kmsg KDBUS_MSG_SRC_EXE pathname pathname.length
        | none => (src, kmsg, 0)
    | none => (src, kmsg, 0)
  else (src, kmsg, 0)

/-- The `KDBUS_HELLO_ATTACH_CMDLINE` block of `kdbus_msg_append_for_dst`. -/
def append_for_dst_cmdline (c : kdbus_consts) (env : kdbus_env) (conn_dst : kdbus_conn)
    (src : Option kdbus_conn) (kmsg : kdbus_kmsg) : Option kdbus_conn × kdbus_kmsg × Int :=
  if (conn_dst.flags &&& c.KDBUS_HELLO_ATTACH_CMDLINE) ≠ 0 then
    if !env.kmalloc alloc_site.page_cmdline c.PAGE_SIZE then (src, kmsg, -ENOMEM)
    else
      match env.cmdline with
      | some (len, bytes) =>
        let len := if len > c.PAGE_SIZE then c.PAGE_SIZE else len
        match bytes with
        | some tmp => kdbus_kmsg_append_data c env src kmsg KDBUS_MSG_SRC_CMDLINE tmp len
        | none => (src, kmsg, 0)
      | none => (src, kmsg, 0)
  else (src, kmsg, 0)

/-- The `KDBUS_HELLO_ATTACH_CAPS` block of `kdbus_msg_append_for_dst`. -/
def append_for_dst_caps (c : kdbus_consts) (env : kdbus_env) (conn_dst : kdbus_conn)
    (src : Option kdbus_conn) (kmsg : kdbus_kmsg) : Option kdbus_conn × kdbus_kmsg × Int :=
  if (conn_dst.flags &&& c.KDBUS_HELLO_ATTACH_CAPS) ≠ 0 then
    kdbus_kmsg_append_data c env src kmsg KDBUS_MSG_SRC_CAPS env.caps c.sizeof_caps
  else (src, kmsg, 0)

/-- The `KDBUS_HELLO_ATTACH_CGROUP` block of `kdbus_msg_append_for_dst`
(under `CONFIG_CGROUPS`). -/
def append_for_dst_cgroup (c : kdbus_consts) (env : kdbus_env) (conn_dst : kdbus_conn)
    (src : Option kdbus_conn) (kmsg : kdbus_kmsg) : Option kdbus_conn × kdbus_kmsg × Int :=
  if c.CONFIG_CGROUPS ∧ (conn_dst.flags &&& c.KDBUS_HELLO_ATTACH_CGROUP) ≠ 0 ∧
      conn_dst.cgroup_id > 0 then
    if !env.kmalloc alloc_site.page_cgroup c.PAGE_SIZE then (src, kmsg, -ENOMEM)
    else
      let r := task_cgroup_path_from_hierarchy env.cg_links conn_dst.cgroup_id
      if r.1 ≥ 0 then kdbus_kmsg_append_str c env src kmsg KDBUS_MSG_SRC_CGROUP r.2
      else (src, kmsg, r.1)
  else (src, kmsg, 0)

/-- The `KDBUS_HELLO_ATTACH_AUDIT` block of `kdbus_msg_append_for_dst` (under
`CONFIG_AUDITSYSCALL`). -/
def append_for_dst_audit (c : kdbus_consts) (env : kdbus_env) (conn_src conn_dst : kdbus_conn)
    (src : Option kdbus_conn) (kmsg : kdbus_kmsg) : Option kdbus_conn × kdbus_kmsg × Int :=
  if c.CONFIG_AUDITSYSCALL ∧ (conn_dst.flags &&& c.KDBUS_HELLO_ATTACH_AUDIT) ≠ 0 then
    kdbus_kmsg_append_data c env src kmsg KDBUS_MSG_SRC_AUDIT conn_src.audit_ids
      c.sizeof_audit_ids
  else (src, kmsg, 0)

/-- The `KDBUS_HELLO_ATTACH_SECLABEL` block of `kdbus_msg_append_for_dst`
(under `CONFIG_SECURITY`). -/
def append_for_dst_seclabel (c : kdbus_consts) (env : kdbus_env)
    (conn_src conn_dst : kdbus_conn)
    (src : Option kdbus_conn) (kmsg : kdbus_kmsg) : Option kdbus_conn × kdbus_kmsg × Int :=
  if c.CONFIG_SECURITY ∧ (conn_dst.flags &&& c.KDBUS_HELLO_ATTACH_SECLABEL) ≠ 0 ∧
      conn_src.sec_label_len > 0 then
    kdbus_kmsg_append_data c env src kmsg KDBUS_MSG_SRC_SECLABEL conn_src.sec_label
      conn_src.sec_label_len
  else (src, kmsg, 0)

/-- Function `kdbus_msg_append_for_dst(kmsg, conn_src, conn_dst)`; `src` is the
connection `kmsg->conn_src` points to, which is charged for the metadata
buffer. -/
def kdbus_msg_append_for_dst (c : kdbus_consts) (env : kdbus_env)
    (conn_src conn_dst : kdbus_conn) (src : Option kdbus_conn) (kmsg : kdbus_kmsg) :
    Option kdbus_conn × kdbus_kmsg × Int :=
  and_then (append_for_dst_comm c env conn_dst src kmsg) fun src kmsg =>
  and_then (append_for_dst_exe c env conn_dst src kmsg) fun src kmsg =>
  and_then (append_for_dst_cmdline c env conn_dst src kmsg) fun src kmsg =>
  and_then (append_for_dst_caps c env conn_dst src kmsg) fun src kmsg =>
  and_then (append_for_dst_cgroup c env conn_dst src kmsg) fun src kmsg =>
  and_then (append_for_dst_audit c env conn_src conn_dst src kmsg) fun src kmsg =>
  and_then (append_for_dst_seclabel c env conn_src conn_dst src kmsg) fun src kmsg =>
  (src, kmsg, 0)

/-! ## `kdbus_kmsg_send` -/

/-- Function `kdbus_msg_get_item(msg, type, index)` as a walk with
`KDBUS_ITEM_FOREACH` from the item at offset `ipos`: the item found or NULL;
`none` when the walk reaches an item whose aligned size is 0 (memory after
the listed items included) without having found the item. -/
def msg_get_item_loop (msg_size : Nat) (type : kdbus_item_type) :
    List kdbus_item → Nat → Nat → Option (Option kdbus_item)
  | [], ipos, _ => if foreach_in_msg msg_size ipos then none else some none
  | item :: rest, ipos, index =>
    if foreach_in_msg msg_size ipos then
      if item.type = type ∧ index = 0 then some (some item)
      else if KDBUS_ALIGN8 item.size = 0 then none
      else msg_get_item_loop msg_size type rest (ipos + KDBUS_ALIGN8 item.size)
             (if item.type = type then index - 1 else index)
    else some none

/-- Function `kdbus_msg_get_item(msg, type, index)`. -/
def kdbus_msg_get_item (c : kdbus_consts) (msg : kdbus_msg) (type : kdbus_item_type)
    (index : Nat) : Option (Option kdbus_item) :=
  msg_get_item_loop msg.size type msg.items c.KDBUS_MSG_HEADER_SIZE index

/-- The `struct kdbus_ep`: its number and whether it has a policy database.
Its `connection_list` are the connections of the bus whose `ep` is this
number, in bus order. -/
structure kdbus_ep where
  id : Nat
  policy_db : Bool := false
  deriving DecidableEq

/-- The connection a pointer refers to: connections are told apart by `id`. -/
def conn_find (conns : List kdbus_conn) (id : Option Nat) : Option kdbus_conn :=
  match id with
  | none => none
  | some i => conns.find? fun x => x.id == i

/-- Modelled from the spec: `kdbus_bus_find_conn_by_id` of the absent bus.c
("direct id → lookup in bus's connection table; miss ⇒ `no-route`"). -/
def kdbus_bus_find_conn_by_id (conns : List kdbus_conn) (id : Nat) : Option kdbus_conn :=
  conn_find conns (some id)

/-- Stores a changed connection back in its place. -/
def conn_put (conns : List kdbus_conn) (conn : Option kdbus_conn) : List kdbus_conn :=
  match conn with
  | none => conns
  | some x => conns.map fun y => if y.id = x.id then x else y

/-- Outcome of `kdbus_kmsg_send`: result code, the connections of the bus and
the message afterwards, and the connection a timeout scan was scheduled on. -/
structure send_result where
  ret : Int
  conns : List kdbus_conn
  kmsg : kdbus_kmsg
  timeout_scan : Option Nat := none
  deriving DecidableEq

/-- The broadcast loop of `kdbus_kmsg_send` over the connections of the bus
in order, of which those with `ep = ep_id` are on the endpoint's
`connection_list`: the connections afterwards and `ret`. -/
def send_broadcast_loop (c : kdbus_consts) (env : kdbus_env) (ep_id : Nat)
    (conn_src : Option kdbus_conn) (kmsg : kdbus_kmsg) :
    List kdbus_conn → List kdbus_conn × Int
  | [] => ([], 0)
  | conn_dst :: rest =>
    if conn_dst.ep ≠ ep_id ∨
       conn_dst.type ≠ kdbus_conn_type.KDBUS_CONN_EP ∨
       conn_dst.id = kmsg.msg.src_id ∨
       !conn_dst.active ∨
       (!conn_dst.monitor &&
        !env.kdbus_match_db_match_kmsg conn_dst.match_db conn_src conn_dst kmsg) then
      -- continue
      (conn_dst :: (send_broadcast_loop c env ep_id conn_src kmsg rest).1,
       (send_broadcast_loop c env ep_id conn_src kmsg rest).2)
    else
      let r := kdbus_conn_enqueue_kmsg c env conn_dst kmsg
      if r.2 < 0 then (r.1 :: rest, r.2)
      else (r.1 :: (send_broadcast_loop c env ep_id conn_src kmsg rest).1,
            (send_broadcast_loop c env ep_id conn_src kmsg rest).2)

/-- The step "augment incoming message" of `kdbus_kmsg_send`: timestamp, and
for a sender the names it owns and its credentials. -/
def send_augment (c : kdbus_consts) (env : kdbus_env) (conn_src : Option kdbus_conn)
    (src : Option kdbus_conn) (kmsg : kdbus_kmsg) : Option kdbus_conn × kdbus_kmsg × Int :=
  and_then (kdbus_kmsg_append_timestamp c env src kmsg) fun src kmsg =>
    match conn_src with
    | some cs =>
      and_then (kdbus_kmsg_append_src_names c env src kmsg cs) fun src kmsg =>
        kdbus_kmsg_append_cred c env src kmsg cs.creds
    | none => (src, kmsg, 0)

/-- The destination of a message that is not a broadcast, as
`kdbus_kmsg_send` determines it: the id of `conn_dst`, or the error
returned; `none` when `kdbus_msg_get_item` has no result. -/
def send_resolve (c : kdbus_consts) (env : kdbus_env) (conns : List kdbus_conn)
    (msg : kdbus_msg) : Option (Except Int Nat) :=
  if msg.dst_id = c.KDBUS_DST_ID_WELL_KNOWN_NAME then
    match kdbus_msg_get_item c msg KDBUS_MSG_DST_NAME 0 with
    | none => none
    | some none => some (.error (-EDESTADDRREQ))
    | some (some name_item) =>
      -- lookup and determine conn_dst ...
      match conn_find conns (env.kdbus_name_lookup name_item.data) with
      | none => some (.error (-ESRCH))
      | some conn_dst =>
        if (msg.flags &&& c.KDBUS_MSG_FLAGS_NO_AUTO_START) ≠ 0 ∧
            (conn_dst.flags &&& c.KDBUS_HELLO_STARTER) ≠ 0 then
          some (.error (-EADDRNOTAVAIL))
        else some (.ok conn_dst.id)
  else
    -- direct message
    match kdbus_bus_find_conn_by_id conns msg.dst_id with
    | none => some (.error (- ENXIO))
    | some conn_dst => some (.ok conn_dst.id)

/-- The branch of `kdbus_kmsg_send` for a direct message to the connection
with id `dst`. -/
def send_direct (c : kdbus_consts) (env : kdbus_env) (ep : kdbus_ep)
    (conns : List kdbus_conn) (conn_src : Option Nat) (kmsg : kdbus_kmsg) (dst : Nat) :
    send_result :=
  let msg := kmsg.msg
  let kmsg := if msg.timeout_ns ≠ 0
    then { kmsg with deadline_ns := u64 (env.monotonic_ns + msg.timeout_ns) } else kmsg
  match conn_find conns (some dst) with
  | none => { ret := - ENXIO, conns := conns, kmsg := kmsg }
  | some conn_dst =>
    -- check policy
    let pol : Int := match conn_find conns conn_src with
      | some cs =>
        if ep.policy_db then env.kdbus_policy_db_check_send_access cs conn_dst kmsg.deadline_ns
        else 0
      | none => 0
    if pol < 0 then { ret := pol, conns := conns, kmsg := kmsg }
    else
      let a : Option kdbus_conn × kdbus_kmsg × Int := match conn_find conns conn_src with
        | some cs =>
          kdbus_msg_append_for_dst c env cs conn_dst (conn_find conns kmsg.conn_src) kmsg
        | none => (none, kmsg, 0)
      let conns := conn_put conns a.1
      if a.2.2 < 0 then { ret := a.2.2, conns := conns, kmsg := a.2.1 }
      else
        match conn_find conns (some dst) with
        | none => { ret := - ENXIO, conns := conns, kmsg := a.2.1 }
        | some conn_dst =>
          let r := kdbus_conn_enqueue_kmsg c env conn_dst a.2.1
          { ret := r.2, conns := conn_put conns (some r.1), kmsg := a.2.1,
            timeout_scan := if msg.timeout_ns ≠ 0 then some dst else none }

/-- Function `kdbus_kmsg_send(ep, conn_src, kmsg)`.  `conns` are the
connections of the bus, `conn_src` the id of the sending connection (`none`
for NULL).  The result is `none` where `kdbus_msg_get_item` has none. -/
def kdbus_kmsg_send (c : kdbus_consts) (env : kdbus_env) (ep : kdbus_ep)
    (conns : List kdbus_conn) (conn_src : Option Nat) (kmsg : kdbus_kmsg) :
    Option send_result :=
  -- augment incoming message
  let a := send_augment c env (conn_find conns conn_src) (conn_find conns kmsg.conn_src) kmsg
  let conns := conn_put conns a.1
  let kmsg := a.2.1
  if a.2.2 < 0 then some { ret := a.2.2, conns := conns, kmsg := kmsg }
  else if kmsg.msg.dst_id = c.KDBUS_DST_ID_WELL_KNOWN_NAME ∨
      kmsg.msg.dst_id ≠ c.KDBUS_DST_ID_BROADCAST then
    match send_resolve c env conns kmsg.msg with
    | none => none
    | some (.error e) => some { ret := e, conns := conns, kmsg := kmsg }
    | some (.ok dst) => some (send_direct c env ep conns conn_src kmsg dst)
  else
    -- broadcast; timeouts are not allowed for broadcasts
    if kmsg.msg.timeout_ns ≠ 0 then some { ret := -ENOTUNIQ, conns := conns, kmsg := kmsg }
    else
      let r := send_broadcast_loop c env ep.id (conn_find conns conn_src) kmsg conns
      some { ret := r.2, conns := r.1, kmsg := kmsg }

/-! ## sequences of queue operations -/

/-- One call on the receive queue of a connection. -/
inductive queue_op where
  | enqueue (env : kdbus_env) (kmsg : kdbus_kmsg)
  | recv (env : kdbus_env) (buf : Nat) (buf_size : Option Nat)

/-- Runs a sequence of calls on a connection, every one of which has to
succeed (`none` otherwise): the connection afterwards, the messages enqueued
and the messages delivered, both in call order. -/
def queue_run (c : kdbus_consts) :
    kdbus_conn → List queue_op → Option (kdbus_conn × List kdbus_kmsg × List kdbus_kmsg)
  | conn, [] => some (conn, [], [])
  | conn, queue_op.enqueue env kmsg :: ops =>
    if (kdbus_conn_enqueue_kmsg c env conn kmsg).2 = 0 then
      match queue_run c (kdbus_conn_enqueue_kmsg c env conn kmsg).1 ops with
      | some (conn', enq, del) => some (conn', kmsg :: enq, del)
      | none => none
    else none
  | conn, queue_op.recv env buf buf_size :: ops =>
    match kdbus_kmsg_recv c env conn buf buf_size with
    | some r =>
      if r.ret = 0 then
        match r.delivered, queue_run c r.conn ops with
        | some k, some (conn', enq, del) => some (conn', enq, k :: del)
        | _, _ => none
      else none
    | none => none

/-! ## notions the statements use -/

/-- Number of items of kind `t` in a list of items. -/
def count_type (t : kdbus_item_type) (l : List kdbus_item) : Nat :=
  l.countP fun it => decide (it.type = t)

/-- The items of a message in the sense of its validation: those
`kdbus_msg_scan_items` walks over. -/
def msg_items (c : kdbus_consts) (msg : kdbus_msg) : List kdbus_item :=
  validate_walk c msg.size msg.items c.KDBUS_MSG_HEADER_SIZE

/-- The external payload descriptors among a list of items. -/
def vec_items (l : List kdbus_item) : List kdbus_item :=
  l.filter fun it => decide (it.type = KDBUS_MSG_PAYLOAD_VEC)

/-- Sum of the `size` fields of the external payload descriptors of a list of
items, as exact integers. -/
def vecs_exact_sum (l : List kdbus_item) : Nat :=
  ((vec_items l).map fun it => it.vec.size).sum

/-- Sum of the 8-byte aligned `size` fields of the external payload
descriptors of a list of items. -/
def vecs_aligned_sum (l : List kdbus_item) : Nat :=
  ((vec_items l).map fun it => KDBUS_ALIGN8 it.vec.size).sum

/-- Whether some external payload descriptor of a list of items is flagged
`KDBUS_VEC_ALIGNED`. -/
def any_vec_aligned (c : kdbus_consts) (l : List kdbus_item) : Bool :=
  (vec_items l).any fun it => decide ((it.vec.flags &&& c.KDBUS_VEC_ALIGNED) ≠ 0)

/-- What accounting may do to the connection a message is charged to: nothing
but a change of its byte counter. -/
def charged (src src' : Option kdbus_conn) : Prop :=
  match src with
  | none => src' = none
  | some y => ∃ a, src' = some { y with allocated_size := a }

/-- The connections of the bus when `kdbus_kmsg_send` has augmented the
message: the sender has been charged for the metadata. -/
def send_conns (c : kdbus_consts) (env : kdbus_env) (conns : List kdbus_conn)
    (conn_src : Option Nat) (kmsg : kdbus_kmsg) : List kdbus_conn :=
  conn_put conns
    (send_augment c env (conn_find conns conn_src) (conn_find conns kmsg.conn_src) kmsg).1

/-- The message as `kdbus_kmsg_send` has augmented it. -/
def send_kmsg (c : kdbus_consts) (env : kdbus_env) (conns : List kdbus_conn)
    (conn_src : Option Nat) (kmsg : kdbus_kmsg) : kdbus_kmsg :=
  (send_augment c env (conn_find conns conn_src) (conn_find conns kmsg.conn_src) kmsg).2.1

/-- The conditions under which the broadcast loop of `kdbus_kmsg_send` hands
the message to `conn_dst`: on the endpoint, an endpoint connection, not the
connection the message names as its source, active, and a monitor or
accepted by its match database. -/
def broadcast_wants (env : kdbus_env) (ep_id : Nat) (conn_src : Option kdbus_conn)
    (kmsg : kdbus_kmsg) (conn_dst : kdbus_conn) : Prop :=
  conn_dst.ep = ep_id ∧ conn_dst.type = kdbus_conn_type.KDBUS_CONN_EP ∧
  conn_dst.id ≠ kmsg.msg.src_id ∧ conn_dst.active = true ∧
  (conn_dst.monitor = true ∨
   env.kdbus_match_db_match_kmsg conn_dst.match_db conn_src conn_dst kmsg = true)

/-! ## sample data -/

/-- Sample values for the constants: those of a 64-bit build, sentinels 0
and `~0`, one flag bit each. -/
def sample_consts : kdbus_consts :=
  { KDBUS_MSG_HEADER_SIZE := 64, KDBUS_KMSG_HEADER_SIZE := 128,
    KDBUS_ITEM_HEADER_SIZE := 16, sizeof_kdbus_msg := 64, sizeof_kdbus_vec := 24,
    sizeof_msg_list_entry := 24, PAGE_SIZE := 4096,
    KDBUS_MSG_MAX_SIZE := 8192, KDBUS_MSG_MAX_ITEMS := 128, KDBUS_MSG_MAX_FDS := 256,
    KDBUS_MSG_MAX_PAYLOAD_VECS := 64, KDBUS_MSG_MAX_PAYLOAD_SIZE := 2097152,
    KDBUS_MSG_MAX_INLINE_SIZE := 65536, KDBUS_CONN_MAX_MSGS := 64,
    KDBUS_CONN_MAX_ALLOCATED_BYTES := 16777216,
    KDBUS_DST_ID_WELL_KNOWN_NAME := 0, KDBUS_DST_ID_BROADCAST := 2 ^ 64 - 1,
    KDBUS_VEC_ALIGNED := 1, KDBUS_HELLO_ACCEPT_FD := 2, KDBUS_HELLO_STARTER := 1,
    KDBUS_HELLO_ATTACH_COMM := 256, KDBUS_HELLO_ATTACH_EXE := 512,
    KDBUS_HELLO_ATTACH_CMDLINE := 1024, KDBUS_HELLO_ATTACH_CAPS := 2048,
    KDBUS_HELLO_ATTACH_CGROUP := 4096, KDBUS_HELLO_ATTACH_AUDIT := 8192,
    KDBUS_HELLO_ATTACH_SECLABEL := 16384,
    KDBUS_MSG_FLAGS_NO_AUTO_START := 2,
    sizeof_kdbus_timestamp := 16, sizeof_kdbus_creds := 40, sizeof_caps := 32,
    sizeof_audit_ids := 16,
    CONFIG_CGROUPS := true, CONFIG_AUDITSYSCALL := true, CONFIG_SECURITY := true }

/-- An environment in which nothing fails: allocations and user copies
succeed, descriptor `n ≥ 0` of the sender is file object `n`, the receiver's
free descriptors are 3, 4, ..., names are valid, no match rule matches, the
policy allows everything and no name is owned. -/
def sample_env : kdbus_env :=
  { kmalloc := fun _ _ => true,
    copy_from_user := fun _ len => some (List.replicate len 0),
    copy_to_user := fun _ _ => true,
    size_set_user := fun _ => true,
    fget := fun fd => if 0 ≤ fd then some fd.toNat else none,
    get_unused_fd := fun i => (3 + i : Nat),
    kdbus_validate_nul := fun _ _ => true,
    kdbus_name_is_valid := fun _ => true,
    kdbus_match_db_match_kmsg := fun _ _ _ _ => false,
    kdbus_policy_db_check_send_access := fun _ _ _ => 0,
    kdbus_name_lookup := fun _ => none,
    monotonic_ns := 1000, realtime_ns := 2000,
    group_leader_comm := [], comm := [], exe_path := none, cmdline := none,
    caps := [], cg_links := [] }

/-- A kernel message with one inline payload item of `n` data bytes for
peer `dst`, carrying cookie `cookie`. -/
def sample_kmsg (dst cookie n : Nat) : kdbus_kmsg :=
  { msg := { size := 64 + 16 + n, dst_id := dst, cookie := cookie,
             items := [{ size := 16 + n, type := KDBUS_MSG_PAYLOAD,
                         data := List.replicate n 0 }] } }

/-- A kernel message for peer `dst` that carries a handle array of `n`
handles (the arrays as `kdbus_msg_scan_items` and `kdbus_copy_user_fds`
leave them: file objects 10, 11, ..., all slots of the installed-handle
array -1). -/
def sample_kmsg_fds (dst n : Nat) : kdbus_kmsg :=
  { msg := { size := 64 + KDBUS_ALIGN8 (16 + 4 * n), dst_id := dst,
             items := [{ size := 16 + 4 * n, type := KDBUS_MSG_UNIX_FDS,
                         fds := (List.range n).map fun i => (i : Int) }] },
    fds_fp := some ((List.range n).map fun i => some (10 + i)),
    fds_count := n,
    fds := some (List.replicate n (-1)) }

/-- A user message to the broadcast sentinel with one bloom item of 64 data
bytes. -/
def sample_broadcast_msg : kdbus_msg :=
  { size := 64 + 80, dst_id := 2 ^ 64 - 1,
    items := [{ size := 16 + 64, type := KDBUS_MSG_BLOOM, data := List.replicate 64 0 }] }

/-- A user message to peer 5 with one external payload descriptor of `size`
bytes at `address`, flagged `flags`. -/
def sample_vec_msg (address size flags : Nat) : kdbus_msg :=
  { size := 64 + 40, dst_id := 5,
    items := [{ size := 40, type := KDBUS_MSG_PAYLOAD_VEC,
                vec := { address := address, size := size, flags := flags } }] }

/-- A handle-array item with the given descriptors. -/
def sample_fds_item (fds : List Int) : kdbus_item :=
  { size := 16 + 4 * fds.length, type := KDBUS_MSG_UNIX_FDS, fds := fds }

/-- A kernel message as `kdbus_msg_scan_items` leaves it for a message to
peer `dst` with one handle array of `n` handles: both arrays allocated,
nothing borrowed yet. -/
def sample_kmsg_scanned_fds (dst : Nat) (fds : List Int) : kdbus_kmsg :=
  { msg := { size := 64 + KDBUS_ALIGN8 (16 + 4 * fds.length), dst_id := dst,
             items := [sample_fds_item fds] },
    fds_fp := some (List.replicate fds.length none),
    fds := some (List.replicate fds.length (-1)) }

/-- The sender's buffer at address 4096 holding `msg`, readable throughout. -/
def sample_buf (msg : kdbus_msg) : user_buf :=
  { addr := 4096, size := some msg.size, msg := some msg }

/-- A user message to peer 5 whose only item has a type the validation does
not know. -/
def sample_unknown_item_msg : kdbus_msg :=
  { size := 64 + 40, dst_id := 5,
    items := [{ size := 40, type := kdbus_item_type.other 4095 }] }

/-- Three connections of one bus: 1 and 2 on endpoint 0, 3 on endpoint 7;
connections 2 and 3 are monitors. -/
def sample_conns : List kdbus_conn :=
  [{ id := 1 }, { id := 2, monitor := true }, { id := 3, ep := 7, monitor := true }]

/-- A broadcast as connection 1 has built it: the bloom message with
`src_id` 1, charged to connection 1. -/
def sample_broadcast_kmsg : kdbus_kmsg :=
  { msg := { sample_broadcast_msg with src_id := 1 }, conn_src := some 1 }

/-- Connection 2 with `KDBUS_CONN_MAX_MSGS` (64) messages in its queue. -/
def sample_conn_at_cap : kdbus_conn :=
  { id := 2, monitor := true, msg_list := List.replicate 64 (sample_kmsg 2 0 8),
    msg_count := 64 }

/-- Connection 2 with one message more than `KDBUS_CONN_MAX_MSGS` in its
queue: the fill at which `kdbus_conn_enqueue_kmsg` turns messages away. -/
def sample_conn_full : kdbus_conn :=
  { id := 2, monitor := true, msg_list := List.replicate 65 (sample_kmsg 2 0 8),
    msg_count := 65 }

/-- How `kdbus_kmsg_send` may leave a connection: same id, same `active`
flag, and, where the flag is clear, `msg_list` and `msg_count` as they
were. -/
def quiet (conn conn' : kdbus_conn) : Prop :=
  conn'.id = conn.id ∧ conn'.active = conn.active ∧
  (conn.active = false → conn'.msg_list = conn.msg_list ∧ conn'.msg_count = conn.msg_count)

/-- Three connections of one bus on endpoint 0, the second of which is not
active. -/
def sample_conns_inactive : List kdbus_conn :=
  [{ id := 1 }, { id := 2, active := false, monitor := true }, { id := 3, monitor := true }]

/-- A user message to peer 5 with one inline payload item of 8 data bytes
whose header claims to come from connection 77. -/
def sample_forged_msg : kdbus_msg :=
  { (sample_kmsg 5 9 8).msg with src_id := 77 }

/-- The validation loop of `kdbus_msg_scan_items` run over the leading items
`pre` of a message only, from offset `pos` on: the local variables and the
offset once every item of `pre` has been visited and has passed the loop
body, `none` if one of them is not visited or does not pass. -/
def scan_steps (c : kdbus_consts) (env : kdbus_env) (conn : kdbus_conn) (msg : kdbus_msg) :
    List kdbus_item → Nat → scan_state → Option (scan_state × Nat)
  | [], pos, st => some (st, pos)
  | item :: rest, pos, st =>
    if item_in_msg c msg.size pos item.size then
      match scan_item c env conn msg item st with
      | .error _ => none
      | .ok st' => scan_steps c env conn msg rest (pos + KDBUS_ALIGN8 item.size) st'
    else none

/-- A user message to peer `dst` whose items are handle arrays with the given
numbers of handles (all descriptors 0). -/
def sample_fds_msg (dst : Nat) (counts : List Nat) : kdbus_msg :=
  { size := 64 + (counts.map fun n => KDBUS_ALIGN8 (16 + 4 * n)).sum, dst_id := dst,
    items := counts.map fun n => sample_fds_item (List.replicate n 0) }

/-- What a completed broadcast fan-out does to connection `d`: the message is
appended to its queue if the loop hands it the message, and it is left as it
is otherwise. -/
def broadcast_delivered (env : kdbus_env) (ep_id : Nat) (conn_src : Option kdbus_conn)
    (kmsg : kdbus_kmsg) (d d' : kdbus_conn) : Prop :=
  (broadcast_wants env ep_id conn_src kmsg d →
    d' = { d with msg_list := d.msg_list ++ [kmsg], msg_count := d.msg_count + 1 }) ∧
  (¬ broadcast_wants env ep_id conn_src kmsg d → d' = d)

/-- Three connections of one bus on endpoint 0: the sender, a monitor whose
queue is full, and a monitor with an empty queue. -/
def sample_conns_full : List kdbus_conn :=
  [{ id := 1 }, sample_conn_full, { id := 3, monitor := true }]

/-- The environment `sample_env` in which the receiver has one free
descriptor only: the second `get_unused_fd` fails with `-EMFILE`. -/
def sample_env_one_fd : kdbus_env :=
  { sample_env with get_unused_fd := fun i => if i < 1 then 3 else -EMFILE }

/-- Connection 2, which accepts handles, with one message carrying two
handles in its queue. -/
def sample_conn_fds : kdbus_conn :=
  { id := 2, flags := 2, msg_list := [sample_kmsg_fds 2 2], msg_count := 1 }

/-- The kinds of the records in the metadata buffer of a message, in buffer
order. -/
def meta_kinds (kmsg : kdbus_kmsg) : List kdbus_item_type :=
  (kmsg.meta.getD []).map fun p => p.2.type

/-- The attach flag under which `kdbus_msg_append_for_dst` appends a record
of kind `t`; `none` for the kinds it never appends. -/
def attach_flag (c : kdbus_consts) : kdbus_item_type → Option Nat
  | KDBUS_MSG_SRC_TID_COMM => some c.KDBUS_HELLO_ATTACH_COMM
  | KDBUS_MSG_SRC_PID_COMM => some c.KDBUS_HELLO_ATTACH_COMM
  | KDBUS_MSG_SRC_EXE => some c.KDBUS_HELLO_ATTACH_EXE
  | KDBUS_MSG_SRC_CMDLINE => some c.KDBUS_HELLO_ATTACH_CMDLINE
  | KDBUS_MSG_SRC_CAPS => some c.KDBUS_HELLO_ATTACH_CAPS
  | KDBUS_MSG_SRC_CGROUP => some c.KDBUS_HELLO_ATTACH_CGROUP
  | KDBUS_MSG_SRC_AUDIT => some c.KDBUS_HELLO_ATTACH_AUDIT
  | KDBUS_MSG_SRC_SECLABEL => some c.KDBUS_HELLO_ATTACH_SECLABEL
  | _ => none

/-- The metadata of `kmsg'` is that of `kmsg` followed by records of kinds
whose attach flag is set in `flags`. -/
def meta_extended (c : kdbus_consts) (flags : Nat) (kmsg kmsg' : kdbus_kmsg) : Prop :=
  ∃ added, meta_kinds kmsg' = meta_kinds kmsg ++ added ∧
    ∀ t ∈ added, ∃ f, attach_flag c t = some f ∧ (flags &&& f) ≠ 0

/-- A connection with another value of `flags`. -/
def with_flags (f : Nat) (conn : kdbus_conn) : kdbus_conn := { conn with flags := f }

/-- The outcome of an append step with `flags` of the charged connection
replaced by `f`. -/
def with_flags_src (f : Nat) (r : Option kdbus_conn × kdbus_kmsg × Int) :
    Option kdbus_conn × kdbus_kmsg × Int :=
  (r.1.map (with_flags f), r.2.1, r.2.2)

/-- Connection 5 with the attach flags for comm and caps set. -/
def sample_conn_attach : kdbus_conn := { id := 5, flags := 256 + 2048 }

/-- Modelled from the spec: the items `KDBUS_ITEM_FOREACH` of the absent
internal header visits, from the item at offset `ipos` on: it goes from one
item to the next one at the 8-byte aligned end of the item, as long as the
item starts inside the message (the condition `foreach_in_msg`, as in the
loops of `kdbus_kmsg_recv` and `kdbus_kmsg_new_from_user`). -/
def foreach_walk (msg_size : Nat) : List kdbus_item → Nat → List kdbus_item
  | [], _ => []
  | item :: rest, ipos =>
    if foreach_in_msg msg_size ipos then
      item :: foreach_walk msg_size rest (ipos + KDBUS_ALIGN8 item.size)
    else []

/-- The payload of a queued message as the receiver is to get it: for every
inline payload item the item itself, for every external payload descriptor
the next entry of the inline buffer `vecs`, in the order of the items. -/
def delivered_items : List kdbus_item → List kdbus_item → List kdbus_item
  | [], _ => []
  | item :: rest, vecs =>
    match item.type with
    | KDBUS_MSG_PAYLOAD => item :: delivered_items rest vecs
    | KDBUS_MSG_PAYLOAD_VEC => vecs.headD kdbus_item.zero :: delivered_items rest vecs.tail
    | _ => delivered_items rest vecs

/-- Items laid out one after the other from offset `pos`, each followed by
the padding to the next multiple of 8 (offsets are `u64`). -/
def place_items : Nat → List kdbus_item → List user_write
  | _, [] => []
  | pos, it :: rest =>
    user_write.item pos it it.size :: place_items (u64 (pos + KDBUS_ALIGN8 it.size)) rest

/-- The offset behind items laid out from offset `pos`. -/
def end_of_items : Nat → List kdbus_item → Nat
  | pos, [] => pos
  | pos, it :: rest => end_of_items (u64 (pos + KDBUS_ALIGN8 it.size)) rest

/-- The item that carries the handles `fds` of `kmsg`. -/
def fds_item (c : kdbus_consts) (kmsg : kdbus_kmsg) (fds : List Int) : kdbus_item :=
  { size := c.KDBUS_ITEM_HEADER_SIZE + sizeof_int * kmsg.fds_count,
    type := KDBUS_MSG_UNIX_FDS, fds := fds }

/-- The layout of a delivered message as the specification words it: the
header, the payload items, the handle-array item (with the descriptors `fds`)
if the message has a handle array, the metadata block if it has one, and the
`size` member of the header set to the offset behind the last of them. -/
def recv_layout (c : kdbus_consts) (kmsg : kdbus_kmsg) (fds : List Int) : List user_write :=
  let items := delivered_items
    (foreach_walk kmsg.msg.size kmsg.msg.items c.KDBUS_MSG_HEADER_SIZE) (kmsg.vecs.getD [])
  let pos1 := end_of_items c.KDBUS_MSG_HEADER_SIZE items
  let pos2 := if kmsg.fds.isSome then u64 (pos1 + KDBUS_ALIGN8 (fds_item c kmsg fds).size)
    else pos1
  let pos3 := if kmsg.meta.isSome then u64 (pos2 + KDBUS_ALIGN8 kmsg.meta_size) else pos2
  [user_write.header kmsg.msg c.KDBUS_MSG_HEADER_SIZE] ++
  place_items c.KDBUS_MSG_HEADER_SIZE items ++
  (if kmsg.fds.isSome then [user_write.fds pos1 (fds_item c kmsg fds) (fds_item c kmsg fds).size]
   else []) ++
  (match kmsg.meta with
   | some m => [user_write.meta pos2 m kmsg.meta_size]
   | none => []) ++
  [user_write.size pos3]

/-- The offset in the receiver's buffer a store goes to (for the store of the
`size` member: the value stored, the offset behind the message). -/
def user_write.offset : user_write → Nat
  | .header _ _ => 0
  | .item pos _ _ => pos
  | .fds pos _ _ => pos
  | .meta pos _ _ => pos
  | .size v => v

/-- What the receiver gets for item `it` of the queued message when the inline
buffer was filled by `kdbus_inline_user_vec` in environment `env`: an inline
payload item as it is, and for an external payload descriptor an inline
payload item of `KDBUS_ITEM_HEADER_SIZE + vec.size` bytes that holds the bytes
the descriptor pointed to. -/
def delivered_for (c : kdbus_consts) (env : kdbus_env) (it d : kdbus_item) : Prop :=
  (it.type = KDBUS_MSG_PAYLOAD ∧ d = it) ∨
  (it.type = KDBUS_MSG_PAYLOAD_VEC ∧ d.type = KDBUS_MSG_PAYLOAD ∧
    d.size = u64 (c.KDBUS_ITEM_HEADER_SIZE + it.vec.size) ∧
    env.copy_from_user it.vec.address it.vec.size = some d.data)

/-- The payload items of a list of items: inline payload and external payload
descriptors. -/
def payload_items (l : List kdbus_item) : List kdbus_item :=
  l.filter fun it => decide (it.type = KDBUS_MSG_PAYLOAD ∨ it.type = KDBUS_MSG_PAYLOAD_VEC)

/-- The inline buffer of `kmsg` holds, in order, what `kdbus_inline_user_vec`
makes in environment `env` of the external payload descriptors among the
items `KDBUS_ITEM_FOREACH` visits. -/
def vecs_inlined (c : kdbus_consts) (env : kdbus_env) (kmsg : kdbus_kmsg) : Prop :=
  List.Forall₂ (fun it v => kdbus_inline_user_vec c env it = .ok v)
    (vec_items (foreach_walk kmsg.msg.size kmsg.msg.items c.KDBUS_MSG_HEADER_SIZE))
    (kmsg.vecs.getD [])

/-- A user message to peer 5 with an inline payload item of 8 data bytes and
an external payload descriptor of 16 bytes at address 8192. -/
def sample_mixed_msg : kdbus_msg :=
  { size := 64 + 24 + 40, dst_id := 5,
    items := [{ size := 24, type := KDBUS_MSG_PAYLOAD, data := List.replicate 8 0 },
              { size := 40, type := KDBUS_MSG_PAYLOAD_VEC,
                vec := { address := 8192, size := 16, flags := 0 } }] }

/-- The kernel message `kdbus_kmsg_new_from_user` builds from
`sample_mixed_msg` for connection 3: the descriptor is inlined. -/
def sample_mixed_kmsg : kdbus_kmsg :=
  { msg := { sample_mixed_msg with src_id := 3 }, conn_src := some 3,
    vecs := some [{ size := 32, type := KDBUS_MSG_PAYLOAD, data := List.replicate 16 0 }],
    vecs_size := 32 }

/-- The items among a sequence of stores into the receiver's buffer, in the
order of the stores: payload items, the handle-array item and the records of
the metadata block. -/
def written_items : List user_write → List kdbus_item
  | [] => []
  | .item _ it _ :: rest => it :: written_items rest
  | .fds _ it _ :: rest => it :: written_items rest
  | .meta _ records _ :: rest => (records.map fun p => p.2) ++ written_items rest
  | _ :: rest => written_items rest

/-- The `size` member of the header in the receiver's buffer after a sequence
of stores, `d` being its value before them. -/
def written_size (d : Nat) : List user_write → Nat
  | [] => d
  | .size v :: rest => written_size v rest
  | _ :: rest => written_size d rest

/-- The message the receiver finds in its buffer after the stores of
`kdbus_kmsg_recv`: the header that was copied, with the `size` member as
stored last, followed by the items written. -/
def written_msg : List user_write → Option kdbus_msg
  | .header msg _ :: rest =>
    some { msg with size := written_size msg.size rest, items := written_items rest }
  | _ => none

/-- The offset behind items laid out from offset `pos`, as an exact
integer. -/
def exact_end : Nat → List kdbus_item → Nat
  | pos, [] => pos
  | pos, it :: rest => exact_end (pos + (it.size + 7) / 8 * 8) rest

/-- The items `kdbus_kmsg_recv` delivers for `kmsg` when it has no metadata:
the payload and, if the message has a handle array, the handle-array item
with the descriptors `fds`. -/
def delivered_stream (c : kdbus_consts) (kmsg : kdbus_kmsg) (fds : List Int) :
    List kdbus_item :=
  delivered_items (foreach_walk kmsg.msg.size kmsg.msg.items c.KDBUS_MSG_HEADER_SIZE)
    (kmsg.vecs.getD []) ++
  (if kmsg.fds.isSome then [fds_item c kmsg fds] else [])

/-- A message to peer 5 with one inline payload item as connection 1 has
built it. -/
def sample_peer_kmsg : kdbus_kmsg :=
  { msg := { (sample_kmsg 5 9 8).msg with src_id := 1 }, conn_src := some 1 }

/-- A user message to peer 5 whose only item is an inline payload item of
`n` data bytes; the item area has `pad` more bytes than the item takes. -/
def sample_payload_msg (n pad : Nat) : kdbus_msg :=
  { size := 64 + KDBUS_ALIGN8 (16 + n) + pad, dst_id := 5,
    items := [{ size := 16 + n, type := KDBUS_MSG_PAYLOAD, data := List.replicate n 0 }] }

/-- A user message to peer 5 with an inline payload item of 8 data bytes
followed by 24 bytes that begin with an item header declaring 4096 bytes. -/
def sample_overlong_msg : kdbus_msg :=
  { size := 64 + 24 + 24, dst_id := 5,
    items := [{ size := 24, type := KDBUS_MSG_PAYLOAD, data := List.replicate 8 0 },
              { size := 4096, type := KDBUS_MSG_PAYLOAD, data := List.replicate 8 0 }] }

/-- A message whose metadata buffer of 512 bytes is filled up to offset 504,
with a timestamp record at its start. -/
def sample_meta_kmsg : kdbus_kmsg :=
  { sample_peer_kmsg with
      meta := some [(0, { size := 32, type := KDBUS_MSG_TIMESTAMP, data := [1000, 2000] })],
      meta_size := 504, meta_allocated_size := 512 }

/-! ## `handle.c`: `handle_ep_ioctl_connected` -/

def ENOTTY : Int := 25
def EOVERFLOW : Int := 75
def ECONNRESET : Int := 104
def EOPNOTSUPP : Int := 95

/-- The commands `handle_ep_ioctl_connected` tells apart; every other ioctl
number is `other`. -/
inductive kdbus_cmd where
  | KDBUS_CMD_BYEBYE
  | KDBUS_CMD_NAME_ACQUIRE
  | KDBUS_CMD_NAME_RELEASE
  | KDBUS_CMD_NAME_LIST
  | KDBUS_CMD_CONN_INFO
  | KDBUS_CMD_BUS_CREATOR_INFO
  | KDBUS_CMD_CONN_UPDATE
  | KDBUS_CMD_MATCH_ADD
  | KDBUS_CMD_MATCH_REMOVE
  | KDBUS_CMD_SEND
  | KDBUS_CMD_RECV
  | KDBUS_CMD_FREE
  | other (code : Nat)
  deriving DecidableEq

/-- The members of the command structures that `handle_ep_ioctl_connected`
writes back with `kdbus_member_set_user`. -/
inductive user_member where
  | return_flags
  | offset
  | list_size
  | info_size
  | reply
  | dropped_msgs
  | msg
  deriving DecidableEq

/-- The calls `handle_ep_ioctl_connected` makes into other files, and `kfree`
with whether `free_ptr` was set.  The role tests `kdbus_conn_is_*` only read
the connection and are not listed. -/
inductive handle_call where
  | kdbus_conn_disconnect
  | kdbus_conn_acquire
  | kdbus_conn_release
  | kdbus_memdup_user
  | kdbus_member_set_user (member : user_member)
  | kdbus_negotiate_flags
  | kdbus_items_validate
  | kdbus_cmd_name_acquire
  | kdbus_cmd_name_release
  | kdbus_cmd_name_list
  | kdbus_cmd_conn_info
  | kdbus_cmd_bus_creator_info
  | kdbus_cmd_conn_update
  | kdbus_match_db_add
  | kdbus_match_db_remove
  | kdbus_kmsg_new_from_cmd
  | kdbus_cmd_msg_send
  | kdbus_kmsg_free
  | kdbus_cmd_msg_recv
  | kdbus_pool_release_offset
  | copy_to_user
  | kfree (free_ptr : Bool)
  deriving DecidableEq

/-- What the functions `handle_ep_ioctl_connected` calls answer for the
connection `handle->conn` and the argument `buf` of one ioctl:
* `kdbus_conn_is_ordinary`, `kdbus_conn_is_monitor`, `kdbus_conn_is_activator`,
  `kdbus_conn_is_policy_holder`: the role tests;
* `kdbus_memdup_user`, `kdbus_kmsg_new_from_cmd`: `some e` for `ERR_PTR(e)`,
  `none` for a valid pointer;
* `kdbus_member_set_user m`, `copy_to_user`: whether the call returns
  non-zero (a fault);
* `sync_reply`: whether `cmd_send->flags` has `KDBUS_SEND_SYNC_REPLY`;
* `free_items`: the number of items `KDBUS_ITEMS_FOREACH` visits in
  `cmd_free->items`;
* all others: the result code of the function of that name. -/
structure handle_env where
  kdbus_conn_is_ordinary : Bool := true
  kdbus_conn_is_monitor : Bool := false
  kdbus_conn_is_activator : Bool := false
  kdbus_conn_is_policy_holder : Bool := false
  kdbus_conn_disconnect : Int := 0
  kdbus_conn_acquire : Int := 0
  kdbus_memdup_user : Option Int := none
  kdbus_member_set_user : user_member → Bool := fun _ => false
  kdbus_negotiate_flags : Int := 0
  kdbus_items_validate : Int := 0
  kdbus_cmd_name_acquire : Int := 0
  kdbus_cmd_name_release : Int := 0
  kdbus_cmd_name_list : Int := 0
  kdbus_cmd_conn_info : Int := 0
  kdbus_cmd_bus_creator_info : Int := 0
  kdbus_cmd_conn_update : Int := 0
  kdbus_match_db_add : Int := 0
  kdbus_match_db_remove : Int := 0
  kdbus_kmsg_new_from_cmd : Option Int := none
  kdbus_cmd_msg_send : Int := 0
  kdbus_cmd_msg_recv : Int := 0
  kdbus_pool_release_offset : Int := 0
  copy_to_user : Bool := false
  sync_reply : Bool := false
  free_items : Nat := 0

/-- The local variables `ret` and `free_ptr` (whether it was set) at the end
of the `switch` of `handle_ep_ioctl_connected`, and the calls made inside
it. -/
structure switch_result where
  ret : Int
  free_ptr : Bool := false
  calls : List handle_call := []
  deriving DecidableEq

/-- A chain `kdbus_member_set_user(..) || kdbus_member_set_user(..) || ...`:
whether it is true, and the calls evaluated. -/
def member_set_any (env : handle_env) : List user_member → Bool × List handle_call
  | [] => (false, [])
  | m :: rest =>
    if env.kdbus_member_set_user m then (true, [.kdbus_member_set_user m])
    else ((member_set_any env rest).1, .kdbus_member_set_user m :: (member_set_any env rest).2)

/-- The steps most cases of the `switch` begin with, after their role test:
`kdbus_memdup_user` (which sets `free_ptr`), `kdbus_negotiate_flags`,
`kdbus_items_validate`; `.error` when one of them ends the case. -/
def ioctl_prepare (env : handle_env) : Except switch_result (List handle_call) :=
  match env.kdbus_memdup_user with
  | some e => .error { ret := e, calls := [.kdbus_memdup_user] }
  | none =>
    if env.kdbus_negotiate_flags < 0 then
      .error { ret := env.kdbus_negotiate_flags, free_ptr := true,
               calls := [.kdbus_memdup_user, .kdbus_negotiate_flags] }
    else if env.kdbus_items_validate < 0 then
      .error { ret := env.kdbus_items_validate, free_ptr := true,
               calls := [.kdbus_memdup_user, .kdbus_negotiate_flags, .kdbus_items_validate] }
    else .ok [.kdbus_memdup_user, .kdbus_negotiate_flags, .kdbus_items_validate]

/-- The end of a case that calls one function and then writes members back:
`ret = f(..); if (ret < 0) break; if (kdbus_member_set_user(..) || ..)
ret = -EFAULT;`. -/
def ioctl_finish (env : handle_env) (calls : List handle_call) (call : handle_call)
    (ret : Int) (members : List user_member) : switch_result :=
  if ret < 0 then { ret := ret, free_ptr := true, calls := calls ++ [call] }
  else
    { ret := if (member_set_any env members).1 then -EFAULT else ret, free_ptr := true,
      calls := calls ++ [call] ++ (member_set_any env members).2 }

/-- The cases `KDBUS_CMD_NAME_ACQUIRE` and `KDBUS_CMD_NAME_RELEASE`, which
write `return_flags` back before negotiating the flags. -/
def ioctl_name (env : handle_env) (acquire : Bool) : switch_result :=
  if !env.kdbus_conn_is_ordinary then { ret := -EOPNOTSUPP }
  else
    match env.kdbus_memdup_user with
    | some e => { ret := e, calls := [.kdbus_memdup_user] }
    | none =>
      let calls := [.kdbus_memdup_user, .kdbus_member_set_user .return_flags]
      if env.kdbus_member_set_user .return_flags then
        { ret := -EFAULT, free_ptr := true, calls := calls }
      else
        let calls := calls ++ [.kdbus_negotiate_flags]
        if env.kdbus_negotiate_flags < 0 then
          { ret := env.kdbus_negotiate_flags, free_ptr := true, calls := calls }
        else
          let calls := calls ++ [.kdbus_items_validate]
          if env.kdbus_items_validate < 0 then
            { ret := env.kdbus_items_validate, free_ptr := true, calls := calls }
          else if acquire then
            let calls := calls ++ [.kdbus_cmd_name_acquire]
            if env.kdbus_cmd_name_acquire < 0 then
              { ret := env.kdbus_cmd_name_acquire, free_ptr := true, calls := calls }
            -- return flags to the caller
            else
              { ret := if env.copy_to_user then -EFAULT else env.kdbus_cmd_name_acquire,
                free_ptr := true, calls := calls ++ [.copy_to_user] }
          else
            { ret := env.kdbus_cmd_name_release, free_ptr := true,
              calls := calls ++ [.kdbus_cmd_name_release] }

/-- The case `KDBUS_CMD_SEND` from `kdbus_kmsg_new_from_cmd` on; `calls` are
the calls made before. -/
def ioctl_send (env : handle_env) (calls : List handle_call) : switch_result :=
  match env.kdbus_kmsg_new_from_cmd with
  | some e => { ret := e, free_ptr := true, calls := calls ++ [.kdbus_kmsg_new_from_cmd] }
  | none =>
    let calls := calls ++ [.kdbus_kmsg_new_from_cmd, .kdbus_cmd_msg_send]
    if env.kdbus_cmd_msg_send < 0 then
      { ret := env.kdbus_cmd_msg_send, free_ptr := true, calls := calls ++ [.kdbus_kmsg_free] }
    else
      let ret := if env.kdbus_member_set_user .return_flags then -EFAULT
                 else env.kdbus_cmd_msg_send
      let calls := calls ++ [.kdbus_member_set_user .return_flags]
      -- store the reply back to userspace
      if env.sync_reply then
        { ret := if env.kdbus_member_set_user .reply then -EFAULT else ret, free_ptr := true,
          calls := calls ++ [.kdbus_member_set_user .reply, .kdbus_kmsg_free] }
      else { ret := ret, free_ptr := true, calls := calls ++ [.kdbus_kmsg_free] }

/-- The case `KDBUS_CMD_RECV` from `kdbus_cmd_msg_recv` on: in case of
`-EOVERFLOW` the number of lost messages is still written back. -/
def ioctl_recv (env : handle_env) (calls : List handle_call) : switch_result :=
  let ret := env.kdbus_cmd_msg_recv
  if ret < 0 ∧ ret ≠ -EOVERFLOW then
    { ret := ret, free_ptr := true, calls := calls ++ [.kdbus_cmd_msg_recv] }
  else
    let w := member_set_any env [.dropped_msgs, .msg, .return_flags]
    { ret := if w.1 then -EFAULT else ret, free_ptr := true,
      calls := calls ++ [.kdbus_cmd_msg_recv] ++ w.2 }

/-- The case `KDBUS_CMD_FREE` from the loop over the items on: no items are
supported so far. -/
def ioctl_free (env : handle_env) (calls : List handle_call) : switch_result :=
  if env.free_items > 0 then { ret := -EINVAL, free_ptr := true, calls := calls }
  else
    ioctl_finish env calls .kdbus_pool_release_offset env.kdbus_pool_release_offset
      [.return_flags]

/-- A case of the `switch` that starts with `ioctl_prepare` and goes on with
`body`. -/
def ioctl_prepared (env : handle_env) (body : List handle_call → switch_result) :
    switch_result :=
  match ioctl_prepare env with
  | .error r => r
  | .ok calls => body calls

/-- The `switch (cmd)` of `handle_ep_ioctl_connected`. -/
def ioctl_switch (env : handle_env) : kdbus_cmd → switch_result
  | .KDBUS_CMD_NAME_ACQUIRE => ioctl_name env true
  | .KDBUS_CMD_NAME_RELEASE => ioctl_name env false
  | .KDBUS_CMD_NAME_LIST =>
    ioctl_prepared env fun calls =>
      ioctl_finish env calls .kdbus_cmd_name_list env.kdbus_cmd_name_list
        [.offset, .list_size, .return_flags]
  | .KDBUS_CMD_CONN_INFO =>
    ioctl_prepared env fun calls =>
      ioctl_finish env calls .kdbus_cmd_conn_info env.kdbus_cmd_conn_info
        [.offset, .info_size, .return_flags]
  | .KDBUS_CMD_BUS_CREATOR_INFO =>
    ioctl_prepared env fun calls =>
      ioctl_finish env calls .kdbus_cmd_bus_creator_info env.kdbus_cmd_bus_creator_info
        [.offset, .info_size, .return_flags]
  | .KDBUS_CMD_CONN_UPDATE =>
    if !env.kdbus_conn_is_ordinary && !env.kdbus_conn_is_policy_holder &&
        !env.kdbus_conn_is_monitor then { ret := -EOPNOTSUPP }
    else
      ioctl_prepared env fun calls =>
        ioctl_finish env calls .kdbus_cmd_conn_update env.kdbus_cmd_conn_update [.return_flags]
  | .KDBUS_CMD_MATCH_ADD =>
    if !env.kdbus_conn_is_ordinary then { ret := -EOPNOTSUPP }
    else
      ioctl_prepared env fun calls =>
        ioctl_finish env calls .kdbus_match_db_add env.kdbus_match_db_add [.return_flags]
  | .KDBUS_CMD_MATCH_REMOVE =>
    if !env.kdbus_conn_is_ordinary then { ret := -EOPNOTSUPP }
    else
      ioctl_prepared env fun calls =>
        ioctl_finish env calls .kdbus_match_db_remove env.kdbus_match_db_remove [.return_flags]
  | .KDBUS_CMD_SEND =>
    if !env.kdbus_conn_is_ordinary then { ret := -EOPNOTSUPP }
    else ioctl_prepared env (ioctl_send env)
  | .KDBUS_CMD_RECV =>
    if !env.kdbus_conn_is_ordinary && !env.kdbus_conn_is_monitor &&
        !env.kdbus_conn_is_activator then { ret := -EOPNOTSUPP }
    else ioctl_prepared env (ioctl_recv env)
  | .KDBUS_CMD_FREE =>
    if !env.kdbus_conn_is_ordinary && !env.kdbus_conn_is_monitor &&
        !env.kdbus_conn_is_activator then { ret := -EOPNOTSUPP }
    else ioctl_prepared env (ioctl_free env)
  | _ => { ret := -ENOTTY }

/-- Function `handle_ep_ioctl_connected(file, cmd, buf)`: the result and the
calls made, in order. -/
def handle_ep_ioctl_connected (env : handle_env) (cmd : kdbus_cmd) : Int × List handle_call :=
  -- BYEBYE is special; we must not acquire a connection when calling into
  -- kdbus_conn_disconnect()
  if cmd = .KDBUS_CMD_BYEBYE then
    if !env.kdbus_conn_is_ordinary then (-EOPNOTSUPP, [])
    else (env.kdbus_conn_disconnect, [.kdbus_conn_disconnect])
  else if env.kdbus_conn_acquire < 0 then (env.kdbus_conn_acquire, [.kdbus_conn_acquire])
  else
    let r := ioctl_switch env cmd
    (r.ret, [.kdbus_conn_acquire] ++ r.calls ++ [.kdbus_conn_release, .kfree r.free_ptr])

/-- A connection of the monitor role for which every call succeeds. -/
def sample_monitor_env : handle_env :=
  { kdbus_conn_is_ordinary := false, kdbus_conn_is_monitor := true }

/-- A connection of the monitor role that cannot be acquired any more. -/
def sample_monitor_env_dead : handle_env :=
  { kdbus_conn_is_ordinary := false, kdbus_conn_is_monitor := true,
    kdbus_conn_acquire := -ECONNRESET }

/-- An ordinary connection that cannot be acquired any more. -/
def sample_env_dead : handle_env :=
  { kdbus_conn_acquire := -ECONNRESET }

/-- A user message of 104 bytes to peer 5 with two handle-array items of 24
bytes each: the first one, at offset 64, lies inside the message; of the
second one, at offset 88, only the item header does, its two descriptors
follow the end of the message. -/
def sample_unvalidated_fds_msg : kdbus_msg :=
  { size := 104, dst_id := 5,
    items := [{ size := 24, type := KDBUS_MSG_UNIX_FDS, fds := [0, 1] },
              { size := 24, type := KDBUS_MSG_UNIX_FDS, fds := [0, 0] }] }

/-- The number of handles `kdbus_copy_user_fds` takes from an item:
`(item->size - KDBUS_ITEM_HEADER_SIZE) / sizeof(int)` as an `unsigned int`. -/
def fds_item_count (c : kdbus_consts) (item : kdbus_item) : Nat :=
  u32 (u64 (item.size + 2 ^ 64 - c.KDBUS_ITEM_HEADER_SIZE) / sizeof_int)

/-- The handles of all handle arrays among a list of items. -/
def fds_slots (c : kdbus_consts) (l : List kdbus_item) : Nat :=
  ((l.filter fun it => decide (it.type = KDBUS_MSG_UNIX_FDS)).map (fds_item_count c)).sum

/-- The share of the metadata buffer in what `kdbus_kmsg_free` gives back. -/
def meta_share (kmsg : kdbus_kmsg) : Nat :=
  if kmsg.meta.isSome then kmsg.meta_allocated_size else 0

/-- Calls of `kdbus_kmsg_append` with the given sizes, one after the other on
the same message: the source connection and the message after the last call,
`none` if one of the calls fails. -/
def kmsg_append_run (c : kdbus_consts) (env : kdbus_env) :
    Option kdbus_conn → kdbus_kmsg → List Nat → Option (Option kdbus_conn × kdbus_kmsg)
  | src, kmsg, [] => some (src, kmsg)
  | src, kmsg, n :: ns =>
    match (kdbus_kmsg_append c env src kmsg n).item with
    | .ok _ =>
      kmsg_append_run c env (kdbus_kmsg_append c env src kmsg n).src
        (kdbus_kmsg_append c env src kmsg n).kmsg ns
    | .error _ => none

/-- The items `kdbus_kmsg_recv` delivers for `kmsg`: the payload and the
handle-array item (`delivered_stream`), followed by the records of the
metadata block if the message has one. -/
def delivered_all (c : kdbus_consts) (kmsg : kdbus_kmsg) (fds : List Int) : List kdbus_item :=
  delivered_stream c kmsg fds ++ (kmsg.meta.getD []).map fun p => p.2

/-- The size of the delivered message as an exact integer: the offset behind
the items of `delivered_stream`, and behind the 8-byte aligned metadata block
if the message has one. -/
def delivered_size (c : kdbus_consts) (kmsg : kdbus_kmsg) (fds : List Int) : Nat :=
  exact_end c.KDBUS_MSG_HEADER_SIZE (delivered_stream c kmsg fds) +
    (if kmsg.meta.isSome then (kmsg.meta_size + 7) / 8 * 8 else 0)

/-- The metadata records of `kmsg'` are those of `kmsg`, in place, followed
by the records appended since. -/
def meta_grown (kmsg kmsg' : kdbus_kmsg) : Prop :=
  ∃ added, kmsg'.meta.getD [] = kmsg.meta.getD [] ++ added

/-- A connection with the id and the receive queue of another. -/
def same_queue (conn conn' : kdbus_conn) : Prop :=
  conn'.id = conn.id ∧ conn'.msg_list = conn.msg_list

/-- A connection with the id of another and its receive queue, to which
`kmsg` may have been added at the tail. -/
def queued (kmsg : kdbus_kmsg) (conn conn' : kdbus_conn) : Prop :=
  conn'.id = conn.id ∧
  (conn'.msg_list = conn.msg_list ∨ conn'.msg_list = conn.msg_list ++ [kmsg])

/-- The broadcast `sample_broadcast_kmsg` as `kdbus_kmsg_send` queues it for
connection 1 under `sample_env`: with the timestamp record and the
credentials of the sender. -/
def sample_sent_broadcast_kmsg : kdbus_kmsg :=
  { sample_broadcast_kmsg with
    meta := some [(0, { size := 32, type := KDBUS_MSG_TIMESTAMP, data := [1000, 2000] }),
                  (32, { size := 56, type := KDBUS_MSG_SRC_CREDS, data := [] })],
    meta_size := 88, meta_allocated_size := 512 }

/-! # Theorems -/

/-! ## the receive queue -/

theorem enqueue_ok (c : kdbus_consts) (env : kdbus_env) (conn : kdbus_conn) (kmsg : kdbus_kmsg)
    (h : (kdbus_conn_enqueue_kmsg c env conn kmsg).2 = 0) :
    (kdbus_conn_enqueue_kmsg c env conn kmsg).1.msg_list = conn.msg_list ++ [kmsg] ∧
    (kdbus_conn_enqueue_kmsg c env conn kmsg).1.msg_count = conn.msg_count + 1 := by
  unfold kdbus_conn_enqueue_kmsg at h ⊢
  split_ifs at h ⊢ <;> simp_all [ENOTCONN, ECOMM, ENOMEM, EXFULL]


theorem recv_exit_unlock_fds_ret (conn : kdbus_conn) (kmsg : kdbus_kmsg) (rest : List kdbus_kmsg)
    (ret : Int) (fds : Option (List Int)) (w : List user_write)
    (inst : List (Int × Option Nat)) :
    (recv_exit_unlock_fds conn kmsg rest ret fds w inst).ret = ret := by
  unfold recv_exit_unlock_fds
  cases fds <;> rfl

theorem recv_set_size_ok (env : kdbus_env) (conn : kdbus_conn) (kmsg : kdbus_kmsg)
    (rest : List kdbus_kmsg) (fds : Option (List Int)) (pos : Nat) (w : List user_write)
    (inst : List (Int × Option Nat))
    (h : (recv_set_size env conn kmsg rest fds pos w inst).ret = 0) :
    (recv_set_size env conn kmsg rest fds pos w inst).conn.msg_list = rest ∧
    (recv_set_size env conn kmsg rest fds pos w inst).conn.msg_count = conn.msg_count - 1 ∧
    (recv_set_size env conn kmsg rest fds pos w inst).delivered = some kmsg := by
  unfold recv_set_size at h ⊢
  split_ifs at h ⊢
  · rw [recv_exit_unlock_fds_ret] at h; simp [EFAULT] at h
  · simp

theorem recv_append_meta_ok (env : kdbus_env) (conn : kdbus_conn) (kmsg : kdbus_kmsg)
    (rest : List kdbus_kmsg) (fds : Option (List Int)) (pos : Nat) (w : List user_write)
    (inst : List (Int × Option Nat))
    (h : (recv_append_meta env conn kmsg rest fds pos w inst).ret = 0) :
    (recv_append_meta env conn kmsg rest fds pos w inst).conn.msg_list = rest ∧
    (recv_append_meta env conn kmsg rest fds pos w inst).conn.msg_count = conn.msg_count - 1 ∧
    (recv_append_meta env conn kmsg rest fds pos w inst).delivered = some kmsg := by
  unfold recv_append_meta at h ⊢
  split at h
  · split_ifs at h ⊢
    · rw [recv_exit_unlock_fds_ret] at h; simp [EFAULT] at h
    · exact recv_set_size_ok _ _ _ _ _ _ _ _ h
  · exact recv_set_size_ok _ _ _ _ _ _ _ _ h

theorem recv_finish_ok (c : kdbus_consts) (env : kdbus_env) (conn : kdbus_conn)
    (kmsg : kdbus_kmsg) (rest : List kdbus_kmsg) (pos : Nat) (w : List user_write)
    (h : (recv_finish c env conn kmsg rest pos w).ret = 0) :
    (recv_finish c env conn kmsg rest pos w).conn.msg_list = rest ∧
    (recv_finish c env conn kmsg rest pos w).conn.msg_count = conn.msg_count - 1 ∧
    (recv_finish c env conn kmsg rest pos w).delivered = some kmsg := by
  unfold recv_finish at h ⊢
  split at h
  · dsimp only at h ⊢
    split_ifs at h ⊢ with h1 h2
    · rw [recv_exit_unlock_fds_ret] at h; omega
    · rw [recv_exit_unlock_fds_ret] at h; simp [EFAULT] at h
    · exact recv_append_meta_ok _ _ _ _ _ _ _ _ h
  · exact recv_append_meta_ok _ _ _ _ _ _ _ _ h


theorem recv_entry_ok (c : kdbus_consts) (env : kdbus_env) (conn : kdbus_conn)
    (kmsg : kdbus_kmsg) (rest : List kdbus_kmsg) (size : Nat) (r : recv_result)
    (hr : recv_entry c env conn kmsg rest size = some r) (h : r.ret = 0) :
    r.conn.msg_list = rest ∧ r.conn.msg_count = conn.msg_count - 1 ∧
      r.delivered = some kmsg := by
  unfold recv_entry at hr
  by_cases h1 : size < recv_max_size kmsg
  · rw [if_pos h1] at hr; cases hr; simp [ENOBUFS] at h
  · rw [if_neg h1] at hr
    by_cases h2 : (!env.copy_to_user 0 c.KDBUS_MSG_HEADER_SIZE) = true
    · rw [if_pos h2] at hr; cases hr; simp [EFAULT] at h
    · rw [if_neg h2] at hr
      split at hr
      · cases hr
      · rename_i e pos w _
        by_cases h3 : e < 0
        · rw [if_pos h3] at hr; cases hr; simp at h; omega
        · rw [if_neg h3] at hr; cases hr
          exact recv_finish_ok _ _ _ _ _ _ _ h

theorem kdbus_kmsg_recv_ok (c : kdbus_consts) (env : kdbus_env) (conn : kdbus_conn)
    (buf : Nat) (buf_size : Option Nat) (r : recv_result)
    (hr : kdbus_kmsg_recv c env conn buf buf_size = some r) (h : r.ret = 0) :
    ∃ kmsg, conn.msg_list = kmsg :: r.conn.msg_list ∧
      r.conn.msg_count = conn.msg_count - 1 ∧ r.delivered = some kmsg ∧
      conn.msg_count ≠ 0 := by
  unfold kdbus_kmsg_recv at hr
  split at hr
  · cases hr; simp [EFAULT] at h
  · split at hr
    · cases hr; simp [EFAULT] at h
    · split at hr
      · cases hr; simp [EAGAIN] at h
      · rename_i h2
        split at hr
        · cases hr
        · rename_i kmsg rest hl
          obtain ⟨a, b, d⟩ := recv_entry_ok _ _ _ _ _ _ _ hr h
          exact ⟨kmsg, by rw [a, hl], b, d, by simpa using h2⟩


theorem queue_run_inv (c : kdbus_consts) (ops : List queue_op) :
    ∀ (conn conn' : kdbus_conn) (enq del : List kdbus_kmsg),
      queue_run c conn ops = some (conn', enq, del) →
      conn.msg_list ++ enq = del ++ conn'.msg_list := by
  induction ops with
  | nil =>
    intro conn conn' enq del h
    simp only [queue_run, Option.some.injEq, Prod.mk.injEq] at h
    obtain ⟨rfl, rfl, rfl⟩ := h
    simp
  | cons op ops ih =>
    intro conn conn' enq del h
    cases op with
    | enqueue env kmsg =>
      simp only [queue_run] at h
      split_ifs at h with h0
      obtain ⟨hl, -⟩ := enqueue_ok c env conn kmsg h0
      split at h
      · rename_i conn2 enq2 del2 hq
        simp only [Option.some.injEq, Prod.mk.injEq] at h
        obtain ⟨rfl, rfl, rfl⟩ := h
        have := ih _ _ _ _ hq
        rw [hl] at this
        simpa using this
      · cases h
    | recv env buf buf_size =>
      simp only [queue_run] at h
      split at h
      · rename_i r hr
        split_ifs at h with h0
        obtain ⟨k, hl, -, hd, -⟩ := kdbus_kmsg_recv_ok c env conn buf buf_size r hr h0
        split at h
        · rename_i k2 conn2 enq2 del2 hk hq
          simp only [Option.some.injEq, Prod.mk.injEq] at h
          obtain ⟨rfl, rfl, rfl⟩ := h
          have := ih _ _ _ _ hq
          rw [hd] at hk
          cases hk
          rw [hl]
          simpa using this
        · cases h
      · cases h

/-- C1: on a connection whose queue starts empty, after any sequence of
successful `kdbus_conn_enqueue_kmsg` and successful `kdbus_kmsg_recv` calls the
messages delivered are, in order, the first messages enqueued: the `k`-th
successful receive delivers the `k`-th message enqueued, and what is left in
the queue is exactly the messages enqueued after those, in order. -/
theorem kdbus_queue_fifo (c : kdbus_consts) (conn conn' : kdbus_conn) (ops : List queue_op)
    (enq del : List kdbus_kmsg) (hempty : conn.msg_list = [])
    (hrun : queue_run c conn ops = some (conn', enq, del)) :
    enq = del ++ conn'.msg_list ∧
    (∀ k, k < del.length → del[k]? = enq[k]?) ∧
    conn'.msg_list = enq.drop del.length := by
  have h := queue_run_inv c ops conn conn' enq del hrun
  rw [hempty, List.nil_append] at h
  subst h
  refine ⟨rfl, ?_, by simp⟩
  intro k hk
  rw [List.getElem?_append_left hk]

theorem kdbus_queue_fifo_witness :
    queue_run sample_consts { id := 2 }
        [queue_op.enqueue sample_env (sample_kmsg 2 1 8),
         queue_op.enqueue sample_env (sample_kmsg 2 2 8),
         queue_op.recv sample_env 4096 (some 4096),
         queue_op.enqueue sample_env (sample_kmsg 2 3 8),
         queue_op.recv sample_env 4096 (some 4096)]
      = some ({ id := 2, msg_list := [sample_kmsg 2 3 8], msg_count := 1 },
              [sample_kmsg 2 1 8, sample_kmsg 2 2 8, sample_kmsg 2 3 8],
              [sample_kmsg 2 1 8, sample_kmsg 2 2 8]) ∧
    [sample_kmsg 2 1 8, sample_kmsg 2 2 8, sample_kmsg 2 3 8]
      = [sample_kmsg 2 1 8, sample_kmsg 2 2 8]
          ++ ({ id := 2, msg_list := [sample_kmsg 2 3 8], msg_count := 1 } : kdbus_conn).msg_list :=
  have hrun : queue_run sample_consts { id := 2 }
        [queue_op.enqueue sample_env (sample_kmsg 2 1 8),
         queue_op.enqueue sample_env (sample_kmsg 2 2 8),
         queue_op.recv sample_env 4096 (some 4096),
         queue_op.enqueue sample_env (sample_kmsg 2 3 8),
         queue_op.recv sample_env 4096 (some 4096)]
      = some ({ id := 2, msg_list := [sample_kmsg 2 3 8], msg_count := 1 },
              [sample_kmsg 2 1 8, sample_kmsg 2 2 8, sample_kmsg 2 3 8],
              [sample_kmsg 2 1 8, sample_kmsg 2 2 8]) := by decide
  ⟨hrun, (kdbus_queue_fifo sample_consts _ _ _ _ _ rfl hrun).1⟩

/-! ## C3: handles and receivers that do not accept them -/

/-- C3, as stated, fails: for a receiver that is not active and did not set
the accept-handles flag, a message with a handle array is turned away with
`-ENOTCONN`, not with `-ECOMM`. -/
theorem enqueue_fds_inactive_counterexample :
    (sample_kmsg_fds 2 1).fds.isSome = true ∧
    (({ id := 2, active := false } : kdbus_conn).flags &&&
        sample_consts.KDBUS_HELLO_ACCEPT_FD) = 0 ∧
    (kdbus_conn_enqueue_kmsg sample_consts sample_env { id := 2, active := false }
        (sample_kmsg_fds 2 1)).2 = -ENOTCONN ∧
    (kdbus_conn_enqueue_kmsg sample_consts sample_env { id := 2, active := false }
        (sample_kmsg_fds 2 1)).2 ≠ -ECOMM := by
  decide

/-- C3, amended: for every message that carries a handle array and every
receiver that did not set the accept-handles flag, `kdbus_conn_enqueue_kmsg`
fails and leaves the connection (so `msg_list` and `msg_count`) unchanged;
the result is `-ECOMM` when the receiver is active and `-ENOTCONN` when it
is not. -/
theorem enqueue_fds_not_accepted (c : kdbus_consts) (env : kdbus_env) (conn : kdbus_conn)
    (kmsg : kdbus_kmsg) (hfds : kmsg.fds.isSome = true)
    (hflag : (conn.flags &&& c.KDBUS_HELLO_ACCEPT_FD) = 0) :
    (kdbus_conn_enqueue_kmsg c env conn kmsg).1 = conn ∧
    (kdbus_conn_enqueue_kmsg c env conn kmsg).2 < 0 ∧
    (conn.active = true → (kdbus_conn_enqueue_kmsg c env conn kmsg).2 = -ECOMM) ∧
    (conn.active = false → (kdbus_conn_enqueue_kmsg c env conn kmsg).2 = -ENOTCONN) := by
  unfold kdbus_conn_enqueue_kmsg
  cases ha : conn.active <;> simp [hfds, hflag, ENOTCONN, ECOMM]

theorem enqueue_fds_not_accepted_witness :
    (kdbus_conn_enqueue_kmsg sample_consts sample_env { id := 2 } (sample_kmsg_fds 2 1)).1
      = { id := 2 } ∧
    (kdbus_conn_enqueue_kmsg sample_consts sample_env { id := 2 } (sample_kmsg_fds 2 1)).2
      = -ECOMM :=
  have h := enqueue_fds_not_accepted sample_consts sample_env { id := 2 }
    (sample_kmsg_fds 2 1) (by decide) (by decide)
  ⟨h.1, h.2.2.1 rfl⟩

/-! ## `kdbus_msg_scan_items`: what the validation loop records -/

theorem scan_item_vec_ok (c : kdbus_consts) (item : kdbus_item) (st st' : scan_state)
    (h : scan_item_vec c item st = .ok st') :
    st' = { st with
      num_vecs := st.num_vecs + 1,
      needs_vec := st.needs_vec || decide ((item.vec.flags &&& c.KDBUS_VEC_ALIGNED) ≠ 0),
      vecs_size := u64 (st.vecs_size + KDBUS_ALIGN8 item.vec.size) } ∧
    u64 (st.vecs_size + KDBUS_ALIGN8 item.vec.size) ≤ c.KDBUS_MSG_MAX_PAYLOAD_SIZE := by
  unfold scan_item_vec at h
  split_ifs at h with h1 h2 h3 h4
  simp only [Except.ok.injEq] at h
  exact ⟨h.symm, by omega⟩

theorem scan_item_fds_ok (c : kdbus_consts) (msg : kdbus_msg) (item : kdbus_item)
    (st st' : scan_state) (h : scan_item_fds c msg item st = .ok st') :
    st' = { st with has_fds := true,
                    num_fds := u32 ((item.size - c.KDBUS_ITEM_HEADER_SIZE) / sizeof_int) } ∧
    st.has_fds = false ∧ msg.dst_id ≠ c.KDBUS_DST_ID_BROADCAST ∧
    u32 ((item.size - c.KDBUS_ITEM_HEADER_SIZE) / sizeof_int) ≤ c.KDBUS_MSG_MAX_FDS := by
  unfold scan_item_fds at h
  split_ifs at h with h1 h2 h3
  simp only [Except.ok.injEq] at h
  exact ⟨h.symm, by simpa using h1, h2, by omega⟩

theorem scan_item_bloom_ok (c : kdbus_consts) (conn : kdbus_conn) (msg : kdbus_msg)
    (item : kdbus_item) (st st' : scan_state) (h : scan_item_bloom c conn msg item st = .ok st') :
    st' = { st with has_bloom := true } ∧ st.has_bloom = false ∧
    msg.dst_id = c.KDBUS_DST_ID_BROADCAST ∧
    (item.size - c.KDBUS_ITEM_HEADER_SIZE) % 8 = 0 ∧
    item.size - c.KDBUS_ITEM_HEADER_SIZE = conn.bloom_size := by
  unfold scan_item_bloom at h
  split_ifs at h with h1 h2 h3 h4
  simp only [Except.ok.injEq] at h
  refine ⟨h.symm, by simpa using h1, by simpa using h2, ?_, by simpa using h4⟩
  simpa [KDBUS_IS_ALIGNED8] using h3

theorem scan_item_name_ok (c : kdbus_consts) (env : kdbus_env) (item : kdbus_item)
    (st st' : scan_state) (h : scan_item_name c env item st = .ok st') :
    st' = { st with has_name := true } ∧ st.has_name = false := by
  unfold scan_item_name at h
  split_ifs at h with h1 h2 h3
  simp only [Except.ok.injEq] at h
  exact ⟨h.symm, by simpa using h1⟩

theorem scan_item_flags (c : kdbus_consts) (env : kdbus_env) (conn : kdbus_conn)
    (msg : kdbus_msg) (item : kdbus_item) (st st' : scan_state)
    (h : scan_item c env conn msg item st = .ok st') :
    st'.has_bloom = (st.has_bloom || decide (item.type = KDBUS_MSG_BLOOM)) ∧
    st'.has_name = (st.has_name || decide (item.type = KDBUS_MSG_DST_NAME)) ∧
    st'.has_fds = (st.has_fds || decide (item.type = KDBUS_MSG_UNIX_FDS)) ∧
    (item.type = KDBUS_MSG_BLOOM → st.has_bloom = false ∧
        msg.dst_id = c.KDBUS_DST_ID_BROADCAST) ∧
    (item.type = KDBUS_MSG_DST_NAME → st.has_name = false) ∧
    (item.type = KDBUS_MSG_UNIX_FDS → st.has_fds = false ∧
        msg.dst_id ≠ c.KDBUS_DST_ID_BROADCAST) := by
  unfold scan_item at h
  split_ifs at h with h1 h2
  dsimp only at h
  split at h
  · rename_i ht
    simp only [Except.ok.injEq] at h
    subst h; simp [ht]
  · rename_i ht
    obtain ⟨rfl, -⟩ := scan_item_vec_ok _ _ _ _ h
    simp [ht]
  · rename_i ht
    obtain ⟨rfl, h3, h4, -⟩ := scan_item_fds_ok _ _ _ _ _ h
    simp at h3
    simp [ht, h3, h4]
  · rename_i ht
    obtain ⟨rfl, h3, h4, -⟩ := scan_item_bloom_ok _ _ _ _ _ _ h
    simp at h3
    simp [ht, h3, h4]
  · rename_i ht
    obtain ⟨rfl, h3⟩ := scan_item_name_ok _ _ _ _ _ h
    simp at h3
    simp [ht, h3]
  · cases h

theorem count_type_cons (t : kdbus_item_type) (it : kdbus_item) (l : List kdbus_item) :
    count_type t (it :: l) = count_type t l + (if it.type = t then 1 else 0) := by
  unfold count_type
  rw [List.countP_cons]
  simp

theorem scan_loop_flags (c : kdbus_consts) (env : kdbus_env) (conn : kdbus_conn)
    (msg : kdbus_msg) (items : List kdbus_item) :
    ∀ (pos : Nat) (st st' : scan_state) (pos' : Nat),
      scan_loop c env conn msg items pos st = .ok (st', pos') →
      (st'.has_bloom =
        (st.has_bloom || decide (0 < count_type KDBUS_MSG_BLOOM (validate_walk c msg.size items pos)))) ∧
      (st'.has_name =
        (st.has_name || decide (0 < count_type KDBUS_MSG_DST_NAME (validate_walk c msg.size items pos)))) ∧
      (st'.has_fds =
        (st.has_fds || decide (0 < count_type KDBUS_MSG_UNIX_FDS (validate_walk c msg.size items pos)))) ∧
      count_type KDBUS_MSG_BLOOM (validate_walk c msg.size items pos)
        + (if st.has_bloom then 1 else 0) ≤ 1 ∧
      count_type KDBUS_MSG_DST_NAME (validate_walk c msg.size items pos)
        + (if st.has_name then 1 else 0) ≤ 1 ∧
      count_type KDBUS_MSG_UNIX_FDS (validate_walk c msg.size items pos)
        + (if st.has_fds then 1 else 0) ≤ 1 ∧
      (0 < count_type KDBUS_MSG_BLOOM (validate_walk c msg.size items pos) →
        msg.dst_id = c.KDBUS_DST_ID_BROADCAST) ∧
      (0 < count_type KDBUS_MSG_UNIX_FDS (validate_walk c msg.size items pos) →
        msg.dst_id ≠ c.KDBUS_DST_ID_BROADCAST) := by
  induction items with
  | nil =>
    intro pos st st' pos' h
    unfold scan_loop at h
    split_ifs at h
    simp only [Except.ok.injEq, Prod.mk.injEq] at h
    obtain ⟨rfl, rfl⟩ := h
    simp [validate_walk, count_type]
    refine ⟨?_, ?_, ?_⟩ <;> split <;> simp
  | cons item rest ih =>
    intro pos st st' pos' h
    unfold scan_loop at h
    by_cases hc : item_in_msg c msg.size pos item.size = true
    · rw [if_pos hc] at h
      split at h
      · cases h
      · rename_i st1 hi
        obtain ⟨hb, hn, hf, hB, hN, hF⟩ := scan_item_flags c env conn msg item st st1 hi
        obtain ⟨ib, inn, iff, cb, cn, cf, db, df⟩ := ih _ _ _ _ h
        rw [validate_walk, if_pos hc]
        simp only [count_type_cons]
        rw [hb] at ib cb
        rw [hn] at inn cn
        rw [hf] at iff cf
        by_cases tb : item.type = KDBUS_MSG_BLOOM
        · have tn : item.type ≠ KDBUS_MSG_DST_NAME := by rw [tb]; decide
          have tf : item.type ≠ KDBUS_MSG_UNIX_FDS := by rw [tb]; decide
          obtain ⟨h1, h2⟩ := hB tb
          simp only [tb, tn, tf, h1] at *
          simp_all
        · by_cases tn : item.type = KDBUS_MSG_DST_NAME
          · have tf : item.type ≠ KDBUS_MSG_UNIX_FDS := by rw [tn]; decide
            have h1 := hN tn
            simp only [tb, tn, tf, h1] at *
            simp_all
          · by_cases tf : item.type = KDBUS_MSG_UNIX_FDS
            · obtain ⟨h1, h2⟩ := hF tf
              simp only [tb, tn, tf, h1] at *
              simp_all
            · simp only [tb, tn, tf] at *
              simp_all
    · rw [if_neg hc] at h
      simp only [Except.ok.injEq, Prod.mk.injEq] at h
      obtain ⟨rfl, rfl⟩ := h
      rw [validate_walk, if_neg hc]
      simp [count_type]
      refine ⟨?_, ?_, ?_⟩ <;> split <;> simp

theorem scan_item_error_neg (c : kdbus_consts) (env : kdbus_env) (conn : kdbus_conn)
    (msg : kdbus_msg) (item : kdbus_item) (st : scan_state) (e : Int)
    (h : scan_item c env conn msg item st = .error e) : e < 0 := by
  unfold scan_item at h
  split_ifs at h with h1 h2
  · cases h; decide
  · cases h; decide
  · dsimp only at h
    split at h
    · cases h
    · unfold scan_item_vec at h
      split_ifs at h <;> cases h <;> decide
    · unfold scan_item_fds at h
      split_ifs at h <;> cases h <;> decide
    · unfold scan_item_bloom at h
      split_ifs at h <;> cases h <;> decide
    · unfold scan_item_name at h
      split_ifs at h <;> cases h <;> decide
    · cases h; decide

theorem scan_loop_error_neg (c : kdbus_consts) (env : kdbus_env) (conn : kdbus_conn)
    (msg : kdbus_msg) (items : List kdbus_item) :
    ∀ (pos : Nat) (st : scan_state) (e : Int),
      scan_loop c env conn msg items pos st = .error e → e < 0 := by
  induction items with
  | nil =>
    intro pos st e h
    unfold scan_loop at h
    split_ifs at h
    cases h; decide
  | cons item rest ih =>
    intro pos st e h
    unfold scan_loop at h
    split_ifs at h
    split at h
    · rename_i e1 he
      cases h
      exact scan_item_error_neg _ _ _ _ _ _ _ he
    · exact ih _ _ _ h

theorem scan_checks_le (c : kdbus_consts) (msg : kdbus_msg) (st : scan_state) (pos : Nat) :
    scan_checks c msg st pos ≤ 0 := by
  unfold scan_checks
  split_ifs <;> decide

theorem add_size_allocation_le (c : kdbus_consts) (conn : kdbus_conn) (size : Nat) :
    (kdbus_conn_add_size_allocation c conn size).2 ≤ 0 := by
  unfold kdbus_conn_add_size_allocation
  split_ifs <;> simp [EXFULL]

theorem scan_alloc_fds_le (c : kdbus_consts) (env : kdbus_env) (conn : kdbus_conn)
    (kmsg : kdbus_kmsg) (st : scan_state) : (scan_alloc_fds c env conn kmsg st).2.2 ≤ 0 := by
  unfold scan_alloc_fds
  dsimp only
  split_ifs <;> first | exact add_size_allocation_le _ _ _ | simp [ENOMEM]

theorem scan_alloc_vecs_le (c : kdbus_consts) (env : kdbus_env) (conn : kdbus_conn)
    (kmsg : kdbus_kmsg) (st : scan_state) : (scan_alloc_vecs c env conn kmsg st).2.2 ≤ 0 := by
  unfold scan_alloc_vecs
  dsimp only
  split_ifs <;> first | exact add_size_allocation_le _ _ _ | simp [ENOMEM]

/-- The result code of `kdbus_msg_scan_items` is 0 or negative. -/
theorem scan_items_le (c : kdbus_consts) (env : kdbus_env) (conn : kdbus_conn)
    (kmsg : kdbus_kmsg) : (kdbus_msg_scan_items c env conn kmsg).2.2 ≤ 0 := by
  unfold kdbus_msg_scan_items
  split
  · rename_i e he
    exact le_of_lt (scan_loop_error_neg _ _ _ _ _ _ _ _ he)
  · dsimp only
    split_ifs
    · exact scan_checks_le _ _ _ _
    · exact scan_alloc_fds_le _ _ _ _ _
    · exact scan_alloc_vecs_le _ _ _ _ _

/-- What an accepting run of `kdbus_msg_scan_items` went through. -/
theorem scan_items_accept (c : kdbus_consts) (env : kdbus_env) (conn : kdbus_conn)
    (kmsg : kdbus_kmsg) (h : 0 ≤ (kdbus_msg_scan_items c env conn kmsg).2.2) :
    ∃ st pos,
      scan_loop c env conn kmsg.msg kmsg.msg.items c.KDBUS_MSG_HEADER_SIZE {} = .ok (st, pos) ∧
      ¬ scan_checks c kmsg.msg st pos < 0 ∧
      ¬ (scan_alloc_fds c env conn kmsg st).2.2 < 0 ∧
      kdbus_msg_scan_items c env conn kmsg =
        scan_alloc_vecs c env (scan_alloc_fds c env conn kmsg st).1
          (scan_alloc_fds c env conn kmsg st).2.1 st := by
  unfold kdbus_msg_scan_items at h ⊢
  split at h
  · rename_i e he
    have := scan_loop_error_neg _ _ _ _ _ _ _ _ he
    simp only at h
    omega
  · rename_i st pos hl
    refine ⟨st, pos, hl, ?_⟩
    dsimp only at h ⊢
    split_ifs at h ⊢ with h1 h2
    · exact absurd h1 (by simpa using h)
    · exact absurd h2 (by simpa using h)
    · exact ⟨h1, h2, rfl⟩

theorem KDBUS_ALIGN8_le (x : Nat) : KDBUS_ALIGN8 x ≤ x + 7 := by
  unfold KDBUS_ALIGN8 u64
  have h1 : (x + 7) % 2 ^ 64 ≤ x + 7 := Nat.mod_le _ _
  have h2 : (x + 7) % 2 ^ 64 / 8 * 8 ≤ (x + 7) % 2 ^ 64 := Nat.div_mul_le_self _ _
  omega

theorem scan_loop_pos (c : kdbus_consts) (env : kdbus_env) (conn : kdbus_conn)
    (msg : kdbus_msg) (items : List kdbus_item) :
    ∀ (pos : Nat) (st st' : scan_state) (pos' : Nat),
      scan_loop c env conn msg items pos st = .ok (st', pos') →
      pos ≤ msg.size + 7 → pos' ≤ msg.size + 7 := by
  induction items with
  | nil =>
    intro pos st st' pos' h hp
    unfold scan_loop at h
    split_ifs at h
    simp only [Except.ok.injEq, Prod.mk.injEq] at h
    omega
  | cons item rest ih =>
    intro pos st st' pos' h hp
    unfold scan_loop at h
    by_cases hc : item_in_msg c msg.size pos item.size = true
    · rw [if_pos hc] at h
      split at h
      · cases h
      · refine ih _ _ _ _ h ?_
        have := KDBUS_ALIGN8_le item.size
        simp only [item_in_msg, Bool.and_eq_true, decide_eq_true_eq] at hc
        omega
    · rw [if_neg hc] at h
      simp only [Except.ok.injEq, Prod.mk.injEq] at h
      omega

/-- C8 fails on the code: a message whose only external payload descriptor
has `size = 2^64 - 1` is accepted by `kdbus_msg_scan_items` (the 8-byte
alignment of the size wraps to 0 in 64 bits, so `vecs_size` stays 0), though
the exact sum of its descriptor sizes is above `KDBUS_MSG_MAX_PAYLOAD_SIZE`. -/
theorem scan_items_payload_sum_overflow :
    (kdbus_msg_scan_items sample_consts sample_env { id := 1 }
        { msg := sample_vec_msg 4096 (2 ^ 64 - 1) 0 }).2.2 = 0 ∧
    vecs_exact_sum (msg_items sample_consts (sample_vec_msg 4096 (2 ^ 64 - 1) 0))
      = 2 ^ 64 - 1 ∧
    sample_consts.KDBUS_MSG_MAX_PAYLOAD_SIZE
      < vecs_exact_sum (msg_items sample_consts (sample_vec_msg 4096 (2 ^ 64 - 1) 0)) := by
  decide

theorem scan_item_vecs (c : kdbus_consts) (env : kdbus_env) (conn : kdbus_conn)
    (msg : kdbus_msg) (item : kdbus_item) (st st' : scan_state)
    (h : scan_item c env conn msg item st = .ok st') :
    (item.type = KDBUS_MSG_PAYLOAD_VEC →
      st'.num_vecs = st.num_vecs + 1 ∧
      st'.needs_vec = (st.needs_vec || decide ((item.vec.flags &&& c.KDBUS_VEC_ALIGNED) ≠ 0)) ∧
      st'.vecs_size = u64 (st.vecs_size + KDBUS_ALIGN8 item.vec.size) ∧
      st'.vecs_size ≤ c.KDBUS_MSG_MAX_PAYLOAD_SIZE) ∧
    (item.type ≠ KDBUS_MSG_PAYLOAD_VEC →
      st'.num_vecs = st.num_vecs ∧ st'.needs_vec = st.needs_vec ∧
      st'.vecs_size = st.vecs_size) := by
  unfold scan_item at h
  split_ifs at h with h1 h2
  dsimp only at h
  split at h
  · rename_i ht
    simp only [Except.ok.injEq] at h
    subst h; simp [ht]
  · rename_i ht
    obtain ⟨rfl, hle⟩ := scan_item_vec_ok _ _ _ _ h
    simp [ht, hle]
  · rename_i ht
    obtain ⟨rfl, -⟩ := scan_item_fds_ok _ _ _ _ _ h
    simp [ht]
  · rename_i ht
    obtain ⟨rfl, -⟩ := scan_item_bloom_ok _ _ _ _ _ _ h
    simp [ht]
  · rename_i ht
    obtain ⟨rfl, -⟩ := scan_item_name_ok _ _ _ _ _ h
    simp [ht]
  · cases h

theorem KDBUS_ALIGN8_mod (x : Nat) : KDBUS_ALIGN8 x % 8 = 0 := by
  unfold KDBUS_ALIGN8
  exact Nat.mul_mod_left _ _

theorem vec_items_cons (it : kdbus_item) (l : List kdbus_item) :
    vec_items (it :: l) =
      if it.type = KDBUS_MSG_PAYLOAD_VEC then it :: vec_items l else vec_items l := by
  unfold vec_items
  rw [List.filter_cons]
  simp

theorem scan_loop_vecs (c : kdbus_consts) (env : kdbus_env) (conn : kdbus_conn)
    (msg : kdbus_msg) (hmax : c.KDBUS_MSG_MAX_PAYLOAD_SIZE < 2 ^ 63) (items : List kdbus_item) :
    ∀ (pos : Nat) (st st' : scan_state) (pos' : Nat),
      scan_loop c env conn msg items pos st = .ok (st', pos') →
      (∀ it ∈ validate_walk c msg.size items pos,
        it.type = KDBUS_MSG_PAYLOAD_VEC → it.vec.size < 2 ^ 63) →
      st.vecs_size ≤ c.KDBUS_MSG_MAX_PAYLOAD_SIZE →
      st'.num_vecs = st.num_vecs + (vec_items (validate_walk c msg.size items pos)).length ∧
      st'.needs_vec = (st.needs_vec || any_vec_aligned c (validate_walk c msg.size items pos)) ∧
      st'.vecs_size = st.vecs_size + vecs_aligned_sum (validate_walk c msg.size items pos) ∧
      st'.vecs_size ≤ c.KDBUS_MSG_MAX_PAYLOAD_SIZE := by
  induction items with
  | nil =>
    intro pos st st' pos' h _ hst
    unfold scan_loop at h
    split_ifs at h
    simp only [Except.ok.injEq, Prod.mk.injEq] at h
    obtain ⟨rfl, rfl⟩ := h
    simp [validate_walk, vec_items, any_vec_aligned, vecs_aligned_sum, hst]
  | cons item rest ih =>
    intro pos st st' pos' h hv hst
    unfold scan_loop at h
    by_cases hc : item_in_msg c msg.size pos item.size = true
    · rw [if_pos hc] at h
      rw [validate_walk, if_pos hc] at hv ⊢
      split at h
      · cases h
      · rename_i st1 hi
        obtain ⟨hV, hN⟩ := scan_item_vecs c env conn msg item st st1 hi
        by_cases ht : item.type = KDBUS_MSG_PAYLOAD_VEC
        · obtain ⟨a1, a2, a3, a4⟩ := hV ht
          have hsz := hv item (List.mem_cons_self _ _) ht
          have hal := KDBUS_ALIGN8_le item.vec.size
          have hmod := KDBUS_ALIGN8_mod item.vec.size
          have hnw : u64 (st.vecs_size + KDBUS_ALIGN8 item.vec.size)
              = st.vecs_size + KDBUS_ALIGN8 item.vec.size := by
            unfold u64
            apply Nat.mod_eq_of_lt
            omega
          obtain ⟨b1, b2, b3, b4⟩ := ih _ _ _ _ h
            (fun it hit => hv it (List.mem_cons_of_mem _ hit)) a4
          refine ⟨?_, ?_, ?_, b4⟩
          · rw [b1, a1, vec_items_cons, if_pos ht]
            simp only [List.length_cons]
            omega
          · rw [b2, a2]
            unfold any_vec_aligned
            rw [vec_items_cons, if_pos ht, List.any_cons, Bool.or_assoc]
          · rw [b3, a3, hnw]
            unfold vecs_aligned_sum
            rw [vec_items_cons, if_pos ht, List.map_cons, List.sum_cons]
            omega
        · obtain ⟨a1, a2, a3⟩ := hN ht
          obtain ⟨b1, b2, b3, b4⟩ := ih _ _ _ _ h
            (fun it hit => hv it (List.mem_cons_of_mem _ hit)) (by omega)
          refine ⟨?_, ?_, ?_, b4⟩
          · rw [b1, a1, vec_items_cons, if_neg ht]
          · rw [b2, a2]
            unfold any_vec_aligned
            rw [vec_items_cons, if_neg ht]
          · rw [b3, a3]
            unfold vecs_aligned_sum
            rw [vec_items_cons, if_neg ht]
    · rw [if_neg hc] at h
      simp only [Except.ok.injEq, Prod.mk.injEq] at h
      obtain ⟨rfl, rfl⟩ := h
      rw [validate_walk, if_neg hc]
      simp [vec_items, any_vec_aligned, vecs_aligned_sum, hst]

theorem scan_alloc_fds_keeps (c : kdbus_consts) (env : kdbus_env) (conn : kdbus_conn)
    (kmsg : kdbus_kmsg) (st : scan_state) :
    (scan_alloc_fds c env conn kmsg st).2.1.vecs = kmsg.vecs ∧
    (scan_alloc_fds c env conn kmsg st).2.1.msg = kmsg.msg ∧
    (scan_alloc_fds c env conn kmsg st).2.1.conn_src = kmsg.conn_src := by
  unfold scan_alloc_fds
  dsimp only
  split_ifs <;> simp

theorem scan_alloc_vecs_isSome (c : kdbus_consts) (env : kdbus_env) (conn : kdbus_conn)
    (kmsg : kdbus_kmsg) (st : scan_state) (hnone : kmsg.vecs = none)
    (h : 0 ≤ (scan_alloc_vecs c env conn kmsg st).2.2) :
    ((scan_alloc_vecs c env conn kmsg st).2.1.vecs.isSome = true ↔
      scan_inline_cond c kmsg.msg st = true) := by
  unfold scan_alloc_vecs at h ⊢
  dsimp only at h ⊢
  split_ifs at h ⊢ with h1 h2 h3
  · simp only at h; omega
  · simp [ENOMEM] at h
  · simp [h1]
  · simp [h1, hnone]

/-- C9, as stated, fails: this accepted message has one descriptor, not
flagged page-aligned, and its descriptor sizes plus the message header size
(64 + 65464) are below `KDBUS_MSG_MAX_INLINE_SIZE` (65536), yet inlining is
not selected (`kmsg->vecs` stays NULL): the code adds the size of the whole
message, 104, not that of the header. -/
theorem scan_items_inline_header_counterexample :
    (kdbus_msg_scan_items sample_consts sample_env { id := 1 }
        { msg := sample_vec_msg 4096 65464 0 }).2.2 = 0 ∧
    (vec_items (msg_items sample_consts (sample_vec_msg 4096 65464 0))).length = 1 ∧
    any_vec_aligned sample_consts (msg_items sample_consts (sample_vec_msg 4096 65464 0))
      = false ∧
    sample_consts.KDBUS_MSG_HEADER_SIZE
        + vecs_exact_sum (msg_items sample_consts (sample_vec_msg 4096 65464 0))
      < sample_consts.KDBUS_MSG_MAX_INLINE_SIZE ∧
    (kdbus_msg_scan_items sample_consts sample_env { id := 1 }
        { msg := sample_vec_msg 4096 65464 0 }).2.1.vecs = none := by
  decide

/-- C9, amended: for every message that `kdbus_msg_scan_items` accepts and
that has at least one external payload descriptor (sizes below `2^63`, so
that no 64-bit sum wraps), inlining is selected (`kmsg->vecs` is allocated)
if and only if no descriptor is flagged page-aligned and the sum of the
8-byte aligned descriptor sizes plus `msg->size`, the size of the whole
message, is below `KDBUS_MSG_MAX_INLINE_SIZE`. -/
theorem scan_items_inline_iff (c : kdbus_consts) (env : kdbus_env) (conn : kdbus_conn)
    (msg : kdbus_msg) (hmax : c.KDBUS_MSG_MAX_PAYLOAD_SIZE < 2 ^ 63) (hsize : msg.size < 2 ^ 63)
    (hvec : ∀ it ∈ msg_items c msg, it.type = KDBUS_MSG_PAYLOAD_VEC → it.vec.size < 2 ^ 63)
    (hacc : 0 ≤ (kdbus_msg_scan_items c env conn { msg := msg }).2.2)
    (hone : 0 < (vec_items (msg_items c msg)).length) :
    ((kdbus_msg_scan_items c env conn { msg := msg }).2.1.vecs.isSome = true ↔
      any_vec_aligned c (msg_items c msg) = false ∧
      msg.size + vecs_aligned_sum (msg_items c msg) < c.KDBUS_MSG_MAX_INLINE_SIZE) := by
  obtain ⟨st, pos, hl, -, -, heq⟩ := scan_items_accept c env conn { msg := msg } hacc
  obtain ⟨b1, b2, b3, b4⟩ := scan_loop_vecs c env conn msg hmax _ _ _ _ _ hl hvec (by simp)
  obtain ⟨k1, k2, -⟩ := scan_alloc_fds_keeps c env conn { msg := msg } st
  rw [heq] at hacc ⊢
  rw [scan_alloc_vecs_isSome c env _ _ st k1 hacc, k2]
  simp only [Nat.zero_add, Bool.false_or] at b1 b2 b3
  have hw : validate_walk c msg.size msg.items c.KDBUS_MSG_HEADER_SIZE = msg_items c msg := rfl
  rw [hw] at b1 b2 b3
  have hnw : u64 (msg.size + st.vecs_size) = msg.size + st.vecs_size := by
    unfold u64
    apply Nat.mod_eq_of_lt
    omega
  unfold scan_inline_cond
  rw [hnw, b1, b2, b3]
  simp only [Bool.and_eq_true, decide_eq_true_eq, Bool.not_eq_true']
  constructor
  · rintro ⟨⟨-, h2⟩, h3⟩
    exact ⟨h2, h3⟩
  · rintro ⟨h2, h3⟩
    exact ⟨⟨hone, h2⟩, h3⟩

theorem scan_items_inline_iff_witness :
    (kdbus_msg_scan_items sample_consts sample_env { id := 1 }
        { msg := sample_vec_msg 4096 100 0 }).2.1.vecs.isSome = true ∧
    any_vec_aligned sample_consts (msg_items sample_consts (sample_vec_msg 4096 100 0))
      = false ∧
    (sample_vec_msg 4096 100 0).size
        + vecs_aligned_sum (msg_items sample_consts (sample_vec_msg 4096 100 0))
      < sample_consts.KDBUS_MSG_MAX_INLINE_SIZE :=
  have h := scan_items_inline_iff sample_consts sample_env { id := 1 }
    (sample_vec_msg 4096 100 0) (by decide) (by decide) (by decide) (by decide) (by decide)
  ⟨by decide, h.1 (by decide)⟩

/-! ## C5: the unwind loop of `kdbus_copy_user_fds` -/

/-- The unwind loop of `kdbus_copy_user_fds` is never left: its condition
`i >= 0` on an unsigned counter always holds. -/
theorem copy_user_fds_unwind_none (fuel : Nat) :
    ∀ (i : Nat) (fds_fp puts : List (Option Nat)),
      copy_user_fds_unwind fuel i fds_fp puts = none := by
  induction fuel with
  | zero => intro i fds_fp puts; rfl
  | succ n ih =>
    intro i fds_fp puts
    unfold copy_user_fds_unwind
    rw [if_pos (Nat.zero_le i)]
    exact ih _ _ _

/-- Whenever `kdbus_copy_user_fds` returns, it returns 0 and has touched only
the borrowed-file array and its count. -/
theorem copy_user_fds_some (c : kdbus_consts) (env : kdbus_env) (fuel : Nat)
    (kmsg k : kdbus_kmsg) (item : kdbus_item) (ret : Int) (puts : List (Option Nat))
    (h : kdbus_copy_user_fds c env fuel kmsg item = some (k, ret, puts)) :
    ret = 0 ∧ puts = [] ∧ k.vecs = kmsg.vecs ∧ k.msg = kmsg.msg ∧ k.conn_src = kmsg.conn_src := by
  unfold kdbus_copy_user_fds at h
  split at h
  · cases h
  · dsimp only at h
    split at h
    · simp only [Option.some.injEq, Prod.mk.injEq] at h
      obtain ⟨rfl, rfl, rfl⟩ := h
      simp
    · rw [copy_user_fds_unwind_none] at h
      cases h

/-- C5 fails on the code: for the handle array `[3, -1]`, whose handle at
index 1 is the first that cannot be borrowed, `kdbus_copy_user_fds` does not
return `-EBADF`: whatever number of rounds its unwind loop is given, it is
still running. -/
theorem copy_user_fds_unwind_never_returns (fuel : Nat) :
    sample_env.fget 3 = some 3 ∧ sample_env.fget (-1) = none ∧
    kdbus_copy_user_fds sample_consts sample_env fuel
      (sample_kmsg_scanned_fds 5 [3, -1]) (sample_fds_item [3, -1]) = none := by
  refine ⟨by decide, by decide, ?_⟩
  unfold kdbus_copy_user_fds
  have h : copy_user_fds_loop sample_env (sample_fds_item [3, -1])
      (u32 (u64 ((sample_fds_item [3, -1]).size + 2 ^ 64
        - sample_consts.KDBUS_ITEM_HEADER_SIZE) / sizeof_int)) 0 [none, none] 0
      = .error (1, [some 3, none], 1) := by rfl
  simp only [sample_kmsg_scanned_fds, List.length_cons, List.length_nil, List.replicate]
  rw [h]
  simp only [copy_user_fds_unwind_none]

/-! ## C4: quota unwinding of `kdbus_kmsg_new_from_user` -/

/-- C4 fails on the code: for a message that `kdbus_msg_scan_items` rejects
(here with `-ENOTSUPP`), `kdbus_kmsg_new_from_user` fails after its first
quota increment and leaves the source connection's counter at the
incremented value (104 + 128 bytes), not at the value before the call (0):
`kmsg->conn_src` is still NULL when `kdbus_kmsg_free` is to subtract. -/
theorem new_from_user_quota_leak (fuel : Nat) :
    kdbus_kmsg_new_from_user sample_consts sample_env fuel { id := 1 }
        (sample_buf sample_unknown_item_msg)
      = some { ret := -ENOTSUPP, conn := { id := 1, allocated_size := 232 } } ∧
    ({ id := 1, allocated_size := 232 } : kdbus_conn).allocated_size
      ≠ ({ id := 1 } : kdbus_conn).allocated_size := by
  constructor
  · rfl
  · decide

/-! ## C10: descriptors that are not inlined -/

theorem scan_item_size (c : kdbus_consts) (env : kdbus_env) (conn : kdbus_conn)
    (msg : kdbus_msg) (item : kdbus_item) (st st' : scan_state)
    (h : scan_item c env conn msg item st = .ok st') : c.KDBUS_ITEM_HEADER_SIZE < item.size := by
  unfold scan_item at h
  split_ifs at h with h1 h2
  omega

theorem scan_loop_sizes (c : kdbus_consts) (env : kdbus_env) (conn : kdbus_conn)
    (msg : kdbus_msg) (items : List kdbus_item) :
    ∀ (pos : Nat) (st st' : scan_state) (pos' : Nat),
      scan_loop c env conn msg items pos st = .ok (st', pos') →
      ∀ it ∈ validate_walk c msg.size items pos, c.KDBUS_ITEM_HEADER_SIZE < it.size := by
  induction items with
  | nil =>
    intro pos st st' pos' _ it hit
    simp [validate_walk] at hit
  | cons item rest ih =>
    intro pos st st' pos' h it hit
    unfold scan_loop at h
    by_cases hc : item_in_msg c msg.size pos item.size = true
    · rw [if_pos hc] at h
      rw [validate_walk, if_pos hc] at hit
      split at h
      · cases h
      · rename_i st1 hi
        rcases List.mem_cons.mp hit with rfl | hmem
        · exact scan_item_size _ _ _ _ _ _ _ hi
        · exact ih _ _ _ _ h it hmem
    · rw [validate_walk, if_neg hc] at hit
      simp at hit

theorem KDBUS_ALIGN8_pos (x : Nat) (h0 : 0 < x) (h1 : x ≤ 2 ^ 64 - 8) : KDBUS_ALIGN8 x ≠ 0 := by
  unfold KDBUS_ALIGN8 u64
  rw [Nat.mod_eq_of_lt (by omega)]
  omega

theorem new_exit_free_ret (c : kdbus_consts) (conn : kdbus_conn) (kmsg : kdbus_kmsg) (ret : Int)
    (puts : List (Option Nat)) :
    (new_exit_free c conn kmsg ret puts).ret = ret ∧
    (new_exit_free c conn kmsg ret puts).kmsg = none := by
  unfold new_exit_free
  simp

/-- The item loop of `kdbus_kmsg_new_from_user` on a message without inline
buffer whose items contain a descriptor: whenever it returns, it returns
`-ENOSYS` and no message; it does return when no handle array is among the
items. -/
theorem new_from_user_loop_enosys (c : kdbus_consts) (env : kdbus_env) (fuel : Nat)
    (conn : kdbus_conn) (items : List kdbus_item) :
    ∀ (ipos : Nat) (kmsg : kdbus_kmsg),
      kmsg.vecs = none → kmsg.msg.size ≤ 2 ^ 64 - 8 →
      (∀ it ∈ validate_walk c kmsg.msg.size items ipos, 0 < it.size) →
      0 < (vec_items (validate_walk c kmsg.msg.size items ipos)).length →
      (∀ r, new_from_user_loop c env fuel conn items ipos kmsg = some r →
        r.ret = -ENOSYS ∧ r.kmsg = none) ∧
      (count_type KDBUS_MSG_UNIX_FDS (validate_walk c kmsg.msg.size items ipos) = 0 →
        (new_from_user_loop c env fuel conn items ipos kmsg).isSome = true) := by
  induction items with
  | nil =>
    intro ipos kmsg _ _ _ hv
    simp [validate_walk, vec_items] at hv
  | cons item rest ih =>
    intro ipos kmsg hnone hsz hpos hv
    by_cases hc : item_in_msg c kmsg.msg.size ipos item.size = true
    · rw [validate_walk, if_pos hc] at hpos hv ⊢
      have hsize := hpos item (List.mem_cons_self _ _)
      have hin := hc
      simp only [item_in_msg, Bool.and_eq_true, decide_eq_true_eq] at hin
      have hlt : ipos < kmsg.msg.size := by omega
      have hal : KDBUS_ALIGN8 item.size ≠ 0 := KDBUS_ALIGN8_pos _ hsize (by omega)
      have hpos' : ∀ it ∈ validate_walk c kmsg.msg.size rest (ipos + KDBUS_ALIGN8 item.size),
          0 < it.size := fun it hit => hpos it (List.mem_cons_of_mem _ hit)
      have hlt' : foreach_in_msg kmsg.msg.size ipos = true := by
        simp [foreach_in_msg, hlt]
      unfold new_from_user_loop
      rw [if_pos hlt']
      by_cases tv : item.type = KDBUS_MSG_PAYLOAD_VEC
      · simp only [tv, hnone]
        refine ⟨?_, fun _ => rfl⟩
        intro r hr
        simp only [Option.some.injEq] at hr
        subst hr
        exact new_exit_free_ret _ _ _ _ _
      · rw [vec_items_cons, if_neg tv] at hv
        by_cases tf : item.type = KDBUS_MSG_UNIX_FDS
        · simp only [tf]
          constructor
          · intro r hr
            split at hr
            · cases hr
            · rename_i k ret puts hk
              obtain ⟨rfl, -, kv, km, -⟩ := copy_user_fds_some c env fuel kmsg k item ret puts hk
              rw [if_neg (by decide), if_neg hal] at hr
              rw [← km] at hsz hpos' hv
              exact (ih _ k (by rw [kv, hnone]) hsz hpos' hv).1 r hr
          · intro hcnt
            rw [count_type_cons, if_pos tf] at hcnt
            omega
        · have hstep : ∀ r, (match item.type with
              | KDBUS_MSG_PAYLOAD_VEC =>
                match kmsg.vecs with
                | none => some (new_exit_free c conn kmsg (-ENOSYS) [])
                | some vecs =>
                  match kdbus_inline_user_vec c env item with
                  | .error e => some (new_exit_free c conn kmsg e [])
                  | .ok next =>
                    if KDBUS_ALIGN8 item.size = 0 then none
                    else new_from_user_loop c env fuel conn rest (ipos + KDBUS_ALIGN8 item.size)
                           { kmsg with vecs := some (vecs ++ [next]) }
              | KDBUS_MSG_UNIX_FDS =>
                match kdbus_copy_user_fds c env fuel kmsg item with
                | none => none
                | some (kmsg, ret, puts) =>
                  if ret < 0 then some (new_exit_free c conn kmsg ret puts)
                  else if KDBUS_ALIGN8 item.size = 0 then none
                  else new_from_user_loop c env fuel conn rest (ipos + KDBUS_ALIGN8 item.size) kmsg
              | _ =>
                if KDBUS_ALIGN8 item.size = 0 then none
                else new_from_user_loop c env fuel conn rest (ipos + KDBUS_ALIGN8 item.size) kmsg)
              = r →
              new_from_user_loop c env fuel conn rest (ipos + KDBUS_ALIGN8 item.size) kmsg = r := by
            intro r hr
            split at hr
            · exact absurd (by assumption) tv
            · exact absurd (by assumption) tf
            · rw [if_neg hal] at hr; exact hr
          rw [← hstep _ rfl]
          obtain ⟨i1, i2⟩ := ih _ kmsg hnone hsz hpos' hv
          refine ⟨i1, ?_⟩
          intro hcnt
          rw [count_type_cons, if_neg tf] at hcnt
          exact i2 hcnt
    · rw [validate_walk, if_neg hc] at hv
      simp [vec_items] at hv

theorem scan_alloc_vecs_keeps (c : kdbus_consts) (env : kdbus_env) (conn : kdbus_conn)
    (kmsg : kdbus_kmsg) (st : scan_state) :
    (scan_alloc_vecs c env conn kmsg st).2.1.msg = kmsg.msg ∧
    (scan_alloc_vecs c env conn kmsg st).2.1.conn_src = kmsg.conn_src := by
  unfold scan_alloc_vecs
  dsimp only
  split_ifs <;> simp

/-- The function `kdbus_msg_scan_items` leaves the message itself and `conn_src`
as they are. -/
theorem scan_items_keeps (c : kdbus_consts) (env : kdbus_env) (conn : kdbus_conn)
    (kmsg : kdbus_kmsg) :
    (kdbus_msg_scan_items c env conn kmsg).2.1.msg = kmsg.msg ∧
    (kdbus_msg_scan_items c env conn kmsg).2.1.conn_src = kmsg.conn_src := by
  unfold kdbus_msg_scan_items
  split
  · simp
  · dsimp only
    split_ifs
    · simp
    · exact ⟨(scan_alloc_fds_keeps _ _ _ _ _).2.1, (scan_alloc_fds_keeps _ _ _ _ _).2.2⟩
    · obtain ⟨a, b⟩ := scan_alloc_vecs_keeps c env (scan_alloc_fds c env conn kmsg _).1
        (scan_alloc_fds c env conn kmsg _).2.1 _
      rw [a, b]
      exact ⟨(scan_alloc_fds_keeps _ _ _ _ _).2.1, (scan_alloc_fds_keeps _ _ _ _ _).2.2⟩

/-- C10, as stated, fails: this message with one page-aligned descriptor is
accepted by `kdbus_msg_scan_items` without an inline buffer, and
`kdbus_kmsg_new_from_user` does not succeed on it: it returns `-ENOSYS` and
builds no message. -/
theorem new_from_user_aligned_vec_counterexample :
    (kdbus_msg_scan_items sample_consts sample_env { id := 1, allocated_size := 232 }
        { msg := sample_vec_msg 4096 4096 1 }).2.2 = 0 ∧
    (kdbus_msg_scan_items sample_consts sample_env { id := 1, allocated_size := 232 }
        { msg := sample_vec_msg 4096 4096 1 }).2.1.vecs = none ∧
    (kdbus_kmsg_new_from_user sample_consts sample_env 0 { id := 1 }
        (sample_buf (sample_vec_msg 4096 4096 1))).map (fun r => (r.ret, r.kmsg))
      = some (-ENOSYS, none) := by
  refine ⟨by decide, by decide, by rfl⟩

/-- C10, amended: for a message that `kdbus_msg_scan_items` accepts, that has
an external payload descriptor among its items and for which inlining was
not selected (`kmsg->vecs` is NULL), `kdbus_kmsg_new_from_user` never
succeeds and builds no message: once the call has got as far as the
validation, whenever it returns it returns `-ENOSYS`, and it does return
when the message has no handle array.  No descriptor is retained. -/
theorem new_from_user_vec_not_inlined (c : kdbus_consts) (env : kdbus_env) (fuel : Nat)
    (conn : kdbus_conn) (buf : user_buf) (size : Nat) (msg : kdbus_msg)
    (hsize : buf.size = some size) (hmsg : buf.msg = some msg)
    (hlen : msg.size ≤ 2 ^ 64 - 8)
    (hacc : 0 ≤ (kdbus_msg_scan_items c env
      (kdbus_conn_add_size_allocation c conn (u64 (size + c.KDBUS_KMSG_HEADER_SIZE))).1
      { msg := msg }).2.2)
    (hnone : (kdbus_msg_scan_items c env
      (kdbus_conn_add_size_allocation c conn (u64 (size + c.KDBUS_KMSG_HEADER_SIZE))).1
      { msg := msg }).2.1.vecs = none)
    (hone : 0 < (vec_items (msg_items c msg)).length) :
    (∀ r, kdbus_kmsg_new_from_user c env fuel conn buf = some r →
      r.ret < 0 ∧ r.kmsg = none ∧
      (KDBUS_IS_ALIGNED8 buf.addr = true → c.sizeof_kdbus_msg ≤ size →
        size ≤ c.KDBUS_MSG_MAX_SIZE →
        env.kmalloc alloc_site.kmsg (u64 (size + c.KDBUS_KMSG_HEADER_SIZE)) = true →
        0 ≤ (kdbus_conn_add_size_allocation c conn
              (u64 (size + c.KDBUS_KMSG_HEADER_SIZE))).2 →
        r.ret = -ENOSYS)) ∧
    (KDBUS_IS_ALIGNED8 buf.addr = true → c.sizeof_kdbus_msg ≤ size →
      size ≤ c.KDBUS_MSG_MAX_SIZE →
      env.kmalloc alloc_site.kmsg (u64 (size + c.KDBUS_KMSG_HEADER_SIZE)) = true →
      0 ≤ (kdbus_conn_add_size_allocation c conn (u64 (size + c.KDBUS_KMSG_HEADER_SIZE))).2 →
      count_type KDBUS_MSG_UNIX_FDS (msg_items c msg) = 0 →
      (kdbus_kmsg_new_from_user c env fuel conn buf).isSome = true) := by
  obtain ⟨st, pos, hl, -, -, -⟩ := scan_items_accept c env _ { msg := msg } hacc
  have hsizes := scan_loop_sizes c env _ msg _ _ _ _ _ hl
  obtain ⟨km, -⟩ := scan_items_keeps c env
    (kdbus_conn_add_size_allocation c conn (u64 (size + c.KDBUS_KMSG_HEADER_SIZE))).1
    { msg := msg }
  have hloop := new_from_user_loop_enosys c env fuel
    (kdbus_msg_scan_items c env
      (kdbus_conn_add_size_allocation c conn (u64 (size + c.KDBUS_KMSG_HEADER_SIZE))).1
      { msg := msg }).1 msg.items c.KDBUS_MSG_HEADER_SIZE
    { (kdbus_msg_scan_items c env
        (kdbus_conn_add_size_allocation c conn (u64 (size + c.KDBUS_KMSG_HEADER_SIZE))).1
        { msg := msg }).2.1 with
      msg := { (kdbus_msg_scan_items c env
        (kdbus_conn_add_size_allocation c conn (u64 (size + c.KDBUS_KMSG_HEADER_SIZE))).1
        { msg := msg }).2.1.msg with src_id := conn.id },
      conn_src := some conn.id }
    hnone (by rw [km]; exact hlen)
    (by rw [km]; intro it hit; exact lt_of_le_of_lt (Nat.zero_le _) (hsizes it hit))
    (by rw [km]; exact hone)
  rw [km] at hloop
  have hnotneg : ¬ (kdbus_msg_scan_items c env
      (kdbus_conn_add_size_allocation c conn (u64 (size + c.KDBUS_KMSG_HEADER_SIZE))).1
      { msg := msg }).2.2 < 0 := by omega
  unfold kdbus_kmsg_new_from_user
  by_cases h1 : (!KDBUS_IS_ALIGNED8 buf.addr) = true
  · rw [if_pos h1]
    constructor
    · intro r hr
      cases hr
      refine ⟨by simp [EFAULT], rfl, ?_⟩
      intro ha
      rw [ha] at h1
      cases h1
    · intro ha
      rw [ha] at h1
      cases h1
  · rw [if_neg h1, hsize]
    dsimp only
    by_cases h2 : size < c.sizeof_kdbus_msg ∨ size > c.KDBUS_MSG_MAX_SIZE
    · rw [if_pos h2]
      constructor
      · intro r hr
        cases hr
        refine ⟨by simp [EMSGSIZE], rfl, ?_⟩
        intro _ hb hc
        omega
      · intro _ hb hc
        omega
    · rw [if_neg h2]
      by_cases h3 : (!env.kmalloc alloc_site.kmsg (u64 (size + c.KDBUS_KMSG_HEADER_SIZE))) = true
      · rw [if_pos h3]
        constructor
        · intro r hr
          cases hr
          refine ⟨by simp [ENOMEM], rfl, ?_⟩
          intro _ _ _ hk
          rw [hk] at h3
          cases h3
        · intro _ _ _ hk
          rw [hk] at h3
          cases h3
      · rw [if_neg h3]
        by_cases h4 : (kdbus_conn_add_size_allocation c conn
            (u64 (size + c.KDBUS_KMSG_HEADER_SIZE))).2 < 0
        · rw [if_pos h4]
          constructor
          · intro r hr
            cases hr
            refine ⟨h4, rfl, ?_⟩
            intro _ _ _ _ hq
            omega
          · intro _ _ _ _ hq
            omega
        · rw [if_neg h4, hmsg]
          dsimp only
          rw [if_neg hnotneg, km]
          constructor
          · intro r hr
            obtain ⟨a, b⟩ := hloop.1 r hr
            refine ⟨by rw [a]; decide, b, fun _ _ _ _ _ => a⟩
          · intro _ _ _ _ _ hcnt
            exact hloop.2 hcnt

theorem new_from_user_vec_not_inlined_witness :
    (kdbus_kmsg_new_from_user sample_consts sample_env 0 { id := 1 }
        (sample_buf (sample_vec_msg 4096 4096 1))).map (fun r => (r.ret, r.kmsg))
      = some (-ENOSYS, none) := by
  have h := new_from_user_vec_not_inlined sample_consts sample_env 0 { id := 1 }
    (sample_buf (sample_vec_msg 4096 4096 1)) 104 (sample_vec_msg 4096 4096 1)
    rfl rfl (by decide) (by decide) (by decide) (by decide)
  have hs := h.2 (by decide) (by decide) (by decide) (by decide) (by decide) (by decide)
  obtain ⟨r, hr⟩ := Option.isSome_iff_exists.mp hs
  obtain ⟨-, hk, hret⟩ := h.1 r hr
  rw [hr, Option.map_some', hk,
    hret (by decide) (by decide) (by decide) (by decide) (by decide)]

/-! ## C2: the broadcast fan-out of `kdbus_kmsg_send` -/

theorem enqueue_cases (c : kdbus_consts) (env : kdbus_env) (conn : kdbus_conn)
    (kmsg : kdbus_kmsg) :
    ((kdbus_conn_enqueue_kmsg c env conn kmsg).2 < 0 ∧
      (kdbus_conn_enqueue_kmsg c env conn kmsg).1 = conn) ∨
    ((kdbus_conn_enqueue_kmsg c env conn kmsg).2 = 0 ∧ conn.active = true ∧
      (kdbus_conn_enqueue_kmsg c env conn kmsg).1 =
        { conn with msg_list := conn.msg_list ++ [kmsg], msg_count := conn.msg_count + 1 }) := by
  unfold kdbus_conn_enqueue_kmsg
  split_ifs with h1 h2 h3 h4
  · left; simp [ENOTCONN]
  · left; simp [ECOMM]
  · left; simp [ENOMEM]
  · left; simp [EXFULL]
  · right; simpa using h1

theorem send_broadcast_loop_spec (c : kdbus_consts) (env : kdbus_env) (ep_id : Nat)
    (conn_src : Option kdbus_conn) (kmsg : kdbus_kmsg) (conns : List kdbus_conn) :
    List.Forall₂
      (fun d conn' => conn' = d ∨
        (broadcast_wants env ep_id conn_src kmsg d ∧
          conn' = { d with msg_list := d.msg_list ++ [kmsg], msg_count := d.msg_count + 1 }))
      conns (send_broadcast_loop c env ep_id conn_src kmsg conns).1 := by
  induction conns with
  | nil => simp [send_broadcast_loop]
  | cons d rest ih =>
    unfold send_broadcast_loop
    dsimp only
    split_ifs with h1 h2
    · exact List.Forall₂.cons (Or.inl rfl) ih
    · rcases enqueue_cases c env d kmsg with ⟨-, he⟩ | ⟨h0, -, -⟩
      · refine List.Forall₂.cons (Or.inl he) ?_
        exact List.forall₂_same.mpr (fun x _ => Or.inl rfl)
      · omega
    · rcases enqueue_cases c env d kmsg with ⟨hlt, -⟩ | ⟨-, ha, he⟩
      · exact absurd hlt h2
      · refine List.Forall₂.cons (Or.inr ⟨?_, he⟩) ih
        simp only [not_or, not_not, Bool.and_eq_true, Bool.not_eq_true', not_and,
          Bool.not_eq_false] at h1
        obtain ⟨a1, a2, a3, a4, a5⟩ := h1
        refine ⟨a1, a2, a3, ha, ?_⟩
        by_cases hm : d.monitor = true
        · exact Or.inl hm
        · exact Or.inr (a5 (by simpa using hm))

theorem charged_refl (src : Option kdbus_conn) : charged src src := by
  unfold charged
  cases src with
  | none => rfl
  | some y => exact ⟨y.allocated_size, rfl⟩

theorem charged_trans (a b d : Option kdbus_conn) (h1 : charged a b) (h2 : charged b d) :
    charged a d := by
  unfold charged at *
  cases a with
  | none => subst h1; exact h2
  | some y =>
    obtain ⟨x, rfl⟩ := h1
    obtain ⟨z, rfl⟩ := h2
    exact ⟨z, rfl⟩

theorem add_size_allocation_src_charged (c : kdbus_consts) (src : Option kdbus_conn)
    (size : Nat) : charged src (add_size_allocation_src c src size).1 := by
  unfold add_size_allocation_src charged kdbus_conn_add_size_allocation
  cases src with
  | none => rfl
  | some y =>
    dsimp only
    split_ifs
    · exact ⟨y.allocated_size, rfl⟩
    · exact ⟨_, rfl⟩

theorem kmsg_append_insert_charged (c : kdbus_consts) (env : kdbus_env)
    (src : Option kdbus_conn) (kmsg : kdbus_kmsg) (extra_size : Nat) :
    charged src (kmsg_append_insert c env src kmsg extra_size).src := by
  unfold kmsg_append_insert
  dsimp only
  split_ifs
  · exact add_size_allocation_src_charged _ _ _
  · exact add_size_allocation_src_charged _ _ _
  · exact add_size_allocation_src_charged _ _ _
  · exact charged_refl _

theorem kdbus_kmsg_append_charged (c : kdbus_consts) (env : kdbus_env)
    (src : Option kdbus_conn) (kmsg : kdbus_kmsg) (extra_size : Nat) :
    charged src (kdbus_kmsg_append c env src kmsg extra_size).src := by
  unfold kdbus_kmsg_append
  split
  · dsimp only
    split_ifs
    · exact add_size_allocation_src_charged _ _ _
    · exact add_size_allocation_src_charged _ _ _
    · exact charged_trans _ _ _ (add_size_allocation_src_charged _ _ _)
        (kmsg_append_insert_charged _ _ _ _ _)
  · exact kmsg_append_insert_charged _ _ _ _ _

theorem kmsg_append_item_charged (c : kdbus_consts) (env : kdbus_env)
    (src : Option kdbus_conn) (kmsg : kdbus_kmsg) (extra_size : Nat) (item : kdbus_item) :
    charged src (kmsg_append_item c env src kmsg extra_size item).1 := by
  unfold kmsg_append_item
  dsimp only
  split <;> exact kdbus_kmsg_append_charged _ _ _ _ _

theorem kdbus_kmsg_append_data_charged (c : kdbus_consts) (env : kdbus_env)
    (src : Option kdbus_conn) (kmsg : kdbus_kmsg) (type : kdbus_item_type) (buf : List Nat)
    (len : Nat) : charged src (kdbus_kmsg_append_data c env src kmsg type buf len).1 := by
  unfold kdbus_kmsg_append_data
  split_ifs
  · exact charged_refl _
  · exact kmsg_append_item_charged _ _ _ _ _ _

theorem and_then_charged (src : Option kdbus_conn)
    (r : Option kdbus_conn × kdbus_kmsg × Int)
    (k : Option kdbus_conn → kdbus_kmsg → Option kdbus_conn × kdbus_kmsg × Int)
    (h1 : charged src r.1) (h2 : ∀ s km, charged s (k s km).1) :
    charged src (and_then r k).1 := by
  unfold and_then
  split_ifs
  · exact h1
  · exact charged_trans _ _ _ h1 (h2 _ _)

theorem send_augment_charged (c : kdbus_consts) (env : kdbus_env) (conn_src : Option kdbus_conn)
    (src : Option kdbus_conn) (kmsg : kdbus_kmsg) :
    charged src (send_augment c env conn_src src kmsg).1 := by
  unfold send_augment
  apply and_then_charged
  · exact kmsg_append_item_charged _ _ _ _ _ _
  · intro s km
    cases conn_src with
    | none => exact charged_refl _
    | some cs =>
      dsimp only
      apply and_then_charged
      · unfold kdbus_kmsg_append_src_names
        dsimp only
        split_ifs
        · exact charged_refl _
        · exact kmsg_append_item_charged _ _ _ _ _ _
      · intro s2 km2
        exact kmsg_append_item_charged _ _ _ _ _ _

theorem conn_find_some (conns : List kdbus_conn) (id : Option Nat) (y : kdbus_conn)
    (h : conn_find conns id = some y) : y ∈ conns ∧ id = some y.id := by
  unfold conn_find at h
  cases id with
  | none => cases h
  | some i =>
    dsimp only at h
    have h1 := List.find?_some h
    exact ⟨List.mem_of_find?_eq_some h, by simp at h1; rw [h1]⟩

/-- Storing back a connection that was found by its id and only charged
leaves every connection of a bus with distinct ids as it was, up to its byte
counter. -/
theorem conn_put_charged (conns : List kdbus_conn) (id : Option Nat) (src' : Option kdbus_conn)
    (hids : (conns.map fun x => x.id).Nodup) (h : charged (conn_find conns id) src') :
    List.Forall₂ (fun y d => ∃ a, d = { y with allocated_size := a })
      conns (conn_put conns src') := by
  unfold conn_put
  cases hs : src' with
  | none => exact List.forall₂_same.mpr (fun y _ => ⟨y.allocated_size, rfl⟩)
  | some x =>
    dsimp only
    rw [List.forall₂_map_right_iff]
    apply List.forall₂_same.mpr
    intro y hy
    split_ifs with hxy
    · unfold charged at h
      cases hf : conn_find conns id with
      | none => rw [hf, hs] at h; cases h
      | some y0 =>
        rw [hf, hs] at h
        obtain ⟨a, ha⟩ := h
        obtain ⟨hm, -⟩ := conn_find_some conns id y0 hf
        have hx : x = { y0 with allocated_size := a } := Option.some.inj ha
        have hid : y.id = y0.id := by rw [hxy, hx]
        have : y = y0 := List.inj_on_of_nodup_map hids hy hm hid
        exact ⟨a, by rw [hx, this]⟩
    · exact ⟨y.allocated_size, rfl⟩

theorem kmsg_append_insert_msg (c : kdbus_consts) (env : kdbus_env)
    (src : Option kdbus_conn) (kmsg : kdbus_kmsg) (extra_size : Nat) :
    (kmsg_append_insert c env src kmsg extra_size).kmsg.msg = kmsg.msg := by
  unfold kmsg_append_insert
  dsimp only
  split_ifs <;> rfl

theorem kdbus_kmsg_append_msg (c : kdbus_consts) (env : kdbus_env)
    (src : Option kdbus_conn) (kmsg : kdbus_kmsg) (extra_size : Nat) :
    (kdbus_kmsg_append c env src kmsg extra_size).kmsg.msg = kmsg.msg := by
  unfold kdbus_kmsg_append
  split
  · dsimp only
    split_ifs
    · rfl
    · rfl
    · rw [kmsg_append_insert_msg]
  · exact kmsg_append_insert_msg _ _ _ _ _

theorem kmsg_append_item_msg (c : kdbus_consts) (env : kdbus_env)
    (src : Option kdbus_conn) (kmsg : kdbus_kmsg) (extra_size : Nat) (item : kdbus_item) :
    (kmsg_append_item c env src kmsg extra_size item).2.1.msg = kmsg.msg := by
  unfold kmsg_append_item
  dsimp only
  split <;> exact kdbus_kmsg_append_msg _ _ _ _ _

theorem and_then_msg (msg : kdbus_msg) (r : Option kdbus_conn × kdbus_kmsg × Int)
    (k : Option kdbus_conn → kdbus_kmsg → Option kdbus_conn × kdbus_kmsg × Int)
    (h1 : r.2.1.msg = msg) (h2 : ∀ s km, (k s km).2.1.msg = km.msg) :
    (and_then r k).2.1.msg = msg := by
  unfold and_then
  split_ifs
  · exact h1
  · rw [h2, h1]

theorem send_augment_msg (c : kdbus_consts) (env : kdbus_env) (conn_src : Option kdbus_conn)
    (src : Option kdbus_conn) (kmsg : kdbus_kmsg) :
    (send_augment c env conn_src src kmsg).2.1.msg = kmsg.msg := by
  unfold send_augment
  apply and_then_msg
  · exact kmsg_append_item_msg _ _ _ _ _ _
  · intro s km
    cases conn_src with
    | none => rfl
    | some cs =>
      dsimp only
      apply and_then_msg
      · unfold kdbus_kmsg_append_src_names
        dsimp only
        split_ifs
        · rfl
        · exact kmsg_append_item_msg _ _ _ _ _ _
      · intro s2 km2
        exact kmsg_append_item_msg _ _ _ _ _ _

theorem forall₂_chain {α : Type} (R S : α → α → Prop) :
    ∀ (a b d : List α), List.Forall₂ R a b → List.Forall₂ S b d →
      List.Forall₂ (fun x z => ∃ y, R x y ∧ S y z) a d := by
  intro a b d h1
  induction h1 generalizing d with
  | nil =>
    intro h2
    cases h2
    exact List.Forall₂.nil
  | cons hxy _ ih =>
    intro h2
    cases h2 with
    | cons hyz htl => exact List.Forall₂.cons ⟨_, hxy, hyz⟩ (ih _ htl)

/-- C2: for a broadcast (distinct sentinels, distinct connection ids)
`kdbus_kmsg_send` returns, and every connection of the bus ends up either as
it was when the fan-out began (that is, as before the call up to the byte
counter of the charged sender), or with the message appended to `msg_list`
and `msg_count` one higher; the second only if it is on the endpoint, is an
endpoint connection, is active, is not the connection named as source of the
message, and is a monitor or has its match database accept the message.  In
particular a connection that is no monitor and whose match database rejects
the message keeps `msg_list` and `msg_count`. -/
theorem kmsg_send_broadcast (c : kdbus_consts) (env : kdbus_env) (ep : kdbus_ep)
    (conns : List kdbus_conn) (conn_src : Option Nat) (kmsg : kdbus_kmsg)
    (hdst : kmsg.msg.dst_id = c.KDBUS_DST_ID_BROADCAST)
    (hsent : c.KDBUS_DST_ID_WELL_KNOWN_NAME ≠ c.KDBUS_DST_ID_BROADCAST)
    (hids : (conns.map fun x => x.id).Nodup) :
    ∃ r, kdbus_kmsg_send c env ep conns conn_src kmsg = some r ∧
      r.kmsg = send_kmsg c env conns conn_src kmsg ∧
      List.Forall₂
        (fun conn conn' => ∃ d, (∃ a, d = { conn with allocated_size := a }) ∧
          (conn' = d ∨
            (broadcast_wants env ep.id (conn_find (send_conns c env conns conn_src kmsg) conn_src)
                r.kmsg d ∧
              conn' = { d with msg_list := d.msg_list ++ [r.kmsg],
                               msg_count := d.msg_count + 1 })) ∧
          (d.monitor = false →
            env.kdbus_match_db_match_kmsg d.match_db
              (conn_find (send_conns c env conns conn_src kmsg) conn_src) d r.kmsg = false →
            conn'.msg_list = conn.msg_list ∧ conn'.msg_count = conn.msg_count))
        conns r.conns := by
  have h1 := conn_put_charged conns kmsg.conn_src _ hids
    (send_augment_charged c env (conn_find conns conn_src) (conn_find conns kmsg.conn_src) kmsg)
  have hm := send_augment_msg c env (conn_find conns conn_src) (conn_find conns kmsg.conn_src) kmsg
  have hfin : ∀ (l : List kdbus_conn),
      List.Forall₂ (fun d conn' => conn' = d ∨
        (broadcast_wants env ep.id (conn_find (send_conns c env conns conn_src kmsg) conn_src)
            (send_kmsg c env conns conn_src kmsg) d ∧
          conn' = { d with msg_list := d.msg_list ++ [send_kmsg c env conns conn_src kmsg],
                           msg_count := d.msg_count + 1 }))
        (send_conns c env conns conn_src kmsg) l →
      List.Forall₂
        (fun conn conn' => ∃ d, (∃ a, d = { conn with allocated_size := a }) ∧
          (conn' = d ∨
            (broadcast_wants env ep.id (conn_find (send_conns c env conns conn_src kmsg) conn_src)
                (send_kmsg c env conns conn_src kmsg) d ∧
              conn' = { d with msg_list := d.msg_list ++ [send_kmsg c env conns conn_src kmsg],
                               msg_count := d.msg_count + 1 })) ∧
          (d.monitor = false →
            env.kdbus_match_db_match_kmsg d.match_db
              (conn_find (send_conns c env conns conn_src kmsg) conn_src) d
              (send_kmsg c env conns conn_src kmsg) = false →
            conn'.msg_list = conn.msg_list ∧ conn'.msg_count = conn.msg_count))
        conns l := by
    intro l h2
    refine (forall₂_chain _ _ _ _ _ h1 h2).imp ?_
    rintro conn conn' ⟨d, ⟨a, hd⟩, hor⟩
    refine ⟨d, ⟨a, hd⟩, hor, ?_⟩
    intro hmon hmatch
    rcases hor with rfl | ⟨hw, -⟩
    · rw [hd]
      exact ⟨rfl, rfl⟩
    · obtain ⟨-, -, -, -, hmm⟩ := hw
      rcases hmm with hmm | hmm
      · rw [hmon] at hmm; cases hmm
      · rw [hmatch] at hmm; cases hmm
  unfold kdbus_kmsg_send
  dsimp only
  split_ifs with ha hb ht
  · exact ⟨_, rfl, rfl, hfin _ (List.forall₂_same.mpr (fun x _ => Or.inl rfl))⟩
  · exfalso
    rw [hm, hdst] at hb
    rcases hb with hb | hb
    · exact hsent hb.symm
    · exact hb rfl
  · exact ⟨_, rfl, rfl, hfin _ (List.forall₂_same.mpr (fun x _ => Or.inl rfl))⟩
  · exact ⟨_, rfl, rfl, hfin _ (send_broadcast_loop_spec c env ep.id _ _ _)⟩

theorem kmsg_send_broadcast_witness :
    (kdbus_kmsg_send sample_consts sample_env { id := 0 } sample_conns (some 1)
        sample_broadcast_kmsg).map (fun r => (r.ret, r.conns.map fun x => x.msg_count))
      = some (0, [0, 1, 0]) ∧
    ∃ r, kdbus_kmsg_send sample_consts sample_env { id := 0 } sample_conns (some 1)
        sample_broadcast_kmsg = some r ∧
      r.kmsg = send_kmsg sample_consts sample_env sample_conns (some 1) sample_broadcast_kmsg :=
  have h := kmsg_send_broadcast sample_consts sample_env { id := 0 } sample_conns (some 1)
    sample_broadcast_kmsg rfl (by decide) (by decide)
  ⟨by decide, h.elim fun r hr => ⟨r, hr.1, hr.2.1⟩⟩

/-! ## C11: the queue cap -/

/-- C11 fails on the code: an active receiver whose `msg_count` has already
reached `KDBUS_CONN_MAX_MSGS` (64) still takes the message:
`kdbus_conn_enqueue_kmsg` returns 0, not `-EXFULL`, and `msg_count` becomes
65, above the cap.  The code tests `msg_count > KDBUS_CONN_MAX_MSGS`.  The
same is reached from an empty queue: 65 calls in a row all succeed. -/
theorem enqueue_at_cap_accepts :
    sample_conn_at_cap.active = true ∧
    sample_conn_at_cap.msg_count = sample_consts.KDBUS_CONN_MAX_MSGS ∧
    (kdbus_conn_enqueue_kmsg sample_consts sample_env sample_conn_at_cap
        (sample_kmsg 2 1 8)).2 = 0 ∧
    (kdbus_conn_enqueue_kmsg sample_consts sample_env sample_conn_at_cap
        (sample_kmsg 2 1 8)).1.msg_count = 65 ∧
    sample_consts.KDBUS_CONN_MAX_MSGS <
      (kdbus_conn_enqueue_kmsg sample_consts sample_env sample_conn_at_cap
        (sample_kmsg 2 1 8)).1.msg_count ∧
    (queue_run sample_consts { id := 2, monitor := true }
      (List.replicate 65 (queue_op.enqueue sample_env (sample_kmsg 2 0 8)))).map
        (fun x => x.1.msg_count) = some 65 := by
  decide

/-- What the code does keep: from a `msg_count` of at most
`KDBUS_CONN_MAX_MSGS + 1`, `kdbus_conn_enqueue_kmsg` never leads above
`KDBUS_CONN_MAX_MSGS + 1`, and above `KDBUS_CONN_MAX_MSGS` an active receiver
that accepts the message's handles and has memory for the entry answers
`-EXFULL` and is left unchanged. -/
theorem enqueue_cap_plus_one (c : kdbus_consts) (env : kdbus_env) (conn : kdbus_conn)
    (kmsg : kdbus_kmsg) :
    (conn.msg_count ≤ c.KDBUS_CONN_MAX_MSGS + 1 →
      (kdbus_conn_enqueue_kmsg c env conn kmsg).1.msg_count ≤ c.KDBUS_CONN_MAX_MSGS + 1) ∧
    (c.KDBUS_CONN_MAX_MSGS < conn.msg_count →
      (kdbus_conn_enqueue_kmsg c env conn kmsg).2 < 0 ∧
      (kdbus_conn_enqueue_kmsg c env conn kmsg).1 = conn) := by
  unfold kdbus_conn_enqueue_kmsg
  split_ifs with h1 h2 h3 h4
  · exact ⟨fun h => h, fun _ => ⟨by simp [ENOTCONN], rfl⟩⟩
  · exact ⟨fun h => h, fun _ => ⟨by simp [ECOMM], rfl⟩⟩
  · exact ⟨fun h => h, fun _ => ⟨by simp [ENOMEM], rfl⟩⟩
  · exact ⟨fun h => h, fun _ => ⟨by simp [EXFULL], rfl⟩⟩
  · refine ⟨fun _ => ?_, fun h => absurd h h4⟩
    simp only
    omega

/-! ## C13: connections that are not active -/

theorem kdbus_kmsg_append_str_charged (c : kdbus_consts) (env : kdbus_env)
    (src : Option kdbus_conn) (kmsg : kdbus_kmsg) (type : kdbus_item_type) (str : List Nat) :
    charged src (kdbus_kmsg_append_str c env src kmsg type str).1 := by
  unfold kdbus_kmsg_append_str
  exact kdbus_kmsg_append_data_charged _ _ _ _ _ _ _

theorem append_for_dst_blocks_charged (c : kdbus_consts) (env : kdbus_env)
    (conn_src conn_dst : kdbus_conn) (src : Option kdbus_conn) (kmsg : kdbus_kmsg) :
    charged src (append_for_dst_comm c env conn_dst src kmsg).1 ∧
    charged src (append_for_dst_exe c env conn_dst src kmsg).1 ∧
    charged src (append_for_dst_cmdline c env conn_dst src kmsg).1 ∧
    charged src (append_for_dst_caps c env conn_dst src kmsg).1 ∧
    charged src (append_for_dst_cgroup c env conn_dst src kmsg).1 ∧
    charged src (append_for_dst_audit c env conn_src conn_dst src kmsg).1 ∧
    charged src (append_for_dst_seclabel c env conn_src conn_dst src kmsg).1 := by
  refine ⟨?_, ?_, ?_, ?_, ?_, ?_, ?_⟩
  · unfold append_for_dst_comm
    split
    · apply and_then_charged
      · exact kdbus_kmsg_append_str_charged _ _ _ _ _ _
      · intro s km; exact kdbus_kmsg_append_str_charged _ _ _ _ _ _
    · exact charged_refl _
  · unfold append_for_dst_exe
    repeat' split
    all_goals first
      | exact charged_refl _
      | exact kdbus_kmsg_append_data_charged _ _ _ _ _ _ _
  · unfold append_for_dst_cmdline
    repeat' split
    all_goals first
      | exact charged_refl _
      | exact kdbus_kmsg_append_data_charged _ _ _ _ _ _ _
  · unfold append_for_dst_caps
    repeat' split
    all_goals first
      | exact charged_refl _
      | exact kdbus_kmsg_append_data_charged _ _ _ _ _ _ _
  · unfold append_for_dst_cgroup
    dsimp only
    repeat' split
    all_goals first
      | exact charged_refl _
      | exact kdbus_kmsg_append_str_charged _ _ _ _ _ _
  · unfold append_for_dst_audit
    repeat' split
    all_goals first
      | exact charged_refl _
      | exact kdbus_kmsg_append_data_charged _ _ _ _ _ _ _
  · unfold append_for_dst_seclabel
    repeat' split
    all_goals first
      | exact charged_refl _
      | exact kdbus_kmsg_append_data_charged _ _ _ _ _ _ _

theorem kdbus_msg_append_for_dst_charged (c : kdbus_consts) (env : kdbus_env)
    (conn_src conn_dst : kdbus_conn) (src : Option kdbus_conn) (kmsg : kdbus_kmsg) :
    charged src (kdbus_msg_append_for_dst c env conn_src conn_dst src kmsg).1 := by
  unfold kdbus_msg_append_for_dst
  apply and_then_charged
  · exact (append_for_dst_blocks_charged c env conn_src conn_dst _ _).1
  intro s km
  apply and_then_charged
  · exact (append_for_dst_blocks_charged c env conn_src conn_dst _ _).2.1
  intro s km
  apply and_then_charged
  · exact (append_for_dst_blocks_charged c env conn_src conn_dst _ _).2.2.1
  intro s km
  apply and_then_charged
  · exact (append_for_dst_blocks_charged c env conn_src conn_dst _ _).2.2.2.1
  intro s km
  apply and_then_charged
  · exact (append_for_dst_blocks_charged c env conn_src conn_dst _ _).2.2.2.2.1
  intro s km
  apply and_then_charged
  · exact (append_for_dst_blocks_charged c env conn_src conn_dst _ _).2.2.2.2.2.1
  intro s km
  apply and_then_charged
  · exact (append_for_dst_blocks_charged c env conn_src conn_dst _ _).2.2.2.2.2.2
  intro s km
  exact charged_refl _

/-- Storing back a changed version of a connection that was found by its id
changes that connection only, in a bus with distinct ids. -/
theorem conn_put_found (conns : List kdbus_conn) (id : Option Nat) (y0 x : kdbus_conn)
    (hids : (conns.map fun x => x.id).Nodup) (hf : conn_find conns id = some y0)
    (hx : x.id = y0.id) :
    List.Forall₂ (fun y d => (y = y0 ∧ d = x) ∨ d = y) conns (conn_put conns (some x)) := by
  unfold conn_put
  dsimp only
  rw [List.forall₂_map_right_iff]
  apply List.forall₂_same.mpr
  intro y hy
  split_ifs with hxy
  · obtain ⟨hm, -⟩ := conn_find_some conns id y0 hf
    have : y = y0 := List.inj_on_of_nodup_map hids hy hm (by rw [hxy, hx])
    exact Or.inl ⟨this, rfl⟩
  · exact Or.inr rfl

theorem forall₂_ids (R : kdbus_conn → kdbus_conn → Prop) (h : ∀ a b, R a b → b.id = a.id) :
    ∀ (l l' : List kdbus_conn), List.Forall₂ R l l' →
      (l'.map fun x => x.id) = (l.map fun x => x.id) := by
  intro l l' hl
  induction hl with
  | nil => rfl
  | cons hab _ ih => simp [h _ _ hab, ih]

theorem quiet_refl (x : kdbus_conn) : quiet x x := ⟨rfl, rfl, fun _ => ⟨rfl, rfl⟩⟩

theorem quiet_trans (x y z : kdbus_conn) (h1 : quiet x y) (h2 : quiet y z) : quiet x z := by
  obtain ⟨a1, a2, a3⟩ := h1
  obtain ⟨b1, b2, b3⟩ := h2
  refine ⟨by rw [b1, a1], by rw [b2, a2], fun h => ?_⟩
  obtain ⟨c1, c2⟩ := a3 h
  obtain ⟨d1, d2⟩ := b3 (by rw [a2, h])
  exact ⟨by rw [d1, c1], by rw [d2, c2]⟩

theorem quiet_chain (a b d : List kdbus_conn) (h1 : List.Forall₂ quiet a b)
    (h2 : List.Forall₂ quiet b d) : List.Forall₂ quiet a d :=
  (forall₂_chain _ _ _ _ _ h1 h2).imp fun _ _ ⟨_, p, q⟩ => quiet_trans _ _ _ p q

theorem quiet_ids (l l' : List kdbus_conn) (h : List.Forall₂ quiet l l') :
    (l'.map fun x => x.id) = (l.map fun x => x.id) :=
  forall₂_ids quiet (fun _ _ hq => hq.1) l l' h

theorem conn_put_charged_quiet (conns : List kdbus_conn) (id : Option Nat)
    (src' : Option kdbus_conn) (hids : (conns.map fun x => x.id).Nodup)
    (h : charged (conn_find conns id) src') : List.Forall₂ quiet conns (conn_put conns src') :=
  (conn_put_charged conns id src' hids h).imp fun y d ⟨a, hd⟩ => by
    rw [hd]; exact ⟨rfl, rfl, fun _ => ⟨rfl, rfl⟩⟩

theorem enqueue_quiet (c : kdbus_consts) (env : kdbus_env) (conn : kdbus_conn)
    (kmsg : kdbus_kmsg) : quiet conn (kdbus_conn_enqueue_kmsg c env conn kmsg).1 := by
  rcases enqueue_cases c env conn kmsg with ⟨-, he⟩ | ⟨-, ha, he⟩
  · rw [he]; exact quiet_refl _
  · rw [he]
    refine ⟨rfl, rfl, fun h => ?_⟩
    rw [ha] at h
    cases h

theorem send_broadcast_loop_quiet (c : kdbus_consts) (env : kdbus_env) (ep_id : Nat)
    (conn_src : Option kdbus_conn) (kmsg : kdbus_kmsg) (conns : List kdbus_conn) :
    List.Forall₂ quiet conns (send_broadcast_loop c env ep_id conn_src kmsg conns).1 :=
  (send_broadcast_loop_spec c env ep_id conn_src kmsg conns).imp fun d conn' h => by
    rcases h with rfl | ⟨hw, rfl⟩
    · exact quiet_refl _
    · refine ⟨rfl, rfl, fun h => ?_⟩
      rw [hw.2.2.2.1] at h
      cases h

theorem send_direct_quiet (c : kdbus_consts) (env : kdbus_env) (ep : kdbus_ep)
    (conns : List kdbus_conn) (conn_src : Option Nat) (kmsg : kdbus_kmsg) (dst : Nat)
    (hids : (conns.map fun x => x.id).Nodup) :
    List.Forall₂ quiet conns (send_direct c env ep conns conn_src kmsg dst).conns := by
  have hrefl : List.Forall₂ quiet conns conns := List.forall₂_same.mpr fun x _ => quiet_refl x
  have hput : ∀ (cs cd : kdbus_conn) (k : kdbus_kmsg) (o : Option Nat),
      List.Forall₂ quiet conns
        (conn_put conns (kdbus_msg_append_for_dst c env cs cd (conn_find conns o) k).1) :=
    fun cs cd k o => conn_put_charged_quiet conns _ _ hids
      (kdbus_msg_append_for_dst_charged _ _ _ _ _ _)
  have hnone : List.Forall₂ quiet conns (conn_put conns none) :=
    conn_put_charged_quiet conns none none hids (by simp [conn_find, charged])
  have hfin : ∀ (A : Option kdbus_conn) (k : kdbus_kmsg) (d : kdbus_conn),
      List.Forall₂ quiet conns (conn_put conns A) →
      conn_find (conn_put conns A) (some dst) = some d →
      List.Forall₂ quiet conns
        (conn_put (conn_put conns A) (some (kdbus_conn_enqueue_kmsg c env d k).1)) := by
    intro A k d hA hd
    refine quiet_chain _ _ _ hA ?_
    have hids2 := hids
    rw [← quiet_ids _ _ hA] at hids2
    refine (conn_put_found _ _ d _ hids2 hd (enqueue_quiet c env d k).1).imp ?_
    rintro y e (⟨rfl, rfl⟩ | rfl)
    · exact enqueue_quiet _ _ _ _
    · exact quiet_refl _
  unfold send_direct
  dsimp only
  cases hsrc : conn_find conns conn_src
  all_goals dsimp only
  all_goals repeat' split
  all_goals first
    | exact hrefl
    | exact hput _ _ _ _
    | exact hnone
    | exact hfin _ _ _ (hput _ _ _ _) (by assumption)
    | exact hfin _ _ _ hnone (by assumption)

/-- Whatever `kdbus_kmsg_send` does, it leaves every connection of a bus with
distinct ids `quiet`. -/
theorem kmsg_send_quiet (c : kdbus_consts) (env : kdbus_env) (ep : kdbus_ep)
    (conns : List kdbus_conn) (conn_src : Option Nat) (kmsg : kdbus_kmsg)
    (hids : (conns.map fun x => x.id).Nodup) (r : send_result)
    (hr : kdbus_kmsg_send c env ep conns conn_src kmsg = some r) :
    List.Forall₂ quiet conns r.conns := by
  have h1 : List.Forall₂ quiet conns (send_conns c env conns conn_src kmsg) :=
    conn_put_charged_quiet conns kmsg.conn_src _ hids (send_augment_charged _ _ _ _ _)
  have hids1 : ((send_conns c env conns conn_src kmsg).map fun x => x.id).Nodup := by
    rw [quiet_ids _ _ h1]; exact hids
  unfold kdbus_kmsg_send at hr
  dsimp only at hr
  split at hr
  · cases hr; exact h1
  · split at hr
    · split at hr
      · cases hr
      · cases hr; exact h1
      · cases hr
        exact quiet_chain _ _ _ h1 (send_direct_quiet c env ep _ conn_src _ _ hids1)
    · split at hr
      · cases hr; exact h1
      · cases hr
        exact quiet_chain _ _ _ h1 (send_broadcast_loop_quiet c env ep.id _ _ _)

/-- C13: `kdbus_conn_enqueue_kmsg` on a connection whose `active` flag is
clear fails with `-ENOTCONN` and leaves the connection as it is; and no
`kdbus_kmsg_send`, unicast or broadcast, changes `msg_list` or `msg_count` of
a connection that is not active (connections of a bus have distinct ids). -/
theorem kmsg_send_inactive_untouched (c : kdbus_consts) (env : kdbus_env) (ep : kdbus_ep)
    (conns : List kdbus_conn) (conn_src : Option Nat) (kmsg : kdbus_kmsg)
    (hids : (conns.map fun x => x.id).Nodup) :
    (∀ conn : kdbus_conn, conn.active = false →
      kdbus_conn_enqueue_kmsg c env conn kmsg = (conn, -ENOTCONN)) ∧
    (∀ r, kdbus_kmsg_send c env ep conns conn_src kmsg = some r →
      List.Forall₂
        (fun conn conn' => conn.active = false →
          conn'.active = false ∧ conn'.msg_list = conn.msg_list ∧
          conn'.msg_count = conn.msg_count)
        conns r.conns) := by
  constructor
  · intro conn h
    unfold kdbus_conn_enqueue_kmsg
    simp [h]
  · intro r hr
    refine (kmsg_send_quiet c env ep conns conn_src kmsg hids r hr).imp ?_
    rintro x y ⟨-, h2, h3⟩ hx
    exact ⟨by rw [h2, hx], h3 hx⟩

theorem kmsg_send_inactive_untouched_witness :
    (kdbus_kmsg_send sample_consts sample_env { id := 0 } sample_conns_inactive (some 1)
        sample_broadcast_kmsg).map (fun r => (r.ret, r.conns.map fun x => x.msg_count))
      = some (0, [0, 0, 1]) ∧
    ∃ r, kdbus_kmsg_send sample_consts sample_env { id := 0 } sample_conns_inactive (some 1)
        sample_broadcast_kmsg = some r ∧
      List.Forall₂
        (fun conn conn' => conn.active = false →
          conn'.active = false ∧ conn'.msg_list = conn.msg_list ∧
          conn'.msg_count = conn.msg_count)
        sample_conns_inactive r.conns :=
  ⟨by decide,
   _, rfl,
   (kmsg_send_inactive_untouched sample_consts sample_env { id := 0 } sample_conns_inactive
      (some 1) sample_broadcast_kmsg (by decide)).2 _ rfl⟩

/-! ## C17: the header and the items of a built message -/

theorem new_from_user_loop_msg (c : kdbus_consts) (env : kdbus_env) (fuel : Nat)
    (conn : kdbus_conn) (items : List kdbus_item) :
    ∀ (ipos : Nat) (kmsg : kdbus_kmsg) (r : new_result),
      new_from_user_loop c env fuel conn items ipos kmsg = some r → r.ret = 0 →
      ∃ k, r.kmsg = some k ∧ k.msg = kmsg.msg ∧ k.conn_src = kmsg.conn_src := by
  induction items with
  | nil =>
    intro ipos kmsg r h _
    unfold new_from_user_loop at h
    split at h
    · cases h
    · cases h; exact ⟨kmsg, rfl, rfl, rfl⟩
  | cons item rest ih =>
    intro ipos kmsg r h hret
    unfold new_from_user_loop at h
    split at h
    · split at h
      · split at h
        · cases h
          rw [(new_exit_free_ret c conn kmsg (-ENOSYS) []).1] at hret
          simp [ENOSYS] at hret
        · split at h
          · rename_i e he
            cases h
            rw [(new_exit_free_ret c conn kmsg e []).1] at hret
            unfold kdbus_inline_user_vec at he
            split at he
            · cases he; simp [EFAULT] at hret
            · cases he
          · split at h
            · cases h
            · obtain ⟨k', hk1, hk2, hk3⟩ := ih _ _ r h hret
              exact ⟨k', hk1, hk2, hk3⟩
      · split at h
        · cases h
        · rename_i k ret puts hk
          obtain ⟨h0, -, -, hm, hs⟩ := copy_user_fds_some c env fuel kmsg k item ret puts hk
          split at h
          · rename_i hneg
            rw [h0] at hneg
            exact absurd hneg (by decide)
          · split at h
            · cases h
            · obtain ⟨k', hk1, hk2, hk3⟩ := ih _ _ r h hret
              exact ⟨k', hk1, by rw [hk2, hm], by rw [hk3, hs]⟩
      · split at h
        · cases h
        · exact ih _ _ r h hret
    · cases h; exact ⟨kmsg, rfl, rfl, rfl⟩

/-- C17: when `kdbus_kmsg_new_from_user` succeeds, the user buffer held a
message `msg`, a kernel message was built, and the message inside it is `msg`
with `src_id` replaced by the id of the source connection: every other header
field and the items are those of the buffer, whatever `src_id` the buffer
carried.  The message also refers to the source connection. -/
theorem new_from_user_stamps_src_id (c : kdbus_consts) (env : kdbus_env) (fuel : Nat)
    (conn : kdbus_conn) (buf : user_buf) (r : new_result)
    (h : kdbus_kmsg_new_from_user c env fuel conn buf = some r) (hret : r.ret = 0) :
    ∃ msg k, buf.msg = some msg ∧ r.kmsg = some k ∧
      k.msg = { msg with src_id := conn.id } ∧ k.msg.src_id = conn.id ∧
      k.conn_src = some conn.id := by
  unfold kdbus_kmsg_new_from_user at h
  dsimp only at h
  split at h
  · cases h; simp [EFAULT] at hret
  · split at h
    · cases h; simp [EFAULT] at hret
    · split at h
      · cases h; simp [EMSGSIZE] at hret
      · split at h
        · cases h; simp [ENOMEM] at hret
        · split at h
          · rename_i hneg
            cases h
            simp only at hret
            rw [hret] at hneg
            exact absurd hneg (by decide)
          · split at h
            · cases h; simp [EFAULT] at hret
            · rename_i msg hmsg
              split at h
              · rename_i hneg
                cases h
                rw [(new_exit_free_ret _ _ _ _ _).1] at hret
                rw [hret] at hneg
                exact absurd hneg (by decide)
              · obtain ⟨k, hk1, hk2, hk3⟩ := new_from_user_loop_msg c env fuel _ _ _ _ r h hret
                have hm := fun cn => (scan_items_keeps c env cn { msg := msg }).1
                refine ⟨msg, k, hmsg, hk1, ?_, ?_, ?_⟩
                · rw [hk2]
                  simp only
                  rw [hm]
                · rw [hk2]
                · rw [hk3]

theorem new_from_user_stamps_src_id_witness :
    sample_forged_msg.src_id = 77 ∧
    ∃ msg k, (sample_buf sample_forged_msg).msg = some msg ∧
      (new_result.mk 0 { id := 3, allocated_size := 216 }
        (some { msg := { sample_forged_msg with src_id := 3 }, conn_src := some 3 }) []).kmsg
        = some k ∧
      k.msg = { msg with src_id := ({ id := 3 } : kdbus_conn).id } ∧
      k.msg.src_id = ({ id := 3 } : kdbus_conn).id ∧
      k.conn_src = some ({ id := 3 } : kdbus_conn).id :=
  ⟨rfl,
   new_from_user_stamps_src_id sample_consts sample_env 0 { id := 3 }
     (sample_buf sample_forged_msg) _ (by decide) rfl⟩

/-! ## C19, C20: handle arrays and bloom items -/

theorem scan_steps_loop (c : kdbus_consts) (env : kdbus_env) (conn : kdbus_conn)
    (msg : kdbus_msg) (l : List kdbus_item) (pre : List kdbus_item) :
    ∀ (pos : Nat) (st st1 : scan_state) (pos1 : Nat),
      scan_steps c env conn msg pre pos st = some (st1, pos1) →
      scan_loop c env conn msg (pre ++ l) pos st = scan_loop c env conn msg l pos1 st1 := by
  induction pre with
  | nil =>
    intro pos st st1 pos1 h
    unfold scan_steps at h
    simp only [Option.some.injEq, Prod.mk.injEq] at h
    rw [h.1, h.2]; rfl
  | cons item rest ih =>
    intro pos st st1 pos1 h
    unfold scan_steps at h
    split at h
    · rename_i hin
      split at h
      · cases h
      · rename_i st' hst
        rw [List.cons_append]
        conv_lhs => unfold scan_loop
        rw [if_pos hin, hst]
        exact ih _ _ _ _ h
    · cases h

theorem scan_item_num_items (c : kdbus_consts) (env : kdbus_env) (conn : kdbus_conn)
    (msg : kdbus_msg) (item : kdbus_item) (st st' : scan_state)
    (h : scan_item c env conn msg item st = .ok st') : st'.num_items = st.num_items + 1 := by
  unfold scan_item at h
  split_ifs at h with h1 h2
  dsimp only at h
  split at h
  · simp only [Except.ok.injEq] at h
    subst h; rfl
  · obtain ⟨rfl, -⟩ := scan_item_vec_ok _ _ _ _ h
    rfl
  · obtain ⟨rfl, -⟩ := scan_item_fds_ok _ _ _ _ _ h
    rfl
  · obtain ⟨rfl, -⟩ := scan_item_bloom_ok _ _ _ _ _ _ h
    rfl
  · obtain ⟨rfl, -⟩ := scan_item_name_ok _ _ _ _ _ h
    rfl
  · cases h

theorem scan_steps_flags (c : kdbus_consts) (env : kdbus_env) (conn : kdbus_conn)
    (msg : kdbus_msg) (pre : List kdbus_item) :
    ∀ (pos : Nat) (st st1 : scan_state) (pos1 : Nat),
      scan_steps c env conn msg pre pos st = some (st1, pos1) →
      st1.has_bloom = (st.has_bloom || decide (0 < count_type KDBUS_MSG_BLOOM pre)) ∧
      st1.has_fds = (st.has_fds || decide (0 < count_type KDBUS_MSG_UNIX_FDS pre)) ∧
      st1.num_items = st.num_items + pre.length := by
  induction pre with
  | nil =>
    intro pos st st1 pos1 h
    unfold scan_steps at h
    simp only [Option.some.injEq, Prod.mk.injEq] at h
    rw [← h.1]
    simp [count_type]
  | cons item rest ih =>
    intro pos st st1 pos1 h
    unfold scan_steps at h
    split at h
    · split at h
      · cases h
      · rename_i st' hst
        obtain ⟨a1, a2, a3⟩ := ih _ _ _ _ h
        obtain ⟨b1, -, b3, -⟩ := scan_item_flags c env conn msg item st st' hst
        have b4 := scan_item_num_items c env conn msg item st st' hst
        rw [a1, a2, a3, b1, b3, b4, count_type_cons, count_type_cons]
        refine ⟨?_, ?_, ?_⟩
        · by_cases ht : item.type = KDBUS_MSG_BLOOM <;> simp [ht, Bool.or_assoc]
        · by_cases ht : item.type = KDBUS_MSG_UNIX_FDS <;> simp [ht, Bool.or_assoc]
        · simp only [List.length_cons]; omega
    · cases h

/-- The result code of `kdbus_msg_scan_items` when the loop body fails on the
item that follows the leading items `pre`. -/
theorem scan_items_item_error (c : kdbus_consts) (env : kdbus_env) (conn : kdbus_conn)
    (kmsg : kdbus_kmsg) (pre : List kdbus_item) (item : kdbus_item) (rest : List kdbus_item)
    (st1 : scan_state) (pos1 : Nat) (e : Int)
    (hitems : kmsg.msg.items = pre ++ item :: rest)
    (hpre : scan_steps c env conn kmsg.msg pre c.KDBUS_MSG_HEADER_SIZE {} = some (st1, pos1))
    (hin : item_in_msg c kmsg.msg.size pos1 item.size = true)
    (he : scan_item c env conn kmsg.msg item st1 = .error e) :
    (kdbus_msg_scan_items c env conn kmsg).2.2 = e := by
  unfold kdbus_msg_scan_items
  rw [hitems, scan_steps_loop c env conn kmsg.msg (item :: rest) pre _ _ _ _ hpre]
  unfold scan_loop
  rw [if_pos hin, he]

theorem scan_item_fds_body (c : kdbus_consts) (env : kdbus_env) (conn : kdbus_conn)
    (msg : kdbus_msg) (item : kdbus_item) (st : scan_state)
    (ht : item.type = KDBUS_MSG_UNIX_FDS) (hs : c.KDBUS_ITEM_HEADER_SIZE < item.size)
    (hn : st.num_items < c.KDBUS_MSG_MAX_ITEMS) :
    scan_item c env conn msg item st
      = scan_item_fds c msg item { st with num_items := st.num_items + 1 } := by
  unfold scan_item
  rw [if_neg (by omega), if_neg (by omega)]
  simp only [ht]

theorem broadcast_wants_iff (env : kdbus_env) (ep_id : Nat)
    (conn_src : Option kdbus_conn) (kmsg : kdbus_kmsg) (d : kdbus_conn) :
    broadcast_wants env ep_id conn_src kmsg d ↔
      ¬ (d.ep ≠ ep_id ∨ d.type ≠ kdbus_conn_type.KDBUS_CONN_EP ∨ d.id = kmsg.msg.src_id ∨
        (!d.active) = true ∨
        (!d.monitor && !env.kdbus_match_db_match_kmsg d.match_db conn_src d kmsg) = true) := by
  unfold broadcast_wants
  simp only [not_or, not_not, Bool.and_eq_true, Bool.not_eq_true', not_and, Bool.not_eq_false]
  constructor
  · rintro ⟨a1, a2, a3, a4, a5⟩
    refine ⟨a1, a2, a3, a4, fun hm => ?_⟩
    rcases a5 with h | h
    · rw [h] at hm; cases hm
    · exact h
  · rintro ⟨a1, a2, a3, a4, a5⟩
    refine ⟨a1, a2, a3, a4, ?_⟩
    by_cases hm : d.monitor = true
    · exact Or.inl hm
    · exact Or.inr (a5 (by simpa using hm))

/-- The broadcast loop returns 0 when it has gone through all connections and
handed the message to every one it is meant for; otherwise it has stopped at
the first such connection whose enqueue failed, returns that error, and has
left that connection and all later ones as they were. -/
theorem send_broadcast_loop_stops (c : kdbus_consts) (env : kdbus_env) (ep_id : Nat)
    (conn_src : Option kdbus_conn) (kmsg : kdbus_kmsg) (conns : List kdbus_conn) :
    ((send_broadcast_loop c env ep_id conn_src kmsg conns).2 = 0 ∧
      List.Forall₂ (broadcast_delivered env ep_id conn_src kmsg) conns
        (send_broadcast_loop c env ep_id conn_src kmsg conns).1) ∨
    ((send_broadcast_loop c env ep_id conn_src kmsg conns).2 < 0 ∧
      ∃ pre pre' d post, conns = pre ++ d :: post ∧
        (send_broadcast_loop c env ep_id conn_src kmsg conns).1 = pre' ++ d :: post ∧
        List.Forall₂ (broadcast_delivered env ep_id conn_src kmsg) pre pre' ∧
        broadcast_wants env ep_id conn_src kmsg d ∧
        (kdbus_conn_enqueue_kmsg c env d kmsg).2
          = (send_broadcast_loop c env ep_id conn_src kmsg conns).2) := by
  induction conns with
  | nil => left; simp [send_broadcast_loop]
  | cons d rest ih =>
    unfold send_broadcast_loop
    dsimp only
    split_ifs with h1 h2
    · have hnw : ¬ broadcast_wants env ep_id conn_src kmsg d := fun hw =>
        (broadcast_wants_iff env ep_id conn_src kmsg d).mp hw h1
      have hd : broadcast_delivered env ep_id conn_src kmsg d d :=
        ⟨fun hw => absurd hw hnw, fun _ => rfl⟩
      rcases ih with ⟨h0, hall⟩ | ⟨hneg, pre, pre', x, post, e1, e2, hpre, hw, he⟩
      · exact Or.inl ⟨h0, List.Forall₂.cons hd hall⟩
      · refine Or.inr ⟨hneg, d :: pre, d :: pre', x, post, ?_, ?_, List.Forall₂.cons hd hpre,
          hw, he⟩
        · rw [e1]; rfl
        · rw [e2]; rfl
    · have hw : broadcast_wants env ep_id conn_src kmsg d :=
        (broadcast_wants_iff env ep_id conn_src kmsg d).mpr h1
      rcases enqueue_cases c env d kmsg with ⟨-, he⟩ | ⟨h0, -, -⟩
      · exact Or.inr ⟨h2, [], [], d, rest, rfl, by rw [he]; rfl, List.Forall₂.nil, hw, rfl⟩
      · omega
    · have hw : broadcast_wants env ep_id conn_src kmsg d :=
        (broadcast_wants_iff env ep_id conn_src kmsg d).mpr h1
      rcases enqueue_cases c env d kmsg with ⟨hlt, -⟩ | ⟨-, -, he⟩
      · exact absurd hlt h2
      · have hd : broadcast_delivered env ep_id conn_src kmsg d
            (kdbus_conn_enqueue_kmsg c env d kmsg).1 :=
          ⟨fun _ => he, fun hnw => absurd hw hnw⟩
        rcases ih with ⟨h0, hall⟩ | ⟨hneg, pre, pre', x, post, e1, e2, hpre, hw', he'⟩
        · exact Or.inl ⟨h0, List.Forall₂.cons hd hall⟩
        · refine Or.inr ⟨hneg, d :: pre, _ :: pre', x, post, ?_, ?_,
            List.Forall₂.cons hd hpre, hw', he'⟩
          · rw [e1]; rfl
          · rw [e2]; rfl

/-- C12 fails on the code as stated: in a broadcast from connection 1 on a
bus whose second connection is a monitor with a full queue and whose third
connection is a monitor with an empty queue, `kdbus_kmsg_send` returns
`-EXFULL`, not success, and the third connection, which the loop would hand
the message to, does not get it. -/
theorem kmsg_send_broadcast_full_counterexample :
    sample_broadcast_kmsg.msg.dst_id = sample_consts.KDBUS_DST_ID_BROADCAST ∧
    sample_consts.KDBUS_CONN_MAX_MSGS < sample_conn_full.msg_count ∧
    broadcast_wants sample_env 0 (some { id := 1 }) sample_broadcast_kmsg
      { id := 3, monitor := true } ∧
    (kdbus_kmsg_send sample_consts sample_env { id := 0 } sample_conns_full (some 1)
        sample_broadcast_kmsg).map
        (fun r => (r.ret, r.conns.map fun x => (x.id, x.msg_count)))
      = some (-EXFULL, [(1, 0), (2, 65), (3, 0)]) := by
  refine ⟨by decide, by decide, ?_, by decide⟩
  unfold broadcast_wants
  decide

/-- C12 as the code has it: for a broadcast whose augmentation succeeds and
that carries no timeout, `kdbus_kmsg_send` returns 0 only if every connection
the fan-out is meant for (on the endpoint, endpoint connection, active, not
the source, monitor or matching) has the message appended to its queue and
every other connection is as it was; otherwise the fan-out has stopped at the
first such connection whose `kdbus_conn_enqueue_kmsg` failed (a full queue
gives `-EXFULL`), the send returns that error, the connections before it are
served as in a complete fan-out, and that connection and all connections
after it are left as they were. -/
theorem kmsg_send_broadcast_stops (c : kdbus_consts) (env : kdbus_env) (ep : kdbus_ep)
    (conns : List kdbus_conn) (conn_src : Option Nat) (kmsg : kdbus_kmsg)
    (hdst : kmsg.msg.dst_id = c.KDBUS_DST_ID_BROADCAST)
    (hsent : c.KDBUS_DST_ID_WELL_KNOWN_NAME ≠ c.KDBUS_DST_ID_BROADCAST)
    (haug : ¬ (send_augment c env (conn_find conns conn_src) (conn_find conns kmsg.conn_src)
      kmsg).2.2 < 0)
    (htime : kmsg.msg.timeout_ns = 0) :
    ∃ r, kdbus_kmsg_send c env ep conns conn_src kmsg = some r ∧
      r.kmsg = send_kmsg c env conns conn_src kmsg ∧
      ((r.ret = 0 ∧
        List.Forall₂
          (broadcast_delivered env ep.id
            (conn_find (send_conns c env conns conn_src kmsg) conn_src) r.kmsg)
          (send_conns c env conns conn_src kmsg) r.conns) ∨
      (r.ret < 0 ∧
        ∃ pre pre' d post, send_conns c env conns conn_src kmsg = pre ++ d :: post ∧
          r.conns = pre' ++ d :: post ∧
          List.Forall₂
            (broadcast_delivered env ep.id
              (conn_find (send_conns c env conns conn_src kmsg) conn_src) r.kmsg) pre pre' ∧
          broadcast_wants env ep.id
            (conn_find (send_conns c env conns conn_src kmsg) conn_src) r.kmsg d ∧
          (kdbus_conn_enqueue_kmsg c env d r.kmsg).2 = r.ret)) := by
  have hm := send_augment_msg c env (conn_find conns conn_src) (conn_find conns kmsg.conn_src) kmsg
  unfold kdbus_kmsg_send
  dsimp only
  rw [if_neg haug, hm, hdst, if_neg (by simp [Ne.symm hsent]), htime, if_neg (by simp)]
  exact ⟨_, rfl, rfl, send_broadcast_loop_stops c env ep.id _ _ _⟩

theorem kmsg_send_broadcast_stops_witness :
    ∃ r, kdbus_kmsg_send sample_consts sample_env { id := 0 } sample_conns_full (some 1)
        sample_broadcast_kmsg = some r ∧
      r.kmsg = send_kmsg sample_consts sample_env sample_conns_full (some 1)
        sample_broadcast_kmsg ∧
      r.ret = -EXFULL :=
  have h := kmsg_send_broadcast_stops sample_consts sample_env { id := 0 } sample_conns_full
    (some 1) sample_broadcast_kmsg rfl (by decide) (by decide) rfl
  h.elim fun r hr => ⟨r, hr.1, hr.2.1, by
    have h1 := hr.1
    have h2 : (kdbus_kmsg_send sample_consts sample_env { id := 0 } sample_conns_full (some 1)
        sample_broadcast_kmsg).map (fun r => r.ret) = some (-EXFULL) := by decide
    rw [h1] at h2
    simpa using h2⟩

/-! ## C15: a failed `kdbus_kmsg_recv` -/

theorem list_set_mid (A B : List Int) (x y : Int) :
    (A ++ x :: B).set A.length y = A ++ y :: B := by
  simp

theorem list_getD_mid (A B : List Int) (x d : Int) : (A ++ x :: B).getD A.length d = x := by
  rw [List.getD_append_right _ _ _ _ (le_refl _)]
  simp

/-- The installing loop on an array whose open slots hold -1: it appends the
descriptors it installs, all of them not negative, in slot order, and leaves
the other slots at -1; it returns 0 only when it has filled every slot. -/
theorem recv_install_fds_spec (env : kdbus_env) (fp : List (Option Nat)) :
    ∀ (n i : Nat) (inst : List (Int × Option Nat)), inst.length = i →
    ∃ X m,
      (recv_install_fds env fp n i (inst.map Prod.fst ++ List.replicate n (-1)) inst).2.2
        = inst ++ X ∧
      (recv_install_fds env fp n i (inst.map Prod.fst ++ List.replicate n (-1)) inst).2.1
        = (inst ++ X).map Prod.fst ++ List.replicate m (-1) ∧
      X.length + m = n ∧ (∀ p ∈ X, 0 ≤ p.1) ∧
      X.map Prod.snd = (List.range' i X.length).map (fun j => fp.getD j none) := by
  intro n
  induction n with
  | zero =>
    intro i inst _
    exact ⟨[], 0, by simp [recv_install_fds], by simp [recv_install_fds], rfl, by simp, rfl⟩
  | succ n ih =>
    intro i inst hlen
    unfold recv_install_fds
    dsimp only
    split_ifs with hfd
    · exact ⟨[], n + 1, by simp, by simp, by simp, by simp, rfl⟩
    · have hset : (inst.map Prod.fst ++ List.replicate (n + 1) (-1)).set i (env.get_unused_fd i)
          = (inst ++ [(env.get_unused_fd i, fp.getD i none)]).map Prod.fst
              ++ List.replicate n (-1) := by
        have hl : (inst.map Prod.fst).length = i := by simpa using hlen
        rw [List.replicate_succ, ← hl, list_set_mid]
        simp
      rw [hset]
      obtain ⟨X, m, h1, h2, h3, h4, h5⟩ :=
        ih (i + 1) (inst ++ [(env.get_unused_fd i, fp.getD i none)]) (by simp [hlen])
      refine ⟨(env.get_unused_fd i, fp.getD i none) :: X, m, ?_, ?_, ?_, ?_, ?_⟩
      · rw [h1]; simp
      · rw [h2]; simp
      · simp only [List.length_cons]; omega
      · intro p hp
        rcases List.mem_cons.mp hp with rfl | hp
        · simpa using hfd
        · exact h4 p hp
      · simp only [List.map_cons, List.length_cons, List.range'_succ]
        rw [h5]

theorem recv_cleanup_fds_rest (fp : List (Option Nat)) :
    ∀ (n k : Nat) (fds : List Int) (rel : List (Int × Option Nat)),
      (∀ j, k ≤ j → j < k + n → fds.getD j 0 < 0) →
      recv_cleanup_fds fp n k fds rel = (fds, rel) := by
  intro n
  induction n with
  | zero => intro k fds rel _; rfl
  | succ n ih =>
    intro k fds rel h
    unfold recv_cleanup_fds
    rw [if_pos (h k (le_refl _) (by omega))]
    exact ih (k + 1) fds rel fun j h1 h2 => h j (by omega) (by omega)

theorem recv_cleanup_fds_succ (fp : List (Option Nat)) (n i : Nat) (fds : List Int)
    (rel : List (Int × Option Nat)) :
    recv_cleanup_fds fp (n + 1) i fds rel =
      if fds.getD i 0 < 0 then recv_cleanup_fds fp n (i + 1) fds rel
      else recv_cleanup_fds fp n (i + 1) (fds.set i (-1))
             (rel ++ [(fds.getD i 0, fp.getD i none)]) := rfl

theorem recv_cleanup_fds_installed (fp : List (Option Nat)) :
    ∀ (X : List (Int × Option Nat)) (n k : Nat) (D R : List Int)
      (rel : List (Int × Option Nat)),
      D.length = k → (∀ p ∈ X, 0 ≤ p.1) →
      X.map Prod.snd = (List.range' k X.length).map (fun j => fp.getD j none) →
      recv_cleanup_fds fp (X.length + n) k (D ++ (X.map Prod.fst ++ R)) rel
        = recv_cleanup_fds fp n (k + X.length)
            ((D ++ List.replicate X.length (-1)) ++ R) (rel ++ X) := by
  intro X
  induction X with
  | nil =>
    intro n k D R rel _ _ _
    simp
  | cons x X ih =>
    intro n k D R rel hD hpos hsnd
    have hx : 0 ≤ x.1 := hpos x (List.mem_cons_self _ _)
    simp only [List.map_cons, List.length_cons, List.range'_succ, List.cons.injEq] at hsnd
    have hlen : (x :: X).length + n = (X.length + n) + 1 := by
      simp only [List.length_cons]; omega
    rw [hlen, recv_cleanup_fds_succ]
    simp only [List.map_cons, List.cons_append]
    rw [← hD, list_getD_mid, if_neg (not_lt.mpr hx), list_set_mid]
    have hstep := ih n (D.length + 1) (D ++ [-1]) R (rel ++ [(x.1, fp.getD D.length none)])
      (by simp) (fun p hp => hpos p (List.mem_cons_of_mem _ hp)) (by rw [hD]; exact hsnd.2)
    have e1 : D ++ -1 :: (X.map Prod.fst ++ R) = (D ++ [-1]) ++ (X.map Prod.fst ++ R) := by
      simp
    rw [e1, hstep]
    have e2 : (x.1, fp.getD D.length none) = x := by
      rw [hD, ← hsnd.1]
    rw [e2]
    congr 1
    · simp only [List.length_cons]; omega
    · simp [List.replicate_succ]
    · simp

/-- Installing into an array of -1 slots and cleaning up afterwards gives the
array of -1 slots back and releases exactly what was installed. -/
theorem recv_install_cleanup (env : kdbus_env) (fp : List (Option Nat)) (n : Nat) :
    recv_cleanup_fds fp n 0
        (recv_install_fds env fp n 0 (List.replicate n (-1)) []).2.1 []
      = (List.replicate n (-1), (recv_install_fds env fp n 0 (List.replicate n (-1)) []).2.2) := by
  obtain ⟨X, m, h1, h2, h3, h4, h5⟩ := recv_install_fds_spec env fp n 0 [] rfl
  simp only [List.map_nil, List.nil_append] at h1 h2
  rw [h1, h2, ← h3]
  have := recv_cleanup_fds_installed fp X m 0 [] (List.replicate m (-1)) [] rfl h4 h5
  simp only [List.nil_append, Nat.zero_add] at this
  rw [this, recv_cleanup_fds_rest fp m X.length _ _ ?_]
  · rw [List.replicate_add]
  · intro j hj1 hj2
    rw [List.getD_append_right _ _ _ _ (by simpa using hj1)]
    rw [List.getD_eq_getElem?_getD, List.getElem?_replicate]
    simp only [List.length_replicate]
    rw [if_pos (by omega)]
    decide
/-- The state `kdbus_kmsg_recv` is in when it reaches `exit_unlock_fds`, for
a queue head whose installed-handle array held -1 in every slot: either the
message has no handle array and nothing was installed, or the array and the
installed descriptors are those the installing loop left. -/
theorem recv_exit_unlock_fds_restores (env : kdbus_env) (conn : kdbus_conn) (kmsg : kdbus_kmsg)
    (rest : List kdbus_kmsg) (ret : Int) (fds : Option (List Int)) (w : List user_write)
    (inst : List (Int × Option Nat)) (hq : conn.msg_list = kmsg :: rest)
    (hfi : (kmsg.fds = none ∧ fds = none ∧ inst = []) ∨
      (kmsg.fds = some (List.replicate kmsg.fds_count (-1)) ∧
        fds = some (recv_install_fds env (kmsg.fds_fp.getD []) kmsg.fds_count 0
          (List.replicate kmsg.fds_count (-1)) []).2.1 ∧
        inst = (recv_install_fds env (kmsg.fds_fp.getD []) kmsg.fds_count 0
          (List.replicate kmsg.fds_count (-1)) []).2.2)) :
    (recv_exit_unlock_fds conn kmsg rest ret fds w inst).conn = conn ∧
    (recv_exit_unlock_fds conn kmsg rest ret fds w inst).released
      = (recv_exit_unlock_fds conn kmsg rest ret fds w inst).installed ∧
    (recv_exit_unlock_fds conn kmsg rest ret fds w inst).delivered = none := by
  rcases hfi with ⟨-, rfl, rfl⟩ | ⟨hk, rfl, rfl⟩
  · exact ⟨rfl, rfl, rfl⟩
  · unfold recv_exit_unlock_fds
    dsimp only
    rw [recv_install_cleanup]
    refine ⟨?_, rfl, rfl⟩
    dsimp only
    have hkm : { kmsg with fds := some (List.replicate kmsg.fds_count (-1)) } = kmsg := by
      cases kmsg
      simp only at hk
      simp [hk]
    rw [hkm, ← hq]

theorem recv_set_size_fail (env : kdbus_env) (conn : kdbus_conn) (kmsg : kdbus_kmsg)
    (rest : List kdbus_kmsg) (fds : Option (List Int)) (pos : Nat) (w : List user_write)
    (inst : List (Int × Option Nat))
    (h : (recv_set_size env conn kmsg rest fds pos w inst).ret ≠ 0) :
    recv_set_size env conn kmsg rest fds pos w inst
      = recv_exit_unlock_fds conn kmsg rest (-EFAULT) fds w inst := by
  unfold recv_set_size at h ⊢
  split_ifs at h ⊢ with h1
  · rfl
  · exact absurd rfl h

theorem recv_append_meta_fail (env : kdbus_env) (conn : kdbus_conn) (kmsg : kdbus_kmsg)
    (rest : List kdbus_kmsg) (fds : Option (List Int)) (pos : Nat) (w : List user_write)
    (inst : List (Int × Option Nat))
    (h : (recv_append_meta env conn kmsg rest fds pos w inst).ret ≠ 0) :
    ∃ w', recv_append_meta env conn kmsg rest fds pos w inst
      = recv_exit_unlock_fds conn kmsg rest (-EFAULT) fds w' inst := by
  unfold recv_append_meta at h ⊢
  split at h
  · split_ifs at h ⊢
    · exact ⟨_, rfl⟩
    · exact ⟨_, recv_set_size_fail _ _ _ _ _ _ _ _ h⟩
  · exact ⟨_, recv_set_size_fail _ _ _ _ _ _ _ _ h⟩

theorem recv_finish_fail (c : kdbus_consts) (env : kdbus_env) (conn : kdbus_conn)
    (kmsg : kdbus_kmsg) (rest : List kdbus_kmsg) (pos : Nat) (w : List user_write)
    (hq : conn.msg_list = kmsg :: rest)
    (hinv : ∀ a, kmsg.fds = some a → a = List.replicate kmsg.fds_count (-1))
    (h : (recv_finish c env conn kmsg rest pos w).ret ≠ 0) :
    (recv_finish c env conn kmsg rest pos w).conn = conn ∧
    (recv_finish c env conn kmsg rest pos w).released
      = (recv_finish c env conn kmsg rest pos w).installed ∧
    (recv_finish c env conn kmsg rest pos w).delivered = none := by
  unfold recv_finish at h ⊢
  split at h
  · rename_i a ha
    have hk := hinv a ha
    subst hk
    have hfi : ∀ (ret : Int) (w' : List user_write),
        (recv_exit_unlock_fds conn kmsg rest ret
          (some (recv_install_fds env (kmsg.fds_fp.getD []) kmsg.fds_count 0
            (List.replicate kmsg.fds_count (-1)) []).2.1) w'
          (recv_install_fds env (kmsg.fds_fp.getD []) kmsg.fds_count 0
            (List.replicate kmsg.fds_count (-1)) []).2.2).conn = conn ∧ _ ∧ _ :=
      fun ret w' => recv_exit_unlock_fds_restores env conn kmsg rest ret _ w' _ hq
        (Or.inr ⟨ha, rfl, rfl⟩)
    dsimp only at h ⊢
    split_ifs at h ⊢
    · exact hfi _ _
    · exact hfi _ _
    · obtain ⟨w', hw⟩ := recv_append_meta_fail _ _ _ _ _ _ _ _ h
      rw [hw]
      exact hfi _ _
  · rename_i hn
    obtain ⟨w', hw⟩ := recv_append_meta_fail _ _ _ _ _ _ _ _ h
    rw [hw]
    exact recv_exit_unlock_fds_restores env conn kmsg rest _ _ w' _ hq (Or.inl ⟨hn, rfl, rfl⟩)

/-- C15: when `kdbus_kmsg_recv` fails, on a connection whose first queue
entry has -1 in every slot of its installed-handle array (as
`kdbus_msg_scan_items` initialises it), the connection is as before the call,
`msg_list` and `msg_count` included, the descriptors and files released under
`exit_unlock_fds` are exactly those installed during the call, nothing was
taken from the queue, and every slot of the installed-handle array of the
first queue entry holds -1 again. -/
theorem kmsg_recv_failure_restores (c : kdbus_consts) (env : kdbus_env) (conn : kdbus_conn)
    (buf : Nat) (buf_size : Option Nat) (r : recv_result)
    (hinv : ∀ kmsg rest a, conn.msg_list = kmsg :: rest → kmsg.fds = some a →
      a = List.replicate kmsg.fds_count (-1))
    (h : kdbus_kmsg_recv c env conn buf buf_size = some r) (hret : r.ret ≠ 0) :
    r.conn = conn ∧ r.conn.msg_list = conn.msg_list ∧ r.conn.msg_count = conn.msg_count ∧
    r.released = r.installed ∧ r.delivered = none ∧
    (∀ kmsg rest a, r.conn.msg_list = kmsg :: rest → kmsg.fds = some a → ∀ x ∈ a, x = -1) := by
  have key : r.conn = conn ∧ r.released = r.installed ∧ r.delivered = none := by
    unfold kdbus_kmsg_recv at h
    split at h
    · cases h; exact ⟨rfl, rfl, rfl⟩
    · split at h
      · cases h; exact ⟨rfl, rfl, rfl⟩
      · split at h
        · cases h; exact ⟨rfl, rfl, rfl⟩
        · split at h
          · cases h
          · rename_i kmsg rest hq
            unfold recv_entry at h
            split at h
            · cases h; exact ⟨rfl, rfl, rfl⟩
            · split at h
              · cases h; exact ⟨rfl, rfl, rfl⟩
              · split at h
                · cases h
                · split at h
                  · cases h; exact ⟨rfl, rfl, rfl⟩
                  · simp only [Option.some.injEq] at h
                    subst h
                    exact recv_finish_fail c env conn kmsg rest _ _ hq
                      (fun a ha => hinv kmsg rest a hq ha) hret
  obtain ⟨k1, k2, k3⟩ := key
  refine ⟨k1, by rw [k1], by rw [k1], k2, k3, ?_⟩
  intro kmsg rest a hq ha x hx
  rw [k1] at hq
  rw [hinv kmsg rest a hq ha] at hx
  exact List.eq_of_mem_replicate hx

theorem kmsg_recv_failure_restores_witness :
    (kdbus_kmsg_recv sample_consts sample_env_one_fd sample_conn_fds 4096 (some 4096)).map
        (fun r => (r.ret, r.installed, r.released))
      = some (-EMFILE, [(3, some 10)], [(3, some 10)]) ∧
    ∃ r, kdbus_kmsg_recv sample_consts sample_env_one_fd sample_conn_fds 4096 (some 4096)
        = some r ∧
      r.conn = sample_conn_fds ∧ r.released = r.installed :=
  ⟨by decide, _, rfl,
   (kmsg_recv_failure_restores sample_consts sample_env_one_fd sample_conn_fds 4096 (some 4096)
      _ (by
        intro kmsg rest a hq ha
        cases hq
        cases ha
        rfl) rfl (by decide)).1,
   (kmsg_recv_failure_restores sample_consts sample_env_one_fd sample_conn_fds 4096 (some 4096)
      _ (by
        intro kmsg rest a hq ha
        cases hq
        cases ha
        rfl) rfl (by decide)).2.2.2.1⟩

/-! ## C18: metadata for the destination -/

theorem meta_extended_refl (c : kdbus_consts) (flags : Nat) (kmsg : kdbus_kmsg) :
    meta_extended c flags kmsg kmsg :=
  ⟨[], by simp, by simp⟩

theorem meta_extended_trans (c : kdbus_consts) (flags : Nat) (k1 k2 k3 : kdbus_kmsg)
    (h1 : meta_extended c flags k1 k2) (h2 : meta_extended c flags k2 k3) :
    meta_extended c flags k1 k3 := by
  obtain ⟨a, ha, pa⟩ := h1
  obtain ⟨b, hb, pb⟩ := h2
  refine ⟨a ++ b, by rw [hb, ha, List.append_assoc], ?_⟩
  intro t ht
  rcases List.mem_append.mp ht with h | h
  · exact pa t h
  · exact pb t h

theorem kmsg_append_insert_meta (c : kdbus_consts) (env : kdbus_env) (src : Option kdbus_conn)
    (kmsg : kdbus_kmsg) (extra_size : Nat) :
    (kmsg_append_insert c env src kmsg extra_size).kmsg.meta = kmsg.meta := by
  unfold kmsg_append_insert
  dsimp only
  split_ifs <;> rfl

theorem kdbus_kmsg_append_meta (c : kdbus_consts) (env : kdbus_env) (src : Option kdbus_conn)
    (kmsg : kdbus_kmsg) (extra_size : Nat) :
    (kdbus_kmsg_append c env src kmsg extra_size).kmsg.meta.getD [] = kmsg.meta.getD [] := by
  unfold kdbus_kmsg_append
  split
  · rename_i hm
    dsimp only
    split_ifs
    · rfl
    · rfl
    · rw [kmsg_append_insert_meta, hm]
      rfl
  · rw [kmsg_append_insert_meta]

theorem kmsg_append_item_kinds (c : kdbus_consts) (env : kdbus_env)
    (src : Option kdbus_conn) (kmsg : kdbus_kmsg) (extra_size : Nat) (item : kdbus_item) :
    meta_kinds (kmsg_append_item c env src kmsg extra_size item).2.1 = meta_kinds kmsg ∨
    meta_kinds (kmsg_append_item c env src kmsg extra_size item).2.1
      = meta_kinds kmsg ++ [item.type] := by
  unfold kmsg_append_item meta_kinds
  dsimp only
  split
  · left
    rw [kdbus_kmsg_append_meta]
  · right
    simp only [Option.getD_some, List.map_append, List.map_cons, List.map_nil]
    rw [kdbus_kmsg_append_meta]

theorem kdbus_kmsg_append_data_kinds (c : kdbus_consts) (env : kdbus_env)
    (src : Option kdbus_conn) (kmsg : kdbus_kmsg) (type : kdbus_item_type) (buf : List Nat)
    (len : Nat) :
    meta_kinds (kdbus_kmsg_append_data c env src kmsg type buf len).2.1 = meta_kinds kmsg ∨
    meta_kinds (kdbus_kmsg_append_data c env src kmsg type buf len).2.1
      = meta_kinds kmsg ++ [type] := by
  unfold kdbus_kmsg_append_data
  split_ifs
  · exact Or.inl rfl
  · exact kmsg_append_item_kinds _ _ _ _ _ _

/-- A record appended by `kdbus_kmsg_append_data` extends the metadata in the
sense of `meta_extended` when the attach flag of its kind is set. -/
theorem kdbus_kmsg_append_data_extended (c : kdbus_consts) (env : kdbus_env)
    (src : Option kdbus_conn) (kmsg : kdbus_kmsg) (type : kdbus_item_type) (buf : List Nat)
    (len : Nat) (flags f : Nat) (hf : attach_flag c type = some f) (hset : (flags &&& f) ≠ 0) :
    meta_extended c flags kmsg (kdbus_kmsg_append_data c env src kmsg type buf len).2.1 := by
  rcases kdbus_kmsg_append_data_kinds c env src kmsg type buf len with h | h
  · exact ⟨[], by rw [h]; simp, by simp⟩
  · refine ⟨[type], h, ?_⟩
    intro t ht
    rw [List.mem_singleton.mp ht]
    exact ⟨f, hf, hset⟩

theorem kdbus_kmsg_append_str_extended (c : kdbus_consts) (env : kdbus_env)
    (src : Option kdbus_conn) (kmsg : kdbus_kmsg) (type : kdbus_item_type) (str : List Nat)
    (flags f : Nat) (hf : attach_flag c type = some f) (hset : (flags &&& f) ≠ 0) :
    meta_extended c flags kmsg (kdbus_kmsg_append_str c env src kmsg type str).2.1 :=
  kdbus_kmsg_append_data_extended c env src kmsg type _ _ flags f hf hset

theorem and_then_extended (c : kdbus_consts) (flags : Nat) (kmsg : kdbus_kmsg)
    (r : Option kdbus_conn × kdbus_kmsg × Int)
    (k : Option kdbus_conn → kdbus_kmsg → Option kdbus_conn × kdbus_kmsg × Int)
    (h1 : meta_extended c flags kmsg r.2.1)
    (h2 : ∀ s km, meta_extended c flags km (k s km).2.1) :
    meta_extended c flags kmsg (and_then r k).2.1 := by
  unfold and_then
  split_ifs
  · exact h1
  · exact meta_extended_trans _ _ _ _ _ h1 (h2 _ _)

theorem append_for_dst_blocks_extended (c : kdbus_consts) (env : kdbus_env)
    (conn_src conn_dst : kdbus_conn) (src : Option kdbus_conn) (kmsg : kdbus_kmsg) :
    meta_extended c conn_dst.flags kmsg (append_for_dst_comm c env conn_dst src kmsg).2.1 ∧
    meta_extended c conn_dst.flags kmsg (append_for_dst_exe c env conn_dst src kmsg).2.1 ∧
    meta_extended c conn_dst.flags kmsg (append_for_dst_cmdline c env conn_dst src kmsg).2.1 ∧
    meta_extended c conn_dst.flags kmsg (append_for_dst_caps c env conn_dst src kmsg).2.1 ∧
    meta_extended c conn_dst.flags kmsg (append_for_dst_cgroup c env conn_dst src kmsg).2.1 ∧
    meta_extended c conn_dst.flags kmsg
      (append_for_dst_audit c env conn_src conn_dst src kmsg).2.1 ∧
    meta_extended c conn_dst.flags kmsg
      (append_for_dst_seclabel c env conn_src conn_dst src kmsg).2.1 := by
  refine ⟨?_, ?_, ?_, ?_, ?_, ?_, ?_⟩
  · unfold append_for_dst_comm
    split_ifs with h
    · apply and_then_extended
      · exact kdbus_kmsg_append_str_extended _ _ _ _ _ _ _ _ rfl h
      · intro s km
        exact kdbus_kmsg_append_str_extended _ _ _ _ _ _ _ _ rfl h
    · exact meta_extended_refl _ _ _
  · unfold append_for_dst_exe
    by_cases h : (conn_dst.flags &&& c.KDBUS_HELLO_ATTACH_EXE) ≠ 0
    · rw [if_pos h]
      repeat' split
      all_goals first
        | exact meta_extended_refl _ _ _
        | exact kdbus_kmsg_append_data_extended _ _ _ _ _ _ _ _ _ rfl h
    · rw [if_neg h]
      exact meta_extended_refl _ _ _
  · unfold append_for_dst_cmdline
    by_cases h : (conn_dst.flags &&& c.KDBUS_HELLO_ATTACH_CMDLINE) ≠ 0
    · rw [if_pos h]
      dsimp only
      repeat' split
      all_goals first
        | exact meta_extended_refl _ _ _
        | exact kdbus_kmsg_append_data_extended _ _ _ _ _ _ _ _ _ rfl h
    · rw [if_neg h]
      exact meta_extended_refl _ _ _
  · unfold append_for_dst_caps
    split_ifs with h
    · exact kdbus_kmsg_append_data_extended _ _ _ _ _ _ _ _ _ rfl h
    · exact meta_extended_refl _ _ _
  · unfold append_for_dst_cgroup
    dsimp only
    split_ifs with h
    · exact meta_extended_refl _ _ _
    · exact kdbus_kmsg_append_str_extended _ _ _ _ _ _ _ _ rfl h.2.1
    · exact meta_extended_refl _ _ _
    · exact meta_extended_refl _ _ _
  · unfold append_for_dst_audit
    split_ifs with h
    · exact kdbus_kmsg_append_data_extended _ _ _ _ _ _ _ _ _ rfl h.2
    · exact meta_extended_refl _ _ _
  · unfold append_for_dst_seclabel
    split_ifs with h
    · exact kdbus_kmsg_append_data_extended _ _ _ _ _ _ _ _ _ rfl h.2.1
    · exact meta_extended_refl _ _ _

theorem kdbus_msg_append_for_dst_extended (c : kdbus_consts) (env : kdbus_env)
    (conn_src conn_dst : kdbus_conn) (src : Option kdbus_conn) (kmsg : kdbus_kmsg) :
    meta_extended c conn_dst.flags kmsg
      (kdbus_msg_append_for_dst c env conn_src conn_dst src kmsg).2.1 := by
  unfold kdbus_msg_append_for_dst
  apply and_then_extended
  · exact (append_for_dst_blocks_extended c env conn_src conn_dst _ _).1
  intro s km
  apply and_then_extended
  · exact (append_for_dst_blocks_extended c env conn_src conn_dst _ _).2.1
  intro s km
  apply and_then_extended
  · exact (append_for_dst_blocks_extended c env conn_src conn_dst _ _).2.2.1
  intro s km
  apply and_then_extended
  · exact (append_for_dst_blocks_extended c env conn_src conn_dst _ _).2.2.2.1
  intro s km
  apply and_then_extended
  · exact (append_for_dst_blocks_extended c env conn_src conn_dst _ _).2.2.2.2.1
  intro s km
  apply and_then_extended
  · exact (append_for_dst_blocks_extended c env conn_src conn_dst _ _).2.2.2.2.2.1
  intro s km
  apply and_then_extended
  · exact (append_for_dst_blocks_extended c env conn_src conn_dst _ _).2.2.2.2.2.2
  intro s km
  exact meta_extended_refl _ _ _
theorem add_size_allocation_src_flags (c : kdbus_consts) (f : Nat) (src : Option kdbus_conn)
    (size : Nat) :
    add_size_allocation_src c (src.map (with_flags f)) size
      = ((add_size_allocation_src c src size).1.map (with_flags f),
         (add_size_allocation_src c src size).2) := by
  cases src with
  | none => rfl
  | some conn =>
    simp only [Option.map_some', add_size_allocation_src, kdbus_conn_add_size_allocation,
      with_flags]
    split_ifs <;> rfl

theorem kmsg_append_insert_flags (c : kdbus_consts) (env : kdbus_env) (f : Nat)
    (src : Option kdbus_conn) (kmsg : kdbus_kmsg) (extra_size : Nat) :
    kmsg_append_insert c env (src.map (with_flags f)) kmsg extra_size
      = { kmsg_append_insert c env src kmsg extra_size with
          src := (kmsg_append_insert c env src kmsg extra_size).src.map (with_flags f) } := by
  unfold kmsg_append_insert
  dsimp only
  rw [add_size_allocation_src_flags]
  split_ifs <;> rfl

theorem kdbus_kmsg_append_flags (c : kdbus_consts) (env : kdbus_env) (f : Nat)
    (src : Option kdbus_conn) (kmsg : kdbus_kmsg) (extra_size : Nat) :
    kdbus_kmsg_append c env (src.map (with_flags f)) kmsg extra_size
      = { kdbus_kmsg_append c env src kmsg extra_size with
          src := (kdbus_kmsg_append c env src kmsg extra_size).src.map (with_flags f) } := by
  unfold kdbus_kmsg_append
  split
  · dsimp only
    rw [add_size_allocation_src_flags]
    dsimp only
    split_ifs
    · rfl
    · rfl
    · rw [kmsg_append_insert_flags]
  · rw [kmsg_append_insert_flags]

theorem kmsg_append_item_flags (c : kdbus_consts) (env : kdbus_env) (f : Nat)
    (src : Option kdbus_conn) (kmsg : kdbus_kmsg) (extra_size : Nat) (item : kdbus_item) :
    kmsg_append_item c env (src.map (with_flags f)) kmsg extra_size item
      = with_flags_src f (kmsg_append_item c env src kmsg extra_size item) := by
  unfold kmsg_append_item with_flags_src
  dsimp only
  rw [kdbus_kmsg_append_flags]
  dsimp only
  split <;> rfl

theorem kdbus_kmsg_append_data_flags (c : kdbus_consts) (env : kdbus_env) (f : Nat)
    (src : Option kdbus_conn) (kmsg : kdbus_kmsg) (type : kdbus_item_type) (buf : List Nat)
    (len : Nat) :
    kdbus_kmsg_append_data c env (src.map (with_flags f)) kmsg type buf len
      = with_flags_src f (kdbus_kmsg_append_data c env src kmsg type buf len) := by
  unfold kdbus_kmsg_append_data
  split_ifs
  · rfl
  · exact kmsg_append_item_flags _ _ _ _ _ _ _

theorem kdbus_kmsg_append_str_flags (c : kdbus_consts) (env : kdbus_env) (f : Nat)
    (src : Option kdbus_conn) (kmsg : kdbus_kmsg) (type : kdbus_item_type) (str : List Nat) :
    kdbus_kmsg_append_str c env (src.map (with_flags f)) kmsg type str
      = with_flags_src f (kdbus_kmsg_append_str c env src kmsg type str) :=
  kdbus_kmsg_append_data_flags _ _ _ _ _ _ _ _

theorem and_then_flags (f : Nat) (r r' : Option kdbus_conn × kdbus_kmsg × Int)
    (k k' : Option kdbus_conn → kdbus_kmsg → Option kdbus_conn × kdbus_kmsg × Int)
    (h1 : r' = with_flags_src f r)
    (h2 : ∀ s km, k' (s.map (with_flags f)) km = with_flags_src f (k s km)) :
    and_then r' k' = with_flags_src f (and_then r k) := by
  subst h1
  unfold and_then
  by_cases h : r.2.2 < 0
  · have h' : (with_flags_src f r).2.2 < 0 := h
    rw [if_pos h, if_pos h']
  · have h' : ¬ (with_flags_src f r).2.2 < 0 := h
    rw [if_neg h, if_neg h']
    exact h2 _ _

theorem append_for_dst_blocks_flags (c : kdbus_consts) (env : kdbus_env) (f : Nat)
    (conn_src conn_dst : kdbus_conn) (src : Option kdbus_conn) (kmsg : kdbus_kmsg) :
    append_for_dst_comm c env conn_dst (src.map (with_flags f)) kmsg
      = with_flags_src f (append_for_dst_comm c env conn_dst src kmsg) ∧
    append_for_dst_exe c env conn_dst (src.map (with_flags f)) kmsg
      = with_flags_src f (append_for_dst_exe c env conn_dst src kmsg) ∧
    append_for_dst_cmdline c env conn_dst (src.map (with_flags f)) kmsg
      = with_flags_src f (append_for_dst_cmdline c env conn_dst src kmsg) ∧
    append_for_dst_caps c env conn_dst (src.map (with_flags f)) kmsg
      = with_flags_src f (append_for_dst_caps c env conn_dst src kmsg) ∧
    append_for_dst_cgroup c env conn_dst (src.map (with_flags f)) kmsg
      = with_flags_src f (append_for_dst_cgroup c env conn_dst src kmsg) ∧
    append_for_dst_audit c env (with_flags f conn_src) conn_dst (src.map (with_flags f)) kmsg
      = with_flags_src f (append_for_dst_audit c env conn_src conn_dst src kmsg) ∧
    append_for_dst_seclabel c env (with_flags f conn_src) conn_dst (src.map (with_flags f)) kmsg
      = with_flags_src f (append_for_dst_seclabel c env conn_src conn_dst src kmsg) := by
  refine ⟨?_, ?_, ?_, ?_, ?_, ?_, ?_⟩
  · unfold append_for_dst_comm
    by_cases h : (conn_dst.flags &&& c.KDBUS_HELLO_ATTACH_COMM) ≠ 0
    · rw [if_pos h, if_pos h]
      apply and_then_flags
      · exact kdbus_kmsg_append_str_flags _ _ _ _ _ _ _
      · intro s km
        exact kdbus_kmsg_append_str_flags _ _ _ _ _ _ _
    · rw [if_neg h, if_neg h]; rfl
  · unfold append_for_dst_exe
    by_cases h : (conn_dst.flags &&& c.KDBUS_HELLO_ATTACH_EXE) ≠ 0
    · rw [if_pos h, if_pos h]
      repeat' split
      all_goals first
        | rfl
        | exact kdbus_kmsg_append_data_flags _ _ _ _ _ _ _ _
    · rw [if_neg h, if_neg h]; rfl
  · unfold append_for_dst_cmdline
    by_cases h : (conn_dst.flags &&& c.KDBUS_HELLO_ATTACH_CMDLINE) ≠ 0
    · rw [if_pos h, if_pos h]
      dsimp only
      repeat' split
      all_goals first
        | rfl
        | exact kdbus_kmsg_append_data_flags _ _ _ _ _ _ _ _
    · rw [if_neg h, if_neg h]; rfl
  · unfold append_for_dst_caps
    split_ifs
    · exact kdbus_kmsg_append_data_flags _ _ _ _ _ _ _ _
    · rfl
  · unfold append_for_dst_cgroup
    dsimp only
    split_ifs
    · rfl
    · exact kdbus_kmsg_append_str_flags _ _ _ _ _ _ _
    · rfl
    · rfl
  · unfold append_for_dst_audit
    split_ifs
    · exact kdbus_kmsg_append_data_flags _ _ _ _ _ _ _ _
    · rfl
  · unfold append_for_dst_seclabel
    have hl : (with_flags f conn_src).sec_label_len = conn_src.sec_label_len := rfl
    rw [hl]
    split_ifs
    · exact kdbus_kmsg_append_data_flags _ _ _ _ _ _ _ _
    · rfl

theorem kdbus_msg_append_for_dst_flags (c : kdbus_consts) (env : kdbus_env) (f : Nat)
    (conn_src conn_dst : kdbus_conn) (src : Option kdbus_conn) (kmsg : kdbus_kmsg) :
    kdbus_msg_append_for_dst c env (with_flags f conn_src) conn_dst (src.map (with_flags f)) kmsg
      = with_flags_src f (kdbus_msg_append_for_dst c env conn_src conn_dst src kmsg) := by
  unfold kdbus_msg_append_for_dst
  apply and_then_flags
  · exact (append_for_dst_blocks_flags c env f conn_src conn_dst _ _).1
  intro s km
  apply and_then_flags
  · exact (append_for_dst_blocks_flags c env f conn_src conn_dst _ _).2.1
  intro s km
  apply and_then_flags
  · exact (append_for_dst_blocks_flags c env f conn_src conn_dst _ _).2.2.1
  intro s km
  apply and_then_flags
  · exact (append_for_dst_blocks_flags c env f conn_src conn_dst _ _).2.2.2.1
  intro s km
  apply and_then_flags
  · exact (append_for_dst_blocks_flags c env f conn_src conn_dst _ _).2.2.2.2.1
  intro s km
  apply and_then_flags
  · exact (append_for_dst_blocks_flags c env f conn_src conn_dst _ _).2.2.2.2.2.1
  intro s km
  apply and_then_flags
  · exact (append_for_dst_blocks_flags c env f conn_src conn_dst _ _).2.2.2.2.2.2
  intro s km
  rfl

/-- C18: the metadata `kdbus_msg_append_for_dst` leaves in the message is the
metadata it found followed by records of the kinds comm (thread and process),
exe, cmdline, caps, cgroup, audit, seclabel only, each of a kind whose attach
flag is set in the flags of the destination connection.  With another value
of `flags` in the sending connection (also where it is the connection charged
for the message) the call returns the same result code and the same message,
so the same sequence of record kinds. -/
theorem append_for_dst_receiver_flags (c : kdbus_consts) (env : kdbus_env)
    (conn_src conn_dst : kdbus_conn) (src : Option kdbus_conn) (kmsg : kdbus_kmsg) (f : Nat) :
    (∃ added,
      meta_kinds (kdbus_msg_append_for_dst c env conn_src conn_dst src kmsg).2.1
        = meta_kinds kmsg ++ added ∧
      ∀ t ∈ added, ∃ flag, attach_flag c t = some flag ∧ (conn_dst.flags &&& flag) ≠ 0) ∧
    (kdbus_msg_append_for_dst c env { conn_src with flags := f } conn_dst
        (src.map fun s => { s with flags := f }) kmsg).2
      = (kdbus_msg_append_for_dst c env conn_src conn_dst src kmsg).2 ∧
    (kdbus_msg_append_for_dst c env { conn_src with flags := f } conn_dst src kmsg).2
      = (kdbus_msg_append_for_dst c env conn_src conn_dst src kmsg).2 ∧
    meta_kinds (kdbus_msg_append_for_dst c env { conn_src with flags := f } conn_dst
        (src.map fun s => { s with flags := f }) kmsg).2.1
      = meta_kinds (kdbus_msg_append_for_dst c env conn_src conn_dst src kmsg).2.1 := by
  have h1 := kdbus_msg_append_for_dst_flags c env f conn_src conn_dst src kmsg
  have h2 : kdbus_msg_append_for_dst c env (with_flags f conn_src) conn_dst src kmsg
      = kdbus_msg_append_for_dst c env conn_src conn_dst src kmsg := by
    unfold kdbus_msg_append_for_dst append_for_dst_audit append_for_dst_seclabel
    rfl
  refine ⟨kdbus_msg_append_for_dst_extended c env conn_src conn_dst src kmsg, ?_, ?_, ?_⟩
  · have h := congrArg Prod.snd h1
    exact h
  · have h := congrArg Prod.snd h2
    exact h
  · have h := congrArg (fun r => meta_kinds r.2.1) h1
    exact h

theorem append_for_dst_receiver_flags_witness :
    meta_kinds (kdbus_msg_append_for_dst sample_consts sample_env { id := 1, flags := 512 }
        sample_conn_attach (some { id := 1, flags := 512 }) sample_broadcast_kmsg).2.1
      = [KDBUS_MSG_SRC_TID_COMM, KDBUS_MSG_SRC_PID_COMM, KDBUS_MSG_SRC_CAPS] ∧
    (kdbus_msg_append_for_dst sample_consts sample_env
        { ({ id := 1, flags := 512 } : kdbus_conn) with flags := 16384 } sample_conn_attach
        ((some { id := 1, flags := 512 } : Option kdbus_conn).map
          fun s => { s with flags := 16384 }) sample_broadcast_kmsg).2
      = (kdbus_msg_append_for_dst sample_consts sample_env { id := 1, flags := 512 }
          sample_conn_attach (some { id := 1, flags := 512 }) sample_broadcast_kmsg).2 :=
  ⟨by decide,
   (append_for_dst_receiver_flags sample_consts sample_env { id := 1, flags := 512 }
      sample_conn_attach (some { id := 1, flags := 512 }) sample_broadcast_kmsg 16384).2.1⟩

/-! ## C14: what `kdbus_kmsg_recv` writes -/

theorem recv_payload_loop_writes (env : kdbus_env) (msg_size : Nat) (has_vecs : Bool)
    (items : List kdbus_item) :
    ∀ (ipos : Nat) (vecs_next : List kdbus_item) (pos : Nat) (w : List user_write)
      (e : Int) (pos' : Nat) (w' : List user_write),
      recv_payload_loop env msg_size has_vecs items ipos vecs_next pos w = some (e, pos', w') →
      ¬ e < 0 →
      w' = w ++ place_items pos (delivered_items (foreach_walk msg_size items ipos) vecs_next) ∧
      pos' = end_of_items pos (delivered_items (foreach_walk msg_size items ipos) vecs_next) := by
  induction items with
  | nil =>
    intro ipos vecs_next pos w e pos' w' h _
    unfold recv_payload_loop at h
    split at h
    · cases h
    · simp only [Option.some.injEq, Prod.mk.injEq] at h
      obtain ⟨-, rfl, rfl⟩ := h
      simp [foreach_walk, delivered_items, place_items, end_of_items]
  | cons item rest ih =>
    intro ipos vecs_next pos w e pos' w' h he
    unfold recv_payload_loop at h
    unfold foreach_walk
    split at h
    · rename_i hin
      rw [if_pos hin]
      split at h
      · rename_i e1 hb
        simp only [Option.some.injEq, Prod.mk.injEq] at h
        obtain ⟨rfl, -, -⟩ := h
        exfalso
        apply he
        unfold recv_payload_body at hb
        split at hb
        · split_ifs at hb
          cases hb; decide
        · split_ifs at hb <;> first | (cases hb; decide) | (dsimp only at hb; split_ifs at hb; cases hb; decide)
        · cases hb
      · rename_i vn p1 w1 hb
        split at h
        · cases h
        · obtain ⟨ih1, ih2⟩ := ih _ _ _ _ _ _ _ h he
          unfold recv_payload_body at hb
          unfold delivered_items
          split at hb
          · rename_i ht
            split_ifs at hb
            simp only [Except.ok.injEq, Prod.mk.injEq] at hb
            obtain ⟨rfl, rfl, rfl⟩ := hb
            rw [ih1, ih2]
            simp [place_items, end_of_items]
          · rename_i ht
            split_ifs at hb
            dsimp only at hb
            split_ifs at hb
            simp only [Except.ok.injEq, Prod.mk.injEq] at hb
            obtain ⟨rfl, rfl, rfl⟩ := hb
            rw [ih1, ih2]
            simp [place_items, end_of_items]
          · rename_i ht1 ht2
            simp only [Except.ok.injEq, Prod.mk.injEq] at hb
            obtain ⟨rfl, rfl, rfl⟩ := hb
            rw [ih1, ih2]
            exact ⟨rfl, rfl⟩
    · rename_i hin
      rw [if_neg hin]
      simp only [Option.some.injEq, Prod.mk.injEq] at h
      obtain ⟨-, rfl, rfl⟩ := h
      simp [delivered_items, place_items, end_of_items]
theorem recv_set_size_writes (env : kdbus_env) (conn : kdbus_conn) (kmsg : kdbus_kmsg)
    (rest : List kdbus_kmsg) (fds : Option (List Int)) (pos : Nat) (w : List user_write)
    (inst : List (Int × Option Nat))
    (h : (recv_set_size env conn kmsg rest fds pos w inst).ret = 0) :
    (recv_set_size env conn kmsg rest fds pos w inst).writes = w ++ [user_write.size pos] ∧
    (recv_set_size env conn kmsg rest fds pos w inst).installed = inst := by
  unfold recv_set_size at h ⊢
  split_ifs at h ⊢
  · rw [recv_exit_unlock_fds_ret] at h; simp [EFAULT] at h
  · exact ⟨rfl, rfl⟩

theorem recv_append_meta_writes (env : kdbus_env) (conn : kdbus_conn) (kmsg : kdbus_kmsg)
    (rest : List kdbus_kmsg) (fds : Option (List Int)) (pos : Nat) (w : List user_write)
    (inst : List (Int × Option Nat))
    (h : (recv_append_meta env conn kmsg rest fds pos w inst).ret = 0) :
    (recv_append_meta env conn kmsg rest fds pos w inst).writes
      = w ++
        (match kmsg.meta with
         | some m => [user_write.meta pos m kmsg.meta_size]
         | none => []) ++
        [user_write.size
          (if kmsg.meta.isSome then u64 (pos + KDBUS_ALIGN8 kmsg.meta_size) else pos)] ∧
    (recv_append_meta env conn kmsg rest fds pos w inst).installed = inst := by
  unfold recv_append_meta at h ⊢
  split at h
  · rename_i m hm
    simp only [hm, Option.isSome_some, if_true] at h ⊢
    by_cases hc : (!env.copy_to_user pos kmsg.meta_size) = true
    · rw [if_pos hc, recv_exit_unlock_fds_ret] at h; simp [EFAULT] at h
    · rw [if_neg hc] at h ⊢
      obtain ⟨a, b⟩ := recv_set_size_writes _ _ _ _ _ _ _ _ h
      rw [a, b]
      simp
  · rename_i hm
    simp only [hm] at h ⊢
    obtain ⟨a, b⟩ := recv_set_size_writes _ _ _ _ _ _ _ _ h
    rw [a, b]
    simp

theorem recv_install_fds_done (env : kdbus_env) (fp : List (Option Nat)) :
    ∀ (n i : Nat) (fds : List Int) (inst : List (Int × Option Nat)),
      ¬ (recv_install_fds env fp n i fds inst).1 < 0 →
      (recv_install_fds env fp n i fds inst).1 = 0 ∧
      (recv_install_fds env fp n i fds inst).2.2.length = inst.length + n := by
  intro n
  induction n with
  | zero =>
    intro i fds inst _
    exact ⟨rfl, rfl⟩
  | succ n ih =>
    intro i fds inst h
    unfold recv_install_fds at h ⊢
    dsimp only at h ⊢
    split_ifs at h ⊢ with hfd
    · exact absurd hfd h
    · obtain ⟨a, b⟩ := ih _ _ _ h
      refine ⟨a, ?_⟩
      rw [b]
      simp only [List.length_append, List.length_singleton]
      omega

theorem recv_finish_writes (c : kdbus_consts) (env : kdbus_env) (conn : kdbus_conn)
    (kmsg : kdbus_kmsg) (rest : List kdbus_kmsg) (pos : Nat) (w : List user_write)
    (h : (recv_finish c env conn kmsg rest pos w).ret = 0) :
    ∃ fds,
      (recv_finish c env conn kmsg rest pos w).writes
        = w ++
          (if kmsg.fds.isSome then
            [user_write.fds pos (fds_item c kmsg fds) (fds_item c kmsg fds).size] else []) ++
          (match kmsg.meta with
           | some m =>
             [user_write.meta
               (if kmsg.fds.isSome then u64 (pos + KDBUS_ALIGN8 (fds_item c kmsg fds).size)
                else pos) m kmsg.meta_size]
           | none => []) ++
          [user_write.size
            (if kmsg.meta.isSome then
              u64 ((if kmsg.fds.isSome then u64 (pos + KDBUS_ALIGN8 (fds_item c kmsg fds).size)
                    else pos) + KDBUS_ALIGN8 kmsg.meta_size)
             else (if kmsg.fds.isSome then u64 (pos + KDBUS_ALIGN8 (fds_item c kmsg fds).size)
                   else pos))] ∧
      (kmsg.fds = none → fds = [] ∧ (recv_finish c env conn kmsg rest pos w).installed = []) ∧
      (kmsg.fds = some (List.replicate kmsg.fds_count (-1)) →
        fds = (recv_finish c env conn kmsg rest pos w).installed.map Prod.fst ∧
        fds.length = kmsg.fds_count ∧ ∀ fd ∈ fds, 0 ≤ fd) := by
  unfold recv_finish at h ⊢
  split at h
  · rename_i a ha
    simp only [ha, Option.isSome_some, if_true] at h ⊢
    by_cases h1 : (recv_install_fds env (kmsg.fds_fp.getD []) kmsg.fds_count 0 a []).1 < 0
    · rw [if_pos h1, recv_exit_unlock_fds_ret] at h; omega
    rw [if_neg h1] at h ⊢
    by_cases h2 : (!env.copy_to_user pos
        (c.KDBUS_ITEM_HEADER_SIZE + sizeof_int * kmsg.fds_count)) = true
    · rw [if_pos h2, recv_exit_unlock_fds_ret] at h; simp [EFAULT] at h
    rw [if_neg h2] at h ⊢
    · obtain ⟨e1, e2⟩ := recv_append_meta_writes _ _ _ _ _ _ _ _ h
      refine ⟨(recv_install_fds env (kmsg.fds_fp.getD []) kmsg.fds_count 0 a []).2.1, ?_, ?_, ?_⟩
      · rw [e1]
        simp [fds_item]
      · intro hn; cases hn
      · intro ha'
        simp only [Option.some.injEq] at ha'
        subst ha'
        rw [e2]
        obtain ⟨X, m, x1, x2, x3, x4, -⟩ :=
          recv_install_fds_spec env (kmsg.fds_fp.getD []) kmsg.fds_count 0 [] rfl
        obtain ⟨-, d2⟩ := recv_install_fds_done env (kmsg.fds_fp.getD []) kmsg.fds_count 0
          (List.replicate kmsg.fds_count (-1)) [] h1
        simp only [List.map_nil, List.nil_append] at x1 x2
        rw [x1] at d2
        simp only [List.length_nil, Nat.zero_add] at d2
        have hm : m = 0 := by omega
        subst hm
        rw [x2, x1]
        simp only [List.replicate_zero, List.append_nil, List.length_map]
        refine ⟨trivial, d2, ?_⟩
        intro fd hfd
        obtain ⟨p, hp, rfl⟩ := List.mem_map.mp hfd
        exact x4 p hp
  · rename_i hn
    simp only [hn] at h ⊢
    obtain ⟨e1, e2⟩ := recv_append_meta_writes _ _ _ _ _ _ _ _ h
    refine ⟨[], ?_, ?_, ?_⟩
    · rw [e1]
      simp
    · intro _; exact ⟨rfl, e2⟩
    · intro hn'; cases hn'
theorem u64_align_mod (p s : Nat) (h : p % 8 = 0) : u64 (p + KDBUS_ALIGN8 s) % 8 = 0 := by
  have h1 := KDBUS_ALIGN8_mod s
  unfold u64
  omega

theorem place_items_aligned (items : List kdbus_item) :
    ∀ (pos : Nat), pos % 8 = 0 →
      (∀ w ∈ place_items pos items, w.offset % 8 = 0) ∧ end_of_items pos items % 8 = 0 := by
  induction items with
  | nil =>
    intro pos h
    exact ⟨by simp [place_items], h⟩
  | cons it rest ih =>
    intro pos h
    obtain ⟨a, b⟩ := ih _ (u64_align_mod pos it.size h)
    refine ⟨?_, b⟩
    intro w hw
    unfold place_items at hw
    rcases List.mem_cons.mp hw with rfl | hw
    · exact h
    · exact a w hw

theorem recv_layout_aligned (c : kdbus_consts) (kmsg : kdbus_kmsg) (fds : List Int)
    (h8 : c.KDBUS_MSG_HEADER_SIZE % 8 = 0) :
    ∀ w ∈ recv_layout c kmsg fds, w.offset % 8 = 0 := by
  obtain ⟨a, b⟩ := place_items_aligned
    (delivered_items (foreach_walk kmsg.msg.size kmsg.msg.items c.KDBUS_MSG_HEADER_SIZE)
      (kmsg.vecs.getD [])) _ h8
  have h2 : (if kmsg.fds.isSome then
      u64 (end_of_items c.KDBUS_MSG_HEADER_SIZE
        (delivered_items (foreach_walk kmsg.msg.size kmsg.msg.items c.KDBUS_MSG_HEADER_SIZE)
          (kmsg.vecs.getD [])) + KDBUS_ALIGN8 (fds_item c kmsg fds).size)
      else end_of_items c.KDBUS_MSG_HEADER_SIZE
        (delivered_items (foreach_walk kmsg.msg.size kmsg.msg.items c.KDBUS_MSG_HEADER_SIZE)
          (kmsg.vecs.getD []))) % 8 = 0 := by
    split_ifs
    · exact u64_align_mod _ _ b
    · exact b
  intro w hw
  unfold recv_layout at hw
  dsimp only at hw
  simp only [List.mem_append, List.mem_singleton] at hw
  rcases hw with (((rfl | hw) | hw) | hw) | rfl
  · rfl
  · exact a w hw
  · split_ifs at hw
    · rw [List.mem_singleton.mp hw]; exact b
    · cases hw
  · split at hw
    · rw [List.mem_singleton.mp hw]; exact h2
    · cases hw
  · show (if kmsg.meta.isSome then _ else _) % 8 = 0
    by_cases hm : kmsg.meta.isSome = true
    · rw [if_pos hm]
      exact u64_align_mod _ _ h2
    · rw [if_neg hm]
      exact h2

theorem delivered_items_for (c : kdbus_consts) (env : kdbus_env) (walk : List kdbus_item) :
    ∀ (vecs : List kdbus_item),
      List.Forall₂ (fun it v => kdbus_inline_user_vec c env it = .ok v) (vec_items walk) vecs →
      List.Forall₂ (delivered_for c env) (payload_items walk) (delivered_items walk vecs) := by
  induction walk with
  | nil =>
    intro vecs _
    simp [payload_items, delivered_items]
  | cons it rest ih =>
    intro vecs h
    unfold delivered_items
    split
    · rename_i ht
      have e1 : vec_items (it :: rest) = vec_items rest := by
        simp [vec_items, ht]
      have e2 : payload_items (it :: rest) = it :: payload_items rest := by
        simp [payload_items, ht]
      rw [e1] at h
      rw [e2]
      exact List.Forall₂.cons (Or.inl ⟨ht, rfl⟩) (ih vecs h)
    · rename_i ht
      have e1 : vec_items (it :: rest) = it :: vec_items rest := by
        simp [vec_items, ht]
      have e2 : payload_items (it :: rest) = it :: payload_items rest := by
        simp [payload_items, ht]
      rw [e1] at h
      rw [e2]
      cases h with
      | cons hv htl =>
        rename_i v vs
        refine List.Forall₂.cons (Or.inr ⟨ht, ?_⟩) (ih vs htl)
        simp only [List.headD_cons]
        unfold kdbus_inline_user_vec at hv
        split at hv
        · cases hv
        · rename_i bytes hb
          simp only [Except.ok.injEq] at hv
          subst hv
          exact ⟨rfl, rfl, hb⟩
    · rename_i ht1 ht2
      have n1 : it.type ≠ KDBUS_MSG_PAYLOAD := ht1
      have n2 : it.type ≠ KDBUS_MSG_PAYLOAD_VEC := ht2
      have e1 : vec_items (it :: rest) = vec_items rest := by
        simp [vec_items, n2]
      have e2 : payload_items (it :: rest) = payload_items rest := by
        simp [payload_items, n1, n2]
      rw [e1] at h
      rw [e2]
      exact ih vecs h

theorem new_from_user_loop_vecs (c : kdbus_consts) (env : kdbus_env) (fuel : Nat)
    (conn : kdbus_conn) (items : List kdbus_item) :
    ∀ (ipos : Nat) (kmsg : kdbus_kmsg) (r : new_result),
      new_from_user_loop c env fuel conn items ipos kmsg = some r → r.ret = 0 →
      ∃ k added, r.kmsg = some k ∧ k.vecs.getD [] = kmsg.vecs.getD [] ++ added ∧
        List.Forall₂ (fun it v => kdbus_inline_user_vec c env it = .ok v)
          (vec_items (foreach_walk kmsg.msg.size items ipos)) added := by
  induction items with
  | nil =>
    intro ipos kmsg r h _
    unfold new_from_user_loop at h
    split at h
    · cases h
    · cases h
      exact ⟨kmsg, [], rfl, by simp, by simp [foreach_walk, vec_items]⟩
  | cons item rest ih =>
    intro ipos kmsg r h hret
    unfold new_from_user_loop at h
    unfold foreach_walk
    split at h
    · rename_i hin
      rw [if_pos hin]
      split at h
      · rename_i ht
        have e1 : vec_items (item :: foreach_walk kmsg.msg.size rest
            (ipos + KDBUS_ALIGN8 item.size))
            = item :: vec_items (foreach_walk kmsg.msg.size rest
                (ipos + KDBUS_ALIGN8 item.size)) := by
          simp [vec_items, ht]
        rw [e1]
        split at h
        · cases h
          rw [(new_exit_free_ret c conn kmsg (-ENOSYS) []).1] at hret
          simp [ENOSYS] at hret
        · rename_i vecs hv
          split at h
          · rename_i e he
            cases h
            rw [(new_exit_free_ret c conn kmsg e []).1] at hret
            unfold kdbus_inline_user_vec at he
            split at he
            · cases he; simp [EFAULT] at hret
            · cases he
          · rename_i next hn
            split at h
            · cases h
            · obtain ⟨k, added, hk1, hk2, hk3⟩ := ih _ _ r h hret
              refine ⟨k, next :: added, hk1, ?_, List.Forall₂.cons hn hk3⟩
              rw [hk2, hv]
              simp
      · rename_i ht
        have e1 : vec_items (item :: foreach_walk kmsg.msg.size rest
            (ipos + KDBUS_ALIGN8 item.size))
            = vec_items (foreach_walk kmsg.msg.size rest
                (ipos + KDBUS_ALIGN8 item.size)) := by
          simp [vec_items, ht]
        rw [e1]
        split at h
        · cases h
        · rename_i k0 ret puts hk
          obtain ⟨h0, -, hvs, hm, -⟩ := copy_user_fds_some c env fuel kmsg k0 item ret puts hk
          split at h
          · rename_i hneg
            rw [h0] at hneg
            exact absurd hneg (by decide)
          · split at h
            · cases h
            · obtain ⟨k, added, hk1, hk2, hk3⟩ := ih _ _ r h hret
              rw [hm] at hk3
              rw [hvs] at hk2
              exact ⟨k, added, hk1, hk2, hk3⟩
      · rename_i ht1 ht2
        have n1 : item.type ≠ KDBUS_MSG_PAYLOAD_VEC := ht1
        have e1 : vec_items (item :: foreach_walk kmsg.msg.size rest
            (ipos + KDBUS_ALIGN8 item.size))
            = vec_items (foreach_walk kmsg.msg.size rest
                (ipos + KDBUS_ALIGN8 item.size)) := by
          simp [vec_items, n1]
        rw [e1]
        split at h
        · cases h
        · exact ih _ _ r h hret
    · rename_i hin
      rw [if_neg hin]
      cases h
      exact ⟨kmsg, [], rfl, by simp, by simp [vec_items]⟩
theorem scan_items_vecs_nil (c : kdbus_consts) (env : kdbus_env) (conn : kdbus_conn)
    (kmsg : kdbus_kmsg) (h : kmsg.vecs = none) :
    (kdbus_msg_scan_items c env conn kmsg).2.1.vecs.getD [] = [] := by
  have hv : ∀ (cn : kdbus_conn) (k : kdbus_kmsg) (st : scan_state), k.vecs = none →
      (scan_alloc_vecs c env cn k st).2.1.vecs.getD [] = [] := by
    intro cn k st hk
    unfold scan_alloc_vecs
    dsimp only
    split_ifs <;> simp [hk]
  unfold kdbus_msg_scan_items
  split
  · simp [h]
  · dsimp only
    split_ifs
    · simp [h]
    · rw [(scan_alloc_fds_keeps c env conn kmsg _).1, h]; rfl
    · exact hv _ _ _ (by rw [(scan_alloc_fds_keeps c env conn kmsg _).1, h])

/-- A message built by `kdbus_kmsg_new_from_user` has its external payload
descriptors inlined, in order. -/
theorem new_from_user_vecs_inlined (c : kdbus_consts) (env : kdbus_env) (fuel : Nat)
    (conn : kdbus_conn) (buf : user_buf) (r : new_result) (k : kdbus_kmsg)
    (h : kdbus_kmsg_new_from_user c env fuel conn buf = some r) (hret : r.ret = 0)
    (hk : r.kmsg = some k) : vecs_inlined c env k := by
  unfold kdbus_kmsg_new_from_user at h
  dsimp only at h
  split at h
  · cases h; simp [EFAULT] at hret
  · split at h
    · cases h; simp [EFAULT] at hret
    · split at h
      · cases h; simp [EMSGSIZE] at hret
      · split at h
        · cases h; simp [ENOMEM] at hret
        · split at h
          · rename_i hneg
            cases h
            simp only at hret
            rw [hret] at hneg
            exact absurd hneg (by decide)
          · split at h
            · cases h; simp [EFAULT] at hret
            · rename_i msg hmsg
              split at h
              · rename_i hneg
                cases h
                rw [(new_exit_free_ret _ _ _ _ _).1] at hret
                rw [hret] at hneg
                exact absurd hneg (by decide)
              · obtain ⟨k1, added, a1, a2, a3⟩ :=
                  new_from_user_loop_vecs c env fuel _ _ _ _ r h hret
                obtain ⟨k2, b1, b2, -⟩ := new_from_user_loop_msg c env fuel _ _ _ _ r h hret
                rw [hk] at a1 b1
                cases a1
                cases b1
                have hnil := fun cn => scan_items_vecs_nil c env cn { msg := msg } rfl
                simp only at a2 a3
                rw [hnil] at a2
                unfold vecs_inlined
                rw [a2, b2]
                exact a3

/-- What a successful `kdbus_kmsg_recv` has written, for the first queue entry
`kmsg`: `recv_layout` with the handle array the installing loop left. -/
theorem kdbus_kmsg_recv_writes (c : kdbus_consts) (env : kdbus_env) (conn : kdbus_conn)
    (buf : Nat) (buf_size : Option Nat) (r : recv_result)
    (hr : kdbus_kmsg_recv c env conn buf buf_size = some r) (hret : r.ret = 0) :
    ∃ kmsg rest fds, conn.msg_list = kmsg :: rest ∧ r.delivered = some kmsg ∧
      r.writes = recv_layout c kmsg fds ∧
      (kmsg.fds = none → fds = [] ∧ r.installed = []) ∧
      (kmsg.fds = some (List.replicate kmsg.fds_count (-1)) →
        fds = r.installed.map Prod.fst ∧ fds.length = kmsg.fds_count ∧ ∀ fd ∈ fds, 0 ≤ fd) := by
  unfold kdbus_kmsg_recv at hr
  split at hr
  · cases hr; simp [EFAULT] at hret
  split at hr
  · cases hr; simp [EFAULT] at hret
  split at hr
  · cases hr; simp [EAGAIN] at hret
  split at hr
  · cases hr
  rename_i size _ _ kmsg rest hq
  unfold recv_entry at hr
  by_cases h1 : size < recv_max_size kmsg
  · rw [if_pos h1] at hr; cases hr; simp [ENOBUFS] at hret
  rw [if_neg h1] at hr
  by_cases h2 : (!env.copy_to_user 0 c.KDBUS_MSG_HEADER_SIZE) = true
  · rw [if_pos h2] at hr; cases hr; simp [EFAULT] at hret
  rw [if_neg h2] at hr
  split at hr
  · cases hr
  rename_i e pos w hloop
  by_cases h3 : e < 0
  · rw [if_pos h3] at hr; cases hr; simp only at hret; omega
  rw [if_neg h3] at hr
  simp only [Option.some.injEq] at hr
  subst hr
  obtain ⟨hw, hpos⟩ := recv_payload_loop_writes env _ _ _ _ _ _ _ _ _ _ hloop h3
  obtain ⟨fds, f1, f2, f3⟩ := recv_finish_writes c env conn kmsg rest pos w hret
  obtain ⟨-, -, hdel⟩ := recv_finish_ok c env conn kmsg rest pos w hret
  have hlay : (recv_finish c env conn kmsg rest pos w).writes = recv_layout c kmsg fds := by
    rw [f1, hw, hpos]
    unfold recv_layout
    simp
  exact ⟨kmsg, rest, fds, hq, hdel, hlay, f2, f3⟩

/-- C14: a successful `kdbus_kmsg_recv` (with a header size that is a multiple
of 8) takes the first entry `kmsg` from the queue and writes to the receiver
exactly `recv_layout`: the message header, then the payload of the items
`KDBUS_ITEM_FOREACH` visits, in their order, one item for every inline payload
item and every external payload descriptor, then the handle-array item if the
message has a handle array, then the metadata block if it has one, and at
last the `size` member, set to the offset behind what was written; every one
of these offsets is a multiple of 8.  The handle-array item carries the
descriptors installed by the call (for an array that held -1 in every slot).
When the inline buffer of the message was filled by `kdbus_inline_user_vec`,
as `kdbus_kmsg_new_from_user` does it, the item written for an external
payload descriptor is an inline payload item of `KDBUS_ITEM_HEADER_SIZE +
vec.size` bytes holding the bytes the descriptor pointed to, and the item
written for an inline payload item is that item. -/
theorem kmsg_recv_layout (c : kdbus_consts) (env : kdbus_env) (conn : kdbus_conn)
    (buf : Nat) (buf_size : Option Nat) (r : recv_result)
    (h8 : c.KDBUS_MSG_HEADER_SIZE % 8 = 0)
    (hr : kdbus_kmsg_recv c env conn buf buf_size = some r) (hret : r.ret = 0) :
    ∃ kmsg rest fds, conn.msg_list = kmsg :: rest ∧ r.delivered = some kmsg ∧
      r.writes = recv_layout c kmsg fds ∧
      (∀ w ∈ r.writes, w.offset % 8 = 0) ∧
      (kmsg.fds = none → fds = [] ∧ r.installed = []) ∧
      (kmsg.fds = some (List.replicate kmsg.fds_count (-1)) →
        fds = r.installed.map Prod.fst ∧ fds.length = kmsg.fds_count ∧ ∀ fd ∈ fds, 0 ≤ fd) ∧
      (∀ env0, vecs_inlined c env0 kmsg →
        List.Forall₂ (delivered_for c env0)
          (payload_items (foreach_walk kmsg.msg.size kmsg.msg.items c.KDBUS_MSG_HEADER_SIZE))
          (delivered_items (foreach_walk kmsg.msg.size kmsg.msg.items c.KDBUS_MSG_HEADER_SIZE)
            (kmsg.vecs.getD []))) ∧
      (∀ env0 fuel conn0 buf0 r0, kdbus_kmsg_new_from_user c env0 fuel conn0 buf0 = some r0 →
        r0.ret = 0 → r0.kmsg = some kmsg → vecs_inlined c env0 kmsg) := by
  obtain ⟨kmsg, rest, fds, hq, hdel, hlay, f2, f3⟩ :=
    kdbus_kmsg_recv_writes c env conn buf buf_size r hr hret
  refine ⟨kmsg, rest, fds, hq, hdel, hlay, ?_, f2, f3, ?_, ?_⟩
  · rw [hlay]
    exact recv_layout_aligned c kmsg fds h8
  · intro env0 hv
    exact delivered_items_for c env0 _ _ hv
  · intro env0 fuel conn0 buf0 r0 hn hr0 hk0
    exact new_from_user_vecs_inlined c env0 fuel conn0 buf0 r0 kmsg hn hr0 hk0

theorem kmsg_recv_layout_witness :
    (kdbus_kmsg_new_from_user sample_consts sample_env 0 { id := 3 }
        (sample_buf sample_mixed_msg)).map (fun r => (r.ret, r.kmsg))
      = some (0, some sample_mixed_kmsg) ∧
    ∃ r, kdbus_kmsg_recv sample_consts sample_env
        { id := 5, msg_list := [sample_mixed_kmsg], msg_count := 1 } 4096 (some 4096) = some r ∧
      r.ret = 0 ∧
      r.writes =
        [user_write.header sample_mixed_kmsg.msg 64,
         user_write.item 64
           { size := 24, type := KDBUS_MSG_PAYLOAD, data := List.replicate 8 0 } 24,
         user_write.item 88
           { size := 32, type := KDBUS_MSG_PAYLOAD, data := List.replicate 16 0 } 32,
         user_write.size 120] ∧
      ∃ kmsg rest fds,
        ({ id := 5, msg_list := [sample_mixed_kmsg], msg_count := 1 } : kdbus_conn).msg_list
          = kmsg :: rest ∧
        r.delivered = some kmsg ∧ r.writes = recv_layout sample_consts kmsg fds :=
  ⟨by decide, _, rfl, rfl, by decide,
   (kmsg_recv_layout sample_consts sample_env
      { id := 5, msg_list := [sample_mixed_kmsg], msg_count := 1 } 4096 (some 4096) _
      (by decide) rfl rfl).elim fun kmsg h1 => h1.elim fun rest h2 => h2.elim fun fds h3 =>
        ⟨kmsg, rest, fds, h3.1, h3.2.1, h3.2.2.1⟩⟩

/-! ## C16: validating a delivered message again -/

/-- C16 fails on the code as stated.  A broadcast with its bloom item is
accepted by `kdbus_msg_scan_items`, but `kdbus_kmsg_recv` does not deliver the
bloom item: for the message as `kdbus_kmsg_new_from_user` built it, without
metadata, the message in the receiver's buffer is the header alone, which
`kdbus_msg_scan_items` rejects with `-EBADMSG` under the same bloom size.  And
a message to a peer that went through `kdbus_kmsg_send` is delivered with the
metadata records the send appended (timestamp, credentials), which
`kdbus_msg_scan_items` rejects with `-ENOTSUPP`. -/
theorem recv_roundtrip_counterexample :
    ((kdbus_msg_scan_items sample_consts sample_env { id := 1, bloom_size := 64 }
        { msg := sample_broadcast_msg }).2.2 = 0 ∧
      (kdbus_kmsg_new_from_user sample_consts sample_env 0 { id := 1, bloom_size := 64 }
          (sample_buf sample_broadcast_msg)).map (fun r => (r.ret, r.kmsg))
        = some (0, some sample_broadcast_kmsg) ∧
      ((kdbus_kmsg_recv sample_consts sample_env
          { id := 2, bloom_size := 64, msg_list := [sample_broadcast_kmsg], msg_count := 1 }
          4096 (some 4096)).bind fun r => (written_msg r.writes).map fun m => (r.ret, m))
        = some (0, { sample_broadcast_msg with src_id := 1, size := 64, items := [] }) ∧
      (kdbus_msg_scan_items sample_consts sample_env { id := 2, bloom_size := 64 }
        { msg := { sample_broadcast_msg with src_id := 1, size := 64, items := [] } }).2.2
        = -EBADMSG) ∧
    ((kdbus_msg_scan_items sample_consts sample_env { id := 1 }
        { msg := sample_peer_kmsg.msg }).2.2 = 0 ∧
      (kdbus_kmsg_send sample_consts sample_env { id := 0 } [{ id := 1 }, { id := 5 }] (some 1)
          sample_peer_kmsg).bind (fun s =>
        (s.conns.find? fun d => d.id == 5).bind fun d =>
          (kdbus_kmsg_recv sample_consts sample_env d 4096 (some 4096)).bind fun r =>
            (written_msg r.writes).map fun m =>
              (s.ret, r.ret, m.items.map (fun it => it.type),
                (kdbus_msg_scan_items sample_consts sample_env { id := 5 }
                  { msg := m }).2.2))
        = some (0, 0, [KDBUS_MSG_PAYLOAD, KDBUS_MSG_TIMESTAMP, KDBUS_MSG_SRC_CREDS],
            -ENOTSUPP)) := by
  refine ⟨⟨by decide, by decide, by decide, by decide⟩, by decide, ?_⟩
  decide
theorem KDBUS_ALIGN8_exact (x : Nat) (h : (x + 7) / 8 * 8 < 2 ^ 64) :
    KDBUS_ALIGN8 x = (x + 7) / 8 * 8 := by
  unfold KDBUS_ALIGN8 u64
  rw [Nat.mod_eq_of_lt (by omega)]

theorem exact_end_ge (L : List kdbus_item) : ∀ (pos : Nat), pos ≤ exact_end pos L := by
  induction L with
  | nil => intro pos; exact le_refl _
  | cons it rest ih =>
    intro pos
    unfold exact_end
    exact le_trans (Nat.le_add_right _ _) (ih _)

theorem exact_end_append (L M : List kdbus_item) :
    ∀ (pos : Nat), exact_end pos (L ++ M) = exact_end (exact_end pos L) M := by
  induction L with
  | nil => intro pos; rfl
  | cons it rest ih =>
    intro pos
    simp only [List.cons_append, exact_end]
    exact ih _

theorem end_of_items_exact (L : List kdbus_item) :
    ∀ (pos : Nat), exact_end pos L < 2 ^ 64 → end_of_items pos L = exact_end pos L := by
  induction L with
  | nil => intro pos _; rfl
  | cons it rest ih =>
    intro pos h
    unfold exact_end at h
    have h1 := exact_end_ge rest (pos + (it.size + 7) / 8 * 8)
    have h2 : KDBUS_ALIGN8 it.size = (it.size + 7) / 8 * 8 := KDBUS_ALIGN8_exact _ (by omega)
    have h3 : u64 (pos + KDBUS_ALIGN8 it.size) = pos + (it.size + 7) / 8 * 8 := by
      rw [h2]
      unfold u64
      exact Nat.mod_eq_of_lt (by omega)
    unfold end_of_items exact_end
    rw [h3]
    exact ih _ h

theorem scan_steps_append (c : kdbus_consts) (env : kdbus_env) (conn : kdbus_conn)
    (msg : kdbus_msg) (L M : List kdbus_item) :
    ∀ (pos : Nat) (st st1 : scan_state) (pos1 : Nat),
      scan_steps c env conn msg L pos st = some (st1, pos1) →
      scan_steps c env conn msg (L ++ M) pos st = scan_steps c env conn msg M pos1 st1 := by
  induction L with
  | nil =>
    intro pos st st1 pos1 h
    unfold scan_steps at h
    simp only [Option.some.injEq, Prod.mk.injEq] at h
    rw [h.1, h.2]; rfl
  | cons item rest ih =>
    intro pos st st1 pos1 h
    unfold scan_steps at h
    split at h
    · rename_i hin
      split at h
      · cases h
      · rename_i st' hst
        rw [List.cons_append]
        conv_lhs => unfold scan_steps
        rw [if_pos hin, hst]
        exact ih _ _ _ _ h
    · cases h

/-- The validation loop passes over inline payload items that are longer than
an item header, are not too many and lie inside the message. -/
theorem scan_steps_payload (c : kdbus_consts) (env : kdbus_env) (conn : kdbus_conn)
    (msg : kdbus_msg) (L : List kdbus_item) :
    ∀ (pos : Nat) (st : scan_state),
      (∀ it ∈ L, it.type = KDBUS_MSG_PAYLOAD ∧ c.KDBUS_ITEM_HEADER_SIZE < it.size) →
      st.num_items + L.length ≤ c.KDBUS_MSG_MAX_ITEMS →
      exact_end pos L ≤ msg.size → exact_end pos L < 2 ^ 64 →
      scan_steps c env conn msg L pos st
        = some ({ st with num_items := st.num_items + L.length }, exact_end pos L) := by
  induction L with
  | nil =>
    intro pos st _ _ _ _
    unfold scan_steps
    simp [exact_end]
  | cons it rest ih =>
    intro pos st hall hcnt hsz hlt
    obtain ⟨ht, hs⟩ := hall it (List.mem_cons_self _ _)
    simp only [List.length_cons] at hcnt
    unfold exact_end at hsz hlt
    have h1 := exact_end_ge rest (pos + (it.size + 7) / 8 * 8)
    have h2 : KDBUS_ALIGN8 it.size = (it.size + 7) / 8 * 8 := KDBUS_ALIGN8_exact _ (by omega)
    have hin : item_in_msg c msg.size pos it.size = true := by
      simp only [item_in_msg, Bool.and_eq_true, decide_eq_true_eq]
      constructor <;> omega
    have hitem : scan_item c env conn msg it st = .ok { st with num_items := st.num_items + 1 } := by
      unfold scan_item
      rw [if_neg (by omega), if_neg (by omega)]
      simp only [ht]
    unfold scan_steps
    rw [if_pos hin, hitem]
    simp only
    rw [h2, ih _ _ (fun x hx => hall x (List.mem_cons_of_mem _ hx)) (by simp only; omega) hsz hlt]
    simp only [exact_end, List.length_cons, Option.some.injEq, Prod.mk.injEq, and_true]
    cases st
    simp only [scan_state.mk.injEq, and_true, true_and]
    omega

theorem scan_loop_count (c : kdbus_consts) (env : kdbus_env) (conn : kdbus_conn)
    (msg : kdbus_msg) (items : List kdbus_item) :
    ∀ (pos : Nat) (st st' : scan_state) (pos' : Nat),
      scan_loop c env conn msg items pos st = .ok (st', pos') →
      st.num_items ≤ c.KDBUS_MSG_MAX_ITEMS →
      st.num_items + (validate_walk c msg.size items pos).length ≤ c.KDBUS_MSG_MAX_ITEMS := by
  induction items with
  | nil =>
    intro pos st st' pos' _ h
    simpa [validate_walk] using h
  | cons item rest ih =>
    intro pos st st' pos' h hle
    unfold scan_loop at h
    unfold validate_walk
    split at h
    · rename_i hin
      rw [if_pos hin]
      split at h
      · cases h
      · rename_i s2 hs
        have hn := scan_item_num_items c env conn msg item st s2 hs
        have hb : st.num_items + 1 ≤ c.KDBUS_MSG_MAX_ITEMS := by
          unfold scan_item at hs
          split_ifs at hs with a1 a2
          omega
        have := ih _ _ _ _ h (by rw [hn]; exact hb)
        rw [hn] at this
        simp only [List.length_cons]
        omega
    · rename_i hin
      rw [if_neg hin]
      simpa using hle

theorem delivered_items_length (walk : List kdbus_item) :
    ∀ (vecs : List kdbus_item),
      (delivered_items walk vecs).length = (payload_items walk).length := by
  induction walk with
  | nil => intro vecs; rfl
  | cons it rest ih =>
    intro vecs
    unfold delivered_items
    split
    · rename_i ht
      have e2 : payload_items (it :: rest) = it :: payload_items rest := by
        simp [payload_items, ht]
      rw [e2]
      simp only [List.length_cons, ih]
    · rename_i ht
      have e2 : payload_items (it :: rest) = it :: payload_items rest := by
        simp [payload_items, ht]
      rw [e2]
      simp only [List.length_cons, ih]
    · rename_i ht1 ht2
      have n1 : it.type ≠ KDBUS_MSG_PAYLOAD := ht1
      have n2 : it.type ≠ KDBUS_MSG_PAYLOAD_VEC := ht2
      have e2 : payload_items (it :: rest) = payload_items rest := by
        simp [payload_items, n1, n2]
      rw [e2]
      exact ih vecs

theorem payload_items_count (walk : List kdbus_item) :
    (payload_items walk).length + count_type KDBUS_MSG_UNIX_FDS walk ≤ walk.length := by
  induction walk with
  | nil => simp [payload_items, count_type]
  | cons it rest ih =>
    rw [count_type_cons]
    by_cases h1 : it.type = KDBUS_MSG_PAYLOAD
    · have e2 : payload_items (it :: rest) = it :: payload_items rest := by
        simp [payload_items, h1]
      rw [e2]
      simp only [List.length_cons, h1]
      simp only [reduceCtorEq, if_false]
      omega
    · by_cases h2 : it.type = KDBUS_MSG_PAYLOAD_VEC
      · have e2 : payload_items (it :: rest) = it :: payload_items rest := by
          simp [payload_items, h2]
        rw [e2]
        simp only [List.length_cons, h2]
        simp only [reduceCtorEq, if_false]
        omega
      · have e2 : payload_items (it :: rest) = payload_items rest := by
          simp [payload_items, h1, h2]
        rw [e2]
        simp only [List.length_cons]
        split_ifs <;> omega

theorem payload_items_mem (walk : List kdbus_item) (it : kdbus_item)
    (h : it ∈ payload_items walk) :
    it ∈ walk ∧ (it.type = KDBUS_MSG_PAYLOAD ∨ it.type = KDBUS_MSG_PAYLOAD_VEC) := by
  unfold payload_items at h
  rw [List.mem_filter] at h
  exact ⟨h.1, by simpa using h.2⟩

theorem forall₂_right_mem {α β : Type} (R : α → β → Prop) :
    ∀ (l : List α) (l' : List β), List.Forall₂ R l l' → ∀ b ∈ l', ∃ a ∈ l, R a b := by
  intro l l' h
  induction h with
  | nil => intro b hb; cases hb
  | cons hab _ ih =>
    intro b hb
    rcases List.mem_cons.mp hb with rfl | hb
    · exact ⟨_, List.mem_cons_self _ _, hab⟩
    · obtain ⟨a, ha, hr⟩ := ih b hb
      exact ⟨a, List.mem_cons_of_mem _ ha, hr⟩
theorem written_items_append (A B : List user_write) :
    written_items (A ++ B) = written_items A ++ written_items B := by
  induction A with
  | nil => rfl
  | cons w rest ih =>
    cases w <;> simp [written_items, ih]

theorem written_size_append (A B : List user_write) :
    ∀ (d : Nat), written_size d (A ++ B) = written_size (written_size d A) B := by
  induction A with
  | nil => intro d; rfl
  | cons w rest ih =>
    intro d
    cases w <;> simp [written_size, ih]

theorem written_items_place (L : List kdbus_item) :
    ∀ (pos : Nat), written_items (place_items pos L) = L := by
  induction L with
  | nil => intro pos; rfl
  | cons it rest ih =>
    intro pos
    simp [place_items, written_items, ih]

theorem written_size_place (L : List kdbus_item) :
    ∀ (pos d : Nat), written_size d (place_items pos L) = d := by
  induction L with
  | nil => intro pos d; rfl
  | cons it rest ih =>
    intro pos d
    simp [place_items, written_size, ih]

/-- The message in the receiver's buffer after the stores `recv_layout` for a
message without metadata. -/
theorem written_msg_layout (c : kdbus_consts) (kmsg : kdbus_kmsg) (fds : List Int)
    (hmeta : kmsg.meta = none) :
    written_msg (recv_layout c kmsg fds)
      = some { kmsg.msg with
          size :=
            if kmsg.fds.isSome then
              u64 (end_of_items c.KDBUS_MSG_HEADER_SIZE
                (delivered_items
                  (foreach_walk kmsg.msg.size kmsg.msg.items c.KDBUS_MSG_HEADER_SIZE)
                  (kmsg.vecs.getD [])) + KDBUS_ALIGN8 (fds_item c kmsg fds).size)
            else
              end_of_items c.KDBUS_MSG_HEADER_SIZE
                (delivered_items
                  (foreach_walk kmsg.msg.size kmsg.msg.items c.KDBUS_MSG_HEADER_SIZE)
                  (kmsg.vecs.getD [])),
          items := delivered_stream c kmsg fds } := by
  unfold recv_layout delivered_stream
  simp only [hmeta, Option.isSome_none, List.singleton_append, List.append_nil,
    List.cons_append, written_msg, Bool.false_eq_true, if_false]
  simp only [written_items_append, written_size_append, written_items_place,
    written_size_place]
  by_cases hf : kmsg.fds.isSome = true
  · simp [hf, written_items, written_size]
  · simp [hf, written_items, written_size]

theorem scan_items_of_steps (c : kdbus_consts) (env : kdbus_env) (conn : kdbus_conn)
    (msg : kdbus_msg) (st : scan_state) (hIH : 0 < c.KDBUS_ITEM_HEADER_SIZE)
    (hsteps : scan_steps c env conn msg msg.items c.KDBUS_MSG_HEADER_SIZE {}
      = some (st, msg.size))
    (hname : st.has_name = false) (hvecs : st.num_vecs = 0)
    (hw : msg.dst_id ≠ c.KDBUS_DST_ID_WELL_KNOWN_NAME)
    (hb : msg.dst_id ≠ c.KDBUS_DST_ID_BROADCAST) :
    (kdbus_msg_scan_items c env conn { msg := msg }).2.2
      = (scan_alloc_fds c env conn { msg := msg } st).2.2 := by
  have hloop : scan_loop c env conn msg msg.items c.KDBUS_MSG_HEADER_SIZE {}
      = .ok (st, msg.size) := by
    have h := scan_steps_loop c env conn msg [] msg.items _ _ _ _ hsteps
    rw [List.append_nil] at h
    rw [h]
    unfold scan_loop
    rw [if_neg]
    simp only [item_in_msg, Bool.and_eq_true, decide_eq_true_eq, not_and]
    intro h1
    omega
  have hchk : scan_checks c msg st msg.size = 0 := by
    unfold scan_checks
    rw [if_neg (by omega), if_neg (by simp [hw]), if_neg (by simp [hname]),
      if_neg (by simp [hb]), if_neg (by simp [hname])]
  unfold kdbus_msg_scan_items
  simp only [hloop, hchk, lt_self_iff_false, if_false]
  have hle := scan_alloc_fds_le c env conn { msg := msg } st
  by_cases hneg : (scan_alloc_fds c env conn { msg := msg } st).2.2 < 0
  · rw [if_pos hneg]
  · rw [if_neg hneg]
    unfold scan_alloc_vecs
    have hc : scan_inline_cond c (scan_alloc_fds c env conn { msg := msg } st).2.1.msg st
        = false := by
      simp [scan_inline_cond, hvecs]
    rw [hc]
    simp only [Bool.false_eq_true, if_false]
    omega
theorem scan_steps_fds (c : kdbus_consts) (env : kdbus_env) (conn : kdbus_conn)
    (msg : kdbus_msg) (item : kdbus_item) (pos : Nat) (st : scan_state)
    (ht : item.type = KDBUS_MSG_UNIX_FDS) (hs : c.KDBUS_ITEM_HEADER_SIZE < item.size)
    (hn : st.num_items < c.KDBUS_MSG_MAX_ITEMS) (hf : st.has_fds = false)
    (hb : msg.dst_id ≠ c.KDBUS_DST_ID_BROADCAST)
    (hmax : u32 ((item.size - c.KDBUS_ITEM_HEADER_SIZE) / sizeof_int) ≤ c.KDBUS_MSG_MAX_FDS)
    (hsz : pos + (item.size + 7) / 8 * 8 ≤ msg.size)
    (hlt : pos + (item.size + 7) / 8 * 8 < 2 ^ 64) :
    scan_steps c env conn msg [item] pos st
      = some ({ st with num_items := st.num_items + 1, has_fds := true,
                        num_fds := u32 ((item.size - c.KDBUS_ITEM_HEADER_SIZE) / sizeof_int) },
              pos + (item.size + 7) / 8 * 8) := by
  have h2 : KDBUS_ALIGN8 item.size = (item.size + 7) / 8 * 8 := KDBUS_ALIGN8_exact _ (by omega)
  have hin : item_in_msg c msg.size pos item.size = true := by
    simp only [item_in_msg, Bool.and_eq_true, decide_eq_true_eq]
    constructor <;> omega
  unfold scan_steps
  rw [if_pos hin, scan_item_fds_body c env conn msg item st ht hs hn]
  unfold scan_item_fds
  simp only [hf, Bool.false_eq_true, if_false]
  rw [if_neg hb, if_neg (by omega)]
  simp only [scan_steps, h2]

theorem delivered_stream_end (c : kdbus_consts) (kmsg : kdbus_kmsg) (fds : List Int)
    (pos : Nat) :
    exact_end pos (delivered_stream c kmsg fds) = exact_end pos (delivered_stream c kmsg []) := by
  unfold delivered_stream
  rw [exact_end_append, exact_end_append]
  split_ifs
  · rfl
  · rfl

theorem delivered_size_fds (c : kdbus_consts) (kmsg : kdbus_kmsg) (fds : List Int) :
    delivered_size c kmsg fds = delivered_size c kmsg [] := by
  unfold delivered_size
  rw [delivered_stream_end]

/-- The message in the receiver's buffer after the stores `recv_layout`, when
the offsets do not wrap: the header with the new size, followed by the
delivered items and the metadata records. -/
theorem written_msg_layout_all (c : kdbus_consts) (kmsg : kdbus_kmsg) (fds : List Int)
    (hfit : delivered_size c kmsg fds < 2 ^ 64) :
    written_msg (recv_layout c kmsg fds)
      = some { kmsg.msg with size := delivered_size c kmsg fds,
                             items := delivered_all c kmsg fds } := by
  have hge := exact_end_ge (if kmsg.fds.isSome then [fds_item c kmsg fds] else [])
    (exact_end c.KDBUS_MSG_HEADER_SIZE
      (delivered_items (foreach_walk kmsg.msg.size kmsg.msg.items c.KDBUS_MSG_HEADER_SIZE)
        (kmsg.vecs.getD [])))
  have hsplit : exact_end c.KDBUS_MSG_HEADER_SIZE (delivered_stream c kmsg fds)
      = exact_end (exact_end c.KDBUS_MSG_HEADER_SIZE
          (delivered_items (foreach_walk kmsg.msg.size kmsg.msg.items c.KDBUS_MSG_HEADER_SIZE)
            (kmsg.vecs.getD [])))
          (if kmsg.fds.isSome then [fds_item c kmsg fds] else []) := by
    unfold delivered_stream
    rw [exact_end_append]
  unfold delivered_size at hfit ⊢
  rw [hsplit] at hfit ⊢
  have he := end_of_items_exact
    (delivered_items (foreach_walk kmsg.msg.size kmsg.msg.items c.KDBUS_MSG_HEADER_SIZE)
      (kmsg.vecs.getD [])) c.KDBUS_MSG_HEADER_SIZE (by omega)
  unfold recv_layout delivered_all delivered_stream
  simp only [written_msg, List.singleton_append, List.cons_append, List.append_assoc,
    written_items_append, written_size_append, written_items_place, written_size_place]
  rw [he]
  cases hm : kmsg.meta with
  | none =>
    by_cases hf : kmsg.fds.isSome = true
    · simp only [hm, hf, if_true, exact_end, Option.isSome_none, Bool.false_eq_true,
        if_false] at hfit ⊢
      rw [KDBUS_ALIGN8_exact _ (by omega)]
      simp [written_items, written_size, u64]
      omega
    · simp [hm, hf, written_items, written_size, exact_end]
  | some m =>
    by_cases hf : kmsg.fds.isSome = true
    · simp only [hm, hf, if_true, exact_end, Option.isSome_some] at hfit ⊢
      rw [KDBUS_ALIGN8_exact (fds_item c kmsg fds).size (by omega),
        KDBUS_ALIGN8_exact kmsg.meta_size (by omega)]
      have h1 : u64 (exact_end c.KDBUS_MSG_HEADER_SIZE
          (delivered_items (foreach_walk kmsg.msg.size kmsg.msg.items c.KDBUS_MSG_HEADER_SIZE)
            (kmsg.vecs.getD [])) + ((fds_item c kmsg fds).size + 7) / 8 * 8)
          = exact_end c.KDBUS_MSG_HEADER_SIZE
          (delivered_items (foreach_walk kmsg.msg.size kmsg.msg.items c.KDBUS_MSG_HEADER_SIZE)
            (kmsg.vecs.getD [])) + ((fds_item c kmsg fds).size + 7) / 8 * 8 := by
        unfold u64
        exact Nat.mod_eq_of_lt (by omega)
      rw [h1]
      simp [written_items, written_size, u64]
      omega
    · simp only [hm, hf, if_false, exact_end, Option.isSome_some, Bool.false_eq_true,
        if_true] at hfit ⊢
      rw [KDBUS_ALIGN8_exact kmsg.meta_size (by omega)]
      simp [written_items, written_size, u64]
      omega

/-- The validation loop passes over what `kdbus_kmsg_recv` delivers in front
of the metadata for a message that was accepted before: the payload items
(inline payload, and inlined descriptors that are not empty) and the
handle-array item (between 1 and `KDBUS_MSG_MAX_FDS` handles).  It sees no
name, no bloom filter and no descriptor. -/
theorem delivered_stream_steps (c : kdbus_consts) (env0 env1 : kdbus_env)
    (conn0 conn1 : kdbus_conn) (kmsg : kdbus_kmsg) (fds : List Int) (size : Nat)
    (items : List kdbus_item)
    (hacc : 0 ≤ (kdbus_msg_scan_items c env0 conn0 { msg := kmsg.msg }).2.2)
    (hwalk : foreach_walk kmsg.msg.size kmsg.msg.items c.KDBUS_MSG_HEADER_SIZE
      = msg_items c kmsg.msg)
    (hvecs : vecs_inlined c env0 kmsg)
    (hnz : ∀ it ∈ msg_items c kmsg.msg, it.type = KDBUS_MSG_PAYLOAD_VEC →
      0 < it.vec.size ∧ c.KDBUS_ITEM_HEADER_SIZE + it.vec.size < 2 ^ 64)
    (hfds : kmsg.fds.isSome = true →
      0 < kmsg.fds_count ∧ kmsg.fds_count ≤ c.KDBUS_MSG_MAX_FDS ∧
      0 < count_type KDBUS_MSG_UNIX_FDS (msg_items c kmsg.msg))
    (hend : exact_end c.KDBUS_MSG_HEADER_SIZE (delivered_stream c kmsg fds) ≤ size)
    (hlt : exact_end c.KDBUS_MSG_HEADER_SIZE (delivered_stream c kmsg fds) < 2 ^ 64) :
    ∃ st, scan_steps c env1 conn1 { kmsg.msg with size := size, items := items }
        (delivered_stream c kmsg fds) c.KDBUS_MSG_HEADER_SIZE {}
        = some (st, exact_end c.KDBUS_MSG_HEADER_SIZE (delivered_stream c kmsg fds)) ∧
      st.has_name = false ∧ st.num_vecs = 0 ∧ st.has_bloom = false ∧
      st.num_items = (delivered_stream c kmsg fds).length ∧
      (delivered_stream c kmsg fds).length ≤ c.KDBUS_MSG_MAX_ITEMS ∧
      (kmsg.fds = none → st.has_fds = false) := by
  -- the original run of the validation
  obtain ⟨st0, pos0, hl0, -, -, -⟩ := scan_items_accept c env0 conn0 { msg := kmsg.msg } hacc
  have hl0' : scan_loop c env0 conn0 kmsg.msg kmsg.msg.items c.KDBUS_MSG_HEADER_SIZE {}
      = .ok (st0, pos0) := hl0
  have hsizes := scan_loop_sizes c env0 conn0 kmsg.msg _ _ _ _ _ hl0'
  have hcount := scan_loop_count c env0 conn0 kmsg.msg _ _ _ _ _ hl0' (Nat.zero_le _)
  simp only [Nat.zero_add] at hcount
  have hcount' : (msg_items c kmsg.msg).length ≤ c.KDBUS_MSG_MAX_ITEMS := hcount
  obtain ⟨-, -, -, -, -, -, -, hnb⟩ := scan_loop_flags c env0 conn0 kmsg.msg _ _ _ _ _ hl0'
  have hnb' : 0 < count_type KDBUS_MSG_UNIX_FDS (msg_items c kmsg.msg) →
      kmsg.msg.dst_id ≠ c.KDBUS_DST_ID_BROADCAST := hnb
  -- the delivered payload
  have hD : ∀ d ∈ delivered_items (msg_items c kmsg.msg) (kmsg.vecs.getD []),
      d.type = KDBUS_MSG_PAYLOAD ∧ c.KDBUS_ITEM_HEADER_SIZE < d.size := by
    intro d hd
    have hfor := delivered_items_for c env0 (msg_items c kmsg.msg) (kmsg.vecs.getD [])
      (by unfold vecs_inlined at hvecs; rw [hwalk] at hvecs; exact hvecs)
    obtain ⟨it, hit, hrel⟩ := forall₂_right_mem _ _ _ hfor d hd
    obtain ⟨hmem, -⟩ := payload_items_mem _ _ hit
    rcases hrel with ⟨ht, rfl⟩ | ⟨ht, hdt, hds, -⟩
    · exact ⟨ht, hsizes d hmem⟩
    · obtain ⟨z1, z2⟩ := hnz it hmem ht
      refine ⟨hdt, ?_⟩
      rw [hds]
      unfold u64
      rw [Nat.mod_eq_of_lt z2]
      omega
  have hDlen : (delivered_items (msg_items c kmsg.msg) (kmsg.vecs.getD [])).length
      + count_type KDBUS_MSG_UNIX_FDS (msg_items c kmsg.msg) ≤ c.KDBUS_MSG_MAX_ITEMS := by
    rw [delivered_items_length]
    exact le_trans (payload_items_count _) hcount'
  have hstream : delivered_stream c kmsg fds
      = delivered_items (msg_items c kmsg.msg) (kmsg.vecs.getD []) ++
        (if kmsg.fds.isSome then [fds_item c kmsg fds] else []) := by
    unfold delivered_stream
    rw [hwalk]
  have hendD : exact_end c.KDBUS_MSG_HEADER_SIZE
      (delivered_items (msg_items c kmsg.msg) (kmsg.vecs.getD []))
      ≤ exact_end c.KDBUS_MSG_HEADER_SIZE (delivered_stream c kmsg fds) := by
    rw [hstream, exact_end_append]
    exact exact_end_ge _ _
  -- the validation loop over the delivered items
  have hsteps1 := scan_steps_payload c env1 conn1
    { kmsg.msg with size := size, items := items }
    (delivered_items (msg_items c kmsg.msg) (kmsg.vecs.getD [])) c.KDBUS_MSG_HEADER_SIZE {}
    hD (by simp only [Nat.zero_add]; omega) (le_trans hendD hend) (lt_of_le_of_lt hendD hlt)
  by_cases hf : kmsg.fds.isSome = true
  · obtain ⟨f1, f2, f3⟩ := hfds hf
    have hb := hnb' f3
    have hFs : (fds_item c kmsg fds).size
        = c.KDBUS_ITEM_HEADER_SIZE + sizeof_int * kmsg.fds_count := rfl
    have hend2 : exact_end c.KDBUS_MSG_HEADER_SIZE (delivered_stream c kmsg fds)
        = exact_end c.KDBUS_MSG_HEADER_SIZE
            (delivered_items (msg_items c kmsg.msg) (kmsg.vecs.getD []))
          + ((fds_item c kmsg fds).size + 7) / 8 * 8 := by
      rw [hstream, exact_end_append]
      simp only [hf, if_true, exact_end]
    have hsteps2 := scan_steps_fds c env1 conn1
      { kmsg.msg with size := size, items := items }
      (fds_item c kmsg fds)
      (exact_end c.KDBUS_MSG_HEADER_SIZE
        (delivered_items (msg_items c kmsg.msg) (kmsg.vecs.getD [])))
      { ({} : scan_state) with num_items := ({} : scan_state).num_items +
          (delivered_items (msg_items c kmsg.msg) (kmsg.vecs.getD [])).length }
      rfl (by rw [hFs]; unfold sizeof_int; omega)
      (by simp only [Nat.zero_add]; omega) rfl hb
      (by
        rw [hFs]
        unfold u32 sizeof_int
        have : (c.KDBUS_ITEM_HEADER_SIZE + 4 * kmsg.fds_count - c.KDBUS_ITEM_HEADER_SIZE) / 4
            = kmsg.fds_count := by omega
        rw [this]
        exact le_trans (Nat.mod_le _ _) f2)
      (by rw [← hend2]; exact hend) (by rw [← hend2]; exact hlt)
    have hall := scan_steps_append c env1 conn1 _ _ [fds_item c kmsg fds] _ _ _ _ hsteps1
    rw [hsteps2, ← hend2] at hall
    have hitems : delivered_items (msg_items c kmsg.msg) (kmsg.vecs.getD [])
        ++ [fds_item c kmsg fds] = delivered_stream c kmsg fds := by
      rw [hstream]; simp only [hf, if_true]
    rw [hitems] at hall
    refine ⟨_, hall, rfl, rfl, rfl, ?_, ?_, ?_⟩
    · rw [← hitems]
      simp
    · rw [← hitems]
      simp only [List.length_append, List.length_singleton]
      omega
    · intro hnone
      rw [hnone] at hf
      cases hf
  · have hitems : delivered_items (msg_items c kmsg.msg) (kmsg.vecs.getD [])
        = delivered_stream c kmsg fds := by
      rw [hstream]; simp only [hf, if_false, List.append_nil, Bool.false_eq_true]
    rw [hitems] at hsteps1
    refine ⟨_, hsteps1, rfl, rfl, rfl, by simp, ?_, fun _ => rfl⟩
    rw [← hitems]
    omega

/-- The validation loop of `kdbus_msg_scan_items` when it has passed over all
items of a message and ends at `msg->size`. -/
theorem scan_loop_of_steps (c : kdbus_consts) (env : kdbus_env) (conn : kdbus_conn)
    (msg : kdbus_msg) (st : scan_state) (hIH : 0 < c.KDBUS_ITEM_HEADER_SIZE)
    (hsteps : scan_steps c env conn msg msg.items c.KDBUS_MSG_HEADER_SIZE {}
      = some (st, msg.size)) :
    scan_loop c env conn msg msg.items c.KDBUS_MSG_HEADER_SIZE {} = .ok (st, msg.size) := by
  have h := scan_steps_loop c env conn msg [] msg.items _ _ _ _ hsteps
  rw [List.append_nil] at h
  rw [h]
  unfold scan_loop
  rw [if_neg]
  simp only [item_in_msg, Bool.and_eq_true, decide_eq_true_eq, not_and]
  intro h1
  omega

/-- The result of `kdbus_msg_scan_items` when the loop has passed over all
items and one of the consistency checks fails. -/
theorem scan_items_of_steps_checks (c : kdbus_consts) (env : kdbus_env) (conn : kdbus_conn)
    (msg : kdbus_msg) (st : scan_state) (hIH : 0 < c.KDBUS_ITEM_HEADER_SIZE)
    (hsteps : scan_steps c env conn msg msg.items c.KDBUS_MSG_HEADER_SIZE {}
      = some (st, msg.size))
    (hneg : scan_checks c msg st msg.size < 0) :
    (kdbus_msg_scan_items c env conn { msg := msg }).2.2 = scan_checks c msg st msg.size := by
  have hloop := scan_loop_of_steps c env conn msg st hIH hsteps
  unfold kdbus_msg_scan_items
  simp only [hloop]
  rw [if_pos hneg]

theorem kmsg_append_insert_error (c : kdbus_consts) (env : kdbus_env) (src : Option kdbus_conn)
    (kmsg : kdbus_kmsg) (extra_size : Nat) (e : Int)
    (h : (kmsg_append_insert c env src kmsg extra_size).item = .error e) : e < 0 := by
  unfold kmsg_append_insert at h
  dsimp only at h
  split_ifs at h with h1 h2 h3
  · cases h; exact h2
  · cases h; decide

theorem kdbus_kmsg_append_error (c : kdbus_consts) (env : kdbus_env) (src : Option kdbus_conn)
    (kmsg : kdbus_kmsg) (extra_size : Nat) (e : Int)
    (h : (kdbus_kmsg_append c env src kmsg extra_size).item = .error e) : e < 0 := by
  unfold kdbus_kmsg_append at h
  split at h
  · dsimp only at h
    split_ifs at h with h1 h2
    · cases h; exact h1
    · cases h; decide
    · exact kmsg_append_insert_error _ _ _ _ _ _ h
  · exact kmsg_append_insert_error _ _ _ _ _ _ h

/-- A call that appends a metadata record fails with a negative code and
leaves the records as they are, or returns 0 and has put the record behind
them. -/
theorem kmsg_append_item_records (c : kdbus_consts) (env : kdbus_env)
    (src : Option kdbus_conn) (kmsg : kdbus_kmsg) (extra_size : Nat) (item : kdbus_item) :
    ((kmsg_append_item c env src kmsg extra_size item).2.2 < 0 ∧
      (kmsg_append_item c env src kmsg extra_size item).2.1.meta.getD [] = kmsg.meta.getD []) ∨
    ((kmsg_append_item c env src kmsg extra_size item).2.2 = 0 ∧
      ∃ off, (kmsg_append_item c env src kmsg extra_size item).2.1.meta
        = some (kmsg.meta.getD [] ++ [(off, item)])) := by
  unfold kmsg_append_item
  dsimp only
  split
  · rename_i e he
    left
    exact ⟨kdbus_kmsg_append_error _ _ _ _ _ _ he, kdbus_kmsg_append_meta _ _ _ _ _⟩
  · rename_i off he
    right
    refine ⟨rfl, off, ?_⟩
    rw [kdbus_kmsg_append_meta]

theorem meta_grown_refl (kmsg : kdbus_kmsg) : meta_grown kmsg kmsg := ⟨[], by simp⟩

theorem meta_grown_trans (k1 k2 k3 : kdbus_kmsg) (h1 : meta_grown k1 k2)
    (h2 : meta_grown k2 k3) : meta_grown k1 k3 := by
  obtain ⟨a, ha⟩ := h1
  obtain ⟨b, hb⟩ := h2
  exact ⟨a ++ b, by rw [hb, ha, List.append_assoc]⟩

theorem kmsg_append_item_grown (c : kdbus_consts) (env : kdbus_env)
    (src : Option kdbus_conn) (kmsg : kdbus_kmsg) (extra_size : Nat) (item : kdbus_item) :
    meta_grown kmsg (kmsg_append_item c env src kmsg extra_size item).2.1 := by
  rcases kmsg_append_item_records c env src kmsg extra_size item with ⟨-, h⟩ | ⟨-, off, h⟩
  · exact ⟨[], by rw [h]; simp⟩
  · exact ⟨[(off, item)], by rw [h]; rfl⟩

theorem kdbus_kmsg_append_data_grown (c : kdbus_consts) (env : kdbus_env)
    (src : Option kdbus_conn) (kmsg : kdbus_kmsg) (type : kdbus_item_type) (buf : List Nat)
    (len : Nat) :
    meta_grown kmsg (kdbus_kmsg_append_data c env src kmsg type buf len).2.1 := by
  unfold kdbus_kmsg_append_data
  split_ifs
  · exact meta_grown_refl _
  · exact kmsg_append_item_grown _ _ _ _ _ _

theorem kdbus_kmsg_append_str_grown (c : kdbus_consts) (env : kdbus_env)
    (src : Option kdbus_conn) (kmsg : kdbus_kmsg) (type : kdbus_item_type) (str : List Nat) :
    meta_grown kmsg (kdbus_kmsg_append_str c env src kmsg type str).2.1 :=
  kdbus_kmsg_append_data_grown c env src kmsg type _ _

theorem and_then_grown (kmsg : kdbus_kmsg) (r : Option kdbus_conn × kdbus_kmsg × Int)
    (k : Option kdbus_conn → kdbus_kmsg → Option kdbus_conn × kdbus_kmsg × Int)
    (h1 : meta_grown kmsg r.2.1) (h2 : ∀ s km, meta_grown km (k s km).2.1) :
    meta_grown kmsg (and_then r k).2.1 := by
  unfold and_then
  split_ifs
  · exact h1
  · exact meta_grown_trans _ _ _ h1 (h2 _ _)

theorem append_for_dst_blocks_grown (c : kdbus_consts) (env : kdbus_env)
    (conn_src conn_dst : kdbus_conn) (src : Option kdbus_conn) (kmsg : kdbus_kmsg) :
    meta_grown kmsg (append_for_dst_comm c env conn_dst src kmsg).2.1 ∧
    meta_grown kmsg (append_for_dst_exe c env conn_dst src kmsg).2.1 ∧
    meta_grown kmsg (append_for_dst_cmdline c env conn_dst src kmsg).2.1 ∧
    meta_grown kmsg (append_for_dst_caps c env conn_dst src kmsg).2.1 ∧
    meta_grown kmsg (append_for_dst_cgroup c env conn_dst src kmsg).2.1 ∧
    meta_grown kmsg (append_for_dst_audit c env conn_src conn_dst src kmsg).2.1 ∧
    meta_grown kmsg (append_for_dst_seclabel c env conn_src conn_dst src kmsg).2.1 := by
  refine ⟨?_, ?_, ?_, ?_, ?_, ?_, ?_⟩
  · unfold append_for_dst_comm
    split_ifs with h
    · apply and_then_grown
      · exact kdbus_kmsg_append_str_grown _ _ _ _ _ _
      · intro s km
        exact kdbus_kmsg_append_str_grown _ _ _ _ _ _
    · exact meta_grown_refl _
  · unfold append_for_dst_exe
    repeat' split
    all_goals first
      | exact meta_grown_refl _
      | exact kdbus_kmsg_append_data_grown _ _ _ _ _ _ _
  · unfold append_for_dst_cmdline
    dsimp only
    repeat' split
    all_goals first
      | exact meta_grown_refl _
      | exact kdbus_kmsg_append_data_grown _ _ _ _ _ _ _
  · unfold append_for_dst_caps
    split_ifs with h
    · exact kdbus_kmsg_append_data_grown _ _ _ _ _ _ _
    · exact meta_grown_refl _
  · unfold append_for_dst_cgroup
    dsimp only
    split_ifs with h
    · exact meta_grown_refl _
    · exact kdbus_kmsg_append_str_grown _ _ _ _ _ _
    · exact meta_grown_refl _
    · exact meta_grown_refl _
  · unfold append_for_dst_audit
    split_ifs with h
    · exact kdbus_kmsg_append_data_grown _ _ _ _ _ _ _
    · exact meta_grown_refl _
  · unfold append_for_dst_seclabel
    split_ifs with h
    · exact kdbus_kmsg_append_data_grown _ _ _ _ _ _ _
    · exact meta_grown_refl _

/-- The function `kdbus_msg_append_for_dst` leaves the metadata records of
the message in place and only adds records behind them. -/
theorem kdbus_msg_append_for_dst_grown (c : kdbus_consts) (env : kdbus_env)
    (conn_src conn_dst : kdbus_conn) (src : Option kdbus_conn) (kmsg : kdbus_kmsg) :
    meta_grown kmsg (kdbus_msg_append_for_dst c env conn_src conn_dst src kmsg).2.1 := by
  unfold kdbus_msg_append_for_dst
  apply and_then_grown
  · exact (append_for_dst_blocks_grown c env conn_src conn_dst _ _).1
  intro s km
  apply and_then_grown
  · exact (append_for_dst_blocks_grown c env conn_src conn_dst _ _).2.1
  intro s km
  apply and_then_grown
  · exact (append_for_dst_blocks_grown c env conn_src conn_dst _ _).2.2.1
  intro s km
  apply and_then_grown
  · exact (append_for_dst_blocks_grown c env conn_src conn_dst _ _).2.2.2.1
  intro s km
  apply and_then_grown
  · exact (append_for_dst_blocks_grown c env conn_src conn_dst _ _).2.2.2.2.1
  intro s km
  apply and_then_grown
  · exact (append_for_dst_blocks_grown c env conn_src conn_dst _ _).2.2.2.2.2.1
  intro s km
  apply and_then_grown
  · exact (append_for_dst_blocks_grown c env conn_src conn_dst _ _).2.2.2.2.2.2
  intro s km
  exact meta_grown_refl _

/-- A message whose metadata grew from records that begin with `p` has a
metadata buffer, and `p` is its first record. -/
theorem meta_grown_first (k1 k2 : kdbus_kmsg) (p : Nat × kdbus_item)
    (l : List (Nat × kdbus_item)) (h : meta_grown k1 k2) (h1 : k1.meta.getD [] = p :: l) :
    ∃ more, k2.meta = some (p :: more) := by
  obtain ⟨added, ha⟩ := h
  rw [h1] at ha
  cases hm : k2.meta with
  | none => rw [hm] at ha; cases ha
  | some recs =>
    rw [hm] at ha
    exact ⟨l ++ added, by rw [show recs = p :: l ++ added from ha]; rfl⟩

/-- The step "augment incoming message" of `kdbus_kmsg_send`, when it has not
failed, leaves a message that came without metadata with a metadata buffer
that begins with the timestamp record. -/
theorem send_augment_timestamp (c : kdbus_consts) (env : kdbus_env)
    (conn_src src : Option kdbus_conn) (kmsg : kdbus_kmsg) (hmeta : kmsg.meta = none)
    (hret : ¬ (send_augment c env conn_src src kmsg).2.2 < 0) :
    ∃ off l, (send_augment c env conn_src src kmsg).2.1.meta.getD []
      = (off, { size := KDBUS_ITEM_SIZE c c.sizeof_kdbus_timestamp,
                type := KDBUS_MSG_TIMESTAMP,
                data := [env.monotonic_ns, env.realtime_ns] }) :: l := by
  have hk : ∀ s km, meta_grown km
      ((fun (src : Option kdbus_conn) (kmsg : kdbus_kmsg) =>
        match conn_src with
        | some cs =>
          and_then (kdbus_kmsg_append_src_names c env src kmsg cs) fun src kmsg =>
            kdbus_kmsg_append_cred c env src kmsg cs.creds
        | none => (src, kmsg, 0)) s km).2.1 := by
    intro s km
    cases conn_src with
    | none => exact meta_grown_refl _
    | some cs =>
      dsimp only
      apply and_then_grown
      · unfold kdbus_kmsg_append_src_names
        dsimp only
        split_ifs
        · exact meta_grown_refl _
        · exact kmsg_append_item_grown _ _ _ _ _ _
      · intro s2 km2
        exact kmsg_append_item_grown _ _ _ _ _ _
  unfold send_augment at hret ⊢
  unfold and_then at hret ⊢
  unfold kdbus_kmsg_append_timestamp at hret ⊢
  dsimp only at hret ⊢
  rcases kmsg_append_item_records c env src kmsg (KDBUS_ITEM_SIZE c c.sizeof_kdbus_timestamp)
    { size := KDBUS_ITEM_SIZE c c.sizeof_kdbus_timestamp, type := KDBUS_MSG_TIMESTAMP,
      data := [env.monotonic_ns, env.realtime_ns] } with ⟨hneg, -⟩ | ⟨hz, off, hrec⟩
  · rw [if_pos hneg] at hret
    exact absurd hneg hret
  · rw [if_neg (by rw [hz]; decide)]
    have hg := hk
      (kmsg_append_item c env src kmsg (KDBUS_ITEM_SIZE c c.sizeof_kdbus_timestamp)
        { size := KDBUS_ITEM_SIZE c c.sizeof_kdbus_timestamp, type := KDBUS_MSG_TIMESTAMP,
          data := [env.monotonic_ns, env.realtime_ns] }).1
      (kmsg_append_item c env src kmsg (KDBUS_ITEM_SIZE c c.sizeof_kdbus_timestamp)
        { size := KDBUS_ITEM_SIZE c c.sizeof_kdbus_timestamp, type := KDBUS_MSG_TIMESTAMP,
          data := [env.monotonic_ns, env.realtime_ns] }).2.1
    obtain ⟨added, ha⟩ := hg
    refine ⟨off, added, ?_⟩
    rw [hrec, hmeta] at ha
    exact ha

theorem same_queue_refl (x : kdbus_conn) : same_queue x x := ⟨rfl, rfl⟩

theorem same_queue_trans (x y z : kdbus_conn) (h1 : same_queue x y) (h2 : same_queue y z) :
    same_queue x z := ⟨by rw [h2.1, h1.1], by rw [h2.2, h1.2]⟩

theorem same_queue_chain (a b d : List kdbus_conn) (h1 : List.Forall₂ same_queue a b)
    (h2 : List.Forall₂ same_queue b d) : List.Forall₂ same_queue a d :=
  (forall₂_chain _ _ _ _ _ h1 h2).imp fun _ _ ⟨_, p, q⟩ => same_queue_trans _ _ _ p q

theorem same_queue_ids (l l' : List kdbus_conn) (h : List.Forall₂ same_queue l l') :
    (l'.map fun x => x.id) = (l.map fun x => x.id) :=
  forall₂_ids same_queue (fun _ _ hq => hq.1) l l' h

theorem queued_of_same (kmsg : kdbus_kmsg) (l l' : List kdbus_conn)
    (h : List.Forall₂ same_queue l l') : List.Forall₂ (queued kmsg) l l' :=
  h.imp fun _ _ hq => ⟨hq.1, Or.inl hq.2⟩

theorem queued_chain (kmsg : kdbus_kmsg) (a b d : List kdbus_conn)
    (h1 : List.Forall₂ same_queue a b) (h2 : List.Forall₂ (queued kmsg) b d) :
    List.Forall₂ (queued kmsg) a d :=
  (forall₂_chain _ _ _ _ _ h1 h2).imp fun _ _ ⟨_, p, q⟩ =>
    ⟨by rw [q.1, p.1], by rw [← p.2]; exact q.2⟩

theorem conn_put_charged_same (conns : List kdbus_conn) (id : Option Nat)
    (src' : Option kdbus_conn) (hids : (conns.map fun x => x.id).Nodup)
    (h : charged (conn_find conns id) src') :
    List.Forall₂ same_queue conns (conn_put conns src') :=
  (conn_put_charged conns id src' hids h).imp fun y d ⟨a, hd⟩ => by
    rw [hd]; exact ⟨rfl, rfl⟩

theorem enqueue_queued (c : kdbus_consts) (env : kdbus_env) (conn : kdbus_conn)
    (kmsg : kdbus_kmsg) : queued kmsg conn (kdbus_conn_enqueue_kmsg c env conn kmsg).1 := by
  rcases enqueue_cases c env conn kmsg with ⟨-, he⟩ | ⟨-, -, he⟩
  · rw [he]; exact ⟨rfl, Or.inl rfl⟩
  · rw [he]; exact ⟨rfl, Or.inr rfl⟩

theorem send_broadcast_loop_queued (c : kdbus_consts) (env : kdbus_env) (ep_id : Nat)
    (conn_src : Option kdbus_conn) (kmsg : kdbus_kmsg) (conns : List kdbus_conn) :
    List.Forall₂ (queued kmsg) conns (send_broadcast_loop c env ep_id conn_src kmsg conns).1 :=
  (send_broadcast_loop_spec c env ep_id conn_src kmsg conns).imp fun d conn' h => by
    rcases h with rfl | ⟨-, rfl⟩
    · exact ⟨rfl, Or.inl rfl⟩
    · exact ⟨rfl, Or.inr rfl⟩

/-- The branch of `kdbus_kmsg_send` for a direct message changes no receive
queue but by adding the message it returns at the tail, and it leaves the
metadata records of the message in place. -/
theorem send_direct_queued (c : kdbus_consts) (env : kdbus_env) (ep : kdbus_ep)
    (conns : List kdbus_conn) (conn_src : Option Nat) (kmsg : kdbus_kmsg) (dst : Nat)
    (hids : (conns.map fun x => x.id).Nodup) :
    List.Forall₂ (queued (send_direct c env ep conns conn_src kmsg dst).kmsg) conns
      (send_direct c env ep conns conn_src kmsg dst).conns ∧
    meta_grown kmsg (send_direct c env ep conns conn_src kmsg dst).kmsg := by
  have hrefl : ∀ k, List.Forall₂ (queued k) conns conns :=
    fun k => List.forall₂_same.mpr fun x _ => ⟨rfl, Or.inl rfl⟩
  have hput : ∀ (cs cd : kdbus_conn) (k : kdbus_kmsg) (o : Option Nat),
      List.Forall₂ same_queue conns
        (conn_put conns (kdbus_msg_append_for_dst c env cs cd (conn_find conns o) k).1) :=
    fun cs cd k o => conn_put_charged_same conns _ _ hids
      (kdbus_msg_append_for_dst_charged _ _ _ _ _ _)
  have hnone : List.Forall₂ same_queue conns (conn_put conns none) :=
    conn_put_charged_same conns none none hids (by simp [conn_find, charged])
  have hfin : ∀ (A : Option kdbus_conn) (k : kdbus_kmsg) (d : kdbus_conn),
      List.Forall₂ same_queue conns (conn_put conns A) →
      conn_find (conn_put conns A) (some dst) = some d →
      List.Forall₂ (queued k) conns
        (conn_put (conn_put conns A) (some (kdbus_conn_enqueue_kmsg c env d k).1)) := by
    intro A k d hA hd
    refine queued_chain _ _ _ _ hA ?_
    have hids2 := hids
    rw [← same_queue_ids _ _ hA] at hids2
    refine (conn_put_found _ _ d _ hids2 hd (enqueue_queued c env d k).1).imp ?_
    rintro y e (⟨rfl, rfl⟩ | rfl)
    · exact enqueue_queued _ _ _ _
    · exact ⟨rfl, Or.inl rfl⟩
  constructor
  · unfold send_direct
    dsimp only
    cases hsrc : conn_find conns conn_src
    all_goals dsimp only
    all_goals repeat' split
    all_goals first
      | exact hrefl _
      | exact queued_of_same _ _ _ (hput _ _ _ _)
      | exact queued_of_same _ _ _ hnone
      | exact hfin _ _ _ (hput _ _ _ _) (by assumption)
      | exact hfin _ _ _ hnone (by assumption)
  · have hdl : meta_grown kmsg
        (if kmsg.msg.timeout_ns ≠ 0
          then { kmsg with deadline_ns := u64 (env.monotonic_ns + kmsg.msg.timeout_ns) }
          else kmsg) := by
      split_ifs
      · exact ⟨[], (List.append_nil _).symm⟩
      · exact meta_grown_refl _
    unfold send_direct
    dsimp only
    generalize (if kmsg.msg.timeout_ns ≠ 0
      then { kmsg with deadline_ns := u64 (env.monotonic_ns + kmsg.msg.timeout_ns) }
      else kmsg) = k at hdl ⊢
    have hdst : ∀ (cs cd : kdbus_conn) (o : Option kdbus_conn),
        meta_grown kmsg (kdbus_msg_append_for_dst c env cs cd o k).2.1 :=
      fun cs cd o => meta_grown_trans _ _ _ hdl (kdbus_msg_append_for_dst_grown _ _ _ _ _ _)
    cases hsrc : conn_find conns conn_src
    all_goals dsimp only
    all_goals repeat' split
    all_goals first
      | with_reducible exact hdl
      | with_reducible exact hdst _ _ _

/-- Whatever `kdbus_kmsg_send` does to a message that came without metadata
on a bus with distinct ids: it changes no receive queue but by adding the
message it returns at the tail, and where it has added it, the metadata of
that message begins with the timestamp record. -/
theorem kmsg_send_queued (c : kdbus_consts) (env : kdbus_env) (ep : kdbus_ep)
    (conns : List kdbus_conn) (conn_src : Option Nat) (kmsg : kdbus_kmsg)
    (hids : (conns.map fun x => x.id).Nodup) (hmeta : kmsg.meta = none) (r : send_result)
    (hr : kdbus_kmsg_send c env ep conns conn_src kmsg = some r) :
    List.Forall₂
      (fun d d' => d'.msg_list = d.msg_list ∨
        (d'.msg_list = d.msg_list ++ [r.kmsg] ∧
          ∃ off more, r.kmsg.meta
            = some ((off, { size := KDBUS_ITEM_SIZE c c.sizeof_kdbus_timestamp,
                            type := KDBUS_MSG_TIMESTAMP,
                            data := [env.monotonic_ns, env.realtime_ns] }) :: more)))
      conns r.conns := by
  have h1 : List.Forall₂ same_queue conns (send_conns c env conns conn_src kmsg) :=
    conn_put_charged_same conns kmsg.conn_src _ hids (send_augment_charged _ _ _ _ _)
  have hids1 : ((send_conns c env conns conn_src kmsg).map fun x => x.id).Nodup := by
    rw [same_queue_ids _ _ h1]; exact hids
  have hsame : ∀ (P : Prop), List.Forall₂
      (fun (d d' : kdbus_conn) => d'.msg_list = d.msg_list ∨
        (d'.msg_list = d.msg_list ++ [r.kmsg] ∧ P))
      conns (send_conns c env conns conn_src kmsg) :=
    fun P => h1.imp fun _ _ hq => Or.inl hq.2
  have hq : ∀ (P : Prop) (l : List kdbus_conn), P →
      List.Forall₂ (queued r.kmsg) (send_conns c env conns conn_src kmsg) l →
      List.Forall₂
        (fun (d d' : kdbus_conn) => d'.msg_list = d.msg_list ∨
          (d'.msg_list = d.msg_list ++ [r.kmsg] ∧ P)) conns l := by
    intro P l hP hl
    refine (queued_chain _ _ _ _ h1 hl).imp ?_
    rintro d d' ⟨-, h | h⟩
    · exact Or.inl h
    · exact Or.inr ⟨h, hP⟩
  unfold kdbus_kmsg_send at hr
  dsimp only at hr
  split at hr
  · cases hr; exact hsame _
  · rename_i hret
    obtain ⟨off, l, hts⟩ := send_augment_timestamp c env (conn_find conns conn_src)
      (conn_find conns kmsg.conn_src) kmsg hmeta hret
    split at hr
    · split at hr
      · cases hr
      · cases hr; exact hsame _
      · cases hr
        obtain ⟨g1, g2⟩ := send_direct_queued c env ep
          (send_conns c env conns conn_src kmsg) conn_src
          (send_augment c env (conn_find conns conn_src) (conn_find conns kmsg.conn_src)
            kmsg).2.1 _ hids1
        obtain ⟨more, hm⟩ := meta_grown_first _ _ _ _ g2 hts
        exact hq _ _ ⟨off, more, hm⟩ g1
    · split at hr
      · cases hr; exact hsame _
      · cases hr
        obtain ⟨more, hm⟩ := meta_grown_first _ _ _ _ (meta_grown_refl _) hts
        exact hq _ _ ⟨off, more, hm⟩ (send_broadcast_loop_queued c env ep.id _ _ _)

/-- C16 as the code has it.  First part: take a message that
`kdbus_msg_scan_items` accepted, whose items as `KDBUS_ITEM_FOREACH` visits
them are those the validation visited, whose external payload descriptors
were inlined by `kdbus_inline_user_vec` and are not empty, whose handle array
(if it has one) holds between 1 and `KDBUS_MSG_MAX_FDS` handles, and whose
delivered bytes end below `2^64` (`KDBUS_ITEM_HEADER_SIZE` is not 0; in the
third case the broadcast id is not the well-known-name sentinel).  A
successful `kdbus_kmsg_recv` leaves in
the receiver's buffer the header with the new size, followed by the payload
items, the handle-array item and the metadata records.  Validated again, for
every connection and bloom size, that message

* passes the item loop and the checks when it is to a peer id and was queued
  without metadata: the result is that of the allocation of the handle
  arrays, 0 for a message without a handle array;
* is rejected with `-EDESTADDRREQ` when it is to the well-known-name sentinel
  and was queued without metadata (the name item is not delivered);
* is rejected with `-EBADMSG` when it is a broadcast queued without metadata
  (the bloom item is not delivered);
* is rejected with `-ENOTSUPP` when it was queued with metadata whose first
  record is of a type the validator does not know, is larger than the item
  header and not larger than the metadata, and fewer than
  `KDBUS_MSG_MAX_ITEMS` items are delivered in front of it.

Second part: on a bus with distinct ids, `kdbus_kmsg_send` of a message that
comes without metadata changes a receive queue only by adding the message it
returns at the tail, and the metadata of every message it has added begins
with the timestamp record; so no message that `kdbus_kmsg_send` queues is in
one of the first three cases. -/
theorem recv_roundtrip_delivered (c : kdbus_consts) (env : kdbus_env) :
    (∀ (env0 : kdbus_env) (conn conn0 : kdbus_conn) (buf : Nat) (buf_size : Option Nat)
        (r : recv_result) (kmsg : kdbus_kmsg) (rest : List kdbus_kmsg),
      0 < c.KDBUS_ITEM_HEADER_SIZE →
      conn.msg_list = kmsg :: rest →
      kdbus_kmsg_recv c env conn buf buf_size = some r → r.ret = 0 →
      0 ≤ (kdbus_msg_scan_items c env0 conn0 { msg := kmsg.msg }).2.2 →
      foreach_walk kmsg.msg.size kmsg.msg.items c.KDBUS_MSG_HEADER_SIZE
        = msg_items c kmsg.msg →
      vecs_inlined c env0 kmsg →
      (∀ it ∈ msg_items c kmsg.msg, it.type = KDBUS_MSG_PAYLOAD_VEC →
        0 < it.vec.size ∧ c.KDBUS_ITEM_HEADER_SIZE + it.vec.size < 2 ^ 64) →
      (kmsg.fds.isSome = true →
        0 < kmsg.fds_count ∧ kmsg.fds_count ≤ c.KDBUS_MSG_MAX_FDS ∧
        0 < count_type KDBUS_MSG_UNIX_FDS (msg_items c kmsg.msg)) →
      delivered_size c kmsg [] < 2 ^ 64 →
      ∃ fds m, written_msg r.writes = some m ∧
        m = { kmsg.msg with size := delivered_size c kmsg fds,
                            items := delivered_all c kmsg fds } ∧
        ∀ (env1 : kdbus_env) (conn1 : kdbus_conn),
          (kmsg.meta = none → kmsg.msg.dst_id ≠ c.KDBUS_DST_ID_WELL_KNOWN_NAME →
            kmsg.msg.dst_id ≠ c.KDBUS_DST_ID_BROADCAST →
            (∃ st, (kdbus_msg_scan_items c env1 conn1 { msg := m }).2.2
              = (scan_alloc_fds c env1 conn1 { msg := m } st).2.2) ∧
            (kmsg.fds = none → (kdbus_msg_scan_items c env1 conn1 { msg := m }).2.2 = 0)) ∧
          (kmsg.meta = none → kmsg.msg.dst_id = c.KDBUS_DST_ID_WELL_KNOWN_NAME →
            (kdbus_msg_scan_items c env1 conn1 { msg := m }).2.2 = -EDESTADDRREQ) ∧
          (kmsg.meta = none → kmsg.msg.dst_id ≠ c.KDBUS_DST_ID_WELL_KNOWN_NAME →
            kmsg.msg.dst_id = c.KDBUS_DST_ID_BROADCAST →
            (kdbus_msg_scan_items c env1 conn1 { msg := m }).2.2 = -EBADMSG) ∧
          (∀ (off : Nat) (record : kdbus_item) (more : List (Nat × kdbus_item)),
            kmsg.meta = some ((off, record) :: more) →
            record.type ≠ KDBUS_MSG_PAYLOAD → record.type ≠ KDBUS_MSG_PAYLOAD_VEC →
            record.type ≠ KDBUS_MSG_UNIX_FDS → record.type ≠ KDBUS_MSG_BLOOM →
            record.type ≠ KDBUS_MSG_DST_NAME →
            c.KDBUS_ITEM_HEADER_SIZE < record.size → record.size ≤ kmsg.meta_size →
            (delivered_stream c kmsg fds).length < c.KDBUS_MSG_MAX_ITEMS →
            (kdbus_msg_scan_items c env1 conn1 { msg := m }).2.2 = -ENOTSUPP)) ∧
    (∀ (ep : kdbus_ep) (conns : List kdbus_conn) (conn_src : Option Nat) (kmsg : kdbus_kmsg)
        (s : send_result),
      (conns.map fun x => x.id).Nodup → kmsg.meta = none →
      kdbus_kmsg_send c env ep conns conn_src kmsg = some s →
      List.Forall₂
        (fun d d' => d'.msg_list = d.msg_list ∨
          (d'.msg_list = d.msg_list ++ [s.kmsg] ∧
            ∃ off more, s.kmsg.meta
              = some ((off, { size := KDBUS_ITEM_SIZE c c.sizeof_kdbus_timestamp,
                              type := KDBUS_MSG_TIMESTAMP,
                              data := [env.monotonic_ns, env.realtime_ns] }) :: more)))
        conns s.conns) := by
  refine ⟨?_, fun ep conns conn_src kmsg s hids hmeta hs =>
    kmsg_send_queued c env ep conns conn_src kmsg hids hmeta s hs⟩
  intro env0 conn conn0 buf buf_size r kmsg rest hIH hq hr hret hacc hwalk hvecs hnz hfds hfit
  obtain ⟨kmsg', rest', fds, hq', -, hlay, -, -⟩ :=
    kdbus_kmsg_recv_writes c env conn buf buf_size r hr hret
  rw [hq] at hq'
  simp only [List.cons.injEq] at hq'
  obtain ⟨rfl, -⟩ := hq'
  have hfit' : delivered_size c kmsg fds < 2 ^ 64 := by
    rw [delivered_size_fds]; exact hfit
  have hm : written_msg r.writes
      = some { kmsg.msg with size := delivered_size c kmsg fds,
                             items := delivered_all c kmsg fds } := by
    rw [hlay, written_msg_layout_all c kmsg fds hfit']
  have hE : exact_end c.KDBUS_MSG_HEADER_SIZE (delivered_stream c kmsg fds)
      ≤ delivered_size c kmsg fds := by
    unfold delivered_size
    omega
  refine ⟨fds, _, hm, rfl, ?_⟩
  intro env1 conn1
  have hnone : kmsg.meta = none →
      delivered_all c kmsg fds = delivered_stream c kmsg fds ∧
      delivered_size c kmsg fds
        = exact_end c.KDBUS_MSG_HEADER_SIZE (delivered_stream c kmsg fds) := by
    intro hmeta
    unfold delivered_all delivered_size
    simp [hmeta]
  have hsteps0 : kmsg.meta = none →
      ∃ st, scan_steps c env1 conn1
          { kmsg.msg with size := delivered_size c kmsg fds,
                          items := delivered_all c kmsg fds }
          (delivered_all c kmsg fds) c.KDBUS_MSG_HEADER_SIZE {}
          = some (st, delivered_size c kmsg fds) ∧
        st.has_name = false ∧ st.num_vecs = 0 ∧ st.has_bloom = false ∧
        (kmsg.fds = none → st.has_fds = false) := by
    intro hmeta
    obtain ⟨e1, e2⟩ := hnone hmeta
    obtain ⟨st, s1, s2, s3, s4, -, -, s7⟩ :=
      delivered_stream_steps c env0 env1 conn0 conn1 kmsg fds
        (delivered_size c kmsg fds) (delivered_all c kmsg fds) hacc hwalk hvecs hnz hfds hE
        (lt_of_le_of_lt hE hfit')
    refine ⟨st, ?_, s2, s3, s4, s7⟩
    rw [← e2, ← e1] at s1
    exact s1
  refine ⟨?_, ?_, ?_, ?_⟩
  · intro hmeta hw hb
    obtain ⟨st, s1, s2, s3, -, s7⟩ := hsteps0 hmeta
    have hres := scan_items_of_steps c env1 conn1 _ _ hIH s1 s2 s3 hw hb
    refine ⟨⟨_, hres⟩, fun hnf => ?_⟩
    rw [hres]
    unfold scan_alloc_fds
    simp [s7 hnf]
  · intro hmeta hw
    obtain ⟨st, s1, s2, -, -, -⟩ := hsteps0 hmeta
    have hchk : scan_checks c
        { kmsg.msg with size := delivered_size c kmsg fds,
                        items := delivered_all c kmsg fds } st (delivered_size c kmsg fds)
        = -EDESTADDRREQ := by
      unfold scan_checks
      rw [if_neg (by simp), if_pos ⟨hw, by simp [s2]⟩]
    rw [scan_items_of_steps_checks c env1 conn1 _ st hIH s1 (by rw [hchk]; decide), hchk]
  · intro hmeta hw hb
    obtain ⟨st, s1, s2, -, s4, -⟩ := hsteps0 hmeta
    have hchk : scan_checks c
        { kmsg.msg with size := delivered_size c kmsg fds,
                        items := delivered_all c kmsg fds } st (delivered_size c kmsg fds)
        = -EBADMSG := by
      unfold scan_checks
      rw [if_neg (by simp), if_neg (by simp [hw]), if_neg (by simp [s2]),
        if_pos ⟨hb, by simp [s4]⟩]
    rw [scan_items_of_steps_checks c env1 conn1 _ st hIH s1 (by rw [hchk]; decide), hchk]
  · intro off record more hmeta t1 t2 t3 t4 t5 hs hle hlen
    obtain ⟨st, s1, -, -, -, s5, -, -⟩ := delivered_stream_steps c env0 env1 conn0 conn1 kmsg fds
      (delivered_size c kmsg fds) (delivered_all c kmsg fds) hacc hwalk hvecs hnz hfds hE
      (lt_of_le_of_lt hE hfit')
    have hitems : delivered_all c kmsg fds
        = delivered_stream c kmsg fds ++ record :: more.map fun p => p.2 := by
      unfold delivered_all
      simp [hmeta]
    have hsz : delivered_size c kmsg fds
        = exact_end c.KDBUS_MSG_HEADER_SIZE (delivered_stream c kmsg fds)
          + (kmsg.meta_size + 7) / 8 * 8 := by
      unfold delivered_size
      simp [hmeta]
    refine scan_items_item_error c env1 conn1
      { msg := { kmsg.msg with size := delivered_size c kmsg fds,
                               items := delivered_all c kmsg fds } }
      (delivered_stream c kmsg fds) record (more.map fun p => p.2) st
      (exact_end c.KDBUS_MSG_HEADER_SIZE (delivered_stream c kmsg fds)) _ hitems s1 ?_ ?_
    · simp only [item_in_msg, Bool.and_eq_true, decide_eq_true_eq]
      rw [hsz]
      constructor <;> omega
    · unfold scan_item
      rw [if_neg (by omega), if_neg (by omega)]
      split
      · rename_i h; exact absurd h t1
      · rename_i h; exact absurd h t2
      · rename_i h; exact absurd h t3
      · rename_i h; exact absurd h t4
      · rename_i h; exact absurd h t5
      · rfl

theorem recv_roundtrip_delivered_witness :
    (∃ r, kdbus_kmsg_recv sample_consts sample_env
        { id := 5, msg_list := [sample_mixed_kmsg], msg_count := 1 } 4096 (some 4096) = some r ∧
      r.ret = 0 ∧
      ∃ fds m, written_msg r.writes = some m ∧
        m = { sample_mixed_kmsg.msg with
                size := delivered_size sample_consts sample_mixed_kmsg fds,
                items := delivered_all sample_consts sample_mixed_kmsg fds } ∧
        (kdbus_msg_scan_items sample_consts sample_env { id := 9 } { msg := m }).2.2 = 0) ∧
    (∃ s, kdbus_kmsg_send sample_consts sample_env { id := 0 }
        [{ id := 1, bloom_size := 64 }, { id := 5, monitor := true }] (some 1)
        sample_broadcast_kmsg = some s ∧
      s.kmsg = sample_sent_broadcast_kmsg ∧
      (s.conns.map fun x => x.msg_list) = [[], [sample_sent_broadcast_kmsg]] ∧
      List.Forall₂
        (fun (d d' : kdbus_conn) => d'.msg_list = d.msg_list ∨
          (d'.msg_list = d.msg_list ++ [s.kmsg] ∧
            ∃ off more, s.kmsg.meta
              = some ((off, { size := KDBUS_ITEM_SIZE sample_consts
                                sample_consts.sizeof_kdbus_timestamp,
                              type := KDBUS_MSG_TIMESTAMP,
                              data := [sample_env.monotonic_ns, sample_env.realtime_ns] })
                  :: more)))
        [{ id := 1, bloom_size := 64 }, { id := 5, monitor := true }] s.conns) ∧
    (∃ r, kdbus_kmsg_recv sample_consts sample_env
        { id := 5, monitor := true, msg_list := [sample_sent_broadcast_kmsg], msg_count := 1 }
        4096 (some 4096) = some r ∧
      r.ret = 0 ∧
      ∃ fds m, written_msg r.writes = some m ∧
        m = { sample_sent_broadcast_kmsg.msg with
                size := delivered_size sample_consts sample_sent_broadcast_kmsg fds,
                items := delivered_all sample_consts sample_sent_broadcast_kmsg fds } ∧
        (kdbus_msg_scan_items sample_consts sample_env { id := 9, bloom_size := 64 }
          { msg := m }).2.2 = -ENOTSUPP) :=
  ⟨⟨_, rfl, rfl,
    ((recv_roundtrip_delivered sample_consts sample_env).1 sample_env
      { id := 5, msg_list := [sample_mixed_kmsg], msg_count := 1 } { id := 3 } 4096 (some 4096)
      _ sample_mixed_kmsg [] (by decide) rfl rfl rfl (by decide) (by decide)
      (List.Forall₂.cons rfl List.Forall₂.nil) (by decide) (by decide)
      (by decide)).elim fun fds h => h.elim fun m hm =>
        ⟨fds, m, hm.1, hm.2.1,
          ((hm.2.2 sample_env { id := 9 }).1 rfl (by decide) (by decide)).2 rfl⟩⟩,
   ⟨_, rfl, rfl, rfl,
    (recv_roundtrip_delivered sample_consts sample_env).2 { id := 0 }
      [{ id := 1, bloom_size := 64 }, { id := 5, monitor := true }] (some 1)
      sample_broadcast_kmsg _ (by decide) rfl rfl⟩,
   ⟨_, rfl, rfl,
    ((recv_roundtrip_delivered sample_consts sample_env).1 sample_env
      { id := 5, monitor := true, msg_list := [sample_sent_broadcast_kmsg], msg_count := 1 }
      { id := 1, bloom_size := 64 } 4096 (some 4096)
      _ sample_sent_broadcast_kmsg [] (by decide) rfl rfl rfl (by decide) (by decide)
      List.Forall₂.nil (by decide) (by decide)
      (by decide)).elim fun fds h => h.elim fun m hm =>
        ⟨fds, m, hm.1, hm.2.1,
          (hm.2.2 sample_env { id := 9, bloom_size := 64 }).2.2.2 0
            { size := 32, type := KDBUS_MSG_TIMESTAMP, data := [1000, 2000] }
            [(32, { size := 56, type := KDBUS_MSG_SRC_CREDS, data := [] })] rfl
            (by decide) (by decide) (by decide) (by decide) (by decide) (by decide)
            (by decide)
            (show (delivered_stream sample_consts sample_sent_broadcast_kmsg []).length
              < sample_consts.KDBUS_MSG_MAX_ITEMS from by decide)⟩⟩⟩

/-! ## C21, C22: item sizes and the end of the item area -/

theorem scan_steps_walk (c : kdbus_consts) (env : kdbus_env) (conn : kdbus_conn)
    (msg : kdbus_msg) (l : List kdbus_item) (pre : List kdbus_item) :
    ∀ (pos : Nat) (st st1 : scan_state) (pos1 : Nat),
      scan_steps c env conn msg pre pos st = some (st1, pos1) →
      validate_walk c msg.size (pre ++ l) pos = pre ++ validate_walk c msg.size l pos1 := by
  induction pre with
  | nil =>
    intro pos st st1 pos1 h
    unfold scan_steps at h
    simp only [Option.some.injEq, Prod.mk.injEq] at h
    rw [h.2]; rfl
  | cons item rest ih =>
    intro pos st st1 pos1 h
    unfold scan_steps at h
    split at h
    · rename_i hin
      split at h
      · cases h
      · rw [List.cons_append]
        conv_lhs => unfold validate_walk
        rw [if_pos hin, ih _ _ _ _ h]
        rfl
    · cases h

theorem validate_walk_inside (c : kdbus_consts) (msg_size : Nat) (items : List kdbus_item) :
    ∀ (pos : Nat), ∀ it ∈ validate_walk c msg_size items pos, pos + it.size ≤ msg_size := by
  induction items with
  | nil =>
    intro pos it hit
    simp [validate_walk] at hit
  | cons item rest ih =>
    intro pos it hit
    unfold validate_walk at hit
    split at hit
    · rename_i hin
      rcases List.mem_cons.mp hit with rfl | hmem
      · simp [item_in_msg] at hin
        omega
      · have := ih _ it hmem
        omega
    · cases hit

/-- C21 fails on the code as stated.  An inline payload item whose size
equals `KDBUS_ITEM_HEADER_SIZE` (16), alone in a message to a peer and inside
that message, is rejected with `-EINVAL`: the loop body tests
`item->size <= KDBUS_ITEM_HEADER_SIZE` ("empty data records are invalid").
The message is otherwise valid: with one data byte in the item it is
accepted. -/
theorem scan_items_item_size_counterexample :
    (sample_payload_msg 0 0).items.map (fun it => (it.type, it.size))
      = [(KDBUS_MSG_PAYLOAD, sample_consts.KDBUS_ITEM_HEADER_SIZE)] ∧
    item_in_msg sample_consts (sample_payload_msg 0 0).size
      sample_consts.KDBUS_MSG_HEADER_SIZE sample_consts.KDBUS_ITEM_HEADER_SIZE = true ∧
    (kdbus_msg_scan_items sample_consts sample_env { id := 1 }
      { msg := sample_payload_msg 0 0 }).2.2 = -EINVAL ∧
    (kdbus_msg_scan_items sample_consts sample_env { id := 1 }
      { msg := sample_payload_msg 1 0 }).2.2 = 0 := by
  decide

/-- C21 as the code has it.  For an item that lies inside the message and
follows leading items `pre` which passed the validation loop:
`kdbus_msg_scan_items` returns `-EINVAL` whenever the size of the item is at
most `KDBUS_ITEM_HEADER_SIZE`, whatever its type ("empty data records are
invalid"); and for an inline payload item this is the only size rule: when
the item count allows one more item, the item passes the loop body exactly
when its size is larger than `KDBUS_ITEM_HEADER_SIZE`, and the loop then goes
on behind it, whatever its size.  And in every message that
`kdbus_msg_scan_items` accepts, each item the validation has visited is
larger than the item header and not larger than the item area of the message
(`msg.size` less `KDBUS_MSG_HEADER_SIZE`). -/
theorem scan_items_item_size (c : kdbus_consts) (env : kdbus_env) (conn : kdbus_conn)
    (kmsg : kdbus_kmsg) :
    (∀ (pre : List kdbus_item) (item : kdbus_item) (rest : List kdbus_item)
        (st1 : scan_state) (pos1 : Nat),
      kmsg.msg.items = pre ++ item :: rest →
      scan_steps c env conn kmsg.msg pre c.KDBUS_MSG_HEADER_SIZE {} = some (st1, pos1) →
      item_in_msg c kmsg.msg.size pos1 item.size = true →
      (item.size ≤ c.KDBUS_ITEM_HEADER_SIZE →
        (kdbus_msg_scan_items c env conn kmsg).2.2 = -EINVAL) ∧
      (item.type = KDBUS_MSG_PAYLOAD → pre.length < c.KDBUS_MSG_MAX_ITEMS →
        ((∃ st2, scan_item c env conn kmsg.msg item st1 = .ok st2) ↔
          c.KDBUS_ITEM_HEADER_SIZE < item.size) ∧
        (c.KDBUS_ITEM_HEADER_SIZE < item.size →
          scan_steps c env conn kmsg.msg (pre ++ [item]) c.KDBUS_MSG_HEADER_SIZE {}
            = some ({ st1 with num_items := st1.num_items + 1 },
                    pos1 + KDBUS_ALIGN8 item.size)))) ∧
    ((kdbus_msg_scan_items c env conn kmsg).2.2 = 0 →
      ∀ it ∈ msg_items c kmsg.msg,
        c.KDBUS_ITEM_HEADER_SIZE < it.size ∧
        c.KDBUS_MSG_HEADER_SIZE + it.size ≤ kmsg.msg.size) := by
  constructor
  · intro pre item rest st1 pos1 hitems hpre hin
    constructor
    · intro hs
      refine scan_items_item_error c env conn kmsg pre item rest st1 pos1 _ hitems hpre hin ?_
      unfold scan_item
      rw [if_pos hs]
    · intro ht hlen
      obtain ⟨-, -, hnum⟩ := scan_steps_flags c env conn kmsg.msg pre _ _ _ _ hpre
      have hn : st1.num_items < c.KDBUS_MSG_MAX_ITEMS := by
        rw [hnum]
        simpa using hlen
      have hitem : c.KDBUS_ITEM_HEADER_SIZE < item.size →
          scan_item c env conn kmsg.msg item st1
            = .ok { st1 with num_items := st1.num_items + 1 } := by
        intro hs
        unfold scan_item
        rw [if_neg (by omega), if_neg (by omega)]
        simp only [ht]
      refine ⟨⟨fun ⟨st2, h2⟩ => scan_item_size c env conn kmsg.msg item st1 st2 h2,
        fun hs => ⟨_, hitem hs⟩⟩, fun hs => ?_⟩
      rw [scan_steps_append c env conn kmsg.msg pre [item] _ _ _ _ hpre]
      unfold scan_steps
      rw [if_pos hin, hitem hs]
      simp only [scan_steps]
  · intro hacc it hit
    obtain ⟨st, pos, hloop, -, -, -⟩ := scan_items_accept c env conn kmsg (by omega)
    exact ⟨scan_loop_sizes c env conn kmsg.msg _ _ _ _ _ hloop it hit,
      validate_walk_inside c kmsg.msg.size kmsg.msg.items _ it hit⟩

theorem scan_items_item_size_witness :
    (kdbus_msg_scan_items sample_consts sample_env { id := 1 }
        { msg := sample_payload_msg 0 0 }).2.2 = -EINVAL ∧
    scan_steps sample_consts sample_env { id := 1 } (sample_payload_msg 8 0)
        ([] ++ [{ size := 24, type := KDBUS_MSG_PAYLOAD, data := List.replicate 8 0 }])
        sample_consts.KDBUS_MSG_HEADER_SIZE {}
      = some ({ ({} : scan_state) with num_items := ({} : scan_state).num_items + 1 },
              64 + KDBUS_ALIGN8 24) ∧
    (sample_consts.KDBUS_ITEM_HEADER_SIZE < 24 ∧
      sample_consts.KDBUS_MSG_HEADER_SIZE + 24 ≤ (sample_payload_msg 8 0).size) :=
  ⟨((scan_items_item_size sample_consts sample_env { id := 1 }
        { msg := sample_payload_msg 0 0 }).1 []
        { size := 16, type := KDBUS_MSG_PAYLOAD, data := [] } [] {} 64 rfl rfl
        (by decide)).1 (by decide),
   (((scan_items_item_size sample_consts sample_env { id := 1 }
        { msg := sample_payload_msg 8 0 }).1 []
        { size := 24, type := KDBUS_MSG_PAYLOAD, data := List.replicate 8 0 } [] {} 64 rfl rfl
        (by decide)).2 rfl (by decide)).2 (by decide),
   (scan_items_item_size sample_consts sample_env { id := 1 }
        { msg := sample_payload_msg 8 0 }).2 (by decide)
        { size := 24, type := KDBUS_MSG_PAYLOAD, data := List.replicate 8 0 } (by decide)⟩

/-- The padding test of `kdbus_msg_scan_items` compares the offset at which
the loop stopped minus `msg->size` with 8; the loop never stops 8 or more
bytes behind `msg->size`, so the test lets every message through. -/
theorem scan_padding_test_passes (c : kdbus_consts) (env : kdbus_env) (conn : kdbus_conn)
    (msg : kdbus_msg) (st : scan_state) (pos : Nat)
    (hsize : c.KDBUS_MSG_HEADER_SIZE ≤ msg.size + 7)
    (hl : scan_loop c env conn msg msg.items c.KDBUS_MSG_HEADER_SIZE {} = .ok (st, pos)) :
    ¬ ((pos : Int) - (msg.size : Int) ≥ 8) := by
  have := scan_loop_pos c env conn msg _ _ _ _ _ hl hsize
  omega

/-- C22 fails on the code: a message to a peer whose item area holds one
inline payload item of 24 bytes and 8 more bytes is accepted by
`kdbus_msg_scan_items`, though the validated items end at offset 88 and
`msg->size` is 96; likewise a message of 112 bytes whose validated items end
at offset 88.  The padding test subtracts `msg->size` from the offset at which
the loop stopped, which is negative here. -/
theorem scan_items_trailing_bytes_accepted :
    ((sample_payload_msg 8 8).size = 96 ∧
      msg_items sample_consts (sample_payload_msg 8 8)
        = [{ size := 24, type := KDBUS_MSG_PAYLOAD, data := List.replicate 8 0 }] ∧
      scan_loop sample_consts sample_env { id := 1 } (sample_payload_msg 8 8)
          (sample_payload_msg 8 8).items 64 {} = .ok ({ num_items := 1 }, 88) ∧
      (kdbus_msg_scan_items sample_consts sample_env { id := 1 }
        { msg := sample_payload_msg 8 8 }).2.2 = 0) ∧
    (sample_overlong_msg.size = 112 ∧
      scan_loop sample_consts sample_env { id := 1 } sample_overlong_msg
          sample_overlong_msg.items 64 {} = .ok ({ num_items := 1 }, 88) ∧
      (kdbus_msg_scan_items sample_consts sample_env { id := 1 }
        { msg := sample_overlong_msg }).2.2 = 0) :=
  ⟨⟨by decide, by decide, rfl, by decide⟩, by decide, rfl, by decide⟩

/-! ## C27: the metadata buffer -/

theorem roundup_pow_of_two_from_pow (n : Nat) :
    ∀ (fuel p : Nat), (∃ k, p = 2 ^ k) → ∃ k, roundup_pow_of_two_from n fuel p = 2 ^ k := by
  intro fuel
  induction fuel with
  | zero => intro p h; exact h
  | succ fuel ih =>
    intro p h
    unfold roundup_pow_of_two_from
    split_ifs
    · exact h
    · obtain ⟨k, rfl⟩ := h
      exact ih _ ⟨k + 1, by rw [pow_succ]; ring⟩

theorem roundup_pow_of_two_from_ge (n : Nat) :
    ∀ (fuel p : Nat), n ≤ p * 2 ^ fuel → n ≤ roundup_pow_of_two_from n fuel p := by
  intro fuel
  induction fuel with
  | zero => intro p h; simpa [roundup_pow_of_two_from] using h
  | succ fuel ih =>
    intro p h
    unfold roundup_pow_of_two_from
    split_ifs with hp
    · exact hp
    · exact ih _ (by rw [pow_succ] at h; linarith)

/-- The value of `roundup_pow_of_two n` is a power of two that is not below
`n`. -/
theorem roundup_pow_of_two_spec (n : Nat) :
    (∃ k, roundup_pow_of_two n = 2 ^ k) ∧ n ≤ roundup_pow_of_two n := by
  unfold roundup_pow_of_two
  refine ⟨roundup_pow_of_two_from_pow n n 1 ⟨0, rfl⟩, roundup_pow_of_two_from_ge n n 1 ?_⟩
  rw [Nat.one_mul]
  exact le_of_lt (Nat.lt_two_pow n)

theorem kmsg_append_insert_ok (c : kdbus_consts) (env : kdbus_env) (src : Option kdbus_conn)
    (kmsg : kdbus_kmsg) (n off : Nat)
    (hok : (kmsg_append_insert c env src kmsg n).item = .ok off)
    (hpow : ∃ k, kmsg.meta_allocated_size = 2 ^ k)
    (hn : kmsg.meta_size + (n + 7) / 8 * 8 < 2 ^ 64) :
    (kmsg_append_insert c env src kmsg n).kmsg.meta_size = kmsg.meta_size + (n + 7) / 8 * 8 ∧
    (kmsg_append_insert c env src kmsg n).kmsg.meta_size
      ≤ (kmsg_append_insert c env src kmsg n).kmsg.meta_allocated_size ∧
    (∃ k, (kmsg_append_insert c env src kmsg n).kmsg.meta_allocated_size = 2 ^ k) ∧
    off = kmsg.meta_size ∧
    (kmsg_append_insert c env src kmsg n).kmsg.meta = kmsg.meta ∧
    kmsg.meta_allocated_size
      ≤ (kmsg_append_insert c env src kmsg n).kmsg.meta_allocated_size := by
  have ha : KDBUS_ALIGN8 n = (n + 7) / 8 * 8 := KDBUS_ALIGN8_exact n (by omega)
  have hu : u64 (kmsg.meta_size + KDBUS_ALIGN8 n) = kmsg.meta_size + (n + 7) / 8 * 8 := by
    rw [ha]
    unfold u64
    exact Nat.mod_eq_of_lt hn
  unfold kmsg_append_insert at hok ⊢
  dsimp only at hok ⊢
  rw [hu] at hok ⊢
  by_cases hg : kmsg.meta_size + (n + 7) / 8 * 8 > kmsg.meta_allocated_size
  · rw [if_pos hg] at hok ⊢
    obtain ⟨p1, p2⟩ := roundup_pow_of_two_spec (kmsg.meta_size + (n + 7) / 8 * 8)
    split_ifs at hok ⊢
    all_goals cases hok
    exact ⟨rfl, p2, p1, rfl, rfl, by simp only; omega⟩
  · rw [if_neg hg] at hok ⊢
    cases hok
    exact ⟨rfl, by simp only; omega, hpow, rfl, rfl, le_refl _⟩

/-- C27: after a successful `kdbus_kmsg_append(kmsg, n)` (sizes below `2^64`;
a buffer that is already there has a power of two as its allocated size, as
every buffer this function has made) `meta_size` has grown by `n` rounded up
to a multiple of 8 and is at most `meta_allocated_size`, which is a power of
two and has not shrunk, there is a metadata buffer, the item returned starts
at the old `meta_size` and ends inside the buffer, and the records in the
buffer are those that were there before, also when the buffer was grown. -/
theorem kmsg_append_buffer (c : kdbus_consts) (env : kdbus_env) (src : Option kdbus_conn)
    (kmsg : kdbus_kmsg) (n off : Nat)
    (hok : (kdbus_kmsg_append c env src kmsg n).item = .ok off)
    (hpow : kmsg.meta.isSome = true → ∃ k, kmsg.meta_allocated_size = 2 ^ k)
    (hn : kmsg.meta_size + (n + 7) / 8 * 8 < 2 ^ 64) :
    (kdbus_kmsg_append c env src kmsg n).kmsg.meta_size
      = kmsg.meta_size + (n + 7) / 8 * 8 ∧
    (kdbus_kmsg_append c env src kmsg n).kmsg.meta_size
      ≤ (kdbus_kmsg_append c env src kmsg n).kmsg.meta_allocated_size ∧
    (∃ k, (kdbus_kmsg_append c env src kmsg n).kmsg.meta_allocated_size = 2 ^ k) ∧
    (kmsg.meta.isSome = true →
      kmsg.meta_allocated_size
        ≤ (kdbus_kmsg_append c env src kmsg n).kmsg.meta_allocated_size) ∧
    (kdbus_kmsg_append c env src kmsg n).kmsg.meta.isSome = true ∧
    off = kmsg.meta_size ∧
    off + (n + 7) / 8 * 8
      ≤ (kdbus_kmsg_append c env src kmsg n).kmsg.meta_allocated_size ∧
    (kdbus_kmsg_append c env src kmsg n).kmsg.meta.getD [] = kmsg.meta.getD [] := by
  unfold kdbus_kmsg_append at hok ⊢
  split at hok
  · rename_i hm
    simp only [hm] at hok ⊢
    obtain ⟨p1, -⟩ := roundup_pow_of_two_spec (256 + KDBUS_ALIGN8 n)
    by_cases h1 : (add_size_allocation_src c src
        (roundup_pow_of_two (256 + KDBUS_ALIGN8 n))).2 < 0
    · rw [if_pos h1] at hok; cases hok
    rw [if_neg h1] at hok ⊢
    by_cases h2 : (!env.kmalloc alloc_site.meta
        (roundup_pow_of_two (256 + KDBUS_ALIGN8 n))) = true
    · rw [if_pos h2] at hok; cases hok
    rw [if_neg h2] at hok ⊢
    obtain ⟨a1, a2, a3, a4, a5, -⟩ := kmsg_append_insert_ok c env _ _ n off hok p1 hn
    refine ⟨a1, a2, a3, ?_, ?_, a4, ?_, ?_⟩
    · intro hs; cases hs
    · rw [a5]; rfl
    · rw [a4]
      have := a1
      simp only at this
      omega
    · rw [a5]; rfl
  · rename_i m hm
    simp only [hm] at hok ⊢
    obtain ⟨a1, a2, a3, a4, a5, a6⟩ :=
      kmsg_append_insert_ok c env _ _ n off hok (hpow (by rw [hm]; rfl)) hn
    refine ⟨a1, a2, a3, fun _ => a6, ?_, a4, ?_, ?_⟩
    · rw [a5, hm]; rfl
    · rw [a4]; omega
    · rw [a5, hm]

theorem kmsg_append_buffer_witness :
    (kdbus_kmsg_append sample_consts sample_env (some { id := 1 }) sample_meta_kmsg 32).kmsg.meta_size
      = 504 + (32 + 7) / 8 * 8 ∧
    (kdbus_kmsg_append sample_consts sample_env (some { id := 1 })
        sample_meta_kmsg 32).kmsg.meta_allocated_size = 1024 ∧
    (kdbus_kmsg_append sample_consts sample_env (some { id := 1 })
        sample_meta_kmsg 32).kmsg.meta.getD [] = sample_meta_kmsg.meta.getD [] :=
  have h := kmsg_append_buffer sample_consts sample_env (some { id := 1 }) sample_meta_kmsg 32
    504 rfl (fun _ => ⟨9, rfl⟩) (by decide)
  ⟨h.1, by decide, h.2.2.2.2.2.2.2⟩

/-! ## C25: the size of the receiver's buffer -/

/-- C25 fails on the code: a message to peer 5 with one inline payload item,
sent with `kdbus_kmsg_send` (which appends a timestamp and a credentials
record, 88 bytes of metadata), is received into a buffer of exactly the size
`kdbus_kmsg_recv` asks for, 120 bytes (`msg->size` 88 plus `kmsg->meta->size`
32, the size of the first metadata record only).  The call succeeds, writes
the metadata block at offsets 88 to 176 and stores 176 as the size of the
message: 56 bytes more than the buffer holds. -/
theorem recv_writes_beyond_buffer :
    (kdbus_kmsg_send sample_consts sample_env { id := 0 } [{ id := 1 }, { id := 5 }] (some 1)
        sample_peer_kmsg).bind (fun s =>
      (s.conns.find? fun d => d.id == 5).bind fun d =>
        d.msg_list.head?.bind fun k =>
          (kdbus_kmsg_recv sample_consts sample_env d 4096 (some (recv_max_size k))).map fun r =>
            (s.ret, k.msg.size, k.meta_size, (meta_first (k.meta.getD [])).size,
              recv_max_size k, r.ret, written_size 0 r.writes,
              r.writes.map fun w => w.offset))
      = some (0, 88, 88, 32, 120, 0, 176, [0, 64, 88, 176]) ∧
    (120 : Nat) < 176 :=
  ⟨rfl, by decide⟩

/-! ## C23, C24: `handle_ep_ioctl_connected` -/

theorem member_set_any_calls (env : handle_env) (ms : List user_member) (call : handle_call)
    (h : call ∈ (member_set_any env ms).2) : ∃ m, call = .kdbus_member_set_user m := by
  induction ms with
  | nil => simp [member_set_any] at h
  | cons m rest ih =>
    unfold member_set_any at h
    by_cases hm : env.kdbus_member_set_user m = true
    · rw [if_pos hm] at h
      simp only [List.mem_singleton] at h
      exact ⟨m, h⟩
    · rw [if_neg hm] at h
      simp only [List.mem_cons] at h
      rcases h with h | h
      · exact ⟨m, h⟩
      · exact ih h

/-- The case `KDBUS_CMD_NAME_LIST` in full: the result and the calls for each
outcome of the four steps in front of the registry. -/
theorem ioctl_switch_name_list (env : handle_env) :
    ioctl_switch env .KDBUS_CMD_NAME_LIST =
      match env.kdbus_memdup_user with
      | some e => { ret := e, calls := [.kdbus_memdup_user] }
      | none =>
        if env.kdbus_negotiate_flags < 0 then
          { ret := env.kdbus_negotiate_flags, free_ptr := true,
            calls := [.kdbus_memdup_user, .kdbus_negotiate_flags] }
        else if env.kdbus_items_validate < 0 then
          { ret := env.kdbus_items_validate, free_ptr := true,
            calls := [.kdbus_memdup_user, .kdbus_negotiate_flags, .kdbus_items_validate] }
        else if env.kdbus_cmd_name_list < 0 then
          { ret := env.kdbus_cmd_name_list, free_ptr := true,
            calls := [.kdbus_memdup_user, .kdbus_negotiate_flags, .kdbus_items_validate,
                      .kdbus_cmd_name_list] }
        else
          { ret := if (member_set_any env [.offset, .list_size, .return_flags]).1 then -EFAULT
                   else env.kdbus_cmd_name_list,
            free_ptr := true,
            calls := [.kdbus_memdup_user, .kdbus_negotiate_flags, .kdbus_items_validate,
                      .kdbus_cmd_name_list] ++
                     (member_set_any env [.offset, .list_size, .return_flags]).2 } := by
  simp only [ioctl_switch, ioctl_prepared, ioctl_prepare, ioctl_finish]
  cases env.kdbus_memdup_user with
  | some e => rfl
  | none =>
    dsimp only
    split_ifs <;> simp

/-- C23 does not hold as stated: for a connection of the monitor role on which
every call succeeds, `KDBUS_CMD_NAME_LIST` is not rejected: it returns 0 and
calls `kdbus_cmd_name_list` of the name registry.  And when a connection of
that role cannot be acquired, `KDBUS_CMD_NAME_ACQUIRE` returns the error of
`kdbus_conn_acquire`, which is not `-EOPNOTSUPP`. -/
theorem ioctl_name_list_monitor_counterexample :
    sample_monitor_env.kdbus_conn_is_ordinary = false ∧
    handle_ep_ioctl_connected sample_monitor_env .KDBUS_CMD_NAME_LIST =
      (0, [.kdbus_conn_acquire, .kdbus_memdup_user, .kdbus_negotiate_flags,
           .kdbus_items_validate, .kdbus_cmd_name_list, .kdbus_member_set_user .offset,
           .kdbus_member_set_user .list_size, .kdbus_member_set_user .return_flags,
           .kdbus_conn_release, .kfree true]) ∧
    sample_monitor_env_dead.kdbus_conn_is_ordinary = false ∧
    handle_ep_ioctl_connected sample_monitor_env_dead .KDBUS_CMD_NAME_ACQUIRE =
      (-ECONNRESET, [.kdbus_conn_acquire]) ∧
    -ECONNRESET ≠ -EOPNOTSUPP := by
  decide

/-- C23, amended: for a connection that is not of the ordinary role,
`KDBUS_CMD_NAME_ACQUIRE` and `KDBUS_CMD_NAME_RELEASE` make no call into the
name registry: they return the error of `kdbus_conn_acquire` when the
connection cannot be acquired, and otherwise `-EOPNOTSUPP` after nothing but
acquiring and releasing the connection.  `KDBUS_CMD_NAME_LIST` has no role
test: it gives what it gives for an ordinary connection, and it calls
`kdbus_cmd_name_list` exactly when the connection is acquired, the argument
is copied in, and flag negotiation and item validation succeed. -/
theorem ioctl_connected_name_role (env : handle_env) (cmd : kdbus_cmd)
    (hrole : env.kdbus_conn_is_ordinary = false) :
    (cmd = .KDBUS_CMD_NAME_ACQUIRE ∨ cmd = .KDBUS_CMD_NAME_RELEASE →
      handle_ep_ioctl_connected env cmd =
        (if env.kdbus_conn_acquire < 0 then (env.kdbus_conn_acquire, [.kdbus_conn_acquire])
         else (-EOPNOTSUPP, [.kdbus_conn_acquire, .kdbus_conn_release, .kfree false])) ∧
      handle_call.kdbus_cmd_name_acquire ∉ (handle_ep_ioctl_connected env cmd).2 ∧
      handle_call.kdbus_cmd_name_release ∉ (handle_ep_ioctl_connected env cmd).2 ∧
      handle_call.kdbus_cmd_name_list ∉ (handle_ep_ioctl_connected env cmd).2) ∧
    (cmd = .KDBUS_CMD_NAME_LIST →
      handle_ep_ioctl_connected env cmd =
        handle_ep_ioctl_connected { env with kdbus_conn_is_ordinary := true } cmd ∧
      (handle_call.kdbus_cmd_name_list ∈ (handle_ep_ioctl_connected env cmd).2 ↔
        0 ≤ env.kdbus_conn_acquire ∧ env.kdbus_memdup_user = none ∧
        0 ≤ env.kdbus_negotiate_flags ∧ 0 ≤ env.kdbus_items_validate)) := by
  refine ⟨fun hcmd => ?_, fun hcmd => ?_⟩
  · have hres : handle_ep_ioctl_connected env cmd =
        (if env.kdbus_conn_acquire < 0 then (env.kdbus_conn_acquire, [.kdbus_conn_acquire])
         else (-EOPNOTSUPP, [.kdbus_conn_acquire, .kdbus_conn_release, .kfree false])) := by
      rcases hcmd with rfl | rfl <;>
        simp [handle_ep_ioctl_connected, ioctl_switch, ioctl_name, hrole]
    rw [hres]
    refine ⟨rfl, ?_, ?_, ?_⟩ <;> split_ifs <;> simp
  · subst hcmd
    refine ⟨rfl, ?_⟩
    have hmem : ∀ ms, handle_call.kdbus_cmd_name_list ∉ (member_set_any env ms).2 := by
      intro ms h
      obtain ⟨m, hm⟩ := member_set_any_calls env ms _ h
      cases hm
    have hne : kdbus_cmd.KDBUS_CMD_NAME_LIST ≠ kdbus_cmd.KDBUS_CMD_BYEBYE := by decide
    unfold handle_ep_ioctl_connected
    rw [if_neg hne]
    by_cases hacq : env.kdbus_conn_acquire < 0
    · rw [if_pos hacq]
      simp only [List.mem_singleton, reduceCtorEq, false_iff, not_and]
      intro h
      omega
    · rw [if_neg hacq, ioctl_switch_name_list]
      cases hdup : env.kdbus_memdup_user with
      | some e => simp
      | none =>
        dsimp only
        by_cases hneg : env.kdbus_negotiate_flags < 0
        · rw [if_pos hneg]
          simp
          intro _
          omega
        · rw [if_neg hneg]
          by_cases hval : env.kdbus_items_validate < 0
          · rw [if_pos hval]
            simp
            intro _ _
            omega
          · rw [if_neg hval]
            have h3 : 0 ≤ env.kdbus_conn_acquire ∧ True ∧ 0 ≤ env.kdbus_negotiate_flags ∧
                0 ≤ env.kdbus_items_validate := ⟨by omega, trivial, by omega, by omega⟩
            split_ifs <;> simp [h3.1, h3.2.2.1, h3.2.2.2]

theorem ioctl_connected_name_role_witness :
    handle_ep_ioctl_connected sample_monitor_env .KDBUS_CMD_NAME_ACQUIRE =
      (-EOPNOTSUPP, [.kdbus_conn_acquire, .kdbus_conn_release, .kfree false]) ∧
    handle_call.kdbus_cmd_name_list ∈
      (handle_ep_ioctl_connected sample_monitor_env .KDBUS_CMD_NAME_LIST).2 :=
  ⟨((ioctl_connected_name_role sample_monitor_env .KDBUS_CMD_NAME_ACQUIRE rfl).1
      (Or.inl rfl)).1,
   (((ioctl_connected_name_role sample_monitor_env .KDBUS_CMD_NAME_LIST rfl).2 rfl).2).2
      ⟨by decide, rfl, by decide, by decide⟩⟩

theorem member_set_any_not_mem (env : handle_env) (ms : List user_member) (x : handle_call)
    (hx : x = .kdbus_conn_disconnect ∨ x = .kdbus_conn_acquire) :
    x ∉ (member_set_any env ms).2 := by
  intro h
  obtain ⟨m, hm⟩ := member_set_any_calls env ms _ h
  rcases hx with rfl | rfl <;> cases hm

theorem ioctl_prepared_calls (env : handle_env) (body : List handle_call → switch_result)
    (x : handle_call) (hx : x = .kdbus_conn_disconnect ∨ x = .kdbus_conn_acquire)
    (hbody : ∀ calls, x ∉ calls → x ∉ (body calls).calls) :
    x ∉ (ioctl_prepared env body).calls := by
  unfold ioctl_prepared ioctl_prepare
  cases env.kdbus_memdup_user with
  | some e => rcases hx with rfl | rfl <;> simp
  | none =>
    dsimp only
    split_ifs
    · rcases hx with rfl | rfl <;> simp
    · rcases hx with rfl | rfl <;> simp
    · apply hbody
      rcases hx with rfl | rfl <;> simp

theorem ioctl_finish_calls (env : handle_env) (calls : List handle_call) (call : handle_call)
    (ret : Int) (ms : List user_member) (x : handle_call)
    (hx : x = .kdbus_conn_disconnect ∨ x = .kdbus_conn_acquire) (hcall : x ≠ call)
    (hcalls : x ∉ calls) : x ∉ (ioctl_finish env calls call ret ms).calls := by
  unfold ioctl_finish
  by_cases h : ret < 0
  · rw [if_pos h]
    simp [hcalls, hcall]
  · rw [if_neg h]
    simp [hcalls, hcall, member_set_any_not_mem env ms x hx]

/-- Inside the `switch` the connection is neither disconnected nor acquired
again. -/
theorem ioctl_switch_calls (env : handle_env) (cmd : kdbus_cmd) (x : handle_call)
    (hx : x = .kdbus_conn_disconnect ∨ x = .kdbus_conn_acquire) :
    x ∉ (ioctl_switch env cmd).calls := by
  have hms := member_set_any_not_mem env [.dropped_msgs, .msg, .return_flags] x hx
  cases cmd
  case KDBUS_CMD_NAME_ACQUIRE =>
    simp only [ioctl_switch, ioctl_name]
    rcases hx with rfl | rfl <;> (repeat' split) <;> simp
  case KDBUS_CMD_NAME_RELEASE =>
    simp only [ioctl_switch, ioctl_name]
    rcases hx with rfl | rfl <;> (repeat' split) <;> simp
  case KDBUS_CMD_SEND =>
    simp only [ioctl_switch]
    split
    · rcases hx with rfl | rfl <;> simp
    · apply ioctl_prepared_calls env _ x hx
      intro calls hcalls
      unfold ioctl_send
      rcases hx with rfl | rfl <;> (repeat' split) <;> simp [hcalls]
  case KDBUS_CMD_RECV =>
    simp only [ioctl_switch]
    split
    · rcases hx with rfl | rfl <;> simp
    · apply ioctl_prepared_calls env _ x hx
      intro calls hcalls
      unfold ioctl_recv
      dsimp only
      split
      · rcases hx with rfl | rfl <;> simp [hcalls]
      · rcases hx with rfl | rfl <;> simp [hcalls, hms]
  case KDBUS_CMD_FREE =>
    simp only [ioctl_switch]
    split
    · rcases hx with rfl | rfl <;> simp
    · apply ioctl_prepared_calls env _ x hx
      intro calls hcalls
      unfold ioctl_free
      split
      · exact hcalls
      · exact ioctl_finish_calls env _ _ _ _ x hx (by rcases hx with rfl | rfl <;> simp) hcalls
  all_goals
    simp only [ioctl_switch]
    first
    | (rcases hx with rfl | rfl <;> simp; done)
    | (apply ioctl_prepared_calls env _ x hx
       intro calls hcalls
       exact ioctl_finish_calls env _ _ _ _ x hx (by rcases hx with rfl | rfl <;> simp) hcalls)
    | (split
       · rcases hx with rfl | rfl <;> simp
       · apply ioctl_prepared_calls env _ x hx
         intro calls hcalls
         exact ioctl_finish_calls env _ _ _ _ x hx (by rcases hx with rfl | rfl <;> simp)
           hcalls)

/-- C24: in `handle_ep_ioctl_connected`, `KDBUS_CMD_BYEBYE` never acquires the
connection: for an ordinary connection it calls `kdbus_conn_disconnect` and
nothing else and returns its result, for any other connection it returns
`-EOPNOTSUPP` without a call.  Every other command calls
`kdbus_conn_acquire` first, and when that fails the command returns the
error with no further call. -/
theorem ioctl_connected_acquire_first (env : handle_env) (cmd : kdbus_cmd) :
    (cmd = .KDBUS_CMD_BYEBYE →
      handle_call.kdbus_conn_acquire ∉ (handle_ep_ioctl_connected env cmd).2 ∧
      handle_ep_ioctl_connected env cmd =
        (if env.kdbus_conn_is_ordinary then
          (env.kdbus_conn_disconnect, [.kdbus_conn_disconnect])
         else (-EOPNOTSUPP, []))) ∧
    (cmd ≠ .KDBUS_CMD_BYEBYE →
      (handle_ep_ioctl_connected env cmd).2.head? = some .kdbus_conn_acquire ∧
      handle_call.kdbus_conn_disconnect ∉ (handle_ep_ioctl_connected env cmd).2 ∧
      (env.kdbus_conn_acquire < 0 →
        handle_ep_ioctl_connected env cmd =
          (env.kdbus_conn_acquire, [.kdbus_conn_acquire]))) := by
  refine ⟨fun hcmd => ?_, fun hcmd => ?_⟩
  · subst hcmd
    cases h : env.kdbus_conn_is_ordinary <;> simp [handle_ep_ioctl_connected, h]
  · unfold handle_ep_ioctl_connected
    rw [if_neg hcmd]
    by_cases hacq : env.kdbus_conn_acquire < 0
    · rw [if_pos hacq]
      simp
    · rw [if_neg hacq]
      refine ⟨by simp, ?_, fun h => absurd h hacq⟩
      simp [ioctl_switch_calls env cmd _ (Or.inl rfl)]

theorem ioctl_connected_acquire_first_witness :
    handle_ep_ioctl_connected sample_monitor_env .KDBUS_CMD_BYEBYE = (-EOPNOTSUPP, []) ∧
    handle_ep_ioctl_connected sample_env_dead .KDBUS_CMD_SEND =
      (-ECONNRESET, [.kdbus_conn_acquire]) :=
  ⟨((ioctl_connected_acquire_first sample_monitor_env .KDBUS_CMD_BYEBYE).1 rfl).2,
   ((ioctl_connected_acquire_first sample_env_dead .KDBUS_CMD_SEND).2 (by decide)).2.2
      (by decide)⟩

/-! ## C26: what `kdbus_kmsg_free` gives back -/

/-- C26 fails on the code: `kdbus_kmsg_new_from_user` succeeds on
`sample_unvalidated_fds_msg` for a connection whose counter is 0.  The
validation loop stops in front of the second handle array, so
`kdbus_msg_scan_items` counts 2 handles and adds 16 and 24 bytes for the two
tables, 272 bytes with the message; the `KDBUS_ITEM_FOREACH` loop visits the
second array too, so `fds_count` becomes 4 and `kdbus_kmsg_free` subtracts
296 bytes: the counter, 272 after the build, wraps to `2 ^ 64 - 24` instead
of returning to 0. -/
theorem kmsg_free_subtracts_more :
    msg_items sample_consts sample_unvalidated_fds_msg =
      [{ size := 24, type := KDBUS_MSG_UNIX_FDS, fds := [0, 1] }] ∧
    ((kdbus_kmsg_new_from_user sample_consts sample_env 0 { id := 1, allocated_size := 0 }
        { addr := 4096, size := some 104, msg := some sample_unvalidated_fds_msg }).map fun r =>
      (r.ret, r.conn.allocated_size, r.kmsg.map fun k =>
        (k.fds_count, k.fds_fp.map List.length, kdbus_kmsg_free_size sample_consts k,
          (kdbus_kmsg_free sample_consts (some r.conn) k).1.map fun d => d.allocated_size)))
      = some (0, 272, some (4, some 2, 296, some (2 ^ 64 - 24))) :=
  ⟨by decide, rfl⟩

/-- The size `kdbus_kmsg_new_from_user` accounts for the message is the one
`kdbus_size_get_user` reads, the size `kdbus_kmsg_free` gives back is the one
in the copy of the message: when the sender changes the size word from 96 to
88 between the two reads, 224 bytes are added and 216 subtracted, and 8 bytes
stay on the counter. -/
theorem kmsg_free_size_read_twice :
    ((kdbus_kmsg_new_from_user sample_consts sample_env 0 { id := 1, allocated_size := 0 }
        { addr := 4096, size := some 96, msg := some (sample_payload_msg 8 0) }).map fun r =>
      (r.ret, r.conn.allocated_size, r.kmsg.map fun k =>
        (k.msg.size, kdbus_kmsg_free_size sample_consts k,
          (kdbus_kmsg_free sample_consts (some r.conn) k).1.map fun d => d.allocated_size)))
      = some (0, 224, some (88, 216, some 8)) :=
  rfl

/-! ## Accounting of a built message: what `kdbus_kmsg_free` gives back -/

theorem copy_user_fds_loop_count (env : kdbus_env) (item : kdbus_item) :
    ∀ (n i : Nat) (fp : List (Option Nat)) (cnt : Nat) (fp' : List (Option Nat)) (cnt' : Nat),
      copy_user_fds_loop env item n i fp cnt = .ok (fp', cnt') → cnt' = cnt + n := by
  intro n
  induction n with
  | zero =>
    intro i fp cnt fp' cnt' h
    unfold copy_user_fds_loop at h
    cases h
    rfl
  | succ n ih =>
    intro i fp cnt fp' cnt' h
    unfold copy_user_fds_loop at h
    split at h
    · cases h
    · have := ih _ _ _ _ _ h
      omega

theorem copy_user_fds_count (c : kdbus_consts) (env : kdbus_env) (fuel : Nat)
    (kmsg k : kdbus_kmsg) (item : kdbus_item) (ret : Int) (puts : List (Option Nat))
    (h : kdbus_copy_user_fds c env fuel kmsg item = some (k, ret, puts)) :
    ∃ fp, k = { kmsg with fds_fp := some fp,
                          fds_count := kmsg.fds_count + fds_item_count c item } ∧
      kmsg.fds_fp.isSome = true := by
  unfold kdbus_copy_user_fds at h
  split at h
  · cases h
  · rename_i fp0 hfp
    dsimp only at h
    split at h
    · rename_i fp1 cnt1 hl
      simp only [Option.some.injEq, Prod.mk.injEq] at h
      have hc := copy_user_fds_loop_count env item _ _ _ _ _ _ hl
      refine ⟨fp1, ?_, by simp [hfp]⟩
      rw [← h.1, hc]
      rfl
    · rw [copy_user_fds_unwind_none] at h
      cases h

theorem fds_slots_cons (c : kdbus_consts) (item : kdbus_item) (l : List kdbus_item) :
    fds_slots c (item :: l) =
      (if item.type = KDBUS_MSG_UNIX_FDS then fds_item_count c item else 0) + fds_slots c l := by
  unfold fds_slots
  by_cases ht : item.type = KDBUS_MSG_UNIX_FDS
  · simp [List.filter_cons, ht]
  · simp [List.filter_cons, ht]

/-- The item loop of `kdbus_kmsg_new_from_user`, when it succeeds, has counted
the handles of every handle array it visited into `fds_count`, and has left
the connection and everything else `kdbus_kmsg_free` accounts for as it
was. -/
theorem new_from_user_loop_fds (c : kdbus_consts) (env : kdbus_env) (fuel : Nat)
    (conn : kdbus_conn) (items : List kdbus_item) :
    ∀ (ipos : Nat) (kmsg : kdbus_kmsg) (r : new_result),
      new_from_user_loop c env fuel conn items ipos kmsg = some r → r.ret = 0 →
      ∃ k, r.kmsg = some k ∧ r.conn = conn ∧
        k.fds_count = kmsg.fds_count + fds_slots c (foreach_walk kmsg.msg.size items ipos) ∧
        k.fds_fp.isSome = kmsg.fds_fp.isSome ∧ k.fds = kmsg.fds ∧ k.meta = kmsg.meta ∧
        k.meta_allocated_size = kmsg.meta_allocated_size ∧
        k.vecs.isSome = kmsg.vecs.isSome ∧ k.vecs_size = kmsg.vecs_size ∧
        k.msg = kmsg.msg := by
  induction items with
  | nil =>
    intro ipos kmsg r h _
    unfold new_from_user_loop at h
    split at h
    · cases h
    · cases h
      exact ⟨kmsg, rfl, rfl, by simp [foreach_walk, fds_slots], rfl, rfl, rfl, rfl, rfl, rfl, rfl⟩
  | cons item rest ih =>
    intro ipos kmsg r h hret
    unfold new_from_user_loop at h
    unfold foreach_walk
    by_cases hin : foreach_in_msg kmsg.msg.size ipos = true
    · rw [if_pos hin] at h ⊢
      rw [fds_slots_cons]
      split at h
      · rename_i ht
        have hne : ¬ item.type = KDBUS_MSG_UNIX_FDS := by rw [ht]; decide
        rw [if_neg hne]
        split at h
        · cases h
          rw [(new_exit_free_ret c conn kmsg (-ENOSYS) []).1] at hret
          simp [ENOSYS] at hret
        · rename_i vecs hv
          split at h
          · rename_i e he
            cases h
            rw [(new_exit_free_ret c conn kmsg e []).1] at hret
            unfold kdbus_inline_user_vec at he
            split at he
            · cases he; simp [EFAULT] at hret
            · cases he
          · split at h
            · cases h
            · obtain ⟨k', hk, hc, h1, h2, h3, h4, h5, h6, h7, h8⟩ := ih _ _ r h hret
              refine ⟨k', hk, hc, ?_, h2, h3, h4, h5, ?_, h7, h8⟩
              · rw [h1]; simp
              · rw [h6]; simp [hv]
      · rename_i ht
        rw [if_pos ht]
        split at h
        · cases h
        · rename_i k ret puts hk
          obtain ⟨h0, -, -, -, -⟩ := copy_user_fds_some c env fuel kmsg k item ret puts hk
          obtain ⟨fp, hkeq, hsome⟩ := copy_user_fds_count c env fuel kmsg k item ret puts hk
          split at h
          · rename_i hneg
            rw [h0] at hneg
            exact absurd hneg (by decide)
          · split at h
            · cases h
            · obtain ⟨k', hk', hc, h1, h2, h3, h4, h5, h6, h7, h8⟩ := ih _ _ r h hret
              subst hkeq
              refine ⟨k', hk', hc, ?_, ?_, h3, h4, h5, h6, h7, h8⟩
              · rw [h1]
                simp only
                omega
              · rw [h2]; simp [hsome]
      · rename_i ht1 ht2
        have hne : ¬ item.type = KDBUS_MSG_UNIX_FDS := ht2
        rw [if_neg hne]
        split at h
        · cases h
        · obtain ⟨k', hk', hc, h1, h2, h3, h4, h5, h6, h7, h8⟩ := ih _ _ r h hret
          exact ⟨k', hk', hc, by rw [h1]; simp, h2, h3, h4, h5, h6, h7, h8⟩
    · rw [if_neg hin] at h ⊢
      cases h
      exact ⟨kmsg, rfl, rfl, by simp [fds_slots], rfl, rfl, rfl, rfl, rfl, rfl, rfl⟩
theorem scan_item_num_fds (c : kdbus_consts) (env : kdbus_env) (conn : kdbus_conn)
    (msg : kdbus_msg) (item : kdbus_item) (st st' : scan_state)
    (h : scan_item c env conn msg item st = .ok st') :
    (item.type = KDBUS_MSG_UNIX_FDS →
      st'.num_fds = u32 ((item.size - c.KDBUS_ITEM_HEADER_SIZE) / sizeof_int)) ∧
    (item.type ≠ KDBUS_MSG_UNIX_FDS → st'.num_fds = st.num_fds) := by
  unfold scan_item at h
  split_ifs at h with h1 h2
  dsimp only at h
  split at h
  · rename_i ht
    simp only [Except.ok.injEq] at h
    subst h; simp [ht]
  · rename_i ht
    obtain ⟨rfl, -⟩ := scan_item_vec_ok _ _ _ _ h
    simp [ht]
  · rename_i ht
    obtain ⟨rfl, -, -, -⟩ := scan_item_fds_ok _ _ _ _ _ h
    simp [ht]
  · rename_i ht
    obtain ⟨rfl, -, -, -⟩ := scan_item_bloom_ok _ _ _ _ _ _ h
    simp [ht]
  · rename_i ht
    obtain ⟨rfl, -⟩ := scan_item_name_ok _ _ _ _ _ h
    simp [ht]
  · cases h

theorem fds_item_count_eq (c : kdbus_consts) (item : kdbus_item)
    (h1 : c.KDBUS_ITEM_HEADER_SIZE < item.size) (h2 : item.size < 2 ^ 64) :
    fds_item_count c item = u32 ((item.size - c.KDBUS_ITEM_HEADER_SIZE) / sizeof_int) := by
  unfold fds_item_count
  have e : item.size + 2 ^ 64 - c.KDBUS_ITEM_HEADER_SIZE
      = (item.size - c.KDBUS_ITEM_HEADER_SIZE) + 2 ^ 64 := by omega
  rw [e]
  unfold u64
  rw [Nat.add_mod_right, Nat.mod_eq_of_lt (by omega)]

theorem fds_slots_zero (c : kdbus_consts) (l : List kdbus_item)
    (h : count_type KDBUS_MSG_UNIX_FDS l = 0) : fds_slots c l = 0 := by
  induction l with
  | nil => simp [fds_slots]
  | cons it rest ih =>
    rw [count_type_cons] at h
    rw [fds_slots_cons]
    by_cases ht : it.type = KDBUS_MSG_UNIX_FDS
    · rw [if_pos ht] at h
      omega
    · rw [if_neg ht] at h ⊢
      rw [ih (by omega)]

/-- The handle count of the validation loop: with a handle array seen before,
`num_fds` stays and no further array follows; without one, `num_fds` ends as
the number of handles of the arrays among the validated items. -/
theorem scan_loop_num_fds (c : kdbus_consts) (env : kdbus_env) (conn : kdbus_conn)
    (msg : kdbus_msg) (hsize : msg.size < 2 ^ 64) (items : List kdbus_item) :
    ∀ (pos : Nat) (st st' : scan_state) (pos' : Nat),
      scan_loop c env conn msg items pos st = .ok (st', pos') →
      (st.has_fds = true →
        st'.num_fds = st.num_fds ∧ fds_slots c (validate_walk c msg.size items pos) = 0) ∧
      (st.has_fds = false → st.num_fds = 0 →
        st'.num_fds = fds_slots c (validate_walk c msg.size items pos)) := by
  induction items with
  | nil =>
    intro pos st st' pos' h
    unfold scan_loop at h
    split at h
    · cases h
    · simp only [Except.ok.injEq, Prod.mk.injEq] at h
      obtain ⟨rfl, -⟩ := h
      simp [validate_walk, fds_slots]
  | cons item rest ih =>
    intro pos st st' pos' h
    unfold scan_loop at h
    unfold validate_walk
    by_cases hin : item_in_msg c msg.size pos item.size = true
    · rw [if_pos hin] at h ⊢
      split at h
      · cases h
      · rename_i st1 hst
        obtain ⟨ih1, ih2⟩ := ih _ _ _ _ h
        obtain ⟨-, -, hf, -, -, hfds⟩ := scan_item_flags c env conn msg item st st1 hst
        obtain ⟨hn1, hn2⟩ := scan_item_num_fds c env conn msg item st st1 hst
        have hgt := scan_item_size c env conn msg item st st1 hst
        have hlt : item.size < 2 ^ 64 := by
          simp [item_in_msg] at hin
          omega
        rw [fds_slots_cons]
        by_cases ht : item.type = KDBUS_MSG_UNIX_FDS
        · have hst0 := (hfds ht).1
          have hst1 : st1.has_fds = true := by rw [hf]; simp [ht]
          obtain ⟨e1, e2⟩ := ih1 hst1
          rw [if_pos ht, e2, e1, hn1 ht, fds_item_count_eq c item hgt hlt]
          constructor
          · intro hc
            rw [hst0] at hc
            cases hc
          · intro _ _
            rfl
        · have hst1 : st1.has_fds = st.has_fds := by rw [hf]; simp [ht]
          rw [if_neg ht, Nat.zero_add]
          constructor
          · intro hc
            obtain ⟨e1, e2⟩ := ih1 (by rw [hst1]; exact hc)
            exact ⟨by rw [e1, hn2 ht], e2⟩
          · intro hc h0
            exact ih2 (by rw [hst1]; exact hc) (by rw [hn2 ht]; exact h0)
    · rw [if_neg hin] at h ⊢
      simp only [Except.ok.injEq, Prod.mk.injEq] at h
      obtain ⟨rfl, -⟩ := h
      simp [fds_slots]

theorem scan_alloc_fds_account (c : kdbus_consts) (env : kdbus_env) (conn : kdbus_conn)
    (kmsg : kdbus_kmsg) (st : scan_state)
    (h : ¬ (scan_alloc_fds c env conn kmsg st).2.2 < 0) :
    (scan_alloc_fds c env conn kmsg st).1.allocated_size =
      conn.allocated_size +
        (if st.has_fds then u64 (st.num_fds * sizeof_file_ptr) +
            u64 (c.KDBUS_ITEM_HEADER_SIZE + st.num_fds * sizeof_int) else 0) ∧
    (scan_alloc_fds c env conn kmsg st).1 =
      { conn with allocated_size := (scan_alloc_fds c env conn kmsg st).1.allocated_size } ∧
    (st.has_fds = true →
      (scan_alloc_fds c env conn kmsg st).2.1.fds_fp.isSome = true ∧
      (scan_alloc_fds c env conn kmsg st).2.1.fds.isSome = true) ∧
    (st.has_fds = false →
      (scan_alloc_fds c env conn kmsg st).2.1.fds_fp = kmsg.fds_fp ∧
      (scan_alloc_fds c env conn kmsg st).2.1.fds = kmsg.fds) ∧
    (scan_alloc_fds c env conn kmsg st).2.1.fds_count = kmsg.fds_count ∧
    (scan_alloc_fds c env conn kmsg st).2.1.meta = kmsg.meta ∧
    (scan_alloc_fds c env conn kmsg st).2.1.meta_allocated_size = kmsg.meta_allocated_size ∧
    (scan_alloc_fds c env conn kmsg st).2.1.vecs_size = kmsg.vecs_size ∧
    (scan_alloc_fds c env conn kmsg st).2.1.vecs = kmsg.vecs ∧
    (conn.allocated_size ≤ c.KDBUS_CONN_MAX_ALLOCATED_BYTES →
      (scan_alloc_fds c env conn kmsg st).1.allocated_size
        ≤ c.KDBUS_CONN_MAX_ALLOCATED_BYTES) := by
  unfold scan_alloc_fds at h ⊢
  unfold kdbus_conn_add_size_allocation at h ⊢
  dsimp only at h ⊢
  by_cases hf : st.has_fds = true
  · rw [if_pos hf] at h ⊢
    rw [if_pos hf]
    split_ifs at h ⊢ <;> simp_all [EXFULL, ENOMEM]
    omega
  · rw [if_neg hf] at h ⊢
    rw [if_neg hf]
    simp
    simp at hf
    simp [hf]

theorem scan_alloc_vecs_account (c : kdbus_consts) (env : kdbus_env) (conn : kdbus_conn)
    (kmsg : kdbus_kmsg) (st : scan_state) (hnone : kmsg.vecs = none)
    (h : ¬ (scan_alloc_vecs c env conn kmsg st).2.2 < 0) :
    (scan_alloc_vecs c env conn kmsg st).1.allocated_size =
      conn.allocated_size +
        (if (scan_alloc_vecs c env conn kmsg st).2.1.vecs.isSome then
          (scan_alloc_vecs c env conn kmsg st).2.1.vecs_size else 0) ∧
    (scan_alloc_vecs c env conn kmsg st).1 =
      { conn with allocated_size := (scan_alloc_vecs c env conn kmsg st).1.allocated_size } ∧
    (scan_alloc_vecs c env conn kmsg st).2.1.fds_fp = kmsg.fds_fp ∧
    (scan_alloc_vecs c env conn kmsg st).2.1.fds = kmsg.fds ∧
    (scan_alloc_vecs c env conn kmsg st).2.1.fds_count = kmsg.fds_count ∧
    (scan_alloc_vecs c env conn kmsg st).2.1.meta = kmsg.meta ∧
    (scan_alloc_vecs c env conn kmsg st).2.1.meta_allocated_size = kmsg.meta_allocated_size ∧
    (conn.allocated_size ≤ c.KDBUS_CONN_MAX_ALLOCATED_BYTES →
      (scan_alloc_vecs c env conn kmsg st).1.allocated_size
        ≤ c.KDBUS_CONN_MAX_ALLOCATED_BYTES) := by
  unfold scan_alloc_vecs at h ⊢
  unfold kdbus_conn_add_size_allocation at h ⊢
  dsimp only at h ⊢
  split_ifs at h ⊢ <;> simp_all [EXFULL, ENOMEM]
/-- What an accepting `kdbus_msg_scan_items` has added to the counter of the
connection for a fresh kernel message: the two handle tables, sized for the
handles of the validated handle array, and the inline buffer. -/
theorem scan_items_account (c : kdbus_consts) (env : kdbus_env) (conn : kdbus_conn)
    (msg : kdbus_msg) (hsize : msg.size < 2 ^ 64)
    (h : ¬ (kdbus_msg_scan_items c env conn { msg := msg }).2.2 < 0) :
    (kdbus_msg_scan_items c env conn { msg := msg }).1.allocated_size =
      conn.allocated_size +
        (if (kdbus_msg_scan_items c env conn { msg := msg }).2.1.fds_fp.isSome then
          u64 (fds_slots c (msg_items c msg) * sizeof_file_ptr) +
          u64 (c.KDBUS_ITEM_HEADER_SIZE + fds_slots c (msg_items c msg) * sizeof_int)
         else 0) +
        (if (kdbus_msg_scan_items c env conn { msg := msg }).2.1.vecs.isSome then
          (kdbus_msg_scan_items c env conn { msg := msg }).2.1.vecs_size else 0) ∧
    (kdbus_msg_scan_items c env conn { msg := msg }).2.1.fds.isSome =
      (kdbus_msg_scan_items c env conn { msg := msg }).2.1.fds_fp.isSome ∧
    ((kdbus_msg_scan_items c env conn { msg := msg }).2.1.fds_fp.isSome = false →
      fds_slots c (msg_items c msg) = 0) ∧
    (kdbus_msg_scan_items c env conn { msg := msg }).2.1.fds_count = 0 ∧
    (kdbus_msg_scan_items c env conn { msg := msg }).2.1.meta = none ∧
    (conn.allocated_size ≤ c.KDBUS_CONN_MAX_ALLOCATED_BYTES →
      (kdbus_msg_scan_items c env conn { msg := msg }).1.allocated_size
        ≤ c.KDBUS_CONN_MAX_ALLOCATED_BYTES) := by
  obtain ⟨st, pos, hloop, -, hfds, heq⟩ :=
    scan_items_accept c env conn { msg := msg } (by omega)
  have hvecs : ¬ (scan_alloc_vecs c env (scan_alloc_fds c env conn { msg := msg } st).1
      (scan_alloc_fds c env conn { msg := msg } st).2.1 st).2.2 < 0 := by
    rw [← heq]; exact h
  obtain ⟨a1, -, a3, a4, a5, a6, -, -, a9, a10⟩ :=
    scan_alloc_fds_account c env conn { msg := msg } st hfds
  have hnone : (scan_alloc_fds c env conn { msg := msg } st).2.1.vecs = none := by rw [a9]
  obtain ⟨b1, -, b3, b4, b5, b6, -, b8⟩ :=
    scan_alloc_vecs_account c env (scan_alloc_fds c env conn { msg := msg } st).1
      (scan_alloc_fds c env conn { msg := msg } st).2.1 st hnone hvecs
  obtain ⟨-, n2⟩ := scan_loop_num_fds c env conn msg hsize msg.items _ _ _ _ hloop
  have hnum : st.num_fds = fds_slots c (msg_items c msg) := n2 rfl rfl
  obtain ⟨-, -, hflag, -, -, -, -⟩ := scan_loop_flags c env conn msg msg.items _ _ _ _ hloop
  have hcap : conn.allocated_size ≤ c.KDBUS_CONN_MAX_ALLOCATED_BYTES →
      (kdbus_msg_scan_items c env conn { msg := msg }).1.allocated_size
        ≤ c.KDBUS_CONN_MAX_ALLOCATED_BYTES := by
    intro hle
    rw [heq]
    exact b8 (a10 hle)
  have hz : st.has_fds = false → fds_slots c (msg_items c msg) = 0 := by
    intro hf
    apply fds_slots_zero
    rw [hf] at hflag
    simp at hflag
    exact hflag
  refine ⟨?_, ?_, ?_, ?_, ?_, hcap⟩
  · rw [heq, b1, a1, b3]
    cases hf : st.has_fds
    · rw [(a4 hf).1]
      simp
    · rw [(a3 hf).1, hnum]
  · rw [heq, b3, b4]
    cases hf : st.has_fds
    · rw [(a4 hf).1, (a4 hf).2]
      rfl
    · rw [(a3 hf).1, (a3 hf).2]
  · rw [heq, b3]
    cases hf : st.has_fds
    · exact fun _ => hz hf
    · rw [(a3 hf).1]
      intro hc
      cases hc
  · rw [heq, b5, a5]
  · rw [heq, b6, a6]

/-- C26 where it holds: when the two reads of the size word agree and the
`KDBUS_ITEM_FOREACH` loop visits the validated items only, a successful
`kdbus_kmsg_new_from_user` has added to the counter of the source connection
exactly what `kdbus_kmsg_free` gives back for the message, and build followed
by free leaves the connection with its initial counter. -/
theorem new_from_user_balanced (c : kdbus_consts) (env : kdbus_env) (fuel : Nat)
    (conn : kdbus_conn) (buf : user_buf) (r : new_result)
    (h : kdbus_kmsg_new_from_user c env fuel conn buf = some r) (hret : r.ret = 0)
    (hsize : ∀ m, buf.msg = some m → buf.size = some m.size)
    (hwalk : ∀ m, buf.msg = some m →
      foreach_walk m.size m.items c.KDBUS_MSG_HEADER_SIZE = msg_items c m)
    (hmax : c.KDBUS_CONN_MAX_ALLOCATED_BYTES < 2 ^ 64)
    (hmsg : c.KDBUS_MSG_MAX_SIZE < 2 ^ 64) :
    ∃ k, r.kmsg = some k ∧ k.meta = none ∧
      r.conn.allocated_size = conn.allocated_size + kdbus_kmsg_free_size c k ∧
      r.conn.allocated_size ≤ c.KDBUS_CONN_MAX_ALLOCATED_BYTES ∧
      (kdbus_kmsg_free c (some r.conn) k).1
        = some { r.conn with allocated_size := conn.allocated_size } := by
  unfold kdbus_kmsg_new_from_user at h
  dsimp only at h
  split at h
  · cases h; simp [EFAULT] at hret
  · split at h
    · cases h; simp [EFAULT] at hret
    · rename_i size hbs
      split at h
      · cases h; simp [EMSGSIZE] at hret
      · rename_i hrange
        split at h
        · cases h; simp [ENOMEM] at hret
        · split at h
          · rename_i hneg
            cases h
            simp only at hret
            rw [hret] at hneg
            exact absurd hneg (by decide)
          · rename_i hadd
            split at h
            · cases h; simp [EFAULT] at hret
            · rename_i msg hm
              split at h
              · rename_i hneg
                cases h
                rw [(new_exit_free_ret _ _ _ _ _).1] at hret
                rw [hret] at hneg
                exact absurd hneg (by decide)
              · rename_i hscan
                have hs := hsize msg hm
                rw [hbs] at hs
                simp only [Option.some.injEq] at hs
                subst hs
                have hlt : msg.size < 2 ^ 64 := by omega
                have hadd1 :
                    (kdbus_conn_add_size_allocation c conn
                      (u64 (msg.size + c.KDBUS_KMSG_HEADER_SIZE))).1.allocated_size
                      = conn.allocated_size + u64 (msg.size + c.KDBUS_KMSG_HEADER_SIZE) ∧
                    (kdbus_conn_add_size_allocation c conn
                      (u64 (msg.size + c.KDBUS_KMSG_HEADER_SIZE))).1.allocated_size
                      ≤ c.KDBUS_CONN_MAX_ALLOCATED_BYTES := by
                  unfold kdbus_conn_add_size_allocation at hadd ⊢
                  split_ifs at hadd ⊢
                  · simp [EXFULL] at hadd
                  · exact ⟨rfl, by dsimp only; omega⟩
                obtain ⟨s1, s2, s3, s4, s5, s6⟩ := scan_items_account c env
                  (kdbus_conn_add_size_allocation c conn
                    (u64 (msg.size + c.KDBUS_KMSG_HEADER_SIZE))).1 msg hlt hscan
                have hkeep := (scan_items_keeps c env
                  (kdbus_conn_add_size_allocation c conn
                    (u64 (msg.size + c.KDBUS_KMSG_HEADER_SIZE))).1 { msg := msg }).1
                obtain ⟨k, hk, hc, l1, l2, l3, l4, -, l6, l7, l8⟩ :=
                  new_from_user_loop_fds c env fuel _ _ _ _ r h hret
                simp only at l1 l2 l3 l4 l6 l7 l8
                rw [hkeep] at l1 l8
                simp only at l1
                rw [hwalk msg hm, s4, Nat.zero_add] at l1
                have hle := s6 hadd1.2
                have hfree : conn.allocated_size + kdbus_kmsg_free_size c k
                    = r.conn.allocated_size := by
                  rw [hc, s1, hadd1.1]
                  unfold kdbus_kmsg_free_size
                  rw [s1, hadd1.1] at hle
                  rw [l2, l3, s2, l4, s5, l6, l7, l8, l1]
                  simp only [Option.isSome_none, Bool.false_eq_true, if_false] at hle ⊢
                  generalize (kdbus_msg_scan_items c env
                    (kdbus_conn_add_size_allocation c conn
                      (u64 (msg.size + c.KDBUS_KMSG_HEADER_SIZE))).1
                    { msg := msg }).2.1.vecs_size = V at hle ⊢
                  generalize fds_slots c (msg_items c msg) = N at hle ⊢
                  simp only [u64, sizeof_file_ptr, sizeof_int] at hle ⊢
                  split_ifs at hle ⊢ <;> omega
                refine ⟨k, hk, by rw [l4, s5], hfree.symm, by rw [hc]; exact hle, ?_⟩
                unfold kdbus_kmsg_free kdbus_conn_sub_size_allocation
                simp only [Option.some.injEq]
                have hk64 : kdbus_kmsg_free_size c k < 2 ^ 64 := by
                  unfold kdbus_kmsg_free_size u64
                  exact Nat.mod_lt _ (by norm_num)
                rw [← hfree]
                congr 1
                unfold u64
                rw [Nat.mod_eq_of_lt hk64]
                have hca : conn.allocated_size < 2 ^ 64 := by
                  have := hadd1.2
                  rw [hadd1.1] at this
                  omega
                omega
theorem add_size_allocation_src_some (c : kdbus_consts) (conn : kdbus_conn) (size : Nat)
    (h : ¬ (add_size_allocation_src c (some conn) size).2 < 0) :
    (add_size_allocation_src c (some conn) size).1
      = some { conn with allocated_size := conn.allocated_size + size } ∧
    conn.allocated_size + size ≤ c.KDBUS_CONN_MAX_ALLOCATED_BYTES := by
  unfold add_size_allocation_src kdbus_conn_add_size_allocation at h ⊢
  dsimp only at h ⊢
  split_ifs at h ⊢
  · simp [EXFULL] at h
  · exact ⟨rfl, by omega⟩

/-- The second half of a successful `kdbus_kmsg_append` has added to the
counter of the source connection exactly what the metadata buffer has grown
by, and has changed nothing else `kdbus_kmsg_free` accounts for. -/
theorem kmsg_append_insert_account (c : kdbus_consts) (env : kdbus_env) (conn : kdbus_conn)
    (kmsg : kdbus_kmsg) (n off : Nat)
    (hok : (kmsg_append_insert c env (some conn) kmsg n).item = .ok off) :
    ∃ d, (kmsg_append_insert c env (some conn) kmsg n).src
        = some { conn with allocated_size := conn.allocated_size + d } ∧
      (kmsg_append_insert c env (some conn) kmsg n).kmsg.meta_allocated_size
        = kmsg.meta_allocated_size + d ∧
      (d ≠ 0 → conn.allocated_size + d ≤ c.KDBUS_CONN_MAX_ALLOCATED_BYTES) ∧
      (kmsg_append_insert c env (some conn) kmsg n).kmsg.meta = kmsg.meta ∧
      (kmsg_append_insert c env (some conn) kmsg n).kmsg.fds_fp = kmsg.fds_fp ∧
      (kmsg_append_insert c env (some conn) kmsg n).kmsg.fds_count = kmsg.fds_count ∧
      (kmsg_append_insert c env (some conn) kmsg n).kmsg.fds = kmsg.fds ∧
      (kmsg_append_insert c env (some conn) kmsg n).kmsg.vecs = kmsg.vecs ∧
      (kmsg_append_insert c env (some conn) kmsg n).kmsg.vecs_size = kmsg.vecs_size ∧
      (kmsg_append_insert c env (some conn) kmsg n).kmsg.msg = kmsg.msg := by
  unfold kmsg_append_insert at hok ⊢
  dsimp only at hok ⊢
  by_cases hg : u64 (kmsg.meta_size + KDBUS_ALIGN8 n) > kmsg.meta_allocated_size
  · rw [if_pos hg] at hok ⊢
    have hge := (roundup_pow_of_two_spec (u64 (kmsg.meta_size + KDBUS_ALIGN8 n))).2
    by_cases hadd : (add_size_allocation_src c (some conn)
        (roundup_pow_of_two (u64 (kmsg.meta_size + KDBUS_ALIGN8 n))
          - kmsg.meta_allocated_size)).2 < 0
    · rw [if_pos hadd] at hok
      cases hok
    · rw [if_neg hadd] at hok ⊢
      obtain ⟨e1, e2⟩ := add_size_allocation_src_some c conn _ hadd
      split_ifs at hok ⊢
      refine ⟨roundup_pow_of_two (u64 (kmsg.meta_size + KDBUS_ALIGN8 n))
          - kmsg.meta_allocated_size, e1, ?_, fun _ => e2, rfl, rfl, rfl, rfl, rfl, rfl, rfl⟩
      simp only
      omega
  · rw [if_neg hg] at hok ⊢
    exact ⟨0, by simp, rfl, fun h => absurd rfl h, rfl, rfl, rfl, rfl, rfl, rfl, rfl⟩

theorem meta_share_le (kmsg : kdbus_kmsg) : meta_share kmsg ≤ kmsg.meta_allocated_size := by
  unfold meta_share
  split_ifs <;> omega

/-- A successful `kdbus_kmsg_append` has added to the counter of the source
connection exactly what the share of the metadata buffer in
`kdbus_kmsg_free` has grown by. -/
theorem kmsg_append_account (c : kdbus_consts) (env : kdbus_env) (conn : kdbus_conn)
    (kmsg : kdbus_kmsg) (n off : Nat)
    (hok : (kdbus_kmsg_append c env (some conn) kmsg n).item = .ok off) :
    ∃ d, (kdbus_kmsg_append c env (some conn) kmsg n).src
        = some { conn with allocated_size := conn.allocated_size + d } ∧
      meta_share (kdbus_kmsg_append c env (some conn) kmsg n).kmsg = meta_share kmsg + d ∧
      (d ≠ 0 → conn.allocated_size + d ≤ c.KDBUS_CONN_MAX_ALLOCATED_BYTES) ∧
      (kdbus_kmsg_append c env (some conn) kmsg n).kmsg.fds_fp = kmsg.fds_fp ∧
      (kdbus_kmsg_append c env (some conn) kmsg n).kmsg.fds_count = kmsg.fds_count ∧
      (kdbus_kmsg_append c env (some conn) kmsg n).kmsg.fds = kmsg.fds ∧
      (kdbus_kmsg_append c env (some conn) kmsg n).kmsg.vecs = kmsg.vecs ∧
      (kdbus_kmsg_append c env (some conn) kmsg n).kmsg.vecs_size = kmsg.vecs_size ∧
      (kdbus_kmsg_append c env (some conn) kmsg n).kmsg.msg = kmsg.msg := by
  unfold kdbus_kmsg_append at hok ⊢
  cases hm : kmsg.meta with
  | some m =>
    rw [hm] at hok
    dsimp only at hok ⊢
    obtain ⟨d, e1, e2, e3, e4, e5, e6, e7, e8, e9, e10⟩ :=
      kmsg_append_insert_account c env conn kmsg n off hok
    refine ⟨d, e1, ?_, e3, e5, e6, e7, e8, e9, e10⟩
    unfold meta_share
    rw [e4, e2, hm]
    simp
  | none =>
    rw [hm] at hok
    dsimp only at hok ⊢
    by_cases hadd : (add_size_allocation_src c (some conn)
        (roundup_pow_of_two (256 + KDBUS_ALIGN8 n))).2 < 0
    · rw [if_pos hadd] at hok
      cases hok
    · rw [if_neg hadd] at hok ⊢
      obtain ⟨a1, a2⟩ := add_size_allocation_src_some c conn _ hadd
      by_cases hk : (!env.kmalloc alloc_site.meta (roundup_pow_of_two (256 + KDBUS_ALIGN8 n)))
          = true
      · rw [if_pos hk] at hok
        cases hok
      · rw [if_neg hk] at hok ⊢
        rw [a1] at hok ⊢
        obtain ⟨d, e1, e2, e3, e4, e5, e6, e7, e8, e9, e10⟩ :=
          kmsg_append_insert_account c env _ _ n off hok
        refine ⟨roundup_pow_of_two (256 + KDBUS_ALIGN8 n) + d, ?_, ?_, ?_,
          e5, e6, e7, e8, e9, e10⟩
        · rw [e1]
          simp only [Nat.add_assoc]
        · unfold meta_share
          rw [e4, e2, hm]
          simp
        · intro _
          by_cases hd : d = 0
          · subst hd
            simpa using a2
          · have := e3 hd
            simp only at this
            omega
theorem kmsg_free_size_meta (c : kdbus_consts) (k k' : kdbus_kmsg) (d : Nat)
    (h1 : k'.fds_fp = k.fds_fp) (h2 : k'.fds_count = k.fds_count) (h3 : k'.fds = k.fds)
    (h4 : k'.vecs = k.vecs) (h5 : k'.vecs_size = k.vecs_size) (h6 : k'.msg = k.msg)
    (hm : meta_share k' = meta_share k + d) :
    kdbus_kmsg_free_size c k' = u64 (kdbus_kmsg_free_size c k + d) := by
  unfold kdbus_kmsg_free_size
  unfold meta_share at hm
  rw [h1, h2, h3, h4, h5, h6]
  simp only [u64]
  split_ifs at hm ⊢ <;> omega

/-- One successful `kdbus_kmsg_append` keeps the balance between the counter
of the source connection and what `kdbus_kmsg_free` gives back. -/
theorem kmsg_append_keeps_balance (c : kdbus_consts) (env : kdbus_env) (conn : kdbus_conn)
    (kmsg : kdbus_kmsg) (n off a0 : Nat)
    (hok : (kdbus_kmsg_append c env (some conn) kmsg n).item = .ok off)
    (hmax : c.KDBUS_CONN_MAX_ALLOCATED_BYTES < 2 ^ 64)
    (hle : conn.allocated_size ≤ c.KDBUS_CONN_MAX_ALLOCATED_BYTES)
    (hbal : conn.allocated_size = a0 + kdbus_kmsg_free_size c kmsg) :
    ∃ conn', (kdbus_kmsg_append c env (some conn) kmsg n).src = some conn' ∧
      conn'.allocated_size ≤ c.KDBUS_CONN_MAX_ALLOCATED_BYTES ∧
      conn'.allocated_size
        = a0 + kdbus_kmsg_free_size c (kdbus_kmsg_append c env (some conn) kmsg n).kmsg := by
  obtain ⟨d, e1, e2, e3, e4, e5, e6, e7, e8, e9⟩ := kmsg_append_account c env conn kmsg n off hok
  have hfs := kmsg_free_size_meta c kmsg _ d e4 e5 e6 e7 e8 e9 e2
  have hd : conn.allocated_size + d ≤ c.KDBUS_CONN_MAX_ALLOCATED_BYTES := by
    by_cases h0 : d = 0
    · subst h0
      simpa using hle
    · exact e3 h0
  refine ⟨_, e1, hd, ?_⟩
  rw [hfs]
  simp only [u64]
  rw [Nat.mod_eq_of_lt (by omega)]
  omega

/-- Any number of successful `kdbus_kmsg_append` calls keeps the balance. -/
theorem kmsg_append_run_balance (c : kdbus_consts) (env : kdbus_env) (a0 : Nat)
    (hmax : c.KDBUS_CONN_MAX_ALLOCATED_BYTES < 2 ^ 64) (ns : List Nat) :
    ∀ (conn : kdbus_conn) (kmsg : kdbus_kmsg) (src' : Option kdbus_conn) (k' : kdbus_kmsg),
      kmsg_append_run c env (some conn) kmsg ns = some (src', k') →
      conn.allocated_size ≤ c.KDBUS_CONN_MAX_ALLOCATED_BYTES →
      conn.allocated_size = a0 + kdbus_kmsg_free_size c kmsg →
      ∃ conn', src' = some conn' ∧
        conn'.allocated_size ≤ c.KDBUS_CONN_MAX_ALLOCATED_BYTES ∧
        conn'.allocated_size = a0 + kdbus_kmsg_free_size c k' := by
  induction ns with
  | nil =>
    intro conn kmsg src' k' h hle hbal
    unfold kmsg_append_run at h
    simp only [Option.some.injEq, Prod.mk.injEq] at h
    obtain ⟨rfl, rfl⟩ := h
    exact ⟨conn, rfl, hle, hbal⟩
  | cons n ns ih =>
    intro conn kmsg src' k' h hle hbal
    unfold kmsg_append_run at h
    cases hit : (kdbus_kmsg_append c env (some conn) kmsg n).item with
    | error e =>
      rw [hit] at h
      cases h
    | ok off =>
      rw [hit] at h
      dsimp only at h
      obtain ⟨conn1, s1, s2, s3⟩ :=
        kmsg_append_keeps_balance c env conn kmsg n off a0 hit hmax hle hbal
      rw [s1] at h
      exact ih conn1 _ src' k' h s2 s3

/-- C26 where it holds, in full: a message built by a successful
`kdbus_kmsg_new_from_user` whose two reads of the size word agree and whose
`KDBUS_ITEM_FOREACH` loop visits the validated items only, and then extended
by any number of successful `kdbus_kmsg_append` calls, has added to the
counter of the source connection exactly what `kdbus_kmsg_free` subtracts,
and `kdbus_kmsg_free` leaves the counter at its initial value. -/
theorem build_append_free_balanced (c : kdbus_consts) (env : kdbus_env) (fuel : Nat)
    (conn : kdbus_conn) (buf : user_buf) (r : new_result) (k : kdbus_kmsg) (ns : List Nat)
    (src' : Option kdbus_conn) (k' : kdbus_kmsg)
    (h : kdbus_kmsg_new_from_user c env fuel conn buf = some r) (hret : r.ret = 0)
    (hk : r.kmsg = some k)
    (hrun : kmsg_append_run c env (some r.conn) k ns = some (src', k'))
    (hsize : ∀ m, buf.msg = some m → buf.size = some m.size)
    (hwalk : ∀ m, buf.msg = some m →
      foreach_walk m.size m.items c.KDBUS_MSG_HEADER_SIZE = msg_items c m)
    (hmax : c.KDBUS_CONN_MAX_ALLOCATED_BYTES < 2 ^ 64)
    (hmsg : c.KDBUS_MSG_MAX_SIZE < 2 ^ 64) :
    ∃ conn', src' = some conn' ∧
      conn'.allocated_size = conn.allocated_size + kdbus_kmsg_free_size c k' ∧
      (kdbus_kmsg_free c src' k').1
        = some { conn' with allocated_size := conn.allocated_size } := by
  obtain ⟨k0, hk0, -, b1, b2, -⟩ :=
    new_from_user_balanced c env fuel conn buf r h hret hsize hwalk hmax hmsg
  rw [hk] at hk0
  simp only [Option.some.injEq] at hk0
  subst hk0
  obtain ⟨conn', rfl, s2, s3⟩ :=
    kmsg_append_run_balance c env conn.allocated_size hmax ns r.conn k src' k' hrun b2 b1
  refine ⟨conn', rfl, s3, ?_⟩
  unfold kdbus_kmsg_free kdbus_conn_sub_size_allocation
  simp only [Option.some.injEq]
  have hk64 : kdbus_kmsg_free_size c k' < 2 ^ 64 := by
    unfold kdbus_kmsg_free_size u64
    exact Nat.mod_lt _ (by norm_num)
  congr 1
  unfold u64
  rw [Nat.mod_eq_of_lt hk64]
  omega
/-- The balance on a sample: a message with one array of two handles, built
for a connection whose counter is 40 and extended by two metadata records
(the second one makes the buffer grow from 512 to 1024 bytes). -/
theorem build_append_free_balanced_example :
    ∃ r k src' k',
      kdbus_kmsg_new_from_user sample_consts sample_env 0 { id := 1, allocated_size := 40 }
        (sample_buf (sample_fds_msg 5 [2])) = some r ∧
      r.kmsg = some k ∧
      kmsg_append_run sample_consts sample_env (some r.conn) k [32, 600] = some (src', k') ∧
      k'.meta_allocated_size = 1024 ∧
      ∃ conn', src' = some conn' ∧
        conn'.allocated_size
          = ({ id := 1, allocated_size := 40 } : kdbus_conn).allocated_size
            + kdbus_kmsg_free_size sample_consts k' ∧
        (kdbus_kmsg_free sample_consts src' k').1
          = some { conn' with
              allocated_size := ({ id := 1, allocated_size := 40 } : kdbus_conn).allocated_size } :=
  ⟨_, _, _, _, rfl, rfl, rfl, rfl,
   build_append_free_balanced sample_consts sample_env 0 { id := 1, allocated_size := 40 }
     (sample_buf (sample_fds_msg 5 [2])) _ _ [32, 600] _ _ rfl rfl rfl rfl
     (fun m hm => by cases hm; rfl) (fun m hm => by cases hm; rfl)
     (by decide) (by decide)⟩

end Kdbus
